import Mathlib

/-!
Verification of the SSA defunctionalization pass (`defunctionalize.rs`).

The pass itself (discovery, signature compatibility, apply-function
synthesis, call-site rewrite and value retyping) is translated directly
from the source file.  The IR collaborators the pass relies on (the type
system, SSA values, the data-flow graph store and the function builder)
are not part of the provided sources; they are modelled from the
specification, sections 3 and 6, and each such definition is marked with
a doc comment starting with `Modelled from the spec:`.
-/

set_option autoImplicit false

/-- Association-list lookup over keys with decidable equality.  The first
matching entry wins, so prepending a pair acts as an in-place update. -/
def lookupA {κ α : Type} [DecidableEq κ] : List (κ × α) → κ → Option α
  | [], _ => none
  | (k, v) :: rest, key => if k = key then some v else lookupA rest key

/-- Modelled from the spec: the numeric kinds of the IR type system
(`types.rs` is not among the provided sources); `NativeField` is the kind
the pass retypes function values to. -/
inductive NumericType
  | NativeField
  | Unsigned (bitSize : Nat)
  | Signed (bitSize : Nat)
deriving DecidableEq

/-- Modelled from the spec: IR types, "at least `Function`,
`Numeric(kind)`, and composites"; `Unit` stands in for the remaining
variants that the pass never inspects. -/
inductive Ty
  | Numeric (numericType : NumericType)
  | Reference
  | Function
  | Unit
deriving DecidableEq

/-- The `Type::field()` constructor used by the pass. -/
def Ty.field : Ty := Ty.Numeric NumericType.NativeField

/-- The `Type::bool()` constructor (a one-bit unsigned integer). -/
def Ty.bool : Ty := Ty.Numeric (NumericType.Unsigned 1)

/-- Modelled from the spec: `Type::is` is structural equality, used by
signature compatibility. -/
def Ty.is (a b : Ty) : Bool := decide (a = b)

/-- Modelled from the spec: `Type::cast_to` returns a least-upper-bound
type when two types can be unified.  `types.rs` is not among the provided
sources; since the front-end normalizes types before this pass, the model
lets a type cast exactly to itself.  `common_signature` below is
parameterized over this operation, so its theorems hold for any cast. -/
def tyCastTo (a b : Ty) : Option Ty := if a = b then some b else none

/-- A declared function signature: entry parameter types and return types. -/
structure Signature where
  params : List Ty
  returns : List Ty
deriving DecidableEq

/-- Pointwise unification of two type lists; any position where neither
direction of `castTo` succeeds is an internal compiler error. -/
def common_types (castTo : Ty → Ty → Option Ty) (types_a types_b : List Ty) :
    Except String (List Ty) :=
  (types_a.zip types_b).mapM (fun p =>
    match (castTo p.1 p.2).orElse (fun _ => castTo p.2 p.1) with
    | some t => Except.ok t
    | none => Except.error "ICE: Failed to find common types")

/-- Finds the common signature of a list of compatible signatures. -/
def common_signature (castTo : Ty → Ty → Option Ty) :
    List Signature → Except String Signature
  | [] => Except.error "ICE: Cannot find common signature of signature list"
  | s :: rest =>
      rest.foldlM (fun signature_a signature_b => do
        let common_params ← common_types castTo signature_a.params signature_b.params
        let common_returns ← common_types castTo signature_a.returns signature_b.returns
        Except.ok { params := common_params, returns := common_returns }) s

abbrev ValueId := Nat
abbrev InstructionId := Nat
abbrev BasicBlockId := Nat
abbrev FunctionId := Nat

/-- The two runtime kinds of a function. -/
inductive RuntimeType
  | Acir
  | Brillig
deriving DecidableEq

/-- Modelled from the spec: SSA values (`value.rs` is not among the
provided sources).  Each non-`Function` variant carries its declared
type; `Function` values always have type `Ty.Function`. -/
inductive Value
  | Function (id : FunctionId)
  | Param (block : BasicBlockId) (index : Nat) (typ : Ty)
  | Instruction (inst : InstructionId) (index : Nat) (typ : Ty)
  | NumericConstant (value : Nat) (typ : Ty)
deriving DecidableEq

/-- The observable type of a value. -/
def Value.get_type : Value → Ty
  | Value.Function _ => Ty.Function
  | Value.Param _ _ t => t
  | Value.Instruction _ _ t => t
  | Value.NumericConstant _ t => t

/-- Binary operators; the pass only ever emits `Eq`. -/
inductive BinaryOp
  | Eq
  | Add
  | Sub
  | Mul
deriving DecidableEq

/-- Modelled from the spec: the instruction variants the pass inspects
(`Call` and `Store`) plus the ones it emits (`Binary` and `Constrain`). -/
inductive Instruction
  | Call (func : ValueId) (arguments : List ValueId)
  | Store (address : ValueId) (value : ValueId)
  | Binary (op : BinaryOp) (lhs : ValueId) (rhs : ValueId)
  | Constrain (value : ValueId)
deriving DecidableEq

/-- Modelled from the spec: block terminators. -/
inductive Terminator
  | Jmp (destination : BasicBlockId) (arguments : List ValueId)
  | JmpIf (condition : ValueId) (then_destination : BasicBlockId)
      (else_destination : BasicBlockId)
  | Return (return_values : List ValueId)
deriving DecidableEq

/-- A basic block: ordered parameters, ordered instruction ids, and an
optional terminator. -/
structure BasicBlock where
  parameters : List ValueId
  instructions : List InstructionId
  terminator : Option Terminator
deriving DecidableEq

/-- Modelled from the spec: the data-flow graph, an arena of values,
instructions (with their ordered result values) and basic blocks,
addressed by dense integer handles. -/
structure DataFlowGraph where
  values : List (ValueId × Value)
  instructions : List (InstructionId × Instruction)
  results : List (InstructionId × List ValueId)
  blocks : List (BasicBlockId × BasicBlock)
  nextValue : Nat
  nextInst : Nat
  nextBlock : Nat
deriving DecidableEq

/-- A function: name, id, runtime kind, entry block and its DFG. -/
structure Function where
  name : String
  id : FunctionId
  runtime : RuntimeType
  entryBlock : BasicBlockId
  dfg : DataFlowGraph
deriving DecidableEq

/-- A whole program: the function table plus the next fresh function id. -/
structure Ssa where
  functions : List (FunctionId × Function)
  nextFunctionId : Nat
deriving DecidableEq

/-- Modelled from the spec: `dfg.make_value`, arena insertion of a fresh
value. -/
def DataFlowGraph.makeValue (dfg : DataFlowGraph) (v : Value) :
    DataFlowGraph × ValueId :=
  ({ dfg with values := (dfg.nextValue, v) :: dfg.values,
              nextValue := dfg.nextValue + 1 }, dfg.nextValue)

/-- Modelled from the spec: `dfg.make_constant(field, type)`. -/
def DataFlowGraph.make_constant (dfg : DataFlowGraph) (value : Nat) (typ : Ty) :
    DataFlowGraph × ValueId :=
  dfg.makeValue (Value.NumericConstant value typ)

/-- Modelled from the spec: `dfg.import_function(fid)`, materializing a
function reference inside the DFG. -/
def DataFlowGraph.import_function (dfg : DataFlowGraph) (fid : FunctionId) :
    DataFlowGraph × ValueId :=
  dfg.makeValue (Value.Function fid)

/-- Modelled from the spec: `dfg.set_value_from_id(old, new)` rewrites
every use of `old` to see the value stored at `new`. -/
def DataFlowGraph.set_value_from_id (dfg : DataFlowGraph)
    (old new : ValueId) : DataFlowGraph :=
  match lookupA dfg.values new with
  | some v => { dfg with values := (old, v) :: dfg.values }
  | none => dfg

/-- Modelled from the spec: `dfg.set_type_of_value`, changing only the
declared type of a value in place. -/
def DataFlowGraph.set_type_of_value (dfg : DataFlowGraph)
    (vid : ValueId) (t : Ty) : DataFlowGraph :=
  match lookupA dfg.values vid with
  | some (Value.Param b i _) =>
      { dfg with values := (vid, Value.Param b i t) :: dfg.values }
  | some (Value.Instruction iid i _) =>
      { dfg with values := (vid, Value.Instruction iid i t) :: dfg.values }
  | some (Value.NumericConstant v _) =>
      { dfg with values := (vid, Value.NumericConstant v t) :: dfg.values }
  | _ => dfg

/-- Modelled from the spec: in-place instruction replacement
(`dfg[inst_id] := new_instruction`). -/
def DataFlowGraph.setInstruction (dfg : DataFlowGraph)
    (iid : InstructionId) (inst : Instruction) : DataFlowGraph :=
  { dfg with instructions := (iid, inst) :: dfg.instructions }

/-- Updates one block of the graph in place. -/
def DataFlowGraph.modifyBlock (dfg : DataFlowGraph) (bid : BasicBlockId)
    (g : BasicBlock → BasicBlock) : DataFlowGraph :=
  match lookupA dfg.blocks bid with
  | some blk => { dfg with blocks := (bid, g blk) :: dfg.blocks }
  | none => dfg

/-- Modelled from the spec: appending a fresh parameter value to a block. -/
def DataFlowGraph.addBlockParam (dfg : DataFlowGraph) (bid : BasicBlockId)
    (t : Ty) : DataFlowGraph × ValueId :=
  match lookupA dfg.blocks bid with
  | some blk =>
      let vid := dfg.nextValue
      let dfg := { dfg with
        values := (vid, Value.Param bid blk.parameters.length t) :: dfg.values,
        nextValue := vid + 1 }
      ({ dfg with blocks :=
          (bid, { blk with parameters := blk.parameters ++ [vid] }) :: dfg.blocks },
       vid)
  | none => (dfg, dfg.nextValue)

/-- The ordered result values of an instruction
(`dfg.instruction_results`). -/
def resultsOf (f : Function) (iid : InstructionId) : List ValueId :=
  (lookupA f.dfg.results iid).getD []

/-- The observable type of a value id (`dfg.type_of_value`). -/
def typeOfValue (f : Function) (vid : ValueId) : Ty :=
  ((lookupA f.dfg.values vid).map Value.get_type).getD Ty.Unit

/-- The successor blocks named by a terminator. -/
def successors : Option Terminator → List BasicBlockId
  | some (Terminator.Jmp d _) => [d]
  | some (Terminator.JmpIf _ t e) => [t, e]
  | _ => []

/-- Worklist computation of the transitive block closure; `fuel` bounds
the number of worklist steps. -/
def reachAux (blocks : List (BasicBlockId × BasicBlock)) :
    Nat → List BasicBlockId → List BasicBlockId → List BasicBlockId
  | 0, _, visited => visited
  | _ + 1, [], visited => visited
  | fuel + 1, bid :: rest, visited =>
      if bid ∈ visited then reachAux blocks fuel rest visited
      else
        let succs := match lookupA blocks bid with
          | some blk => successors blk.terminator
          | none => []
        reachAux blocks fuel (rest ++ succs) (visited ++ [bid])

/-- Modelled from the spec: `reachable_blocks(fn)`, the transitive block
closure from the entry block. -/
def reachableBlocks (f : Function) : List BasicBlockId :=
  reachAux f.dfg.blocks
    ((f.dfg.blocks.length + 2) * (2 * f.dfg.blocks.length + 2))
    [f.entryBlock] []

/-- The distinct block ids present in a graph, newest first. -/
def blockIds (dfg : DataFlowGraph) : List BasicBlockId :=
  (dfg.blocks.map Prod.fst).dedup

/-- Modelled from the spec: `Signature::from(&Function)`, the declared
signature of a function: parameter types from the entry block parameters
and return types from the operands of a return terminator. -/
def signatureFromFunction (f : Function) : Signature :=
  let params := match lookupA f.dfg.blocks f.entryBlock with
    | some blk => blk.parameters.map (typeOfValue f)
    | none => []
  let returns := match (blockIds f.dfg).findSome? (fun bid =>
      match lookupA f.dfg.blocks bid with
      | some blk =>
          match blk.terminator with
          | some (Terminator.Return vs) => some vs
          | _ => none
      | none => none) with
    | some vs => vs.map (typeOfValue f)
    | none => []
  { params := params, returns := returns }

/-- The signature observed at a call site. -/
structure CallSignature where
  params : List Ty
  returns : List Ty
deriving DecidableEq

/-- `CallSignature::from_call_params`: argument and result-value types at
a call site. -/
def CallSignature.from_call_params (caller : Function)
    (params results : List ValueId) : CallSignature :=
  { params := params.map (typeOfValue caller),
    returns := results.map (typeOfValue caller) }

/-- `CallSignature::can_call`: equal arities, parameters structurally
equal position-wise, and returns structurally equal position-wise (with
the target on the left). -/
def CallSignature.can_call (c : CallSignature) (target : Signature) : Bool :=
  c.params.length == target.params.length &&
  c.returns.length == target.returns.length &&
  c.params.enum.all (fun p => Ty.is p.2 (target.params.getD p.1 Ty.Unit)) &&
  c.returns.enum.all (fun p => Ty.is (target.returns.getD p.1 Ty.Unit) p.2)

/-- Modelled from the spec: `FieldElement::from(x: u128)`.  The field
modulus of the target proof system exceeds `2 ^ 128`, so the embedding of
a `u128` is injective; elements are represented by the embedded natural
number, and the reduction `% 2 ^ 128` expresses the `u128` domain. -/
def fieldOfU128 (n : Nat) : Nat := n % 2 ^ 128

/-- `function_id_to_field`: the canonical field encoding of a function id
(`FieldElement::from(id.to_usize() as u128)`). -/
def function_id_to_field (function_id : FunctionId) : Nat :=
  fieldOfU128 function_id

/-- An apply function entry: the dispatch target and whether it
dispatches to more than one function. -/
structure ApplyFunction where
  id : FunctionId
  dispatches_to_multiple_functions : Bool
deriving DecidableEq

/-- The context carried by the rewrite phase. -/
structure DefunctionalizationContext where
  fn_to_runtime : List (FunctionId × RuntimeType)
  apply_functions : List (CallSignature × ApplyFunction)
deriving DecidableEq

/-- The function ids contributed to `functions_as_values` by a single
instruction: literal function call arguments and store operands. -/
def favInstr (func : Function) (acc : List FunctionId)
    (iid : InstructionId) : List FunctionId :=
  match lookupA func.dfg.instructions iid with
  | some (Instruction.Call _ arguments) =>
      arguments.foldl (fun acc a =>
        match lookupA func.dfg.values a with
        | some (Value.Function id) => acc ++ [id]
        | _ => acc) acc
  | some (Instruction.Store _ value) =>
      match lookupA func.dfg.values value with
      | some (Value.Function id) => acc ++ [id]
      | _ => acc
  | _ => acc

/-- The `functions_as_values` contribution of one block. -/
def favBlock (func : Function) (acc : List FunctionId)
    (bid : BasicBlockId) : List FunctionId :=
  match lookupA func.dfg.blocks bid with
  | some blk => blk.instructions.foldl (favInstr func) acc
  | none => acc

/-- Finds all literal functions used as values in the given function:
call arguments and store operands in reachable blocks. -/
def find_functions_as_values (func : Function) : List FunctionId :=
  (reachableBlocks func).foldl (favBlock func) []

/-- The dynamic dispatch signatures contributed by a single instruction:
the call signature of a call whose target is a parameter or an
instruction result. -/
def ddInstr (func : Function) (acc : List CallSignature)
    (iid : InstructionId) : List CallSignature :=
  match lookupA func.dfg.instructions iid with
  | some (Instruction.Call target arguments) =>
      (match lookupA func.dfg.values target with
       | some (Value.Param _ _ _) | some (Value.Instruction _ _ _) =>
           acc ++ [CallSignature.from_call_params func arguments
             (resultsOf func iid)]
       | _ => acc)
  | _ => acc

/-- The dynamic dispatch contribution of one block. -/
def ddBlock (func : Function) (acc : List CallSignature)
    (bid : BasicBlockId) : List CallSignature :=
  match lookupA func.dfg.blocks bid with
  | some blk => blk.instructions.foldl (ddInstr func) acc
  | none => acc

/-- Finds all dynamic dispatch signatures in the given function: call
sites in reachable blocks whose target is a parameter or an instruction
result. -/
def find_dynamic_dispatches (func : Function) : List CallSignature :=
  (reachableBlocks func).foldl (ddBlock func) []

/-- Groups function ids by their declared signature
(`signature_to_functions_as_value`); each id is appended to the single
group keyed by its signature. -/
def insertGroup (m : List (Signature × List FunctionId)) (s : Signature)
    (fid : FunctionId) : List (Signature × List FunctionId) :=
  match m with
  | [] => [(s, [fid])]
  | (s', fs) :: rest =>
      if s' = s then (s', fs ++ [fid]) :: rest
      else (s', fs) :: insertGroup rest s fid

/-- One step of building `signature_to_functions_as_value`: looks up the
function and inserts its id into the group keyed by its declared
signature. -/
def groupStep (ssa : Ssa) (m : List (Signature × List FunctionId))
    (fid : FunctionId) : Except String (List (Signature × List FunctionId)) :=
  match lookupA ssa.functions fid with
  | some f => Except.ok (insertGroup m (signatureFromFunction f) fid)
  | none => Except.error "ICE: function id not present in the program"

/-- All group members compatible with a dispatch signature, in group
order. -/
def collectTargets (dispatch_signature : CallSignature)
    (m : List (Signature × List FunctionId)) : List FunctionId :=
  m.foldl (fun target_fns p =>
    if dispatch_signature.can_call p.1 then target_fns ++ p.2
    else target_fns) []

/-- The deduplicated global list of functions used as values. -/
def functionsAsValues (ssa : Ssa) : List FunctionId :=
  (ssa.functions.foldl (fun acc p => acc ++ find_functions_as_values p.2) []).dedup

/-- The deduplicated global list of dynamic dispatch signatures. -/
def dynamicDispatches (ssa : Ssa) : List CallSignature :=
  (ssa.functions.foldl (fun acc p => acc ++ find_dynamic_dispatches p.2) []).dedup

/-- Collects all functions that can be called by their signatures: every
dynamic dispatch signature is mapped to all functions-as-values whose
declared signature it can call. -/
def find_variants (ssa : Ssa) :
    Except String (List (CallSignature × List FunctionId)) := do
  let signature_to_functions_as_value ←
    (functionsAsValues ssa).foldlM (groupStep ssa)
      ([] : List (Signature × List FunctionId))
  Except.ok ((dynamicDispatches ssa).map (fun dispatch_signature =>
    (dispatch_signature,
     collectTargets dispatch_signature signature_to_functions_as_value)))

/-- Modelled from the spec: the function builder, a function under
construction together with the block currently being appended to. -/
structure FunctionBuilder where
  current_function : Function
  current_block : BasicBlockId
deriving DecidableEq

/-- Modelled from the spec: `FunctionBuilder::new`; a fresh function with
a single empty entry block. -/
def FunctionBuilder.new (name : String) (id : FunctionId)
    (runtime : RuntimeType) : FunctionBuilder :=
  { current_function :=
      { name := name, id := id, runtime := runtime, entryBlock := 0,
        dfg := { values := [], instructions := [], results := [],
                 blocks := [(0, { parameters := [], instructions := [],
                                  terminator := none })],
                 nextValue := 0, nextInst := 0, nextBlock := 1 } },
    current_block := 0 }

/-- Applies a graph update to the function under construction. -/
def FunctionBuilder.modifyDfg (b : FunctionBuilder)
    (g : DataFlowGraph → DataFlowGraph) : FunctionBuilder :=
  { b with current_function :=
      { b.current_function with dfg := g b.current_function.dfg } }

/-- Modelled from the spec: `add_parameter`, appending a parameter to the
entry block. -/
def FunctionBuilder.add_parameter (b : FunctionBuilder) (t : Ty) :
    FunctionBuilder × ValueId :=
  let (dfg, vid) := b.current_function.dfg.addBlockParam
    b.current_function.entryBlock t
  ({ b with current_function := { b.current_function with dfg := dfg } }, vid)

/-- Modelled from the spec: `add_block_parameter`. -/
def FunctionBuilder.add_block_parameter (b : FunctionBuilder)
    (bid : BasicBlockId) (t : Ty) : FunctionBuilder × ValueId :=
  let (dfg, vid) := b.current_function.dfg.addBlockParam bid t
  ({ b with current_function := { b.current_function with dfg := dfg } }, vid)

/-- Modelled from the spec: `numeric_constant`. -/
def FunctionBuilder.numeric_constant (b : FunctionBuilder) (value : Nat)
    (t : Ty) : FunctionBuilder × ValueId :=
  let (dfg, vid) := b.current_function.dfg.make_constant value t
  ({ b with current_function := { b.current_function with dfg := dfg } }, vid)

/-- Modelled from the spec: `import_function` on the builder. -/
def FunctionBuilder.import_function (b : FunctionBuilder) (fid : FunctionId) :
    FunctionBuilder × ValueId :=
  let (dfg, vid) := b.current_function.dfg.import_function fid
  ({ b with current_function := { b.current_function with dfg := dfg } }, vid)

/-- Creates the result values of a fresh instruction, one per result
type, in order. -/
def mkResults (iid : InstructionId) :
    DataFlowGraph → Nat → List Ty → DataFlowGraph × List ValueId
  | dfg, _, [] => (dfg, [])
  | dfg, k, t :: ts =>
      let (dfg, vid) := dfg.makeValue (Value.Instruction iid k t)
      let (dfg, rest) := mkResults iid dfg (k + 1) ts
      (dfg, vid :: rest)

/-- Modelled from the spec: inserting a fresh instruction with the given
result types at the end of a block. -/
def DataFlowGraph.insertInstruction (dfg : DataFlowGraph) (bid : BasicBlockId)
    (inst : Instruction) (resultTypes : List Ty) :
    DataFlowGraph × InstructionId × List ValueId :=
  let iid := dfg.nextInst
  let dfg := { dfg with instructions := (iid, inst) :: dfg.instructions,
                        nextInst := iid + 1 }
  let (dfg, rs) := mkResults iid dfg 0 resultTypes
  let dfg := { dfg with results := (iid, rs) :: dfg.results }
  let dfg := dfg.modifyBlock bid
    (fun blk => { blk with instructions := blk.instructions ++ [iid] })
  (dfg, iid, rs)

/-- Modelled from the spec: `insert_binary`; an equality test produces a
boolean result. -/
def FunctionBuilder.insert_binary (b : FunctionBuilder) (lhs : ValueId)
    (op : BinaryOp) (rhs : ValueId) : FunctionBuilder × ValueId :=
  let rt := match op with
    | BinaryOp.Eq => Ty.bool
    | _ => typeOfValue b.current_function lhs
  let (dfg, _, rs) := b.current_function.dfg.insertInstruction b.current_block
    (Instruction.Binary op lhs rhs) [rt]
  ({ b with current_function := { b.current_function with dfg := dfg } },
   rs.getD 0 0)

/-- Modelled from the spec: `insert_call` with explicit result types. -/
def FunctionBuilder.insert_call (b : FunctionBuilder) (target : ValueId)
    (arguments : List ValueId) (resultTypes : List Ty) :
    FunctionBuilder × List ValueId :=
  let (dfg, _, rs) := b.current_function.dfg.insertInstruction b.current_block
    (Instruction.Call target arguments) resultTypes
  ({ b with current_function := { b.current_function with dfg := dfg } }, rs)

/-- Modelled from the spec: `insert_constrain`. -/
def FunctionBuilder.insert_constrain (b : FunctionBuilder) (v : ValueId) :
    FunctionBuilder :=
  let (dfg, _, _) := b.current_function.dfg.insertInstruction b.current_block
    (Instruction.Constrain v) []
  { b with current_function := { b.current_function with dfg := dfg } }

/-- Modelled from the spec: `insert_block`; creates a fresh empty block
without switching to it. -/
def FunctionBuilder.insert_block (b : FunctionBuilder) :
    FunctionBuilder × BasicBlockId :=
  let dfg := b.current_function.dfg
  let bid := dfg.nextBlock
  let dfg := { dfg with
    blocks := (bid, { parameters := [], instructions := [],
                      terminator := none }) :: dfg.blocks,
    nextBlock := bid + 1 }
  ({ b with current_function := { b.current_function with dfg := dfg } }, bid)

/-- Modelled from the spec: `switch_to_block`. -/
def FunctionBuilder.switch_to_block (b : FunctionBuilder)
    (bid : BasicBlockId) : FunctionBuilder :=
  { b with current_block := bid }

/-- Sets the terminator of the current block. -/
def FunctionBuilder.terminate (b : FunctionBuilder) (t : Terminator) :
    FunctionBuilder :=
  b.modifyDfg (fun dfg => dfg.modifyBlock b.current_block
    (fun blk => { blk with terminator := some t }))

/-- Modelled from the spec: `terminate_with_jmpif`. -/
def FunctionBuilder.terminate_with_jmpif (b : FunctionBuilder)
    (condition thenDest elseDest : Nat) : FunctionBuilder :=
  b.terminate (Terminator.JmpIf condition thenDest elseDest)

/-- Modelled from the spec: `terminate_with_jmp`. -/
def FunctionBuilder.terminate_with_jmp (b : FunctionBuilder)
    (dest : BasicBlockId) (arguments : List ValueId) : FunctionBuilder :=
  b.terminate (Terminator.Jmp dest arguments)

/-- Modelled from the spec: `terminate_with_return`. -/
def FunctionBuilder.terminate_with_return (b : FunctionBuilder)
    (returnValues : List ValueId) : FunctionBuilder :=
  b.terminate (Terminator.Return returnValues)

/-- Modelled from the spec: `Ssa::add_fn`, inserting a function built at
a fresh id. -/
def Ssa.add_fn (ssa : Ssa) (build : FunctionId → Function) : Ssa × FunctionId :=
  let id := ssa.nextFunctionId
  ({ functions := ssa.functions ++ [(id, build id)],
     nextFunctionId := id + 1 }, id)

/-- Creates a return block: when no previous return block exists it
returns, otherwise it forwards its parameters to the previous one. -/
def build_return_block (builder : FunctionBuilder)
    (previous_block : BasicBlockId) (passed_types : List Ty)
    (target : Option BasicBlockId) : FunctionBuilder × BasicBlockId :=
  let (b, return_block) := builder.insert_block
  let b := b.switch_to_block return_block
  let (b, params) := passed_types.foldl (fun acc t =>
      let (b, p) := acc.1.add_block_parameter return_block t
      (b, acc.2 ++ [p])) (b, ([] : List ValueId))
  let b := match target with
    | none => b.terminate_with_return params
    | some t => b.terminate_with_jmp t params
  (b.switch_to_block previous_block, return_block)

/-- The dispatch-cascade loop of `create_apply_function`: one equality
test and call branch per callee, the last branch constrained instead of
branched, return blocks chained to the previously created one. -/
def applyLoop (returns : List Ty) (target_id : ValueId)
    (params_ids : List ValueId) :
    List FunctionId → FunctionBuilder → Option BasicBlockId → FunctionBuilder
  | [], b, _ => b
  | function_id :: rest, b, previous_target_block =>
      let is_last := rest.isEmpty
      let (b, function_id_constant) := b.numeric_constant
        (function_id_to_field function_id) (Ty.Numeric NumericType.NativeField)
      let (b, condition) := b.insert_binary target_id BinaryOp.Eq
        function_id_constant
      let (b, next_function_block) :=
        if is_last then (b.insert_constrain condition, none)
        else
          let (b, nfb) := b.insert_block
          let (b, executor_block) := b.insert_block
          let b := b.terminate_with_jmpif condition executor_block nfb
          (b.switch_to_block executor_block, some nfb)
      let current_block := b.current_block
      let (b, target_block) := build_return_block b current_block returns
        previous_target_block
      let (b, target_function_value) := b.import_function function_id
      let (b, call_results) := b.insert_call target_function_value params_ids
        returns
      let b := b.terminate_with_jmp target_block call_results
      let b := match next_function_block with
        | some nb => b.switch_to_block nb
        | none => b
      applyLoop returns target_id params_ids rest b (some target_block)

/-- Creates an apply function for the given signature and variants. -/
def create_apply_function (ssa : Ssa) (signature : Signature)
    (function_ids : List FunctionId) : Except String (Ssa × FunctionId) :=
  if function_ids.isEmpty then
    Except.error "assertion failed: function_ids is empty"
  else
    Except.ok (ssa.add_fn (fun id =>
      let b := FunctionBuilder.new "apply" id RuntimeType.Acir
      let (b, target_id) := b.add_parameter Ty.field
      let (b, params_ids) := signature.params.foldl (fun acc t =>
          let (b, p) := acc.1.add_parameter t
          (b, acc.2 ++ [p])) (b, ([] : List ValueId))
      (applyLoop signature.returns target_id params_ids function_ids b
        none).current_function))

/-- Looks up the declared signature of a function id, an internal
compiler error when the id is absent. -/
def targetSignatureOf (ssa : Ssa) (fid : FunctionId) :
    Except String Signature :=
  match lookupA ssa.functions fid with
  | some f => Except.ok (signatureFromFunction f)
  | none => Except.error "ICE: function id not present in the program"

/-- One variants-map entry of `create_apply_functions`: the sole callee
is bound directly, two or more callees get a synthesized apply function. -/
def applyEntryStep (acc : Ssa × List (CallSignature × ApplyFunction))
    (p : CallSignature × List FunctionId) :
    Except String (Ssa × List (CallSignature × ApplyFunction)) := do
  let (ssa, apply_functions) := acc
  let (signature, variants) := p
  match variants with
  | [] =>
      Except.error "ICE: at least one variant should exist for a dynamic call"
  | v0 :: _ =>
      let dispatches_to_multiple_functions := decide (1 < variants.length)
      let target_signatures ← variants.mapM (targetSignatureOf ssa)
      let function_signature ← common_signature tyCastTo target_signatures
      let (ssa, id) ←
        if dispatches_to_multiple_functions then
          create_apply_function ssa function_signature variants
        else Except.ok (ssa, v0)
      Except.ok (ssa,
        (signature,
         { id := id,
           dispatches_to_multiple_functions :=
             dispatches_to_multiple_functions }) :: apply_functions)

/-- For every variants entry, either binds the sole callee directly or
synthesizes a dispatching apply function. -/
def create_apply_functions (ssa : Ssa)
    (variants_map : List (CallSignature × List FunctionId)) :
    Except String (Ssa × List (CallSignature × ApplyFunction)) :=
  variants_map.foldlM applyEntryStep
    (ssa, ([] : List (CallSignature × ApplyFunction)))

/-- Returns the apply function for the given signature; its absence is an
internal compiler error. -/
def DefunctionalizationContext.get_apply_function
    (ctx : DefunctionalizationContext) (signature : CallSignature) :
    Except String ApplyFunction :=
  match lookupA ctx.apply_functions signature with
  | some af => Except.ok af
  | none => Except.error "Could not find apply function"

/-- The state threaded through the rewrite of one function: the function
being mutated and the set of direct call-target value ids. -/
abbrev RewriteState := Function × List ValueId

/-- One step of the call rewrite: a call whose target is a parameter or
an instruction result is redirected to the apply function for its call
signature, with the dynamic target prepended when that apply function
dispatches to multiple callees; a literal call target is recorded. -/
def rewriteInstruction (ctx : DefunctionalizationContext) (s : RewriteState)
    (iid : InstructionId) : Except String RewriteState :=
  let (func, call_target_values) := s
  match lookupA func.dfg.instructions iid with
  | some (Instruction.Call target_func_id arguments) =>
      (match lookupA func.dfg.values target_func_id with
       | some (Value.Param _ _ _) | some (Value.Instruction _ _ _) => do
           let apply_function ← ctx.get_apply_function
             (CallSignature.from_call_params func arguments (resultsOf func iid))
           let (dfg, apply_function_value_id) :=
             func.dfg.import_function apply_function.id
           let func := { func with dfg := dfg }
           let arguments :=
             if apply_function.dispatches_to_multiple_functions then
               target_func_id :: arguments
             else arguments
           let func := { func with dfg := (func.dfg.setInstruction iid
             (Instruction.Call apply_function_value_id arguments)) }
           Except.ok (func, apply_function_value_id :: call_target_values)
       | some (Value.Function _) =>
           Except.ok (func, target_func_id :: call_target_values)
       | _ => Except.ok s)
  | _ => Except.ok s

/-- Rewrites every instruction of one block (the instruction list is
read from the block before processing it). -/
def rewriteBlock (ctx : DefunctionalizationContext) (s : RewriteState)
    (bid : BasicBlockId) : Except String RewriteState :=
  match lookupA s.1.dfg.blocks bid with
  | none => Except.ok s
  | some blk => blk.instructions.foldlM (rewriteInstruction ctx) s

/-- The retyping step for one value id: a non-call-target literal
function value is substituted by its field-encoded numeric constant,
while parameters and instruction results of type `Function` are retyped
to the field type in place. -/
def retypeValue (call_target_values : List ValueId) (func : Function)
    (vid : ValueId) : Function :=
  match lookupA func.dfg.values vid with
  | some v =>
      if v.get_type = Ty.Function then
        match v with
        | Value.Function id =>
            if vid ∈ call_target_values then func
            else
              let (dfg, new_value) :=
                func.dfg.make_constant (function_id_to_field id) Ty.field
              { func with dfg := dfg.set_value_from_id vid new_value }
        | Value.Instruction _ _ _ =>
            { func with dfg := func.dfg.set_type_of_value vid Ty.field }
        | Value.Param _ _ _ =>
            { func with dfg := func.dfg.set_type_of_value vid Ty.field }
        | _ => func
      else func
  | none => func

/-- Defunctionalizes a single function: rewrites the calls of every
reachable block, then retypes every value that is not a call target. -/
def defunctionalizeFunction (ctx : DefunctionalizationContext)
    (func : Function) : Except String RewriteState := do
  let s ← (reachableBlocks func).foldlM (rewriteBlock ctx) (func, ([] : List ValueId))
  let (func, call_target_values) := s
  let value_ids := (func.dfg.values.map Prod.fst).dedup
  Except.ok (value_ids.foldl (retypeValue call_target_values) func,
    call_target_values)

/-- Defunctionalizes one entry of the function table. -/
def defunPair (ctx : DefunctionalizationContext)
    (p : FunctionId × Function) : Except String (FunctionId × Function) := do
  let s ← defunctionalizeFunction ctx p.2
  Except.ok (p.1, s.1)

/-- The whole pass: discovery, apply-function synthesis, then the
call-site rewrite and value retyping of every function. -/
def Ssa.defunctionalize (ssa : Ssa) : Except String Ssa := do
  let variants ← find_variants ssa
  let (ssa, apply_functions) ← create_apply_functions ssa variants
  let fn_to_runtime := ssa.functions.map (fun p => (p.1, p.2.runtime))
  let context : DefunctionalizationContext :=
    { fn_to_runtime := fn_to_runtime, apply_functions := apply_functions }
  let functions ← ssa.functions.mapM (defunPair context)
  Except.ok { ssa with functions := functions }

/-! ### An operational semantics for the generated code

The interpreter below is the verification artifact used to state the
semantic-equivalence claim: runtime values are field elements represented
as natural numbers (booleans as `0` / `1`), an environment binds value
ids produced by block parameters and instruction results, and calls are
resolved through an external oracle mapping function ids to the observable
behaviour of the callee. -/

/-- A runtime environment: bindings from value ids to runtime values,
newest first. -/
abbrev Env := List (ValueId × Nat)

/-- An oracle giving the observable result of calling a function. -/
abbrev CallOracle := FunctionId → List Nat → Option (List Nat)

/-- Binds a list of value ids to a list of runtime values, in order. -/
def bindAll (env : Env) (ids : List ValueId) (vs : List Nat) : Env :=
  (ids.zip vs).foldl (fun e p => p :: e) env

/-- Evaluates an operand: numeric constants read from the graph,
everything else from the environment. -/
def evalOperand (f : Function) (env : Env) (vid : ValueId) : Option Nat :=
  match lookupA f.dfg.values vid with
  | some (Value.NumericConstant v _) => some v
  | _ => lookupA env vid

/-- Executes a single instruction, extending the environment with its
results.  Only the instruction forms emitted into apply functions are
given semantics; a failed constraint or an unsupported form is `none`. -/
def execInstr (oracle : CallOracle) (f : Function) (env : Env)
    (iid : InstructionId) : Option Env :=
  match lookupA f.dfg.instructions iid with
  | some (Instruction.Binary BinaryOp.Eq lhs rhs) => do
      let lv ← evalOperand f env lhs
      let rv ← evalOperand f env rhs
      match resultsOf f iid with
      | [rid] => some ((rid, if lv = rv then 1 else 0) :: env)
      | _ => none
  | some (Instruction.Constrain c) => do
      let cv ← evalOperand f env c
      if cv = 1 then some env else none
  | some (Instruction.Call fv args) =>
      (match lookupA f.dfg.values fv with
       | some (Value.Function fid) => do
           let argvs ← args.mapM (evalOperand f env)
           let rs ← oracle fid argvs
           let rids := resultsOf f iid
           if rids.length = rs.length then some (bindAll env rids rs) else none
       | _ => none)
  | _ => none

/-- Executes a block: its instructions in order, then its terminator.
Entering a block through a jump binds the destination parameters; `fuel`
bounds the number of jumps taken. -/
def execBlock (oracle : CallOracle) (f : Function) :
    Nat → BasicBlockId → Env → Option (List Nat)
  | 0, _, _ => none
  | fuel + 1, bid, env => do
      let blk ← lookupA f.dfg.blocks bid
      let env ← blk.instructions.foldlM (execInstr oracle f) env
      match blk.terminator with
      | some (Terminator.Return vs) => vs.mapM (evalOperand f env)
      | some (Terminator.Jmp dest args) => do
          let argvs ← args.mapM (evalOperand f env)
          let dblk ← lookupA f.dfg.blocks dest
          if dblk.parameters.length = argvs.length then
            execBlock oracle f fuel dest (bindAll env dblk.parameters argvs)
          else none
      | some (Terminator.JmpIf c t e) => do
          let cv ← evalOperand f env c
          execBlock oracle f fuel (if cv = 1 then t else e) env
      | none => none

/-- Runs a function on argument values: binds the entry-block parameters
and executes the entry block. -/
def runFunction (oracle : CallOracle) (f : Function) (argvals : List Nat)
    (fuel : Nat) : Option (List Nat) :=
  match lookupA f.dfg.blocks f.entryBlock with
  | some blk =>
      if blk.parameters.length = argvals.length then
        execBlock oracle f fuel f.entryBlock (bindAll [] blk.parameters argvals)
      else none
  | none => none

/-- Structural-recursion form of `List.mapM` over `Except`, used to reason
about the monadic maps of the pass. -/
def mapME {α β : Type} (f : α → Except String β) : List α → Except String (List β)
  | [] => Except.ok []
  | a :: l => do
      let b ← f a
      let bs ← mapME f l
      Except.ok (b :: bs)


/-- The one-position unification used by `common_types`. -/
def unifyTy (castTo : Ty → Ty → Option Ty) (p : Ty × Ty) : Option Ty :=
  (castTo p.1 p.2).orElse (fun _ => castTo p.2 p.1)


/-- The unification step of `common_types`, as an `Except` computation. -/
def unifyStep (castTo : Ty → Ty → Option Ty) (p : Ty × Ty) : Except String Ty :=
  match unifyTy castTo p with
  | some t => Except.ok t
  | none => Except.error "ICE: Failed to find common types"


deriving instance DecidableEq for Except

/-- A demonstration callee: the identity function on a field element. -/
def demoIdFn (fid : FunctionId) : Function :=
  { name := "idf", id := fid, runtime := RuntimeType.Acir, entryBlock := 0,
    dfg := { values := [(0, Value.Param 0 0 Ty.field)],
             instructions := [], results := [],
             blocks := [(0, { parameters := [0], instructions := [],
                              terminator := some (Terminator.Return [0]) })],
             nextValue := 1, nextInst := 0, nextBlock := 1 } }

/-- A demonstration higher-order caller: `caller(g, x) = g(x)`. -/
def demoCallerFn : Function :=
  { name := "caller", id := 2, runtime := RuntimeType.Acir, entryBlock := 0,
    dfg := { values := [(0, Value.Param 0 0 Ty.Function),
                        (1, Value.Param 0 1 Ty.field),
                        (2, Value.Instruction 0 0 Ty.field)],
             instructions := [(0, Instruction.Call 0 [1])],
             results := [(0, [2])],
             blocks := [(0, { parameters := [0, 1], instructions := [0],
                              terminator := some (Terminator.Return [2]) })],
             nextValue := 3, nextInst := 1, nextBlock := 1 } }

/-- A demonstration main passing both callees to the caller. -/
def demoMainFn : Function :=
  { name := "main", id := 3, runtime := RuntimeType.Acir, entryBlock := 0,
    dfg := { values := [(0, Value.Function 0), (1, Value.Function 1),
                        (2, Value.Function 2),
                        (3, Value.NumericConstant 7 Ty.field),
                        (4, Value.Instruction 0 0 Ty.field),
                        (5, Value.Instruction 1 0 Ty.field)],
             instructions := [(0, Instruction.Call 2 [0, 3]),
                              (1, Instruction.Call 2 [1, 3])],
             results := [(0, [4]), (1, [5])],
             blocks := [(0, { parameters := [], instructions := [0, 1],
                              terminator := some (Terminator.Return [4]) })],
             nextValue := 6, nextInst := 2, nextBlock := 1 } }

/-- The demonstration program: two identity callees flowing into one
higher-order call site. -/
def demoSsa : Ssa :=
  { functions := [(0, demoIdFn 0), (1, demoIdFn 1), (2, demoCallerFn),
                  (3, demoMainFn)],
    nextFunctionId := 4 }

/-- The variants map computed for the demonstration program. -/
def demoVariants : List (CallSignature × List FunctionId) :=
  match find_variants demoSsa with
  | Except.ok v => v
  | Except.error _ => []

/-- All value keys of a function are below its fresh-value counter, so
arena insertion never shadows an existing value. -/
def ValueKeysBelow (f : Function) : Prop :=
  ∀ p ∈ f.dfg.values, p.1 < f.dfg.nextValue

/-- Whether a single value respects the constant-typing discipline: a
numeric constant never carries type `Function`. -/
def constTypeOkB : Value → Bool
  | Value.NumericConstant _ t => decide (t ≠ Ty.Function)
  | _ => true

/-- All numeric constants of a function carry a non-`Function` type. -/
def ConstTypesOk (f : Function) : Prop :=
  ∀ p ∈ f.dfg.values, constTypeOkB p.2 = true

instance (f : Function) : Decidable (ValueKeysBelow f) := by
  unfold ValueKeysBelow
  infer_instance

instance (f : Function) : Decidable (ConstTypesOk f) := by
  unfold ConstTypesOk
  infer_instance

/-- Whether a value id resolves to a function used as a value (a
parameter or an instruction result). -/
def isDynamicTarget (func : Function) (vid : ValueId) : Bool :=
  match lookupA func.dfg.values vid with
  | some (Value.Param _ _ _) => true
  | some (Value.Instruction _ _ _) => true
  | _ => false

/-- What the rewrite phase preserves about a function: everything except
the instruction map and freshly imported function values. -/
def RewritePres (func0 f : Function) : Prop :=
  f.name = func0.name ∧ f.id = func0.id ∧ f.runtime = func0.runtime ∧
  f.entryBlock = func0.entryBlock ∧
  f.dfg.blocks = func0.dfg.blocks ∧
  f.dfg.results = func0.dfg.results ∧
  f.dfg.nextInst = func0.dfg.nextInst ∧
  f.dfg.nextBlock = func0.dfg.nextBlock ∧
  func0.dfg.nextValue ≤ f.dfg.nextValue ∧
  ValueKeysBelow f ∧
  (∀ v, v < func0.dfg.nextValue →
    lookupA f.dfg.values v = lookupA func0.dfg.values v) ∧
  (∀ v, func0.dfg.nextValue ≤ v →
    lookupA f.dfg.values v = none ∨
    ∃ g, lookupA f.dfg.values v = some (Value.Function g))

/-- The rewritten form of one higher-order call site: a direct call to
the apply function, the dynamic target prepended exactly when it
dispatches to multiple callees. -/
def siteRewritten (iid : InstructionId) (target : ValueId)
    (args : List ValueId) (af : ApplyFunction) (s : RewriteState) : Prop :=
  ∃ applyVid,
    lookupA s.1.dfg.instructions iid =
      some (Instruction.Call applyVid
        (if af.dispatches_to_multiple_functions then target :: args else args)) ∧
    lookupA s.1.dfg.values applyVid = some (Value.Function af.id) ∧
    applyVid ∈ s.2

/-- A tracked call site is either still in its original form or already
rewritten. -/
def siteState (iid : InstructionId) (target : ValueId)
    (args : List ValueId) (af : ApplyFunction) (s : RewriteState) : Prop :=
  lookupA s.1.dfg.instructions iid = some (Instruction.Call target args) ∨
  siteRewritten iid target args af s

/-- A demonstration rewrite context binding the demo call signature to a
two-callee apply function. -/
def demoCtx : DefunctionalizationContext :=
  { fn_to_runtime := [],
    apply_functions :=
      [({ params := [Ty.field], returns := [Ty.field] },
        { id := 4, dispatches_to_multiple_functions := true })] }

/-- The demo caller after the rewrite phase. -/
def demoRewritten : RewriteState :=
  match defunctionalizeFunction demoCtx demoCallerFn with
  | Except.ok s => s
  | Except.error _ => (demoCallerFn, [])

/-- The pieces of one dispatch segment of a synthesized apply function. -/
structure Seg where
  testBlock : BasicBlockId
  execBlock : BasicBlockId
  retBlock : BasicBlockId
  eqInst : InstructionId
  conInst : InstructionId
  callInst : InstructionId
  cstVal : ValueId
  condVal : ValueId
  fnVal : ValueId
  callResults : List ValueId
  retParams : List ValueId
deriving DecidableEq

/-- The facts shared by every dispatch segment: the equality test against
the field-encoded callee id, the forwarding call, and the return block
that either returns or forwards to the previously created return block. -/
def SegCommon (f : Function) (v0 target : ValueId)
    (params_ids : List ValueId) (returns : List Ty) (fid : FunctionId)
    (prev : Option BasicBlockId) (seg : Seg) : Prop :=
  lookupA f.dfg.instructions seg.eqInst =
    some (Instruction.Binary BinaryOp.Eq target seg.cstVal) ∧
  resultsOf f seg.eqInst = [seg.condVal] ∧
  lookupA f.dfg.values seg.cstVal =
    some (Value.NumericConstant (function_id_to_field fid)
      (Ty.Numeric NumericType.NativeField)) ∧
  (∃ t, lookupA f.dfg.values seg.condVal =
    some (Value.Instruction seg.eqInst 0 t)) ∧
  v0 ≤ seg.condVal ∧
  lookupA f.dfg.instructions seg.callInst =
    some (Instruction.Call seg.fnVal params_ids) ∧
  lookupA f.dfg.values seg.fnVal = some (Value.Function fid) ∧
  resultsOf f seg.callInst = seg.callResults ∧
  seg.callResults.length = returns.length ∧
  seg.callResults.Nodup ∧
  (∀ r ∈ seg.callResults, ∃ k t,
    lookupA f.dfg.values r = some (Value.Instruction seg.callInst k t)) ∧
  lookupA f.dfg.blocks seg.retBlock = some
    { parameters := seg.retParams, instructions := [],
      terminator := some (match prev with
        | none => Terminator.Return seg.retParams
        | some t => Terminator.Jmp t seg.retParams) } ∧
  seg.retParams.length = returns.length ∧
  seg.retParams.Nodup ∧
  (∀ p ∈ seg.retParams, ∃ i t,
    lookupA f.dfg.values p = some (Value.Param seg.retBlock i t))

/-- The shape of the dispatch cascade of a synthesized apply function:
every branch but the last ends in a conditional jump to its executor
block, the last branch constrains the equality instead, and each return
block forwards to the previously created one while only the first
created return block returns. -/
def SegsSpec (f : Function) (v0 target : ValueId)
    (params_ids : List ValueId) (returns : List Ty) :
    List FunctionId → List Seg → BasicBlockId → Option BasicBlockId → Prop
  | [], [], _, _ => True
  | [fid], [seg], cur, prev =>
      seg.testBlock = cur ∧ seg.execBlock = cur ∧
      (∃ ps, lookupA f.dfg.blocks cur = some
        { parameters := ps,
          instructions := [seg.eqInst, seg.conInst, seg.callInst],
          terminator := some (Terminator.Jmp seg.retBlock
            seg.callResults) }) ∧
      lookupA f.dfg.instructions seg.conInst =
        some (Instruction.Constrain seg.condVal) ∧
      SegCommon f v0 target params_ids returns fid prev seg
  | fid :: fid2 :: rest, seg :: seg2 :: segs, cur, prev =>
      seg.testBlock = cur ∧
      (∃ ps, lookupA f.dfg.blocks cur = some
        { parameters := ps, instructions := [seg.eqInst],
          terminator := some (Terminator.JmpIf seg.condVal seg.execBlock
            seg2.testBlock) }) ∧
      lookupA f.dfg.blocks seg.execBlock = some
        { parameters := [], instructions := [seg.callInst],
          terminator := some (Terminator.Jmp seg.retBlock
            seg.callResults) } ∧
      SegCommon f v0 target params_ids returns fid prev seg ∧
      SegsSpec f v0 target params_ids returns (fid2 :: rest) (seg2 :: segs)
        seg2.testBlock (some seg.retBlock)
  | _, _, _, _ => False

/-- Wellformedness of a builder state: all arena keys are below their
fresh counters and the current block is allocated. -/
def BWF (b : FunctionBuilder) : Prop :=
  b.current_block < b.current_function.dfg.nextBlock ∧
  (∀ p ∈ b.current_function.dfg.blocks,
    p.1 < b.current_function.dfg.nextBlock) ∧
  (∀ p ∈ b.current_function.dfg.values,
    p.1 < b.current_function.dfg.nextValue) ∧
  (∀ p ∈ b.current_function.dfg.instructions,
    p.1 < b.current_function.dfg.nextInst) ∧
  (∀ p ∈ b.current_function.dfg.results,
    p.1 < b.current_function.dfg.nextInst)

/-- The parameter-adding fold shared by `build_return_block` and the
entry prologue of `create_apply_function`: appends one block parameter
per type and accumulates the created value ids in order. -/
def addParamsFold (bid : BasicBlockId) (ts : List Ty)
    (s : FunctionBuilder × List ValueId) : FunctionBuilder × List ValueId :=
  ts.foldl (fun acc t =>
    let (b, p) := acc.1.add_block_parameter bid t
    (b, acc.2 ++ [p])) s

/-- The shared tail of one dispatch-cascade iteration: the return block,
the imported callee, the forwarding call and the jump into the return
block; returns the new builder and the created return block. -/
def callSeg (returns : List Ty) (params_ids : List ValueId)
    (fid : FunctionId) (prev : Option BasicBlockId) (c : FunctionBuilder) :
    FunctionBuilder × BasicBlockId :=
  let (c, target_block) := build_return_block c c.current_block returns prev
  let (c, target_function_value) := c.import_function fid
  let (c, call_results) := c.insert_call target_function_value params_ids
    returns
  (c.terminate_with_jmp target_block call_results, target_block)

/-- One non-last iteration of the dispatch-cascade loop: the equality
test, the two fresh blocks with the conditional jump, and the shared
call tail; returns the builder positioned at the next test block and the
created return block. -/
def midStep (returns : List Ty) (target : ValueId)
    (params_ids : List ValueId) (fid : FunctionId)
    (prev : Option BasicBlockId) (b : FunctionBuilder) :
    FunctionBuilder × BasicBlockId :=
  let (b1, function_id_constant) := b.numeric_constant
    (function_id_to_field fid) (Ty.Numeric NumericType.NativeField)
  let (b2, condition) := b1.insert_binary target BinaryOp.Eq
    function_id_constant
  let (b3, next_function_block) := b2.insert_block
  let (b4, executor_block) := b3.insert_block
  let b5 := b4.terminate_with_jmpif condition executor_block
    next_function_block
  let b6 := b5.switch_to_block executor_block
  let (b7, target_block) := callSeg returns params_ids fid prev b6
  (b7.switch_to_block next_function_block, target_block)

/-- Arena wellformedness of a finished function: all keys are below the
fresh counters. -/
def FWF (f : Function) : Prop :=
  (∀ p ∈ f.dfg.blocks, p.1 < f.dfg.nextBlock) ∧
  (∀ p ∈ f.dfg.values, p.1 < f.dfg.nextValue) ∧
  (∀ p ∈ f.dfg.instructions, p.1 < f.dfg.nextInst) ∧
  (∀ p ∈ f.dfg.results, p.1 < f.dfg.nextInst)

/-- What one run of the dispatch-cascade loop preserves: every arena
entry other than the current block survives untouched, counters only
grow, and the function metadata is unchanged. -/
def LoopPres (b : FunctionBuilder) (f : Function) : Prop :=
  (∀ k, k ≠ b.current_block → k < b.current_function.dfg.nextBlock →
    lookupA f.dfg.blocks k = lookupA b.current_function.dfg.blocks k) ∧
  (∀ v, v < b.current_function.dfg.nextValue →
    lookupA f.dfg.values v = lookupA b.current_function.dfg.values v) ∧
  (∀ i, i < b.current_function.dfg.nextInst →
    lookupA f.dfg.instructions i =
      lookupA b.current_function.dfg.instructions i) ∧
  (∀ i, i < b.current_function.dfg.nextInst →
    lookupA f.dfg.results i = lookupA b.current_function.dfg.results i) ∧
  b.current_function.dfg.nextValue ≤ f.dfg.nextValue ∧
  b.current_function.dfg.nextInst ≤ f.dfg.nextInst ∧
  b.current_function.dfg.nextBlock ≤ f.dfg.nextBlock ∧
  f.name = b.current_function.name ∧
  f.id = b.current_function.id ∧
  f.runtime = b.current_function.runtime ∧
  f.entryBlock = b.current_function.entryBlock

/-- A one-value function holding a bare function reference, used to
exercise the rewrite of non-call-target function values on a concrete
input. -/
def c7WitnessFn : Function :=
  { name := "f", id := 0, runtime := RuntimeType.Acir, entryBlock := 0,
    dfg := { values := [(5, Value.Function 9)], instructions := [],
             results := [], blocks := [], nextValue := 6, nextInst := 0,
             nextBlock := 0 } }

/-- Structural-recursion form of `List.mapM` over `Option`, used to
reason about operand evaluation. -/
def mapMO {α β : Type} (g : α → Option β) : List α → Option (List β)
  | [] => some []
  | a :: l => do
      let b ← g a
      let bs ← mapMO g l
      some (b :: bs)

/-- The chain of forwarding return blocks created by the dispatch loop:
each block has the given number of fresh parameters, no instructions,
and forwards its parameters to the previous return block, with the
innermost block returning them. -/
def RetChain (f : Function) (returns : List Ty) :
    Option BasicBlockId → Nat → Prop
  | none, 0 => True
  | some tb, d + 1 => ∃ ps prev2,
      lookupA f.dfg.blocks tb = some
        { parameters := ps, instructions := [],
          terminator := some (match prev2 with
            | none => Terminator.Return ps
            | some t => Terminator.Jmp t ps) } ∧
      ps.length = returns.length ∧
      ps.Nodup ∧
      (∀ p ∈ ps, ∃ b i t,
        lookupA f.dfg.values p = some (Value.Param b i t)) ∧
      RetChain f returns prev2 d
  | none, _ + 1 => False
  | some _, 0 => False

/-- A rewrite-state instruction slot is clean when, if it holds a call,
that call's target does not resolve to a parameter or an instruction
result. -/
def CleanAt (s : RewriteState) (iid : InstructionId) : Prop :=
  ∀ t as, lookupA s.1.dfg.instructions iid =
      some (Instruction.Call t as) →
    isDynamicTarget s.1 t = false

/-- The facts accumulated by the call-rewrite fold over one function:
every recorded call-target value id resolves to a literal function value
and is the target of a call instruction inside a reachable block; every
instruction is either original or a rewritten call to an imported value
of a table-resident apply function; and every value id at or above the
original fresh counter that holds a function literal refers to a
table-resident function. -/
def RewriteInv (func : Function) (T : List (FunctionId × Function))
    (s : RewriteState) : Prop :=
  (∀ v ∈ s.2, ∃ fid,
    lookupA s.1.dfg.values v = some (Value.Function fid)) ∧
  (∀ v ∈ s.2, ∃ args bid blk iid, bid ∈ reachableBlocks func ∧
    lookupA func.dfg.blocks bid = some blk ∧ iid ∈ blk.instructions ∧
    lookupA s.1.dfg.instructions iid = some (Instruction.Call v args)) ∧
  (∀ iid inst, lookupA s.1.dfg.instructions iid = some inst →
    lookupA func.dfg.instructions iid = some inst ∨
    ∃ av t0 as0, lookupA func.dfg.instructions iid =
        some (Instruction.Call t0 as0) ∧
      (inst = Instruction.Call av as0 ∨
        inst = Instruction.Call av (t0 :: as0)) ∧
      (∃ g, lookupA s.1.dfg.values av = some (Value.Function g) ∧
        lookupA T g ≠ none) ∧
      isDynamicTarget func t0 = true) ∧
  (∀ v, func.dfg.nextValue ≤ v → ∀ g,
    lookupA s.1.dfg.values v = some (Value.Function g) →
    lookupA T g ≠ none)

/-- The demonstration program after one run of the pass, used to
exercise idempotence on a concrete input. -/
def demoDefun : Ssa :=
  match demoSsa.defunctionalize with
  | Except.ok s => s
  | Except.error _ => demoSsa

/-! ### Basic lemmas about the association-list primitives -/

@[simp]
theorem lookupA_nil {κ α : Type} [DecidableEq κ] (k : κ) :
    lookupA ([] : List (κ × α)) k = none := rfl

@[simp]
theorem lookupA_cons {κ α : Type} [DecidableEq κ] (k key : κ) (v : α)
    (rest : List (κ × α)) :
    lookupA ((k, v) :: rest) key =
      if k = key then some v else lookupA rest key := rfl

theorem lookupA_mem {κ α : Type} [DecidableEq κ] {l : List (κ × α)} {k : κ}
    {v : α} (h : lookupA l k = some v) : (k, v) ∈ l := by
  induction l with
  | nil => simp at h
  | cons p rest ih =>
      obtain ⟨k', v'⟩ := p
      by_cases hk : k' = k
      · subst hk
        simp at h
        simp [h]
      · simp [hk] at h
        exact List.mem_cons_of_mem _ (ih h)

theorem lookupA_isSome_of_mem {κ α : Type} [DecidableEq κ]
    {l : List (κ × α)} {p : κ × α} (h : p ∈ l) :
    (lookupA l p.1).isSome = true := by
  induction l with
  | nil => simp at h
  | cons q rest ih =>
      obtain ⟨k', v'⟩ := q
      rcases List.mem_cons.mp h with h | h
      · subst h
        simp
      · by_cases hk : k' = p.1 <;> simp [hk, ih h]

/-! ### C6: signature compatibility -/

/-- C6: `CallSignature.can_call target` holds exactly when the parameter
and return lists have equal lengths, each call parameter type `is` the
corresponding target parameter type, and each target return type `is`
the corresponding call return type. -/
theorem C6_can_call_iff (c : CallSignature) (target : Signature) :
    c.can_call target = true ↔
      (c.params.length = target.params.length ∧
       c.returns.length = target.returns.length ∧
       (∀ i, i < c.params.length →
          Ty.is (c.params.getD i Ty.Unit) (target.params.getD i Ty.Unit) = true) ∧
       (∀ i, i < c.returns.length →
          Ty.is (target.returns.getD i Ty.Unit) (c.returns.getD i Ty.Unit) = true)) := by
  unfold CallSignature.can_call
  simp only [Bool.and_eq_true, beq_iff_eq, List.all_eq_true, List.forall_mem_enum,
    and_assoc]
  constructor
  · rintro ⟨hp, hr, hps, hrs⟩
    refine ⟨hp, hr, ?_, ?_⟩
    · intro i hi
      have := hps i hi
      simpa [List.getD_eq_getElem?_getD, List.getElem?_eq_getElem hi] using this
    · intro i hi
      have := hrs i hi
      simpa [List.getD_eq_getElem?_getD, List.getElem?_eq_getElem hi] using this
  · rintro ⟨hp, hr, hps, hrs⟩
    refine ⟨hp, hr, ?_, ?_⟩
    · intro i hi
      have := hps i hi
      simpa [List.getD_eq_getElem?_getD, List.getElem?_eq_getElem hi] using this
    · intro i hi
      have := hrs i hi
      simpa [List.getD_eq_getElem?_getD, List.getElem?_eq_getElem hi] using this

/-! ### C8: common_signature -/

theorem common_types_eq (castTo : Ty → Ty → Option Ty)
    (types_a types_b : List Ty) :
    common_types castTo types_a types_b =
      (types_a.zip types_b).mapM (fun p =>
        match unifyTy castTo p with
        | some t => Except.ok t
        | none => Except.error "ICE: Failed to find common types") := rfl

theorem mapM_eq_mapME {α β : Type} (f : α → Except String β) (l : List α) :
    l.mapM f = mapME f l := by
  induction l with
  | nil => rfl
  | cons a l ih =>
      rw [List.mapM_cons, ih]
      rfl

theorem mapME_ok_iff {α β : Type} (f : α → Except String β) (l : List α) :
    (mapME f l).isOk = true ↔ ∀ a ∈ l, (f a).isOk = true := by
  induction l with
  | nil => simp [mapME, Except.isOk, Except.toBool]
  | cons a l ih =>
      cases hfa : f a with
      | error e => simp [mapME, hfa, Except.isOk, Except.toBool, Bind.bind, Except.bind]
      | ok b =>
          cases hrest : mapME f l with
          | error e =>
              simp only [mapME, hfa, Bind.bind, Except.bind, hrest]
              constructor
              · intro h
                simp [Except.isOk, Except.toBool] at h
              · intro h
                have := ih.mpr (fun x hx => h x (List.mem_cons_of_mem a hx))
                rw [hrest] at this
                simp [Except.isOk, Except.toBool] at this
          | ok bs =>
              simp only [mapME, hfa, Bind.bind, Except.bind, hrest]
              constructor
              · intro _ x hx
                rcases List.mem_cons.mp hx with hx | hx
                · subst hx
                  simp [hfa, Except.isOk, Except.toBool]
                · refine ih.mp ?_ x hx
                  simp [hrest, Except.isOk, Except.toBool]
              · intro _
                simp [Except.isOk, Except.toBool, pure, Except.pure]

theorem common_types_eq_mapME (castTo : Ty → Ty → Option Ty)
    (types_a types_b : List Ty) :
    common_types castTo types_a types_b =
      mapME (unifyStep castTo) (types_a.zip types_b) := by
  rw [common_types, mapM_eq_mapME]
  rfl

theorem unifyStep_ok_iff (castTo : Ty → Ty → Option Ty) (p : Ty × Ty) :
    (unifyStep castTo p).isOk = true ↔ (unifyTy castTo p).isSome = true := by
  unfold unifyStep
  cases h : unifyTy castTo p <;> simp [Except.isOk, Except.toBool]

theorem mapME_unify_eq (castTo : Ty → Ty → Option Ty) (l : List (Ty × Ty))
    (ts : List Ty) (h : mapME (unifyStep castTo) l = Except.ok ts) :
    ts = l.map (fun p => (unifyTy castTo p).getD Ty.Unit) := by
  induction l generalizing ts with
  | nil =>
      simp only [mapME] at h
      cases h
      rfl
  | cons p l ih =>
      cases hu : unifyTy castTo p with
      | none =>
          rw [mapME] at h
          simp [unifyStep, hu, Bind.bind, Except.bind] at h
      | some t =>
          rw [mapME] at h
          simp only [unifyStep, hu, Bind.bind, Except.bind] at h
          cases hrest : mapME (unifyStep castTo) l with
          | error e =>
              rw [hrest] at h
              simp at h
          | ok bs =>
              rw [hrest] at h
              simp only [pure, Except.pure, Except.ok.injEq] at h
              subst h
              simp [hu, ih bs hrest]

theorem common_signature_pair (castTo : Ty → Ty → Option Ty) (a b : Signature) :
    common_signature castTo [a, b] = (do
      let cp ← common_types castTo a.params b.params
      let cr ← common_types castTo a.returns b.returns
      Except.ok ({ params := cp, returns := cr } : Signature)) := by
  cases hcp : common_types castTo a.params b.params <;>
    cases hcr : common_types castTo a.returns b.returns <;>
      simp [common_signature, List.foldlM, Bind.bind, Except.bind, hcp, hcr,
        pure, Except.pure]

/-- C8: `common_signature` aborts on the empty list; for a pair of
signatures it succeeds exactly when every zipped parameter and return
position unifies in one of the two `cast_to` directions, in which case it
returns the position-wise unification; and on longer lists it is the
associative reduction of that pairwise combination. -/
theorem C8_common_signature_spec (castTo : Ty → Ty → Option Ty) :
    (common_signature castTo [] =
      Except.error "ICE: Cannot find common signature of signature list") ∧
    (∀ a b : Signature,
      (common_signature castTo [a, b]).isOk = true ↔
        ((∀ p ∈ a.params.zip b.params, (unifyTy castTo p).isSome = true) ∧
         (∀ p ∈ a.returns.zip b.returns, (unifyTy castTo p).isSome = true))) ∧
    (∀ a b : Signature, ∀ s : Signature,
      common_signature castTo [a, b] = Except.ok s →
        s.params = (a.params.zip b.params).map
          (fun p => (unifyTy castTo p).getD Ty.Unit) ∧
        s.returns = (a.returns.zip b.returns).map
          (fun p => (unifyTy castTo p).getD Ty.Unit)) ∧
    (∀ s0 s1 : Signature, ∀ rest : List Signature,
      common_signature castTo (s0 :: s1 :: rest) =
        (common_signature castTo [s0, s1]).bind
          (fun s => common_signature castTo (s :: rest))) := by
  refine ⟨rfl, ?_, ?_, ?_⟩
  · intro a b
    rw [common_signature_pair]
    rw [common_types_eq_mapME, common_types_eq_mapME]
    cases hcp : mapME (unifyStep castTo) (a.params.zip b.params) with
    | error e =>
        simp only [Bind.bind, Except.bind]
        constructor
        · intro h
          simp [Except.isOk, Except.toBool] at h
        · intro h
          have := (mapME_ok_iff (unifyStep castTo) (a.params.zip b.params)).mpr
            (fun p hp => (unifyStep_ok_iff castTo p).mpr (h.1 p hp))
          rw [hcp] at this
          simp [Except.isOk, Except.toBool] at this
    | ok cp =>
        cases hcr : mapME (unifyStep castTo) (a.returns.zip b.returns) with
        | error e =>
            simp only [Bind.bind, Except.bind]
            constructor
            · intro h
              simp [Except.isOk, Except.toBool] at h
            · intro h
              have := (mapME_ok_iff (unifyStep castTo) (a.returns.zip b.returns)).mpr
                (fun p hp => (unifyStep_ok_iff castTo p).mpr (h.2 p hp))
              rw [hcr] at this
              simp [Except.isOk, Except.toBool] at this
        | ok cr =>
            simp only [Bind.bind, Except.bind]
            constructor
            · intro _
              constructor
              · intro p hp
                refine (unifyStep_ok_iff castTo p).mp ?_
                refine (mapME_ok_iff (unifyStep castTo) _).mp ?_ p hp
                simp [hcp, Except.isOk, Except.toBool]
              · intro p hp
                refine (unifyStep_ok_iff castTo p).mp ?_
                refine (mapME_ok_iff (unifyStep castTo) _).mp ?_ p hp
                simp [hcr, Except.isOk, Except.toBool]
            · intro _
              simp [Except.isOk, Except.toBool, pure, Except.pure]
  · intro a b s h
    rw [common_signature_pair, common_types_eq_mapME, common_types_eq_mapME] at h
    cases hcp : mapME (unifyStep castTo) (a.params.zip b.params) with
    | error e =>
        rw [hcp] at h
        simp [Bind.bind, Except.bind] at h
    | ok cp =>
        rw [hcp] at h
        cases hcr : mapME (unifyStep castTo) (a.returns.zip b.returns) with
        | error e =>
            rw [hcr] at h
            simp [Bind.bind, Except.bind] at h
        | ok cr =>
            rw [hcr] at h
            simp only [Bind.bind, Except.bind, pure, Except.pure,
              Except.ok.injEq] at h
            subst h
            exact ⟨mapME_unify_eq castTo _ cp hcp,
                   mapME_unify_eq castTo _ cr hcr⟩
  · intro s0 s1 rest
    have hl : common_signature castTo (s0 :: s1 :: rest) =
        (common_signature castTo [s0, s1]).bind
          (fun s => rest.foldlM (fun signature_a signature_b => do
            let common_params ← common_types castTo signature_a.params
              signature_b.params
            let common_returns ← common_types castTo signature_a.returns
              signature_b.returns
            Except.ok { params := common_params, returns := common_returns })
            s) := by
      rw [common_signature_pair]
      cases hcp : common_types castTo s0.params s1.params with
      | error e =>
          simp [common_signature, List.foldlM, Bind.bind, Except.bind, hcp]
      | ok cp =>
          cases hcr : common_types castTo s0.returns s1.returns with
          | error e =>
              simp [common_signature, List.foldlM, Bind.bind, Except.bind,
                hcp, hcr]
          | ok cr =>
              simp [common_signature, List.foldlM, Bind.bind, Except.bind,
                hcp, hcr, pure, Except.pure]
    rw [hl]
    rfl

/-- Witness for C8: the empty list aborts, and the concrete pair of equal
signatures reduces to the position-wise unification. -/
theorem C8_common_signature_witness :
    (common_signature tyCastTo [] =
      Except.error "ICE: Cannot find common signature of signature list") ∧
    (({ params := [Ty.field], returns := [Ty.bool] } : Signature).params =
      ([Ty.field].zip [Ty.field]).map
        (fun p => (unifyTy tyCastTo p).getD Ty.Unit) ∧
     ({ params := [Ty.field], returns := [Ty.bool] } : Signature).returns =
      ([Ty.bool].zip [Ty.bool]).map
        (fun p => (unifyTy tyCastTo p).getD Ty.Unit)) :=
  ⟨(C8_common_signature_spec tyCastTo).1,
   (C8_common_signature_spec tyCastTo).2.2.1
     { params := [Ty.field], returns := [Ty.bool] }
     { params := [Ty.field], returns := [Ty.bool] }
     { params := [Ty.field], returns := [Ty.bool] } (by decide)⟩

/-! ### Lemmas about grouping and target collection (C2, C10) -/

theorem insertGroup_forall {P : FunctionId → Signature → Prop}
    (m : List (Signature × List FunctionId)) (s : Signature) (fid : FunctionId)
    (hm : ∀ p ∈ m, ∀ g ∈ p.2, P g p.1) (hf : P fid s) :
    ∀ p ∈ insertGroup m s fid, ∀ g ∈ p.2, P g p.1 := by
  induction m with
  | nil =>
      intro p hp g hg
      simp [insertGroup] at hp
      subst hp
      simp at hg
      subst hg
      exact hf
  | cons q rest ih =>
      obtain ⟨s', fs⟩ := q
      intro p hp g hg
      by_cases hs : s' = s
      · subst hs
        simp only [insertGroup, if_pos rfl] at hp
        rcases List.mem_cons.mp hp with hp | hp
        · subst hp
          rcases List.mem_append.mp hg with hg | hg
          · exact hm (s', fs) (List.mem_cons_self _ _) g hg
          · simp at hg
            subst hg
            exact hf
        · exact hm p (List.mem_cons_of_mem _ hp) g hg
      · simp only [insertGroup, if_neg hs] at hp
        rcases List.mem_cons.mp hp with hp | hp
        · subst hp
          exact hm (s', fs) (List.mem_cons_self _ _) g hg
        · exact ih (fun q hq => hm q (List.mem_cons_of_mem _ hq)) p hp g hg

theorem groupFold_forall {P : FunctionId → Signature → Prop} (ssa : Ssa)
    (hP : ∀ fid f, lookupA ssa.functions fid = some f →
      P fid (signatureFromFunction f)) :
    ∀ (l : List FunctionId) (m m' : List (Signature × List FunctionId)),
      l.foldlM (groupStep ssa) m = Except.ok m' →
      (∀ p ∈ m, ∀ g ∈ p.2, P g p.1) →
      ∀ p ∈ m', ∀ g ∈ p.2, P g p.1 := by
  intro l
  induction l with
  | nil =>
      intro m m' h hm
      simp only [List.foldlM, pure, Except.pure, Except.ok.injEq] at h
      subst h
      exact hm
  | cons fid rest ih =>
      intro m m' h hm
      rw [List.foldlM] at h
      cases hstep : groupStep ssa m fid with
      | error e =>
          rw [hstep] at h
          simp [Bind.bind, Except.bind] at h
      | ok m1 =>
          rw [hstep] at h
          simp only [Bind.bind, Except.bind] at h
          refine ih m1 m' h ?_
          unfold groupStep at hstep
          cases hl : lookupA ssa.functions fid with
          | none =>
              rw [hl] at hstep
              simp at hstep
          | some f =>
              rw [hl] at hstep
              simp only [Except.ok.injEq] at hstep
              subst hstep
              exact insertGroup_forall m _ fid hm (hP fid f hl)

theorem collectTargets_mem (ds : CallSignature)
    (m : List (Signature × List FunctionId)) (g : FunctionId)
    (h : g ∈ collectTargets ds m) :
    ∃ p ∈ m, ds.can_call p.1 = true ∧ g ∈ p.2 := by
  have aux : ∀ (mm : List (Signature × List FunctionId)) (acc : List FunctionId),
      g ∈ mm.foldl (fun target_fns p =>
        if ds.can_call p.1 then target_fns ++ p.2 else target_fns) acc →
      g ∈ acc ∨ ∃ p ∈ mm, ds.can_call p.1 = true ∧ g ∈ p.2 := by
    intro mm
    induction mm with
    | nil =>
        intro acc h
        exact Or.inl h
    | cons q rest ih =>
        intro acc h
        rw [List.foldl_cons] at h
        by_cases hc : ds.can_call q.1 = true
        · rw [if_pos hc] at h
          rcases ih (acc ++ q.2) h with h | h
          · rcases List.mem_append.mp h with h | h
            · exact Or.inl h
            · exact Or.inr ⟨q, List.mem_cons_self _ _, hc, h⟩
          · obtain ⟨p, hp, hcc, hg⟩ := h
            exact Or.inr ⟨p, List.mem_cons_of_mem _ hp, hcc, hg⟩
        · rw [if_neg hc] at h
          rcases ih acc h with h | h
          · exact Or.inl h
          · obtain ⟨p, hp, hcc, hg⟩ := h
            exact Or.inr ⟨p, List.mem_cons_of_mem _ hp, hcc, hg⟩
  rcases aux m [] h with h | h
  · simp at h
  · exact h

/-- C2: every callee of every variants-map entry satisfies
`sig.can_call` of its declared signature. -/
theorem C2_find_variants_sound (ssa : Ssa)
    (vs : List (CallSignature × List FunctionId))
    (h : find_variants ssa = Except.ok vs) :
    ∀ p ∈ vs, ∀ g ∈ p.2, ∃ f,
      lookupA ssa.functions g = some f ∧
      p.1.can_call (signatureFromFunction f) = true := by
  unfold find_variants at h
  cases hfold : (functionsAsValues ssa).foldlM (groupStep ssa)
      ([] : List (Signature × List FunctionId)) with
  | error e =>
      rw [hfold] at h
      simp [Bind.bind, Except.bind] at h
  | ok m =>
      rw [hfold] at h
      simp only [Bind.bind, Except.bind, pure, Except.pure, Except.ok.injEq] at h
      subst h
      intro p hp g hg
      obtain ⟨ds, _, rfl⟩ := List.mem_map.mp hp
      obtain ⟨q, hq, hcc, hgq⟩ := collectTargets_mem ds m g hg
      have hsound := groupFold_forall (P := fun g s => ∃ f,
          lookupA ssa.functions g = some f ∧ signatureFromFunction f = s) ssa
        (fun fid f hl => ⟨f, hl, rfl⟩) (functionsAsValues ssa) [] m hfold
        (by intro p hp; simp at hp)
      obtain ⟨f, hlf, hsf⟩ := hsound q hq g hgq
      exact ⟨f, hlf, by rw [hsf]; exact hcc⟩

/-- Witness for C2: the soundness statement instantiated on the first
callee of the demonstration program's single variants entry. -/
theorem C2_find_variants_sound_witness :
    ∃ f, lookupA demoSsa.functions
        ((demoVariants.getD 0 ⟨⟨[], []⟩, []⟩).2.getD 0 0) = some f ∧
      (demoVariants.getD 0 ⟨⟨[], []⟩, []⟩).1.can_call
        (signatureFromFunction f) = true :=
  C2_find_variants_sound demoSsa demoVariants (by decide)
    (demoVariants.getD 0 ⟨⟨[], []⟩, []⟩) (by decide)
    ((demoVariants.getD 0 ⟨⟨[], []⟩, []⟩).2.getD 0 0) (by decide)

/-! ### Nodup structure of the variants map (C10) -/

theorem insertGroup_member_cases (m : List (Signature × List FunctionId))
    (s : Signature) (fid : FunctionId) :
    ∀ p ∈ insertGroup m s fid, ∀ g ∈ p.2,
      (∃ q ∈ m, g ∈ q.2) ∨ g = fid := by
  refine insertGroup_forall (P := fun g _ => (∃ q ∈ m, g ∈ q.2) ∨ g = fid)
    m s fid ?_ (Or.inr rfl)
  intro p hp g hg
  exact Or.inl ⟨p, hp, hg⟩

theorem insertGroup_nodup (m : List (Signature × List FunctionId))
    (s : Signature) (fid : FunctionId)
    (h1 : ∀ p ∈ m, p.2.Nodup)
    (h2 : m.Pairwise (fun p q => ∀ g, g ∈ p.2 → g ∉ q.2))
    (hfresh : ∀ p ∈ m, fid ∉ p.2) :
    (∀ p ∈ insertGroup m s fid, p.2.Nodup) ∧
    (insertGroup m s fid).Pairwise (fun p q => ∀ g, g ∈ p.2 → g ∉ q.2) := by
  induction m with
  | nil =>
      constructor
      · intro p hp
        simp [insertGroup] at hp
        subst hp
        simp
      · simp [insertGroup]
  | cons q rest ih =>
      obtain ⟨s', fs⟩ := q
      rcases List.pairwise_cons.mp h2 with ⟨hqrest, hrest⟩
      by_cases hs : s' = s
      · simp only [insertGroup, if_pos hs]
        constructor
        · intro p hp
          rcases List.mem_cons.mp hp with hp | hp
          · subst hp
            simp only
            rw [List.nodup_append]
            refine ⟨h1 (s', fs) (List.mem_cons_self _ _),
              List.nodup_singleton _, ?_⟩
            intro g hg hg'
            simp at hg'
            subst hg'
            exact hfresh (s', fs) (List.mem_cons_self _ _) hg
          · exact h1 p (List.mem_cons_of_mem _ hp)
        · rw [List.pairwise_cons]
          refine ⟨?_, hrest⟩
          intro q hq g hg
          rcases List.mem_append.mp hg with hg | hg
          · exact hqrest q hq g hg
          · simp at hg
            subst hg
            intro hmem
            exact hfresh q (List.mem_cons_of_mem _ hq) hmem
      · simp only [insertGroup, if_neg hs]
        have ihres := ih (fun p hp => h1 p (List.mem_cons_of_mem _ hp)) hrest
          (fun p hp => hfresh p (List.mem_cons_of_mem _ hp))
        constructor
        · intro p hp
          rcases List.mem_cons.mp hp with hp | hp
          · subst hp
            exact h1 (s', fs) (List.mem_cons_self _ _)
          · exact ihres.1 p hp
        · rw [List.pairwise_cons]
          refine ⟨?_, ihres.2⟩
          intro q hq g hg hgq
          rcases insertGroup_member_cases rest s fid q hq g hgq with
            ⟨r, hr, hgr⟩ | rfl
          · exact hqrest r hr g hg hgr
          · exact hfresh (s', fs) (List.mem_cons_self _ _) hg

theorem groupFold_nodup (ssa : Ssa) :
    ∀ (l : List FunctionId) (m m' : List (Signature × List FunctionId)),
      l.foldlM (groupStep ssa) m = Except.ok m' →
      l.Nodup →
      (∀ p ∈ m, p.2.Nodup) →
      m.Pairwise (fun p q => ∀ g, g ∈ p.2 → g ∉ q.2) →
      (∀ p ∈ m, ∀ g ∈ p.2, g ∉ l) →
      (∀ p ∈ m', p.2.Nodup) ∧
      m'.Pairwise (fun p q => ∀ g, g ∈ p.2 → g ∉ q.2) := by
  intro l
  induction l with
  | nil =>
      intro m m' h _ h1 h2 _
      simp only [List.foldlM, pure, Except.pure, Except.ok.injEq] at h
      subst h
      exact ⟨h1, h2⟩
  | cons fid rest ih =>
      intro m m' h hnodup h1 h2 hcross
      rw [List.foldlM] at h
      cases hstep : groupStep ssa m fid with
      | error e =>
          rw [hstep] at h
          simp [Bind.bind, Except.bind] at h
      | ok m1 =>
          rw [hstep] at h
          simp only [Bind.bind, Except.bind] at h
          unfold groupStep at hstep
          cases hl : lookupA ssa.functions fid with
          | none =>
              rw [hl] at hstep
              simp at hstep
          | some f =>
              rw [hl] at hstep
              simp only [Except.ok.injEq] at hstep
              subst hstep
              have hfresh : ∀ p ∈ m, fid ∉ p.2 := by
                intro p hp hmem
                exact hcross p hp fid hmem (List.mem_cons_self _ _)
              have hins := insertGroup_nodup m (signatureFromFunction f) fid
                h1 h2 hfresh
              refine ih _ m' h (List.nodup_cons.mp hnodup).2 hins.1 hins.2 ?_
              intro p hp g hg hgrest
              rcases insertGroup_member_cases m (signatureFromFunction f)
                  fid p hp g hg with ⟨q, hq, hgq⟩ | rfl
              · exact hcross q hq g hgq (List.mem_cons_of_mem _ hgrest)
              · exact (List.nodup_cons.mp hnodup).1 hgrest

theorem collectTargets_nodup (ds : CallSignature)
    (m : List (Signature × List FunctionId))
    (h1 : ∀ p ∈ m, p.2.Nodup)
    (h2 : m.Pairwise (fun p q => ∀ g, g ∈ p.2 → g ∉ q.2)) :
    (collectTargets ds m).Nodup := by
  have aux : ∀ (mm : List (Signature × List FunctionId)) (acc : List FunctionId),
      (∀ p ∈ mm, p.2.Nodup) →
      mm.Pairwise (fun p q => ∀ g, g ∈ p.2 → g ∉ q.2) →
      acc.Nodup →
      (∀ g ∈ acc, ∀ p ∈ mm, g ∉ p.2) →
      (mm.foldl (fun target_fns p =>
        if ds.can_call p.1 then target_fns ++ p.2 else target_fns) acc).Nodup := by
    intro mm
    induction mm with
    | nil =>
        intro acc _ _ hacc _
        exact hacc
    | cons q rest ih =>
        intro acc h1 h2 hacc hcross
        rw [List.foldl_cons]
        rcases List.pairwise_cons.mp h2 with ⟨hqrest, hrest⟩
        by_cases hc : ds.can_call q.1 = true
        · rw [if_pos hc]
          refine ih _ (fun p hp => h1 p (List.mem_cons_of_mem _ hp)) hrest ?_ ?_
          · rw [List.nodup_append]
            refine ⟨hacc, h1 q (List.mem_cons_self _ _), ?_⟩
            intro g hg
            exact hcross g hg q (List.mem_cons_self _ _)
          · intro g hg p hp
            rcases List.mem_append.mp hg with hg | hg
            · exact hcross g hg p (List.mem_cons_of_mem _ hp)
            · exact fun hmem => hqrest p hp g hg hmem
        · rw [if_neg hc]
          refine ih _ (fun p hp => h1 p (List.mem_cons_of_mem _ hp)) hrest hacc ?_
          intro g hg p hp
          exact hcross g hg p (List.mem_cons_of_mem _ hp)
  refine aux m [] h1 h2 (List.nodup_nil) ?_
  intro g hg
  simp at hg

/-- C10: in the variants map every callee list is free of duplicate
function ids, so the synthesized dispatch emits one equality test and one
call branch per distinct callee. -/
theorem C10_find_variants_callees_nodup (ssa : Ssa)
    (vs : List (CallSignature × List FunctionId))
    (h : find_variants ssa = Except.ok vs) :
    ∀ p ∈ vs, p.2.Nodup := by
  unfold find_variants at h
  cases hfold : (functionsAsValues ssa).foldlM (groupStep ssa)
      ([] : List (Signature × List FunctionId)) with
  | error e =>
      rw [hfold] at h
      simp [Bind.bind, Except.bind] at h
  | ok m =>
      rw [hfold] at h
      simp only [Bind.bind, Except.bind, pure, Except.pure, Except.ok.injEq] at h
      subst h
      intro p hp
      obtain ⟨ds, _, rfl⟩ := List.mem_map.mp hp
      have hnodups := groupFold_nodup ssa (functionsAsValues ssa) [] m hfold
        (by unfold functionsAsValues; exact List.nodup_dedup _)
        (by intro p hp; simp at hp) (by simp)
        (by intro p hp; simp at hp)
      exact collectTargets_nodup ds m hnodups.1 hnodups.2

/-- Witness for C10: duplicate-freedom of the callee list of the
demonstration program's single variants entry. -/
theorem C10_find_variants_callees_nodup_witness :
    (demoVariants.getD 0 ⟨⟨[], []⟩, []⟩).2.Nodup :=
  C10_find_variants_callees_nodup demoSsa demoVariants (by decide)
    (demoVariants.getD 0 ⟨⟨[], []⟩, []⟩) (by decide)

/-! ### Generic fold lemmas over `Except` -/

theorem foldlME_inv {σ τ : Type} (step : σ → τ → Except String σ)
    (Inv : σ → Prop)
    (hstep : ∀ s x s', Inv s → step s x = Except.ok s' → Inv s') :
    ∀ (l : List τ) (s s' : σ), l.foldlM step s = Except.ok s' → Inv s →
      Inv s' := by
  intro l
  induction l with
  | nil =>
      intro s s' h hs
      simp only [List.foldlM, pure, Except.pure, Except.ok.injEq] at h
      subst h
      exact hs
  | cons x rest ih =>
      intro s s' h hs
      rw [List.foldlM] at h
      cases hx : step s x with
      | error e =>
          rw [hx] at h
          simp [Bind.bind, Except.bind] at h
      | ok s1 =>
          rw [hx] at h
          simp only [Bind.bind, Except.bind] at h
          exact ih s1 s' h (hstep s x s1 hs hx)

theorem foldlME_append {σ τ : Type} (step : σ → τ → Except String σ)
    (l1 l2 : List τ) (s : σ) :
    (l1 ++ l2).foldlM step s =
      (l1.foldlM step s).bind (fun s1 => l2.foldlM step s1) := by
  induction l1 generalizing s with
  | nil =>
      simp only [List.nil_append, List.foldlM, pure, Except.pure]
      rfl
  | cons x rest ih =>
      rw [List.cons_append, List.foldlM, List.foldlM]
      cases hx : step s x with
      | error e => simp [Bind.bind, Except.bind]
      | ok s1 =>
          simp only [Bind.bind, Except.bind]
          exact ih s1

theorem foldlME_decompose {σ τ : Type} (step : σ → τ → Except String σ)
    (l1 l2 : List τ) (x : τ) (s s' : σ)
    (h : (l1 ++ x :: l2).foldlM step s = Except.ok s') :
    ∃ s1 s2, l1.foldlM step s = Except.ok s1 ∧ step s1 x = Except.ok s2 ∧
      l2.foldlM step s2 = Except.ok s' := by
  rw [foldlME_append] at h
  cases h1 : l1.foldlM step s with
  | error e =>
      rw [h1] at h
      simp [Except.bind] at h
  | ok s1 =>
      rw [h1] at h
      simp only [Except.bind] at h
      rw [List.foldlM] at h
      cases h2 : step s1 x with
      | error e =>
          rw [h2] at h
          simp [Bind.bind, Except.bind] at h
      | ok s2 =>
          rw [h2] at h
          simp only [Bind.bind, Except.bind] at h
          exact ⟨s1, s2, rfl, h2, h⟩

/-! ### The call-site rewrite (C3) -/

theorem rewriteInstruction_cases (ctx : DefunctionalizationContext)
    (s s' : RewriteState) (j : InstructionId)
    (h : rewriteInstruction ctx s j = Except.ok s') :
    s' = s ∨
    (∃ t as g, lookupA s.1.dfg.instructions j = some (Instruction.Call t as) ∧
      lookupA s.1.dfg.values t = some (Value.Function g) ∧
      s' = (s.1, t :: s.2)) ∨
    (∃ t as af, lookupA s.1.dfg.instructions j = some (Instruction.Call t as) ∧
      isDynamicTarget s.1 t = true ∧
      lookupA ctx.apply_functions
        (CallSignature.from_call_params s.1 as (resultsOf s.1 j)) = some af ∧
      s' = ({ s.1 with dfg := { s.1.dfg with
          values := (s.1.dfg.nextValue, Value.Function af.id) :: s.1.dfg.values,
          nextValue := s.1.dfg.nextValue + 1,
          instructions := (j, Instruction.Call s.1.dfg.nextValue
            (if af.dispatches_to_multiple_functions then t :: as else as)) ::
              s.1.dfg.instructions } },
        s.1.dfg.nextValue :: s.2)) := by
  obtain ⟨func, ctv⟩ := s
  unfold rewriteInstruction at h
  dsimp only at h
  cases hinst : lookupA func.dfg.instructions j with
  | none =>
      rw [hinst] at h
      simp only [Except.ok.injEq] at h
      exact Or.inl h.symm
  | some inst =>
      rw [hinst] at h
      cases inst with
      | Call t as =>
          simp only at h
          cases hval : lookupA func.dfg.values t with
          | none =>
              rw [hval] at h
              simp only [Except.ok.injEq] at h
              exact Or.inl h.symm
          | some v =>
              rw [hval] at h
              cases v with
              | Param b i ty =>
                  simp only [DefunctionalizationContext.get_apply_function,
                    Bind.bind, Except.bind] at h
                  cases haf : lookupA ctx.apply_functions
                      (CallSignature.from_call_params func as
                        (resultsOf func j)) with
                  | none =>
                      rw [haf] at h
                      simp at h
                  | some af =>
                      rw [haf] at h
                      simp only [Except.ok.injEq] at h
                      refine Or.inr (Or.inr ⟨t, as, af, rfl, ?_, haf, ?_⟩)
                      · unfold isDynamicTarget
                        rw [hval]
                      · exact h.symm
              | Instruction ii ix ty =>
                  simp only [DefunctionalizationContext.get_apply_function,
                    Bind.bind, Except.bind] at h
                  cases haf : lookupA ctx.apply_functions
                      (CallSignature.from_call_params func as
                        (resultsOf func j)) with
                  | none =>
                      rw [haf] at h
                      simp at h
                  | some af =>
                      rw [haf] at h
                      simp only [Except.ok.injEq] at h
                      refine Or.inr (Or.inr ⟨t, as, af, rfl, ?_, haf, ?_⟩)
                      · unfold isDynamicTarget
                        rw [hval]
                      · exact h.symm
              | Function g =>
                  simp only [Except.ok.injEq] at h
                  exact Or.inr (Or.inl ⟨t, as, g, rfl, hval, h.symm⟩)
              | NumericConstant c ty =>
                  simp only [Except.ok.injEq] at h
                  exact Or.inl h.symm
      | Store a v =>
          simp only [Except.ok.injEq] at h
          exact Or.inl h.symm
      | Binary op l r =>
          simp only [Except.ok.injEq] at h
          exact Or.inl h.symm
      | Constrain c =>
          simp only [Except.ok.injEq] at h
          exact Or.inl h.symm

theorem lookupA_lt_of_keysBelow {f : Function} {v : ValueId} {x : Value}
    (hkb : ValueKeysBelow f) (h : lookupA f.dfg.values v = some x) :
    v < f.dfg.nextValue :=
  hkb (v, x) (lookupA_mem h)

theorem from_call_params_pres (func0 f : Function) (args results : List ValueId)
    (hv : ∀ v, v < func0.dfg.nextValue →
      lookupA f.dfg.values v = lookupA func0.dfg.values v)
    (hargs : ∀ a ∈ args, a < func0.dfg.nextValue)
    (hres : ∀ r ∈ results, r < func0.dfg.nextValue) :
    CallSignature.from_call_params f args results =
      CallSignature.from_call_params func0 args results := by
  unfold CallSignature.from_call_params
  congr 1
  · refine List.map_congr_left ?_
    intro a ha
    unfold typeOfValue
    rw [hv a (hargs a ha)]
  · refine List.map_congr_left ?_
    intro r hr
    unfold typeOfValue
    rw [hv r (hres r hr)]

theorem rewriteStep_pres (ctx : DefunctionalizationContext) (func0 : Function)
    (s s' : RewriteState) (j : InstructionId)
    (hP : RewritePres func0 s.1)
    (h : rewriteInstruction ctx s j = Except.ok s') :
    RewritePres func0 s'.1 ∧ ∀ x ∈ s.2, x ∈ s'.2 := by
  rcases rewriteInstruction_cases ctx s s' j h with rfl |
    ⟨t, as, g, hi, hv, rfl⟩ | ⟨t, as, af, hi, hd, haf, rfl⟩
  · exact ⟨hP, fun x hx => hx⟩
  · exact ⟨hP, fun x hx => List.mem_cons_of_mem _ hx⟩
  · obtain ⟨hname, hid, hrt, hentry, hblocks, hresults, hni, hnb, hle, hkb,
      hlow, hhigh⟩ := hP
    refine ⟨⟨hname, hid, hrt, hentry, hblocks, hresults, hni, hnb, ?_, ?_,
      ?_, ?_⟩, fun x hx => List.mem_cons_of_mem _ hx⟩
    · exact Nat.le_succ_of_le hle
    · intro p hp
      rcases List.mem_cons.mp hp with hp | hp
      · subst hp
        exact Nat.lt_succ_self _
      · exact Nat.lt_succ_of_lt (hkb p hp)
    · intro v hvlt
      have hne : s.1.dfg.nextValue ≠ v := by
        intro hcontra
        subst hcontra
        exact absurd hvlt (Nat.not_lt.mpr hle)
      simp only [lookupA_cons, if_neg hne]
      exact hlow v hvlt
    · intro v hvge
      by_cases hve : s.1.dfg.nextValue = v
      · subst hve
        simp only [lookupA_cons, if_pos rfl]
        exact Or.inr ⟨af.id, rfl⟩
      · simp only [lookupA_cons, if_neg hve]
        exact hhigh v hvge

theorem rewriteInstruction_fires (ctx : DefunctionalizationContext)
    (s : RewriteState) (iid : InstructionId) (target : ValueId)
    (args : List ValueId) (af : ApplyFunction)
    (hi : lookupA s.1.dfg.instructions iid =
      some (Instruction.Call target args))
    (hd : isDynamicTarget s.1 target = true)
    (haf : lookupA ctx.apply_functions
      (CallSignature.from_call_params s.1 args (resultsOf s.1 iid)) =
        some af) :
    rewriteInstruction ctx s iid = Except.ok
      ({ s.1 with dfg := { s.1.dfg with
          values := (s.1.dfg.nextValue, Value.Function af.id) :: s.1.dfg.values,
          nextValue := s.1.dfg.nextValue + 1,
          instructions := (iid, Instruction.Call s.1.dfg.nextValue
            (if af.dispatches_to_multiple_functions then target :: args
             else args)) :: s.1.dfg.instructions } },
        s.1.dfg.nextValue :: s.2) := by
  obtain ⟨func, ctv⟩ := s
  unfold rewriteInstruction
  dsimp only
  simp only at hi hd haf
  rw [hi]
  dsimp only
  unfold isDynamicTarget at hd
  cases hval : lookupA func.dfg.values target with
  | none =>
      rw [hval] at hd
      simp at hd
  | some v =>
      rw [hval] at hd
      cases v with
      | Param b i ty =>
          dsimp only
          simp only [DefunctionalizationContext.get_apply_function,
            Bind.bind, Except.bind, haf]
          rfl
      | Instruction ii ix ty =>
          dsimp only
          simp only [DefunctionalizationContext.get_apply_function,
            Bind.bind, Except.bind, haf]
          rfl
      | Function g => simp at hd
      | NumericConstant c ty => simp at hd

theorem rewriteStep_site (ctx : DefunctionalizationContext) (func0 : Function)
    (iid : InstructionId) (target : ValueId) (args : List ValueId)
    (afS : ApplyFunction)
    (hafS : lookupA ctx.apply_functions
      (CallSignature.from_call_params func0 args (resultsOf func0 iid)) =
        some afS)
    (htb : target < func0.dfg.nextValue)
    (hargsb : ∀ a ∈ args, a < func0.dfg.nextValue)
    (hresb : ∀ r ∈ resultsOf func0 iid, r < func0.dfg.nextValue)
    (hdyn0 : isDynamicTarget func0 target = true)
    (s s' : RewriteState) (j : InstructionId)
    (hP : RewritePres func0 s.1)
    (hsite : siteState iid target args afS s)
    (h : rewriteInstruction ctx s j = Except.ok s') :
    siteState iid target args afS s' ∧
    (j = iid → siteRewritten iid target args afS s') := by
  obtain ⟨hname, hid, hrt, hentry, hblocks, hresults, hni, hnb, hle, hkb,
    hlow, hhigh⟩ := hP
  have hresOf : resultsOf s.1 iid = resultsOf func0 iid := by
    unfold resultsOf
    rw [hresults]
  have hdyn_s : isDynamicTarget s.1 target = true := by
    unfold isDynamicTarget
    rw [hlow target htb]
    unfold isDynamicTarget at hdyn0
    exact hdyn0
  have hsig : lookupA ctx.apply_functions
      (CallSignature.from_call_params s.1 args (resultsOf s.1 iid)) =
        some afS := by
    rw [hresOf, from_call_params_pres func0 s.1 args (resultsOf func0 iid)
      hlow hargsb hresb]
    exact hafS
  rcases hsite with horigS | ⟨applyVid, hbi, hbv, hbm⟩
  · by_cases hj : j = iid
    · subst hj
      have hfire := rewriteInstruction_fires ctx s j target args afS horigS
        hdyn_s hsig
      rw [h] at hfire
      have hs' := (Except.ok.injEq _ _).mp hfire.symm
      subst hs'
      have hB : siteRewritten j target args afS
          ({ s.1 with dfg := { s.1.dfg with
              values := (s.1.dfg.nextValue, Value.Function afS.id) ::
                s.1.dfg.values,
              nextValue := s.1.dfg.nextValue + 1,
              instructions := (j, Instruction.Call s.1.dfg.nextValue
                (if afS.dispatches_to_multiple_functions then target :: args
                 else args)) :: s.1.dfg.instructions } },
            s.1.dfg.nextValue :: s.2) := by
        refine ⟨s.1.dfg.nextValue, ?_, ?_, ?_⟩
        · simp
        · simp
        · exact List.mem_cons_self _ _
      exact ⟨Or.inr hB, fun _ => hB⟩
    · rcases rewriteInstruction_cases ctx s s' j h with rfl |
        ⟨t, as, g, hi3, hv3, rfl⟩ | ⟨t, as, af3, hi3, hd3, haf3, rfl⟩
      · exact ⟨Or.inl horigS, fun hji => absurd hji hj⟩
      · exact ⟨Or.inl horigS, fun hji => absurd hji hj⟩
      · refine ⟨Or.inl ?_, fun hji => absurd hji hj⟩
        simp only [lookupA_cons, if_neg hj]
        exact horigS
  · have hlt : applyVid < s.1.dfg.nextValue := lookupA_lt_of_keysBelow
      (by exact hkb) hbv
    rcases rewriteInstruction_cases ctx s s' j h with rfl |
      ⟨t, as, g, hi3, hv3, rfl⟩ | ⟨t, as, af3, hi3, hd3, haf3, rfl⟩
    · exact ⟨Or.inr ⟨applyVid, hbi, hbv, hbm⟩,
        fun _ => ⟨applyVid, hbi, hbv, hbm⟩⟩
    · have hB : siteRewritten iid target args afS (s.1, t :: s.2) :=
        ⟨applyVid, hbi, hbv, List.mem_cons_of_mem _ hbm⟩
      exact ⟨Or.inr hB, fun _ => hB⟩
    · by_cases hj : j = iid
      · subst hj
        rw [hbi] at hi3
        have ht : t = applyVid := by
          have := (Option.some.injEq _ _).mp hi3
          cases this
          rfl
        subst ht
        unfold isDynamicTarget at hd3
        rw [hbv] at hd3
        simp at hd3
      · have hB : siteRewritten iid target args afS
            ({ s.1 with dfg := { s.1.dfg with
                values := (s.1.dfg.nextValue, Value.Function af3.id) ::
                  s.1.dfg.values,
                nextValue := s.1.dfg.nextValue + 1,
                instructions := (j, Instruction.Call s.1.dfg.nextValue
                  (if af3.dispatches_to_multiple_functions then t :: as
                   else as)) :: s.1.dfg.instructions } },
              s.1.dfg.nextValue :: s.2) := by
          refine ⟨applyVid, ?_, ?_, List.mem_cons_of_mem _ hbm⟩
          · simp only [lookupA_cons, if_neg hj]
            exact hbi
          · have hne : s.1.dfg.nextValue ≠ applyVid := Nat.ne_of_gt hlt
            simp only [lookupA_cons, if_neg hne]
            exact hbv
        exact ⟨Or.inr hB, fun _ => hB⟩

theorem rewriteStep_siteB (ctx : DefunctionalizationContext)
    (iid : InstructionId) (target : ValueId) (args : List ValueId)
    (afS : ApplyFunction) (s s' : RewriteState) (j : InstructionId)
    (hkb : ValueKeysBelow s.1)
    (hrew : siteRewritten iid target args afS s)
    (h : rewriteInstruction ctx s j = Except.ok s') :
    siteRewritten iid target args afS s' := by
  obtain ⟨applyVid, hbi, hbv, hbm⟩ := hrew
  have hlt : applyVid < s.1.dfg.nextValue := lookupA_lt_of_keysBelow hkb hbv
  rcases rewriteInstruction_cases ctx s s' j h with rfl |
    ⟨t, as, g, hi3, hv3, rfl⟩ | ⟨t, as, af3, hi3, hd3, haf3, rfl⟩
  · exact ⟨applyVid, hbi, hbv, hbm⟩
  · exact ⟨applyVid, hbi, hbv, List.mem_cons_of_mem _ hbm⟩
  · by_cases hj : j = iid
    · subst hj
      rw [hbi] at hi3
      have ht : t = applyVid := by
        have := (Option.some.injEq _ _).mp hi3
        cases this
        rfl
      subst ht
      unfold isDynamicTarget at hd3
      rw [hbv] at hd3
      simp at hd3
    · refine ⟨applyVid, ?_, ?_, List.mem_cons_of_mem _ hbm⟩
      · simp only [lookupA_cons, if_neg hj]
        exact hbi
      · have hne : s.1.dfg.nextValue ≠ applyVid := Nat.ne_of_gt hlt
        simp only [lookupA_cons, if_neg hne]
        exact hbv

theorem rewriteBlock_inv (ctx : DefunctionalizationContext)
    (Inv : RewriteState → Prop)
    (hstep : ∀ s x s', Inv s → rewriteInstruction ctx s x = Except.ok s' →
      Inv s')
    (s s' : RewriteState) (bid : BasicBlockId)
    (h : rewriteBlock ctx s bid = Except.ok s') (hs : Inv s) : Inv s' := by
  unfold rewriteBlock at h
  cases hblk : lookupA s.1.dfg.blocks bid with
  | none =>
      rw [hblk] at h
      simp only [Except.ok.injEq] at h
      subst h
      exact hs
  | some blk =>
      rw [hblk] at h
      exact foldlME_inv _ Inv hstep blk.instructions s s' h hs

theorem lookupA_none_of_ge {α : Type} {l : List (Nat × α)} {n v : Nat}
    (hkb : ∀ p ∈ l, p.1 < n) (hge : n ≤ v) : lookupA l v = none := by
  cases hl : lookupA l v with
  | none => rfl
  | some x =>
      have := hkb (v, x) (lookupA_mem hl)
      omega

theorem rewritePres_refl (func0 : Function) (hwf : ValueKeysBelow func0) :
    RewritePres func0 func0 :=
  ⟨rfl, rfl, rfl, rfl, rfl, rfl, rfl, rfl, Nat.le_refl _, hwf,
   fun _ _ => rfl,
   fun v hv => Or.inl (lookupA_none_of_ge hwf hv)⟩

/-! ### The retyping phase -/

theorem retypeValue_cases (ctv : List ValueId) (func : Function)
    (vid : ValueId) :
    retypeValue ctv func vid = func ∨
    (∃ fid, lookupA func.dfg.values vid = some (Value.Function fid) ∧
      vid ∉ ctv ∧
      retypeValue ctv func vid = { func with dfg := { func.dfg with
        values := (vid, Value.NumericConstant (function_id_to_field fid)
            Ty.field) ::
          (func.dfg.nextValue, Value.NumericConstant (function_id_to_field fid)
            Ty.field) :: func.dfg.values,
        nextValue := func.dfg.nextValue + 1 } }) ∨
    (∃ ii ix, lookupA func.dfg.values vid =
        some (Value.Instruction ii ix Ty.Function) ∧
      retypeValue ctv func vid = { func with dfg := { func.dfg with
        values := (vid, Value.Instruction ii ix Ty.field) ::
          func.dfg.values } }) ∨
    (∃ b i, lookupA func.dfg.values vid =
        some (Value.Param b i Ty.Function) ∧
      retypeValue ctv func vid = { func with dfg := { func.dfg with
        values := (vid, Value.Param b i Ty.field) ::
          func.dfg.values } }) := by
  unfold retypeValue
  cases hval : lookupA func.dfg.values vid with
  | none => exact Or.inl (by trivial)
  | some v =>
      cases v with
      | Function fid =>
          simp only [Value.get_type, reduceIte]
          by_cases hmem : vid ∈ ctv
          · simp only [if_pos hmem]
            exact Or.inl (by trivial)
          · simp only [if_neg hmem]
            refine Or.inr (Or.inl ⟨fid, rfl, hmem, ?_⟩)
            unfold DataFlowGraph.make_constant DataFlowGraph.makeValue
              DataFlowGraph.set_value_from_id
            simp [lookupA_cons]
      | Param b i t =>
          simp only [Value.get_type]
          by_cases ht : t = Ty.Function
          · subst ht
            simp only [reduceIte]
            refine Or.inr (Or.inr (Or.inr ⟨b, i, rfl, ?_⟩))
            unfold DataFlowGraph.set_type_of_value
            rw [hval]
          · simp only [if_neg ht]
            exact Or.inl (by trivial)
      | Instruction ii ix t =>
          simp only [Value.get_type]
          by_cases ht : t = Ty.Function
          · subst ht
            simp only [reduceIte]
            refine Or.inr (Or.inr (Or.inl ⟨ii, ix, rfl, ?_⟩))
            unfold DataFlowGraph.set_type_of_value
            rw [hval]
          · simp only [if_neg ht]
            exact Or.inl (by trivial)
      | NumericConstant c t =>
          simp only [Value.get_type]
          by_cases ht : t = Ty.Function
          · subst ht
            simp only [reduceIte]
            exact Or.inl (by trivial)
          · simp only [if_neg ht]
            exact Or.inl (by trivial)

theorem retypeValue_pres (ctv : List ValueId) (func : Function)
    (vid : ValueId) :
    (retypeValue ctv func vid).dfg.instructions = func.dfg.instructions ∧
    (retypeValue ctv func vid).dfg.results = func.dfg.results ∧
    (retypeValue ctv func vid).dfg.blocks = func.dfg.blocks ∧
    (retypeValue ctv func vid).name = func.name ∧
    (retypeValue ctv func vid).id = func.id ∧
    (retypeValue ctv func vid).runtime = func.runtime ∧
    (retypeValue ctv func vid).entryBlock = func.entryBlock ∧
    (retypeValue ctv func vid).dfg.nextInst = func.dfg.nextInst ∧
    (retypeValue ctv func vid).dfg.nextBlock = func.dfg.nextBlock ∧
    func.dfg.nextValue ≤ (retypeValue ctv func vid).dfg.nextValue ∧
    (ValueKeysBelow func → ValueKeysBelow (retypeValue ctv func vid)) ∧
    (∀ w, w ≠ vid → w < func.dfg.nextValue →
      lookupA (retypeValue ctv func vid).dfg.values w =
        lookupA func.dfg.values w) := by
  rcases retypeValue_cases ctv func vid with heq |
    ⟨fid, hval, hmem, heq⟩ | ⟨ii, ix, hval, heq⟩ | ⟨b, i, hval, heq⟩
  · rw [heq]
    exact ⟨rfl, rfl, rfl, rfl, rfl, rfl, rfl, rfl, rfl, Nat.le_refl _,
      fun h => h, fun _ _ _ => rfl⟩
  · rw [heq]
    refine ⟨rfl, rfl, rfl, rfl, rfl, rfl, rfl, rfl, rfl, Nat.le_succ _,
      ?_, ?_⟩
    · intro hkb p hp
      dsimp only [ValueKeysBelow] at hp ⊢
      rcases List.mem_cons.mp hp with hp | hp
      · subst hp
        have h2 : vid < func.dfg.nextValue :=
          hkb (vid, Value.Function fid) (lookupA_mem hval)
        exact Nat.lt_succ_of_lt h2
      · rcases List.mem_cons.mp hp with hp | hp
        · subst hp
          exact Nat.lt_succ_self _
        · exact Nat.lt_succ_of_lt (hkb p hp)
    · intro w hw hwlt
      simp only [lookupA_cons, if_neg (Ne.symm hw),
        if_neg (Nat.ne_of_gt hwlt)]
  · rw [heq]
    refine ⟨rfl, rfl, rfl, rfl, rfl, rfl, rfl, rfl, rfl, Nat.le_refl _,
      ?_, ?_⟩
    · intro hkb p hp
      rcases List.mem_cons.mp hp with hp | hp
      · subst hp
        exact hkb (vid, Value.Instruction ii ix Ty.Function) (lookupA_mem hval)
      · exact hkb p hp
    · intro w hw hwlt
      simp only [lookupA_cons, if_neg (Ne.symm hw)]
  · rw [heq]
    refine ⟨rfl, rfl, rfl, rfl, rfl, rfl, rfl, rfl, rfl, Nat.le_refl _,
      ?_, ?_⟩
    · intro hkb p hp
      rcases List.mem_cons.mp hp with hp | hp
      · subst hp
        exact hkb (vid, Value.Param b i Ty.Function) (lookupA_mem hval)
      · exact hkb p hp
    · intro w hw hwlt
      simp only [lookupA_cons, if_neg (Ne.symm hw)]

theorem retypeValue_ctv_keep (ctv : List ValueId) (func : Function)
    (applyVid : ValueId) (fidA : FunctionId)
    (hv : lookupA func.dfg.values applyVid = some (Value.Function fidA))
    (hmem : applyVid ∈ ctv) :
    retypeValue ctv func applyVid = func := by
  unfold retypeValue
  rw [hv]
  simp [Value.get_type, hmem]

theorem retypeFold_keep (ctv ids : List ValueId) (func : Function)
    (applyVid : ValueId) (fidA : FunctionId)
    (hkb : ValueKeysBelow func) (hmem : applyVid ∈ ctv)
    (hv : lookupA func.dfg.values applyVid = some (Value.Function fidA)) :
    lookupA (ids.foldl (retypeValue ctv) func).dfg.values applyVid =
      some (Value.Function fidA) ∧
    (ids.foldl (retypeValue ctv) func).dfg.instructions =
      func.dfg.instructions ∧
    ValueKeysBelow (ids.foldl (retypeValue ctv) func) := by
  induction ids generalizing func with
  | nil => exact ⟨hv, rfl, hkb⟩
  | cons vid rest ih =>
      rw [List.foldl_cons]
      by_cases hva : vid = applyVid
      · subst hva
        rw [retypeValue_ctv_keep ctv func vid fidA hv hmem]
        exact ih func hkb hv
      · obtain ⟨hinstr, _, _, _, _, _, _, _, _, hle, hkbp, hpres⟩ :=
          retypeValue_pres ctv func vid
        have hlt : applyVid < func.dfg.nextValue :=
          lookupA_lt_of_keysBelow hkb hv
        have hv' : lookupA (retypeValue ctv func vid).dfg.values applyVid =
            some (Value.Function fidA) := by
          rw [hpres applyVid (fun hc => hva hc.symm) hlt]
          exact hv
        have := ih (retypeValue ctv func vid) (hkbp hkb) hv'
        exact ⟨this.1, this.2.1.trans hinstr, this.2.2⟩

/-! ### Singleton entries of `create_apply_functions` -/

theorem applyEntryStep_shape (acc : Ssa × List (CallSignature × ApplyFunction))
    (p : CallSignature × List FunctionId)
    (r : Ssa × List (CallSignature × ApplyFunction))
    (h : applyEntryStep acc p = Except.ok r) :
    ∃ ssa2 af, r = (ssa2, (p.1, af) :: acc.2) := by
  obtain ⟨ssa, am⟩ := acc
  obtain ⟨sig, variants⟩ := p
  unfold applyEntryStep at h
  dsimp only at h
  cases variants with
  | nil => simp at h
  | cons v0 rest =>
      simp only [Bind.bind, Except.bind] at h
      cases hts : (v0 :: rest).mapM (targetSignatureOf ssa) with
      | error e =>
          rw [hts] at h
          simp at h
      | ok tsigs =>
          rw [hts] at h
          dsimp only at h
          cases hcs : common_signature tyCastTo tsigs with
          | error e =>
              rw [hcs] at h
              simp at h
          | ok fsig =>
              rw [hcs] at h
              dsimp only at h
              by_cases hd : decide (1 < (v0 :: rest).length) = true
              · rw [if_pos hd] at h
                cases hcaf : create_apply_function ssa fsig (v0 :: rest) with
                | error e =>
                    rw [hcaf] at h
                    simp at h
                | ok pr =>
                    rw [hcaf] at h
                    simp only [Except.ok.injEq] at h
                    exact ⟨pr.1, _, h.symm⟩
              · rw [if_neg hd] at h
                simp only [Except.ok.injEq] at h
                exact ⟨ssa, _, h.symm⟩

theorem applyEntryStep_singleton
    (acc : Ssa × List (CallSignature × ApplyFunction))
    (sig : CallSignature) (v0 : FunctionId)
    (r : Ssa × List (CallSignature × ApplyFunction))
    (h : applyEntryStep acc (sig, [v0]) = Except.ok r) :
    r = (acc.1,
      (sig, { id := v0, dispatches_to_multiple_functions := false }) ::
        acc.2) := by
  obtain ⟨ssa, am⟩ := acc
  unfold applyEntryStep at h
  dsimp only at h
  simp only [Bind.bind, Except.bind] at h
  cases hts : [v0].mapM (targetSignatureOf ssa) with
  | error e =>
      rw [hts] at h
      simp at h
  | ok tsigs =>
      rw [hts] at h
      rw [mapM_eq_mapME] at hts
      unfold mapME at hts
      cases hl : targetSignatureOf ssa v0 with
      | error e =>
          rw [hl] at hts
          simp [Bind.bind, Except.bind] at hts
      | ok s0 =>
          rw [hl] at hts
          simp only [Bind.bind, Except.bind, mapME, pure, Except.pure,
            Except.ok.injEq] at hts
          subst hts
          dsimp only at h
          have hcs : common_signature tyCastTo [s0] = Except.ok s0 := rfl
          rw [hcs] at h
          dsimp only at h
          have hd : decide (1 < ([v0] : List FunctionId).length) = false := rfl
          rw [hd] at h
          simp only [Bool.false_eq_true, if_false, Except.ok.injEq] at h
          exact h.symm

theorem applyFold_keys (vm : List (CallSignature × List FunctionId)) :
    ∀ (acc r : Ssa × List (CallSignature × ApplyFunction)),
      vm.foldlM applyEntryStep acc = Except.ok r →
      ∀ k, k ∉ vm.map Prod.fst → lookupA r.2 k = lookupA acc.2 k := by
  induction vm with
  | nil =>
      intro acc r h k _
      simp only [List.foldlM, pure, Except.pure, Except.ok.injEq] at h
      subst h
      rfl
  | cons p rest ih =>
      intro acc r h k hk
      rw [List.foldlM] at h
      cases hstep : applyEntryStep acc p with
      | error e =>
          rw [hstep] at h
          simp [Bind.bind, Except.bind] at h
      | ok acc1 =>
          rw [hstep] at h
          simp only [Bind.bind, Except.bind] at h
          obtain ⟨ssa2, af, rfl⟩ := applyEntryStep_shape acc p acc1 hstep
          have hk1 : k ∉ rest.map Prod.fst := by
            intro hc
            exact hk (List.mem_cons_of_mem _ hc)
          have hkp : p.1 ≠ k := by
            intro hc
            exact hk (by rw [List.map_cons, hc]; exact List.mem_cons_self _ _)
          rw [ih _ r h k hk1]
          simp only [lookupA_cons, if_neg hkp]

theorem create_apply_functions_all_singleton
    (vm : List (CallSignature × List FunctionId)) :
    ∀ (acc r : Ssa × List (CallSignature × ApplyFunction)),
      vm.foldlM applyEntryStep acc = Except.ok r →
      (∀ q ∈ vm, ∃ g, q.2 = [g]) → r.1 = acc.1 := by
  induction vm with
  | nil =>
      intro acc r h _
      simp only [List.foldlM, pure, Except.pure, Except.ok.injEq] at h
      subst h
      rfl
  | cons p rest ih =>
      intro acc r h hall
      rw [List.foldlM] at h
      cases hstep : applyEntryStep acc p with
      | error e =>
          rw [hstep] at h
          simp [Bind.bind, Except.bind] at h
      | ok acc1 =>
          rw [hstep] at h
          simp only [Bind.bind, Except.bind] at h
          obtain ⟨g, hg⟩ := hall p (List.mem_cons_self _ _)
          have hps : p = (p.1, [g]) := by
            obtain ⟨p1, p2⟩ := p
            simp only at hg
            rw [hg]
          rw [hps] at hstep
          have := applyEntryStep_singleton acc p.1 g acc1 hstep
          subst this
          have hrec := ih _ r h (fun q hq => hall q (List.mem_cons_of_mem _ hq))
          exact hrec

theorem create_apply_functions_singleton_entry
    (vm : List (CallSignature × List FunctionId)) :
    ∀ (acc r : Ssa × List (CallSignature × ApplyFunction))
      (sig : CallSignature) (f0 : FunctionId),
      vm.foldlM applyEntryStep acc = Except.ok r →
      (sig, [f0]) ∈ vm → (vm.map Prod.fst).Nodup →
      lookupA r.2 sig =
        some { id := f0, dispatches_to_multiple_functions := false } := by
  induction vm with
  | nil =>
      intro acc r sig f0 h hmem _
      simp at hmem
  | cons p rest ih =>
      intro acc r sig f0 h hmem hkeys
      rw [List.foldlM] at h
      cases hstep : applyEntryStep acc p with
      | error e =>
          rw [hstep] at h
          simp [Bind.bind, Except.bind] at h
      | ok acc1 =>
          rw [hstep] at h
          simp only [Bind.bind, Except.bind] at h
          rcases List.mem_cons.mp hmem with hmem | hmem
          · have hps := hmem.symm
            rw [hps] at hstep
            have hacc1 := applyEntryStep_singleton acc sig f0 acc1 hstep
            subst hacc1
            have hknot : sig ∉ rest.map Prod.fst := by
              rw [List.map_cons] at hkeys
              have h2 := (List.nodup_cons.mp hkeys).1
              rw [hps] at h2
              exact h2
            rw [applyFold_keys rest _ r h sig hknot]
            simp [lookupA_cons]
          · refine ih acc1 r sig f0 h hmem ?_
            rw [List.map_cons] at hkeys
            exact (List.nodup_cons.mp hkeys).2

/-- C3: a call whose target resolves to a parameter or instruction result
is rewritten into a direct call to the apply-map entry for its call
signature; when that entry dispatches to multiple functions the original
dynamic target is prepended as first argument, and when the callee set of
a variants entry is a singleton no function is synthesized, the entry
binds the sole callee with `dispatches_to_multiple_functions = false`, so
the rewritten call targets it directly with the argument list unchanged. -/
theorem C3_call_rewrite (ctx : DefunctionalizationContext)
    (func func' : Function) (ctv : List ValueId)
    (bid : BasicBlockId) (blk : BasicBlock) (iid : InstructionId)
    (target : ValueId) (args : List ValueId) (af : ApplyFunction)
    (hwf : ValueKeysBelow func)
    (hreach : bid ∈ reachableBlocks func)
    (hblk : lookupA func.dfg.blocks bid = some blk)
    (hiid : iid ∈ blk.instructions)
    (hinst : lookupA func.dfg.instructions iid =
      some (Instruction.Call target args))
    (hdyn : isDynamicTarget func target = true)
    (haf : lookupA ctx.apply_functions
      (CallSignature.from_call_params func args (resultsOf func iid)) =
        some af)
    (htb : target < func.dfg.nextValue)
    (hargsb : ∀ a ∈ args, a < func.dfg.nextValue)
    (hresb : ∀ r ∈ resultsOf func iid, r < func.dfg.nextValue)
    (hok : defunctionalizeFunction ctx func = Except.ok (func', ctv)) :
    (∃ applyVid,
      lookupA func'.dfg.instructions iid =
        some (Instruction.Call applyVid
          (if af.dispatches_to_multiple_functions then target :: args
           else args)) ∧
      lookupA func'.dfg.values applyVid = some (Value.Function af.id) ∧
      applyVid ∈ ctv) ∧
    (∀ (ssa ssa' : Ssa) (vm : List (CallSignature × List FunctionId))
       (am : List (CallSignature × ApplyFunction)),
      create_apply_functions ssa vm = Except.ok (ssa', am) →
      (∀ q ∈ vm, ∃ g, q.2 = [g]) → ssa' = ssa) ∧
    (∀ (ssa ssa' : Ssa) (vm : List (CallSignature × List FunctionId))
       (am : List (CallSignature × ApplyFunction))
       (sig : CallSignature) (f0 : FunctionId),
      create_apply_functions ssa vm = Except.ok (ssa', am) →
      (sig, [f0]) ∈ vm → (vm.map Prod.fst).Nodup →
      lookupA am sig =
        some { id := f0, dispatches_to_multiple_functions := false }) := by
  refine ⟨?_, ?_, ?_⟩
  · unfold defunctionalizeFunction at hok
    cases hfold : (reachableBlocks func).foldlM (rewriteBlock ctx)
        (func, ([] : List ValueId)) with
    | error e =>
        rw [hfold] at hok
        simp [Bind.bind, Except.bind] at hok
    | ok s1 =>
        rw [hfold] at hok
        simp only [Bind.bind, Except.bind, Except.ok.injEq] at hok
        obtain ⟨f1, ctv1⟩ := s1
        simp only at hok
        have hfunc' : func' = ((f1.dfg.values.map Prod.fst).dedup).foldl
            (retypeValue ctv1) f1 ∧ ctv = ctv1 := by
          constructor
          · exact (congrArg Prod.fst hok).symm
          · exact (congrArg Prod.snd hok).symm
        obtain ⟨hfe, hce⟩ := hfunc'
        -- establish the invariant through phase 1
        obtain ⟨l1, l2, hl⟩ := List.append_of_mem hreach
        rw [hl] at hfold
        obtain ⟨sa, sb, hfold1, hstepb, hfold2⟩ :=
          foldlME_decompose (rewriteBlock ctx) l1 l2 bid _ _ hfold
        have hInv1step : ∀ s x s',
            (RewritePres func s.1 ∧ siteState iid target args af s) →
            rewriteInstruction ctx s x = Except.ok s' →
            (RewritePres func s'.1 ∧ siteState iid target args af s') := by
          intro s x s' hs hstep
          have hp := rewriteStep_pres ctx func s s' x hs.1 hstep
          have hsite := rewriteStep_site ctx func iid target args af haf htb
            hargsb hresb hdyn s s' x hs.1 hs.2 hstep
          exact ⟨hp.1, hsite.1⟩
        have hInv2step : ∀ s x s',
            (RewritePres func s.1 ∧ siteRewritten iid target args af s) →
            rewriteInstruction ctx s x = Except.ok s' →
            (RewritePres func s'.1 ∧ siteRewritten iid target args af s') := by
          intro s x s' hs hstep
          have hp := rewriteStep_pres ctx func s s' x hs.1 hstep
          have hkb : ValueKeysBelow s.1 := hs.1.2.2.2.2.2.2.2.2.2.1
          have hb := rewriteStep_siteB ctx iid target args af s s' x hkb
            hs.2 hstep
          exact ⟨hp.1, hb⟩
        have hInv0 : RewritePres func (func, ([] : List ValueId)).1 ∧
            siteState iid target args af (func, []) :=
          ⟨rewritePres_refl func hwf, Or.inl hinst⟩
        have hInva : RewritePres func sa.1 ∧
            siteState iid target args af sa :=
          foldlME_inv (rewriteBlock ctx) _
            (fun s x s' hs hstep => rewriteBlock_inv ctx _ hInv1step s s' x
              hstep hs) l1 _ sa hfold1 hInv0
        -- the block that contains the tracked call site
        have hblkA : lookupA sa.1.dfg.blocks bid = some blk := by
          rw [hInva.1.2.2.2.2.1]
          exact hblk
        unfold rewriteBlock at hstepb
        rw [hblkA] at hstepb
        dsimp only at hstepb
        obtain ⟨i1, i2, hi⟩ := List.append_of_mem hiid
        rw [hi] at hstepb
        obtain ⟨sc, sd, hfoldi1, hfire, hfoldi2⟩ :=
          foldlME_decompose (rewriteInstruction ctx) i1 i2 iid _ _ hstepb
        have hInvc : RewritePres func sc.1 ∧
            siteState iid target args af sc :=
          foldlME_inv (rewriteInstruction ctx) _ hInv1step i1 _ sc hfoldi1
            hInva
        have hInvd : RewritePres func sd.1 ∧
            siteRewritten iid target args af sd := by
          have hp := rewriteStep_pres ctx func sc sd iid hInvc.1 hfire
          have hsite := rewriteStep_site ctx func iid target args af haf htb
            hargsb hresb hdyn sc sd iid hInvc.1 hInvc.2 hfire
          exact ⟨hp.1, hsite.2 rfl⟩
        have hInvb : RewritePres func sb.1 ∧
            siteRewritten iid target args af sb :=
          foldlME_inv (rewriteInstruction ctx) _ hInv2step i2 _ sb hfoldi2
            hInvd
        have hInv1 : RewritePres func f1 ∧
            siteRewritten iid target args af (f1, ctv1) :=
          foldlME_inv (rewriteBlock ctx) _
            (fun s x s' hs hstep => rewriteBlock_inv ctx _ hInv2step s s' x
              hstep hs) l2 _ (f1, ctv1) hfold2 hInvb
        -- transport through the retyping phase
        obtain ⟨applyVid, hbi, hbv, hbm⟩ := hInv1.2
        have hkb1 : ValueKeysBelow f1 := hInv1.1.2.2.2.2.2.2.2.2.2.1
        have hkeep := retypeFold_keep ctv1
          ((f1.dfg.values.map Prod.fst).dedup) f1 applyVid af.id hkb1 hbm hbv
        refine ⟨applyVid, ?_, ?_, ?_⟩
        · rw [hfe]
          rw [hkeep.2.1]
          exact hbi
        · rw [hfe]
          exact hkeep.1
        · rw [hce]
          exact hbm
  · intro ssa ssa' vm am h hall
    unfold create_apply_functions at h
    exact create_apply_functions_all_singleton vm _ (ssa', am) h hall
  · intro ssa ssa' vm am sig f0 h hmem hkeys
    unfold create_apply_functions at h
    exact create_apply_functions_singleton_entry vm _ (ssa', am) sig f0 h
      hmem hkeys

/-- Witness for C3 on the demonstration caller: the dynamic call is
rewritten to an apply call with the target prepended. -/
theorem C3_call_rewrite_witness :
    (∃ applyVid,
      lookupA demoRewritten.1.dfg.instructions 0 =
        some (Instruction.Call applyVid
          (if ({ id := 4, dispatches_to_multiple_functions := true } :
              ApplyFunction).dispatches_to_multiple_functions then
            (0 : ValueId) :: [1] else [1])) ∧
      lookupA demoRewritten.1.dfg.values applyVid =
        some (Value.Function 4) ∧
      applyVid ∈ demoRewritten.2) ∧
    (∀ (ssa ssa' : Ssa) (vm : List (CallSignature × List FunctionId))
       (am : List (CallSignature × ApplyFunction)),
      create_apply_functions ssa vm = Except.ok (ssa', am) →
      (∀ q ∈ vm, ∃ g, q.2 = [g]) → ssa' = ssa) ∧
    (∀ (ssa ssa' : Ssa) (vm : List (CallSignature × List FunctionId))
       (am : List (CallSignature × ApplyFunction))
       (sig : CallSignature) (f0 : FunctionId),
      create_apply_functions ssa vm = Except.ok (ssa', am) →
      (sig, [f0]) ∈ vm → (vm.map Prod.fst).Nodup →
      lookupA am sig =
        some { id := f0, dispatches_to_multiple_functions := false }) :=
  C3_call_rewrite demoCtx demoCallerFn demoRewritten.1 demoRewritten.2 0
    { parameters := [0, 1], instructions := [0],
      terminator := some (Terminator.Return [2]) } 0 0 [1]
    { id := 4, dispatches_to_multiple_functions := true }
    (by decide) (by decide) (by decide) (by decide) (by decide) (by decide)
    (by decide) (by decide) (by decide) (by decide) (by decide)

/-! ### Per-value behaviour of the retyping phase (C5, C7) -/

theorem retypeValue_slot_function_subst (ctv : List ValueId) (f : Function)
    (vid : ValueId) (fid : FunctionId)
    (hv : lookupA f.dfg.values vid = some (Value.Function fid))
    (hnm : vid ∉ ctv) :
    retypeValue ctv f vid = { f with dfg := { f.dfg with
      values := (vid, Value.NumericConstant (function_id_to_field fid)
          Ty.field) ::
        (f.dfg.nextValue, Value.NumericConstant (function_id_to_field fid)
          Ty.field) :: f.dfg.values,
      nextValue := f.dfg.nextValue + 1 } } := by
  rcases retypeValue_cases ctv f vid with heq |
    ⟨fid2, hval, hmem, heq⟩ | ⟨ii, ix, hval, heq⟩ | ⟨b, i, hval, heq⟩
  · exfalso
    unfold retypeValue at heq
    rw [hv] at heq
    simp only [Value.get_type, reduceIte, if_neg hnm] at heq
    unfold DataFlowGraph.make_constant DataFlowGraph.makeValue
      DataFlowGraph.set_value_from_id at heq
    simp only [lookupA_cons, if_pos rfl] at heq
    have hn : f.dfg.nextValue + 1 = f.dfg.nextValue :=
      congrArg (fun fn => fn.dfg.nextValue) heq
    omega
  · rw [hval] at hv
    have := (Option.some.injEq _ _).mp hv
    cases this
    rw [heq]
  · rw [hval] at hv
    simp at hv
  · rw [hval] at hv
    simp at hv

theorem retypeValue_slot_instruction (ctv : List ValueId) (f : Function)
    (vid : ValueId) (ii ix : Nat)
    (hv : lookupA f.dfg.values vid =
      some (Value.Instruction ii ix Ty.Function)) :
    retypeValue ctv f vid = { f with dfg := { f.dfg with
      values := (vid, Value.Instruction ii ix Ty.field) ::
        f.dfg.values } } := by
  unfold retypeValue
  rw [hv]
  simp only [Value.get_type, reduceIte]
  unfold DataFlowGraph.set_type_of_value
  rw [hv]

theorem retypeValue_slot_param (ctv : List ValueId) (f : Function)
    (vid : ValueId) (b i : Nat)
    (hv : lookupA f.dfg.values vid = some (Value.Param b i Ty.Function)) :
    retypeValue ctv f vid = { f with dfg := { f.dfg with
      values := (vid, Value.Param b i Ty.field) :: f.dfg.values } } := by
  unfold retypeValue
  rw [hv]
  simp only [Value.get_type, reduceIte]
  unfold DataFlowGraph.set_type_of_value
  rw [hv]

theorem retypeValue_slot_nonfunction (ctv : List ValueId) (f : Function)
    (vid : ValueId) (v : Value)
    (hv : lookupA f.dfg.values vid = some v)
    (ht : v.get_type ≠ Ty.Function) :
    retypeValue ctv f vid = f := by
  unfold retypeValue
  rw [hv]
  simp only [if_neg ht]

theorem retypeValue_slot_const (ctv : List ValueId) (f : Function)
    (vid : ValueId) (c : Nat) (t : Ty)
    (hv : lookupA f.dfg.values vid = some (Value.NumericConstant c t)) :
    retypeValue ctv f vid = f := by
  unfold retypeValue
  rw [hv]
  dsimp only [Value.get_type]
  by_cases ht : t = Ty.Function
  · rw [if_pos ht]
  · rw [if_neg ht]

theorem retypeValue_slot_missing (ctv : List ValueId) (f : Function)
    (vid : ValueId) (hv : lookupA f.dfg.values vid = none) :
    retypeValue ctv f vid = f := by
  unfold retypeValue
  rw [hv]

theorem retypeValue_newkeys (ctv : List ValueId) (f : Function)
    (vid : ValueId) (hkb : ValueKeysBelow f) :
    ∀ w, f.dfg.nextValue ≤ w →
      lookupA (retypeValue ctv f vid).dfg.values w = none ∨
      ∃ c, lookupA (retypeValue ctv f vid).dfg.values w =
        some (Value.NumericConstant c Ty.field) := by
  intro w hw
  rcases retypeValue_cases ctv f vid with heq |
    ⟨fid, hval, hmem, heq⟩ | ⟨ii, ix, hval, heq⟩ | ⟨b, i, hval, heq⟩
  · rw [heq]
    exact Or.inl (lookupA_none_of_ge hkb hw)
  · rw [heq]
    have hvid : vid < f.dfg.nextValue := lookupA_lt_of_keysBelow hkb hval
    have hv_ne : vid ≠ w := Nat.ne_of_lt (Nat.lt_of_lt_of_le hvid hw)
    simp only [lookupA_cons, if_neg hv_ne]
    by_cases hnw : f.dfg.nextValue = w
    · rw [if_pos hnw]
      exact Or.inr ⟨function_id_to_field fid, rfl⟩
    · rw [if_neg hnw]
      exact Or.inl (lookupA_none_of_ge hkb hw)
  · rw [heq]
    have hvid : vid < f.dfg.nextValue := lookupA_lt_of_keysBelow hkb hval
    have hv_ne : vid ≠ w := Nat.ne_of_lt (Nat.lt_of_lt_of_le hvid hw)
    simp only [lookupA_cons, if_neg hv_ne]
    exact Or.inl (lookupA_none_of_ge hkb hw)
  · rw [heq]
    have hvid : vid < f.dfg.nextValue := lookupA_lt_of_keysBelow hkb hval
    have hv_ne : vid ≠ w := Nat.ne_of_lt (Nat.lt_of_lt_of_le hvid hw)
    simp only [lookupA_cons, if_neg hv_ne]
    exact Or.inl (lookupA_none_of_ge hkb hw)

theorem retypeFold_slots (ctv : List ValueId) :
    ∀ (ids : List ValueId) (f : Function),
      ids.Nodup → ValueKeysBelow f →
      (∀ w ∈ ids, w < f.dfg.nextValue) →
      (∀ vid ∈ ids,
        (∀ fid, lookupA f.dfg.values vid = some (Value.Function fid) →
          vid ∉ ctv →
          lookupA (ids.foldl (retypeValue ctv) f).dfg.values vid =
            some (Value.NumericConstant (function_id_to_field fid)
              Ty.field)) ∧
        (∀ fid, lookupA f.dfg.values vid = some (Value.Function fid) →
          vid ∈ ctv →
          lookupA (ids.foldl (retypeValue ctv) f).dfg.values vid =
            some (Value.Function fid)) ∧
        (∀ ii ix, lookupA f.dfg.values vid =
            some (Value.Instruction ii ix Ty.Function) →
          lookupA (ids.foldl (retypeValue ctv) f).dfg.values vid =
            some (Value.Instruction ii ix Ty.field)) ∧
        (∀ b i, lookupA f.dfg.values vid =
            some (Value.Param b i Ty.Function) →
          lookupA (ids.foldl (retypeValue ctv) f).dfg.values vid =
            some (Value.Param b i Ty.field)) ∧
        (∀ v, lookupA f.dfg.values vid = some v →
          v.get_type ≠ Ty.Function →
          lookupA (ids.foldl (retypeValue ctv) f).dfg.values vid = some v) ∧
        (∀ c, lookupA f.dfg.values vid =
            some (Value.NumericConstant c Ty.Function) →
          lookupA (ids.foldl (retypeValue ctv) f).dfg.values vid =
            some (Value.NumericConstant c Ty.Function))) ∧
      (∀ w, w < f.dfg.nextValue → w ∉ ids →
        lookupA (ids.foldl (retypeValue ctv) f).dfg.values w =
          lookupA f.dfg.values w) ∧
      (∀ w, f.dfg.nextValue ≤ w →
        lookupA (ids.foldl (retypeValue ctv) f).dfg.values w = none ∨
        ∃ c, lookupA (ids.foldl (retypeValue ctv) f).dfg.values w =
          some (Value.NumericConstant c Ty.field)) ∧
      ValueKeysBelow (ids.foldl (retypeValue ctv) f) ∧
      f.dfg.nextValue ≤ (ids.foldl (retypeValue ctv) f).dfg.nextValue := by
  intro ids
  induction ids with
  | nil =>
      intro f hnd hkb hlt
      refine ⟨by intro vid hv; simp at hv, fun w _ _ => rfl, ?_, hkb,
        Nat.le_refl _⟩
      intro w hw
      exact Or.inl (lookupA_none_of_ge hkb hw)
  | cons vid rest ih =>
      intro f hnd hkb hlt
      obtain ⟨hvnr, hndr⟩ := List.nodup_cons.mp hnd
      have hvidlt : vid < f.dfg.nextValue := hlt vid (List.mem_cons_self _ _)
      obtain ⟨hinstr2, hres2, hblocks2, _, _, _, _, _, _, hle2, hkb2,
        hpres2⟩ := retypeValue_pres ctv f vid
      have hrestlt : ∀ w ∈ rest, w < (retypeValue ctv f vid).dfg.nextValue :=
        fun w hw => Nat.lt_of_lt_of_le (hlt w (List.mem_cons_of_mem _ hw)) hle2
      have IH := ih (retypeValue ctv f vid) hndr (hkb2 hkb) hrestlt
      rw [List.foldl_cons]
      have hvidfinal : lookupA
          (rest.foldl (retypeValue ctv) (retypeValue ctv f vid)).dfg.values
            vid =
          lookupA (retypeValue ctv f vid).dfg.values vid :=
        IH.2.1 vid (Nat.lt_of_lt_of_le hvidlt hle2) hvnr
      refine ⟨?_, ?_, ?_, IH.2.2.2.1, Nat.le_trans hle2 IH.2.2.2.2⟩
      · intro w hw
        rcases List.mem_cons.mp hw with rfl | hw
        · refine ⟨?_, ?_, ?_, ?_, ?_, ?_⟩
          · intro fid hv hnm
            rw [hvidfinal, retypeValue_slot_function_subst ctv f w fid hv hnm]
            simp [lookupA_cons]
          · intro fid hv hm
            rw [hvidfinal, retypeValue_ctv_keep ctv f w fid hv hm]
            exact hv
          · intro ii ix hv
            rw [hvidfinal, retypeValue_slot_instruction ctv f w ii ix hv]
            simp [lookupA_cons]
          · intro b i hv
            rw [hvidfinal, retypeValue_slot_param ctv f w b i hv]
            simp [lookupA_cons]
          · intro v hv ht
            rw [hvidfinal, retypeValue_slot_nonfunction ctv f w v hv ht]
            exact hv
          · intro c hv
            rw [hvidfinal, retypeValue_slot_const ctv f w c Ty.Function hv]
            exact hv
        · have hwne : w ≠ vid := by
            intro hc
            rw [hc] at hw
            exact hvnr hw
          have hwlt : w < f.dfg.nextValue := hlt w (List.mem_cons_of_mem _ hw)
          have hpresw := hpres2 w hwne hwlt
          obtain ⟨F1, F2, F3, F4, F5, F6⟩ := IH.1 w hw
          refine ⟨?_, ?_, ?_, ?_, ?_, ?_⟩
          · intro fid hv hnm
            exact F1 fid (by rw [hpresw]; exact hv) hnm
          · intro fid hv hm
            exact F2 fid (by rw [hpresw]; exact hv) hm
          · intro ii ix hv
            exact F3 ii ix (by rw [hpresw]; exact hv)
          · intro b i hv
            exact F4 b i (by rw [hpresw]; exact hv)
          · intro v hv ht
            exact F5 v (by rw [hpresw]; exact hv) ht
          · intro c hv
            exact F6 c (by rw [hpresw]; exact hv)
      · intro w hwlt hwni
        have hwne : w ≠ vid := fun hc => hwni (hc ▸ List.mem_cons_self _ _)
        have hwnr : w ∉ rest := fun hc => hwni (List.mem_cons_of_mem _ hc)
        rw [IH.2.1 w (Nat.lt_of_lt_of_le hwlt hle2) hwnr]
        exact hpres2 w hwne hwlt
      · intro w hw
        by_cases hw2 : w < (retypeValue ctv f vid).dfg.nextValue
        · have hwnr : w ∉ rest := by
            intro hc
            have h3 := hlt w (List.mem_cons_of_mem _ hc)
            exact Nat.lt_irrefl w (Nat.lt_of_lt_of_le h3 hw)
          rw [IH.2.1 w hw2 hwnr]
          exact retypeValue_newkeys ctv f vid hkb w hw
        · exact IH.2.2.1 w (Nat.le_of_not_lt hw2)

theorem phase1_pres (ctx : DefunctionalizationContext) (func f1 : Function)
    (ctv1 : List ValueId) (hwf : ValueKeysBelow func)
    (hfold : (reachableBlocks func).foldlM (rewriteBlock ctx)
      (func, ([] : List ValueId)) = Except.ok (f1, ctv1)) :
    RewritePres func f1 := by
  have := foldlME_inv (rewriteBlock ctx)
    (fun s => RewritePres func s.1)
    (fun s x s' hs hstep => rewriteBlock_inv ctx _
      (fun s x s' hs hstep => (rewriteStep_pres ctx func s s' x hs hstep).1)
      s s' x hstep hs)
    (reachableBlocks func) (func, []) (f1, ctv1) hfold
    (rewritePres_refl func hwf)
  exact this

theorem mem_dedup_keys_of_lookup {α : Type} {l : List (Nat × α)} {k : Nat}
    {v : α} (h : lookupA l k = some v) : k ∈ (l.map Prod.fst).dedup :=
  List.mem_dedup.mpr (List.mem_map.mpr ⟨(k, v), lookupA_mem h, rfl⟩)

theorem lookup_isSome_of_mem_dedup_keys {α : Type} {l : List (Nat × α)}
    {k : Nat} (h : k ∈ (l.map Prod.fst).dedup) :
    ∃ v, lookupA l k = some v := by
  obtain ⟨p, hp, hfst⟩ := List.mem_map.mp (List.mem_dedup.mp h)
  have := lookupA_isSome_of_mem hp
  rw [hfst] at this
  cases hl : lookupA l k with
  | none =>
      rw [hl] at this
      simp at this
  | some v => exact ⟨v, rfl⟩

/-- C5: after the pass every value that is not a recorded call target has
a type different from `Function`; values that formerly had type
`Function` carry type `NativeField` afterwards, literal function values
through constant substitution and parameters and instruction results
through an in-place retype. -/
theorem C5_type_invariant (ctx : DefunctionalizationContext)
    (func func' : Function) (ctv : List ValueId)
    (hwf : ValueKeysBelow func) (hconst : ConstTypesOk func)
    (hok : defunctionalizeFunction ctx func = Except.ok (func', ctv)) :
    (∀ vid v, lookupA func'.dfg.values vid = some v → vid ∉ ctv →
      v.get_type ≠ Ty.Function) ∧
    (∀ vid v, lookupA func.dfg.values vid = some v →
      v.get_type = Ty.Function → vid ∉ ctv →
      ∃ v', lookupA func'.dfg.values vid = some v' ∧
        v'.get_type = Ty.Numeric NumericType.NativeField) ∧
    (∀ vid fid, lookupA func.dfg.values vid = some (Value.Function fid) →
      vid ∉ ctv → lookupA func'.dfg.values vid =
        some (Value.NumericConstant (function_id_to_field fid) Ty.field)) ∧
    (∀ vid ii ix, lookupA func.dfg.values vid =
        some (Value.Instruction ii ix Ty.Function) →
      lookupA func'.dfg.values vid =
        some (Value.Instruction ii ix Ty.field)) ∧
    (∀ vid b i, lookupA func.dfg.values vid =
        some (Value.Param b i Ty.Function) →
      lookupA func'.dfg.values vid = some (Value.Param b i Ty.field)) := by
  unfold defunctionalizeFunction at hok
  cases hfold : (reachableBlocks func).foldlM (rewriteBlock ctx)
      (func, ([] : List ValueId)) with
  | error e =>
      rw [hfold] at hok
      simp [Bind.bind, Except.bind] at hok
  | ok s1 =>
      rw [hfold] at hok
      simp only [Bind.bind, Except.bind, Except.ok.injEq] at hok
      obtain ⟨f1, ctv1⟩ := s1
      simp only at hok
      have hfe : func' = ((f1.dfg.values.map Prod.fst).dedup).foldl
          (retypeValue ctv1) f1 := (congrArg Prod.fst hok).symm
      have hce : ctv = ctv1 := (congrArg Prod.snd hok).symm
      subst hce
      have hpres := phase1_pres ctx func f1 ctv hwf hfold
      obtain ⟨_, _, _, _, _, _, _, _, hle1, hkb1, hlow1, hhigh1⟩ := hpres
      have hconst1 : ∀ vid v, lookupA f1.dfg.values vid = some v →
          constTypeOkB v = true := by
        intro vid v hv
        by_cases hvlt : vid < func.dfg.nextValue
        · rw [hlow1 vid hvlt] at hv
          exact hconst (vid, v) (lookupA_mem hv)
        · rcases hhigh1 vid (Nat.le_of_not_lt hvlt) with hn | ⟨g, hg⟩
          · rw [hv] at hn
            simp at hn
          · rw [hv] at hg
            have hvg := (Option.some.injEq _ _).mp hg
            rw [hvg]
            rfl
      have hidslt : ∀ w ∈ (f1.dfg.values.map Prod.fst).dedup,
          w < f1.dfg.nextValue := by
        intro w hw
        obtain ⟨v, hv⟩ := lookup_isSome_of_mem_dedup_keys hw
        exact lookupA_lt_of_keysBelow hkb1 hv
      have hmaster := retypeFold_slots ctv
        ((f1.dfg.values.map Prod.fst).dedup) f1 (List.nodup_dedup _) hkb1
        hidslt
      obtain ⟨hper, hG1, hG2, hkbF, hleF⟩ := hmaster
      rw [← hfe] at hper hG1 hG2 hkbF hleF
      refine ⟨?_, ?_, ?_, ?_, ?_⟩
      · intro vid v hv hnm
        by_cases hvlt : vid < f1.dfg.nextValue
        · by_cases hin : vid ∈ (f1.dfg.values.map Prod.fst).dedup
          · obtain ⟨v1, hv1⟩ := lookup_isSome_of_mem_dedup_keys hin
            obtain ⟨F1, F2, F3, F4, F5, F6⟩ := hper vid hin
            cases v1 with
            | Function fid =>
                have := F1 fid hv1 hnm
                rw [hv] at this
                have hvv := (Option.some.injEq _ _).mp this
                rw [hvv]
                simp [Value.get_type, Ty.field]
            | Param b i t =>
                by_cases ht : t = Ty.Function
                · subst ht
                  have := F4 b i hv1
                  rw [hv] at this
                  have hvv := (Option.some.injEq _ _).mp this
                  rw [hvv]
                  simp [Value.get_type, Ty.field]
                · have := F5 _ hv1 (by simpa [Value.get_type] using ht)
                  rw [hv] at this
                  have hvv := (Option.some.injEq _ _).mp this
                  rw [hvv]
                  simpa [Value.get_type] using ht
            | Instruction ii ix t =>
                by_cases ht : t = Ty.Function
                · subst ht
                  have := F3 ii ix hv1
                  rw [hv] at this
                  have hvv := (Option.some.injEq _ _).mp this
                  rw [hvv]
                  simp [Value.get_type, Ty.field]
                · have := F5 _ hv1 (by simpa [Value.get_type] using ht)
                  rw [hv] at this
                  have hvv := (Option.some.injEq _ _).mp this
                  rw [hvv]
                  simpa [Value.get_type] using ht
            | NumericConstant c t =>
                have hok1 := hconst1 vid _ hv1
                have ht : t ≠ Ty.Function := by
                  simpa [constTypeOkB] using hok1
                have := F5 _ hv1 (by simpa [Value.get_type] using ht)
                rw [hv] at this
                have hvv := (Option.some.injEq _ _).mp this
                rw [hvv]
                simpa [Value.get_type] using ht
          · rw [hG1 vid hvlt hin] at hv
            exact absurd (mem_dedup_keys_of_lookup hv) hin
        · rcases hG2 vid (Nat.le_of_not_lt hvlt) with hn | ⟨c, hc⟩
          · rw [hv] at hn
            simp at hn
          · rw [hv] at hc
            have hvv := (Option.some.injEq _ _).mp hc
            rw [hvv]
            simp [Value.get_type, Ty.field]
      · intro vid v hv ht hnm
        have hvlt0 : vid < func.dfg.nextValue := lookupA_lt_of_keysBelow hwf hv
        have hv1 : lookupA f1.dfg.values vid = some v := by
          rw [hlow1 vid hvlt0]
          exact hv
        have hin : vid ∈ (f1.dfg.values.map Prod.fst).dedup :=
          mem_dedup_keys_of_lookup hv1
        obtain ⟨F1, F2, F3, F4, F5, F6⟩ := hper vid hin
        cases v with
        | Function fid =>
            exact ⟨_, F1 fid hv1 hnm, rfl⟩
        | Param b i t =>
            have htf : t = Ty.Function := by simpa [Value.get_type] using ht
            subst htf
            exact ⟨_, F4 b i hv1, rfl⟩
        | Instruction ii ix t =>
            have htf : t = Ty.Function := by simpa [Value.get_type] using ht
            subst htf
            exact ⟨_, F3 ii ix hv1, rfl⟩
        | NumericConstant c t =>
            have hok1 := hconst (vid, _) (lookupA_mem hv)
            have htf : t = Ty.Function := by simpa [Value.get_type] using ht
            subst htf
            simp [constTypeOkB] at hok1
      · intro vid fid hv hnm
        have hvlt0 : vid < func.dfg.nextValue := lookupA_lt_of_keysBelow hwf hv
        have hv1 : lookupA f1.dfg.values vid = some (Value.Function fid) := by
          rw [hlow1 vid hvlt0]
          exact hv
        have hin := mem_dedup_keys_of_lookup hv1
        exact (hper vid hin).1 fid hv1 hnm
      · intro vid ii ix hv
        have hvlt0 : vid < func.dfg.nextValue := lookupA_lt_of_keysBelow hwf hv
        have hv1 : lookupA f1.dfg.values vid =
            some (Value.Instruction ii ix Ty.Function) := by
          rw [hlow1 vid hvlt0]
          exact hv
        have hin := mem_dedup_keys_of_lookup hv1
        exact (hper vid hin).2.2.1 ii ix hv1
      · intro vid b i hv
        have hvlt0 : vid < func.dfg.nextValue := lookupA_lt_of_keysBelow hwf hv
        have hv1 : lookupA f1.dfg.values vid =
            some (Value.Param b i Ty.Function) := by
          rw [hlow1 vid hvlt0]
          exact hv
        have hin := mem_dedup_keys_of_lookup hv1
        exact (hper vid hin).2.2.2.1 b i hv1

/-- Witness for C5 on the demonstration caller. -/
theorem C5_type_invariant_witness :
    (∀ vid v, lookupA demoRewritten.1.dfg.values vid = some v →
      vid ∉ demoRewritten.2 → v.get_type ≠ Ty.Function) ∧
    (∀ vid v, lookupA demoCallerFn.dfg.values vid = some v →
      v.get_type = Ty.Function → vid ∉ demoRewritten.2 →
      ∃ v', lookupA demoRewritten.1.dfg.values vid = some v' ∧
        v'.get_type = Ty.Numeric NumericType.NativeField) ∧
    (∀ vid fid, lookupA demoCallerFn.dfg.values vid =
        some (Value.Function fid) →
      vid ∉ demoRewritten.2 → lookupA demoRewritten.1.dfg.values vid =
        some (Value.NumericConstant (function_id_to_field fid) Ty.field)) ∧
    (∀ vid ii ix, lookupA demoCallerFn.dfg.values vid =
        some (Value.Instruction ii ix Ty.Function) →
      lookupA demoRewritten.1.dfg.values vid =
        some (Value.Instruction ii ix Ty.field)) ∧
    (∀ vid b i, lookupA demoCallerFn.dfg.values vid =
        some (Value.Param b i Ty.Function) →
      lookupA demoRewritten.1.dfg.values vid =
        some (Value.Param b i Ty.field)) :=
  C5_type_invariant demoCtx demoCallerFn demoRewritten.1 demoRewritten.2
    (by decide) (by decide) (by decide)

/-! ### The builder arena: result values and block parameters -/

theorem mkResults_spec (iid : InstructionId) (types : List Ty) :
    ∀ (dfg : DataFlowGraph) (k : Nat),
      (mkResults iid dfg k types).2 =
        List.range' dfg.nextValue types.length ∧
      (mkResults iid dfg k types).1.nextValue =
        dfg.nextValue + types.length ∧
      (mkResults iid dfg k types).1.instructions = dfg.instructions ∧
      (mkResults iid dfg k types).1.results = dfg.results ∧
      (mkResults iid dfg k types).1.blocks = dfg.blocks ∧
      (mkResults iid dfg k types).1.nextInst = dfg.nextInst ∧
      (mkResults iid dfg k types).1.nextBlock = dfg.nextBlock ∧
      (∀ v, v < dfg.nextValue →
        lookupA (mkResults iid dfg k types).1.values v =
          lookupA dfg.values v) ∧
      (∀ j, j < types.length →
        lookupA (mkResults iid dfg k types).1.values (dfg.nextValue + j) =
          some (Value.Instruction iid (k + j) (types.getD j Ty.Unit))) ∧
      ((∀ p ∈ dfg.values, p.1 < dfg.nextValue) →
        ∀ p ∈ (mkResults iid dfg k types).1.values,
          p.1 < dfg.nextValue + types.length) := by
  induction types with
  | nil =>
      intro dfg k
      refine ⟨rfl, rfl, rfl, rfl, rfl, rfl, rfl, fun v _ => rfl, ?_, ?_⟩
      · intro j hj
        simp at hj
      · intro h p hp
        simpa using h p hp
  | cons t ts ih =>
      intro dfg k
      have hstep : mkResults iid dfg k (t :: ts) =
          ((mkResults iid ((dfg.makeValue (Value.Instruction iid k t)).1)
            (k + 1) ts).1,
           dfg.nextValue ::
            (mkResults iid ((dfg.makeValue (Value.Instruction iid k t)).1)
              (k + 1) ts).2) := rfl
      obtain ⟨hrs, hnv, hinstr, hres, hblocks, hni, hnb, hpres, hvals, hkb⟩ :=
        ih ((dfg.makeValue (Value.Instruction iid k t)).1) (k + 1)
      have hnv1 : (dfg.makeValue (Value.Instruction iid k t)).1.nextValue =
          dfg.nextValue + 1 := rfl
      rw [hstep]
      refine ⟨?_, ?_, hinstr, hres, hblocks, hni, hnb, ?_, ?_, ?_⟩
      · simp only [hrs, hnv1, List.length_cons]
        rw [List.range'_succ]
      · simp only [hnv, hnv1, List.length_cons]
        omega
      · intro v hv
        rw [hpres v (by rw [hnv1]; omega)]
        show lookupA ((dfg.nextValue, Value.Instruction iid k t) ::
          dfg.values) v = lookupA dfg.values v
        simp only [lookupA_cons, if_neg (Nat.ne_of_gt hv)]
      · intro j hj
        cases j with
        | zero =>
            simp only [Nat.add_zero, List.getD_cons_zero]
            rw [hpres dfg.nextValue (by rw [hnv1]; omega)]
            show lookupA ((dfg.nextValue, Value.Instruction iid k t) ::
              dfg.values) dfg.nextValue = _
            simp [lookupA_cons]
        | succ j =>
            have hj2 : j < ts.length := by simpa using hj
            have := hvals j hj2
            rw [hnv1] at this
            have harith : dfg.nextValue + (j + 1) = dfg.nextValue + 1 + j := by
              omega
            rw [harith]
            rw [this]
            have harith2 : k + 1 + j = k + (j + 1) := by omega
            rw [harith2]
            rfl
      · intro h p hp
        have hkb2 := hkb (by
          intro p hp
          rcases List.mem_cons.mp hp with hp | hp
          · rw [hp, hnv1]
            exact Nat.lt_succ_self _
          · rw [hnv1]
            exact Nat.lt_succ_of_lt (h p hp)) p hp
        rw [hnv1] at hkb2
        have harith : dfg.nextValue + 1 + ts.length =
            dfg.nextValue + (ts.length + 1) := by omega
        rw [harith] at hkb2
        simpa using hkb2

theorem add_block_parameter_eq (b : FunctionBuilder) (bid : BasicBlockId)
    (t : Ty) (blk : BasicBlock)
    (hb : lookupA b.current_function.dfg.blocks bid = some blk) :
    b.add_block_parameter bid t =
      ({ b with current_function := { b.current_function with dfg :=
          { b.current_function.dfg with
            values := (b.current_function.dfg.nextValue,
              Value.Param bid blk.parameters.length t) ::
                b.current_function.dfg.values,
            nextValue := b.current_function.dfg.nextValue + 1,
            blocks := (bid, { blk with parameters :=
              blk.parameters ++ [b.current_function.dfg.nextValue] }) ::
                b.current_function.dfg.blocks } } },
       b.current_function.dfg.nextValue) := by
  simp only [FunctionBuilder.add_block_parameter, DataFlowGraph.addBlockParam,
    hb]

theorem addParams_spec (bid : BasicBlockId) (ts : List Ty) :
    ∀ (b : FunctionBuilder) (acc : List ValueId) (blk : BasicBlock),
      lookupA b.current_function.dfg.blocks bid = some blk →
      (addParamsFold bid ts (b, acc)).2 =
        acc ++ List.range' b.current_function.dfg.nextValue ts.length ∧
      (addParamsFold bid ts (b, acc)).1.current_function.dfg.nextValue =
        b.current_function.dfg.nextValue + ts.length ∧
      (addParamsFold bid ts (b, acc)).1.current_function.dfg.instructions =
        b.current_function.dfg.instructions ∧
      (addParamsFold bid ts (b, acc)).1.current_function.dfg.results =
        b.current_function.dfg.results ∧
      (addParamsFold bid ts (b, acc)).1.current_function.dfg.nextInst =
        b.current_function.dfg.nextInst ∧
      (addParamsFold bid ts (b, acc)).1.current_function.dfg.nextBlock =
        b.current_function.dfg.nextBlock ∧
      (addParamsFold bid ts (b, acc)).1.current_block = b.current_block ∧
      (addParamsFold bid ts (b, acc)).1.current_function.name =
        b.current_function.name ∧
      (addParamsFold bid ts (b, acc)).1.current_function.id =
        b.current_function.id ∧
      (addParamsFold bid ts (b, acc)).1.current_function.runtime =
        b.current_function.runtime ∧
      (addParamsFold bid ts (b, acc)).1.current_function.entryBlock =
        b.current_function.entryBlock ∧
      lookupA (addParamsFold bid ts (b, acc)).1.current_function.dfg.blocks
          bid =
        some { blk with parameters := blk.parameters ++
          (List.range' b.current_function.dfg.nextValue ts.length) } ∧
      (∀ k, k ≠ bid →
        lookupA (addParamsFold bid ts (b, acc)).1.current_function.dfg.blocks
            k =
          lookupA b.current_function.dfg.blocks k) ∧
      (∀ v, v < b.current_function.dfg.nextValue →
        lookupA (addParamsFold bid ts (b, acc)).1.current_function.dfg.values
            v =
          lookupA b.current_function.dfg.values v) ∧
      (∀ j, j < ts.length →
        lookupA (addParamsFold bid ts (b, acc)).1.current_function.dfg.values
            (b.current_function.dfg.nextValue + j) =
          some (Value.Param bid (blk.parameters.length + j)
            (ts.getD j Ty.Unit))) ∧
      ((∀ p ∈ b.current_function.dfg.values,
          p.1 < b.current_function.dfg.nextValue) →
        ∀ p ∈ (addParamsFold bid ts (b, acc)).1.current_function.dfg.values,
          p.1 < b.current_function.dfg.nextValue + ts.length) ∧
      ((∀ p ∈ b.current_function.dfg.blocks,
          p.1 < b.current_function.dfg.nextBlock) →
        ∀ p ∈ (addParamsFold bid ts (b, acc)).1.current_function.dfg.blocks,
          p.1 < b.current_function.dfg.nextBlock) := by
  induction ts with
  | nil =>
      intro b acc blk hb
      refine ⟨by simp [addParamsFold], rfl, rfl, rfl, rfl, rfl, rfl, rfl,
        rfl, rfl, rfl, by simpa using hb, fun k _ => rfl, fun v _ => rfl,
        ?_, ?_, fun h => h⟩
      · intro j hj
        simp at hj
      · intro h p hp
        simpa using h p hp
  | cons t ts ih =>
      intro b acc blk hb
      have hab := add_block_parameter_eq b bid t blk hb
      have hfold : addParamsFold bid (t :: ts) (b, acc) =
          addParamsFold bid ts
            ({ b with current_function := { b.current_function with dfg :=
                { b.current_function.dfg with
                  values := (b.current_function.dfg.nextValue,
                    Value.Param bid blk.parameters.length t) ::
                      b.current_function.dfg.values,
                  nextValue := b.current_function.dfg.nextValue + 1,
                  blocks := (bid, { blk with parameters :=
                    blk.parameters ++ [b.current_function.dfg.nextValue] }) ::
                      b.current_function.dfg.blocks } } },
             acc ++ [b.current_function.dfg.nextValue]) := by
        simp only [addParamsFold, List.foldl_cons, hab]
      have hb1 : lookupA
          ((bid, { blk with parameters :=
            blk.parameters ++ [b.current_function.dfg.nextValue] }) ::
              b.current_function.dfg.blocks) bid =
          some { blk with parameters :=
            blk.parameters ++ [b.current_function.dfg.nextValue] } := by
        simp [lookupA_cons]
      obtain ⟨ih1, ih2, ih3, ih4, ih5, ih6, ih7, ih8, ih9, ih10, ih11, ih12,
        ih13, ih14, ih15, ih16, ih17⟩ :=
        ih ({ b with current_function := { b.current_function with dfg :=
                { b.current_function.dfg with
                  values := (b.current_function.dfg.nextValue,
                    Value.Param bid blk.parameters.length t) ::
                      b.current_function.dfg.values,
                  nextValue := b.current_function.dfg.nextValue + 1,
                  blocks := (bid, { blk with parameters :=
                    blk.parameters ++ [b.current_function.dfg.nextValue] }) ::
                      b.current_function.dfg.blocks } } })
          (acc ++ [b.current_function.dfg.nextValue])
          ({ blk with parameters :=
            blk.parameters ++ [b.current_function.dfg.nextValue] }) hb1
      rw [hfold]
      refine ⟨?_, ?_, ih3, ih4, ih5, ih6, ih7, ih8, ih9, ih10, ih11, ?_, ?_,
        ?_, ?_, ?_, ?_⟩
      · rw [ih1]
        simp only [List.length_cons, List.range'_succ, List.append_assoc,
          List.singleton_append]
      · rw [ih2]
        simp only [List.length_cons]
        omega
      · rw [ih12]
        simp only [hb1, Option.some.injEq]
        simp only [List.length_cons, List.range'_succ, List.append_assoc,
          List.singleton_append]
      · intro k hk
        rw [ih13 k hk]
        simp only [lookupA_cons, if_neg (Ne.symm hk)]
      · intro v hv
        rw [ih14 v (Nat.lt_succ_of_lt hv)]
        simp only [lookupA_cons, if_neg (Nat.ne_of_gt hv)]
      · intro j hj
        cases j with
        | zero =>
            simp only [Nat.add_zero, List.getD_cons_zero]
            rw [ih14 b.current_function.dfg.nextValue (Nat.lt_succ_self _)]
            simp [lookupA_cons]
        | succ j =>
            have hj2 : j < ts.length := by simpa using hj
            have hval := ih15 j hj2
            have harith : b.current_function.dfg.nextValue + (j + 1) =
                b.current_function.dfg.nextValue + 1 + j := by omega
            have hlen : ({ blk with parameters := blk.parameters ++
                [b.current_function.dfg.nextValue] } :
                  BasicBlock).parameters.length + j =
                blk.parameters.length + (j + 1) := by
              simp only [List.length_append, List.length_cons,
                List.length_nil]
              omega
            simp only [List.getD_cons_succ]
            rw [harith, hval, hlen]
      · intro h p hp
        have hkb2 := ih16 (by
          intro p hp
          rcases List.mem_cons.mp hp with hp | hp
          · rw [hp]
            exact Nat.lt_succ_self _
          · exact Nat.lt_succ_of_lt (h p hp)) p hp
        have harith : b.current_function.dfg.nextValue + 1 + ts.length =
            b.current_function.dfg.nextValue + (ts.length + 1) := by omega
        rw [harith] at hkb2
        simpa using hkb2
      · intro h p hp
        have hbidlt : bid < b.current_function.dfg.nextBlock :=
          h _ (lookupA_mem hb)
        exact ih17 (by
          intro p hp
          rcases List.mem_cons.mp hp with hp | hp
          · rw [hp]
            exact hbidlt
          · exact h p hp) p hp

theorem add_parameter_eq_block (b : FunctionBuilder) (t : Ty) :
    b.add_parameter t =
      b.add_block_parameter b.current_function.entryBlock t := rfl

theorem add_block_parameter_entry (b : FunctionBuilder) (bid : BasicBlockId)
    (t : Ty) :
    (b.add_block_parameter bid t).1.current_function.entryBlock =
      b.current_function.entryBlock := by
  unfold FunctionBuilder.add_block_parameter
  cases b.current_function.dfg.addBlockParam bid t
  rfl

theorem entryParams_eq (ts : List Ty) :
    ∀ (b : FunctionBuilder) (acc : List ValueId) (e : BasicBlockId),
      b.current_function.entryBlock = e →
      ts.foldl (fun acc t =>
        let (b, p) := acc.1.add_parameter t
        (b, acc.2 ++ [p])) (b, acc) = addParamsFold e ts (b, acc) := by
  induction ts with
  | nil =>
      intro b acc e he
      rfl
  | cons t ts ih =>
      intro b acc e he
      have hstep : b.add_parameter t = b.add_block_parameter e t := by
        rw [add_parameter_eq_block, he]
      simp only [addParamsFold, List.foldl_cons]
      rw [hstep]
      cases hq : b.add_block_parameter e t with
      | mk bq p =>
          have he2 : bq.current_function.entryBlock = e := by
            have := add_block_parameter_entry b e t
            rw [hq] at this
            rw [this, he]
          exact ih bq (acc ++ [p]) e he2

theorem terminate_eq (b : FunctionBuilder) (t : Terminator)
    (blk : BasicBlock)
    (hb : lookupA b.current_function.dfg.blocks b.current_block = some blk) :
    b.terminate t =
      { b with current_function := { b.current_function with dfg :=
          { b.current_function.dfg with
            blocks := (b.current_block, { blk with terminator := some t }) ::
              b.current_function.dfg.blocks } } } := by
  simp only [FunctionBuilder.terminate, FunctionBuilder.modifyDfg,
    DataFlowGraph.modifyBlock, hb]

theorem build_return_block_eq (b : FunctionBuilder) (pb : BasicBlockId)
    (ts : List Ty) (target : Option BasicBlockId) :
    build_return_block b pb ts target =
      ((match target with
        | none =>
            (addParamsFold b.current_function.dfg.nextBlock ts
              ((b.insert_block).1.switch_to_block
                b.current_function.dfg.nextBlock,
               [])).1.terminate_with_return
              (addParamsFold b.current_function.dfg.nextBlock ts
                ((b.insert_block).1.switch_to_block
                  b.current_function.dfg.nextBlock, [])).2
        | some tb =>
            (addParamsFold b.current_function.dfg.nextBlock ts
              ((b.insert_block).1.switch_to_block
                b.current_function.dfg.nextBlock,
               [])).1.terminate_with_jmp tb
              (addParamsFold b.current_function.dfg.nextBlock ts
                ((b.insert_block).1.switch_to_block
                  b.current_function.dfg.nextBlock, [])).2
        ).switch_to_block pb,
       b.current_function.dfg.nextBlock) := rfl


theorem build_return_block_spec (b0 : FunctionBuilder) (pb : BasicBlockId)
    (ts : List Ty) (target : Option BasicBlockId) :
    (build_return_block b0 pb ts target).2 =
      b0.current_function.dfg.nextBlock ∧
    (build_return_block b0 pb ts target).1.current_block = pb ∧
    (build_return_block b0 pb ts target).1.current_function.dfg.nextBlock =
      b0.current_function.dfg.nextBlock + 1 ∧
    (build_return_block b0 pb ts target).1.current_function.dfg.nextValue =
      b0.current_function.dfg.nextValue + ts.length ∧
    (build_return_block b0 pb ts target).1.current_function.dfg.instructions =
      b0.current_function.dfg.instructions ∧
    (build_return_block b0 pb ts target).1.current_function.dfg.results =
      b0.current_function.dfg.results ∧
    (build_return_block b0 pb ts target).1.current_function.dfg.nextInst =
      b0.current_function.dfg.nextInst ∧
    (build_return_block b0 pb ts target).1.current_function.name =
      b0.current_function.name ∧
    (build_return_block b0 pb ts target).1.current_function.id =
      b0.current_function.id ∧
    (build_return_block b0 pb ts target).1.current_function.runtime =
      b0.current_function.runtime ∧
    (build_return_block b0 pb ts target).1.current_function.entryBlock =
      b0.current_function.entryBlock ∧
    lookupA (build_return_block b0 pb ts target).1.current_function.dfg.blocks
        b0.current_function.dfg.nextBlock =
      some { parameters :=
               (List.range' b0.current_function.dfg.nextValue ts.length),
             instructions := [],
             terminator := some (match target with
               | none => Terminator.Return
                   (List.range' b0.current_function.dfg.nextValue ts.length)
               | some tb => Terminator.Jmp tb
                   (List.range' b0.current_function.dfg.nextValue
                     ts.length)) } ∧
    (∀ k, k ≠ b0.current_function.dfg.nextBlock →
      lookupA
          (build_return_block b0 pb ts target).1.current_function.dfg.blocks
          k =
        lookupA b0.current_function.dfg.blocks k) ∧
    (∀ v, v < b0.current_function.dfg.nextValue →
      lookupA
          (build_return_block b0 pb ts target).1.current_function.dfg.values
          v =
        lookupA b0.current_function.dfg.values v) ∧
    (∀ j, j < ts.length →
      lookupA
          (build_return_block b0 pb ts target).1.current_function.dfg.values
          (b0.current_function.dfg.nextValue + j) =
        some (Value.Param b0.current_function.dfg.nextBlock j
          (ts.getD j Ty.Unit))) ∧
    ((∀ p ∈ b0.current_function.dfg.values,
        p.1 < b0.current_function.dfg.nextValue) →
      ∀ p ∈ (build_return_block b0 pb ts
          target).1.current_function.dfg.values,
        p.1 < b0.current_function.dfg.nextValue + ts.length) ∧
    ((∀ p ∈ b0.current_function.dfg.blocks,
        p.1 < b0.current_function.dfg.nextBlock) →
      ∀ p ∈ (build_return_block b0 pb ts
          target).1.current_function.dfg.blocks,
        p.1 < b0.current_function.dfg.nextBlock + 1) := by
  have hlook : lookupA ((b0.insert_block).1.switch_to_block
      b0.current_function.dfg.nextBlock).current_function.dfg.blocks
      b0.current_function.dfg.nextBlock =
      some { parameters := [], instructions := [], terminator := none } := by
    simp [FunctionBuilder.insert_block, FunctionBuilder.switch_to_block,
      lookupA_cons]
  obtain ⟨s1, s2, s3, s4, s5, s6, s7, s8, s9, s10, s11, s12, s13, s14, s15,
    s16, s17⟩ := addParams_spec b0.current_function.dfg.nextBlock ts
      ((b0.insert_block).1.switch_to_block b0.current_function.dfg.nextBlock)
      [] { parameters := [], instructions := [], terminator := none } hlook
  rcases target with _ | tb
  · rw [build_return_block_eq]
    dsimp only
    set F := addParamsFold b0.current_function.dfg.nextBlock ts
      ((b0.insert_block).1.switch_to_block b0.current_function.dfg.nextBlock,
       []) with hF
    simp only [FunctionBuilder.insert_block, FunctionBuilder.switch_to_block,
      List.nil_append, List.length_nil, Nat.zero_add] at s1 s2 s3 s4 s5 s6 s7 s8 s9 s10 s11 s12 s13 s14 s15 s16 s17
    have hcb : F.1.current_block = b0.current_function.dfg.nextBlock := s7
    have hbF : lookupA F.1.current_function.dfg.blocks F.1.current_block =
        some { parameters :=
                 (List.range' b0.current_function.dfg.nextValue ts.length),
               instructions := [], terminator := none } := by
      rw [hcb]
      exact s12
    simp only [FunctionBuilder.terminate_with_return]
    rw [terminate_eq F.1 (Terminator.Return F.2) _ hbF]
    simp only [FunctionBuilder.switch_to_block]
    refine ⟨trivial, trivial, s6, s2, s3, s4, s5, s8, s9, s10, s11, ?_, ?_,
      ?_, ?_, s16, ?_⟩
    · rw [hcb, s1]
      simp [lookupA_cons]
    · intro k hk
      have hrest := s13 k hk
      simp only [lookupA_cons, if_neg (Ne.symm hk)] at hrest
      rw [hcb]
      simp only [lookupA_cons, if_neg (Ne.symm hk)]
      exact hrest
    · intro v hv
      exact s14 v hv
    · intro j hj
      exact s15 j hj
    · intro h p hp
      rcases List.mem_cons.mp hp with hp | hp
      · rw [hp]
        show F.1.current_block < b0.current_function.dfg.nextBlock + 1
        rw [hcb]
        exact Nat.lt_succ_self _
      · refine s17 ?_ p hp
        intro q hq
        rcases List.mem_cons.mp hq with hq | hq
        · rw [hq]
          exact Nat.lt_succ_self _
        · exact Nat.lt_succ_of_lt (h q hq)
  · rw [build_return_block_eq]
    dsimp only
    set F := addParamsFold b0.current_function.dfg.nextBlock ts
      ((b0.insert_block).1.switch_to_block b0.current_function.dfg.nextBlock,
       []) with hF
    simp only [FunctionBuilder.insert_block, FunctionBuilder.switch_to_block,
      List.nil_append, List.length_nil, Nat.zero_add] at s1 s2 s3 s4 s5 s6 s7 s8 s9 s10 s11 s12 s13 s14 s15 s16 s17
    have hcb : F.1.current_block = b0.current_function.dfg.nextBlock := s7
    have hbF : lookupA F.1.current_function.dfg.blocks F.1.current_block =
        some { parameters :=
                 (List.range' b0.current_function.dfg.nextValue ts.length),
               instructions := [], terminator := none } := by
      rw [hcb]
      exact s12
    simp only [FunctionBuilder.terminate_with_jmp]
    rw [terminate_eq F.1 (Terminator.Jmp tb F.2) _ hbF]
    simp only [FunctionBuilder.switch_to_block]
    refine ⟨trivial, trivial, s6, s2, s3, s4, s5, s8, s9, s10, s11, ?_, ?_,
      ?_, ?_, s16, ?_⟩
    · rw [hcb, s1]
      simp [lookupA_cons]
    · intro k hk
      have hrest := s13 k hk
      simp only [lookupA_cons, if_neg (Ne.symm hk)] at hrest
      rw [hcb]
      simp only [lookupA_cons, if_neg (Ne.symm hk)]
      exact hrest
    · intro v hv
      exact s14 v hv
    · intro j hj
      exact s15 j hj
    · intro h p hp
      rcases List.mem_cons.mp hp with hp | hp
      · rw [hp]
        show F.1.current_block < b0.current_function.dfg.nextBlock + 1
        rw [hcb]
        exact Nat.lt_succ_self _
      · refine s17 ?_ p hp
        intro q hq
        rcases List.mem_cons.mp hq with hq | hq
        · rw [hq]
          exact Nat.lt_succ_self _
        · exact Nat.lt_succ_of_lt (h q hq)

theorem numeric_constant_eq (b : FunctionBuilder) (v : Nat) (t : Ty) :
    b.numeric_constant v t =
      ({ b with current_function := { b.current_function with dfg :=
          { b.current_function.dfg with
            values := (b.current_function.dfg.nextValue,
              Value.NumericConstant v t) :: b.current_function.dfg.values,
            nextValue := b.current_function.dfg.nextValue + 1 } } },
       b.current_function.dfg.nextValue) := rfl

theorem import_function_eq (b : FunctionBuilder) (fid : FunctionId) :
    b.import_function fid =
      ({ b with current_function := { b.current_function with dfg :=
          { b.current_function.dfg with
            values := (b.current_function.dfg.nextValue,
              Value.Function fid) :: b.current_function.dfg.values,
            nextValue := b.current_function.dfg.nextValue + 1 } } },
       b.current_function.dfg.nextValue) := rfl

theorem modifyBlock_eq (dfg : DataFlowGraph) (bid : BasicBlockId)
    (g : BasicBlock → BasicBlock) (blk : BasicBlock)
    (hb : lookupA dfg.blocks bid = some blk) :
    dfg.modifyBlock bid g = { dfg with blocks := (bid, g blk) :: dfg.blocks }
    := by
  simp only [DataFlowGraph.modifyBlock, hb]

theorem insertInstruction_spec (dfg : DataFlowGraph) (bid : BasicBlockId)
    (inst : Instruction) (rts : List Ty) (blk : BasicBlock)
    (hb : lookupA dfg.blocks bid = some blk) :
    (dfg.insertInstruction bid inst rts).2.1 = dfg.nextInst ∧
    (dfg.insertInstruction bid inst rts).2.2 =
      List.range' dfg.nextValue rts.length ∧
    (dfg.insertInstruction bid inst rts).1.nextInst = dfg.nextInst + 1 ∧
    (dfg.insertInstruction bid inst rts).1.nextValue =
      dfg.nextValue + rts.length ∧
    (dfg.insertInstruction bid inst rts).1.nextBlock = dfg.nextBlock ∧
    lookupA (dfg.insertInstruction bid inst rts).1.instructions dfg.nextInst =
      some inst ∧
    (∀ i, i ≠ dfg.nextInst →
      lookupA (dfg.insertInstruction bid inst rts).1.instructions i =
        lookupA dfg.instructions i) ∧
    lookupA (dfg.insertInstruction bid inst rts).1.results dfg.nextInst =
      some (List.range' dfg.nextValue rts.length) ∧
    (∀ i, i ≠ dfg.nextInst →
      lookupA (dfg.insertInstruction bid inst rts).1.results i =
        lookupA dfg.results i) ∧
    lookupA (dfg.insertInstruction bid inst rts).1.blocks bid =
      some { blk with instructions := blk.instructions ++ [dfg.nextInst] } ∧
    (∀ k, k ≠ bid →
      lookupA (dfg.insertInstruction bid inst rts).1.blocks k =
        lookupA dfg.blocks k) ∧
    (∀ v, v < dfg.nextValue →
      lookupA (dfg.insertInstruction bid inst rts).1.values v =
        lookupA dfg.values v) ∧
    (∀ j, j < rts.length →
      lookupA (dfg.insertInstruction bid inst rts).1.values
          (dfg.nextValue + j) =
        some (Value.Instruction dfg.nextInst j (rts.getD j Ty.Unit))) ∧
    ((∀ p ∈ dfg.values, p.1 < dfg.nextValue) →
      ∀ p ∈ (dfg.insertInstruction bid inst rts).1.values,
        p.1 < dfg.nextValue + rts.length) ∧
    ((∀ p ∈ dfg.blocks, p.1 < dfg.nextBlock) →
      ∀ p ∈ (dfg.insertInstruction bid inst rts).1.blocks,
        p.1 < dfg.nextBlock) ∧
    ((∀ p ∈ dfg.instructions, p.1 < dfg.nextInst) →
      ∀ p ∈ (dfg.insertInstruction bid inst rts).1.instructions,
        p.1 < dfg.nextInst + 1) ∧
    ((∀ p ∈ dfg.results, p.1 < dfg.nextInst) →
      ∀ p ∈ (dfg.insertInstruction bid inst rts).1.results,
        p.1 < dfg.nextInst + 1) := by
  set dfg1 := { dfg with
    instructions := (dfg.nextInst, inst) :: dfg.instructions,
    nextInst := dfg.nextInst + 1 } with hdfg1
  have hmk := mkResults_spec dfg.nextInst rts dfg1 0
  set M := mkResults dfg.nextInst dfg1 0 rts with hM
  obtain ⟨m1, m2, m3, m4, m5, m6, m7, m8, m9, m10⟩ := hmk
  have hbM : lookupA ({ M.1 with
      results := (dfg.nextInst, M.2) :: M.1.results }).blocks bid = some blk
    := by
    show lookupA M.1.blocks bid = some blk
    rw [m5]
    exact hb
  have hIns : dfg.insertInstruction bid inst rts =
      ({ { M.1 with results := (dfg.nextInst, M.2) :: M.1.results } with
          blocks := (bid, { blk with
            instructions := blk.instructions ++ [dfg.nextInst] }) ::
            ({ M.1 with
              results := (dfg.nextInst, M.2) :: M.1.results }).blocks },
       dfg.nextInst, M.2) := by
    rw [show dfg.insertInstruction bid inst rts =
      (({ M.1 with results := (dfg.nextInst, M.2) ::
          M.1.results }).modifyBlock bid
        (fun blk => { blk with
          instructions := blk.instructions ++ [dfg.nextInst] }),
       dfg.nextInst, M.2) from rfl]
    rw [modifyBlock_eq _ _ _ blk hbM]
  refine ⟨?_, ?_, ?_, ?_, ?_, ?_, ?_, ?_, ?_, ?_, ?_, ?_, ?_, ?_, ?_, ?_, ?_⟩
  · rw [hIns]
  · rw [hIns]
    exact m1
  · rw [hIns]
    exact m6
  · rw [hIns]
    exact m2
  · rw [hIns]
    exact m7
  · rw [hIns]
    show lookupA M.1.instructions dfg.nextInst = some inst
    rw [m3]
    show lookupA ((dfg.nextInst, inst) :: dfg.instructions) dfg.nextInst =
      some inst
    simp [lookupA_cons]
  · intro i hi
    rw [hIns]
    show lookupA M.1.instructions i = lookupA dfg.instructions i
    rw [m3]
    show lookupA ((dfg.nextInst, inst) :: dfg.instructions) i =
      lookupA dfg.instructions i
    simp only [lookupA_cons, if_neg (Ne.symm hi)]
  · rw [hIns]
    show lookupA ((dfg.nextInst, M.2) :: M.1.results) dfg.nextInst =
      some (List.range' dfg.nextValue rts.length)
    rw [lookupA_cons, if_pos rfl, m1]
  · intro i hi
    rw [hIns]
    show lookupA ((dfg.nextInst, M.2) :: M.1.results) i = lookupA dfg.results i
    simp only [lookupA_cons, if_neg (Ne.symm hi)]
    rw [m4]
  · rw [hIns]
    simp [lookupA_cons]
  · intro k hk
    rw [hIns]
    show lookupA ((bid, { blk with
        instructions := blk.instructions ++ [dfg.nextInst] }) ::
        M.1.blocks) k = lookupA dfg.blocks k
    simp only [lookupA_cons, if_neg (Ne.symm hk)]
    rw [m5]
  · intro v hv
    rw [hIns]
    show lookupA M.1.values v = lookupA dfg.values v
    exact m8 v hv
  · intro j hj
    rw [hIns]
    show lookupA M.1.values (dfg.nextValue + j) =
      some (Value.Instruction dfg.nextInst j (rts.getD j Ty.Unit))
    have h := m9 j hj
    rw [Nat.zero_add] at h
    exact h
  · intro h p hp
    rw [hIns] at hp
    exact m10 h p hp
  · intro h p hp
    rw [hIns] at hp
    have hp2 : p ∈ (bid, { blk with
        instructions := blk.instructions ++ [dfg.nextInst] }) ::
        M.1.blocks := hp
    rcases List.mem_cons.mp hp2 with hq | hq
    · rw [hq]
      exact h (bid, blk) (lookupA_mem hb)
    · have hq2 : p ∈ dfg1.blocks := by
        rw [← m5]
        exact hq
      exact h p hq2
  · intro h p hp
    rw [hIns] at hp
    have hp2 : p ∈ M.1.instructions := hp
    rw [m3] at hp2
    have hp3 : p ∈ (dfg.nextInst, inst) :: dfg.instructions := hp2
    rcases List.mem_cons.mp hp3 with hq | hq
    · rw [hq]
      exact Nat.lt_succ_self _
    · exact Nat.lt_succ_of_lt (h p hq)
  · intro h p hp
    rw [hIns] at hp
    have hp2 : p ∈ (dfg.nextInst, M.2) :: M.1.results := hp
    rcases List.mem_cons.mp hp2 with hq | hq
    · rw [hq]
      exact Nat.lt_succ_self _
    · have hq2 : p ∈ dfg1.results := by
        rw [← m4]
        exact hq
      exact Nat.lt_succ_of_lt (h p hq2)

theorem insert_binary_eq (b : FunctionBuilder) (lhs rhs : ValueId) :
    b.insert_binary lhs BinaryOp.Eq rhs =
      ({ b with current_function := { b.current_function with dfg :=
          (b.current_function.dfg.insertInstruction b.current_block
            (Instruction.Binary BinaryOp.Eq lhs rhs) [Ty.bool]).1 } },
       ((b.current_function.dfg.insertInstruction b.current_block
         (Instruction.Binary BinaryOp.Eq lhs rhs) [Ty.bool]).2.2).getD 0 0)
  := rfl

theorem insert_call_eq (b : FunctionBuilder) (target : ValueId)
    (args : List ValueId) (rts : List Ty) :
    b.insert_call target args rts =
      ({ b with current_function := { b.current_function with dfg :=
          (b.current_function.dfg.insertInstruction b.current_block
            (Instruction.Call target args) rts).1 } },
       (b.current_function.dfg.insertInstruction b.current_block
         (Instruction.Call target args) rts).2.2) := rfl

theorem insert_constrain_eq (b : FunctionBuilder) (v : ValueId) :
    b.insert_constrain v =
      { b with current_function := { b.current_function with dfg :=
          (b.current_function.dfg.insertInstruction b.current_block
            (Instruction.Constrain v) []).1 } } := rfl

theorem callSeg_spec (returns : List Ty) (params_ids : List ValueId)
    (fid : FunctionId) (prev : Option BasicBlockId) (c : FunctionBuilder)
    (blkc : BasicBlock)
    (hcb : lookupA c.current_function.dfg.blocks c.current_block = some blkc)
    (hlt : c.current_block < c.current_function.dfg.nextBlock) :
    (callSeg returns params_ids fid prev c).2 =
      c.current_function.dfg.nextBlock ∧
    (callSeg returns params_ids fid prev c).1.current_block =
      c.current_block ∧
    (callSeg returns params_ids fid prev
        c).1.current_function.dfg.nextValue =
      c.current_function.dfg.nextValue + returns.length + 1 +
        returns.length ∧
    (callSeg returns params_ids fid prev c).1.current_function.dfg.nextInst =
      c.current_function.dfg.nextInst + 1 ∧
    (callSeg returns params_ids fid prev c).1.current_function.dfg.nextBlock =
      c.current_function.dfg.nextBlock + 1 ∧
    lookupA (callSeg returns params_ids fid prev
        c).1.current_function.dfg.blocks c.current_block =
      some { parameters := blkc.parameters,
             instructions := blkc.instructions ++
               [c.current_function.dfg.nextInst],
             terminator := some (Terminator.Jmp
               c.current_function.dfg.nextBlock
               (List.range'
                 (c.current_function.dfg.nextValue + returns.length + 1)
                 returns.length)) } ∧
    lookupA (callSeg returns params_ids fid prev
        c).1.current_function.dfg.blocks c.current_function.dfg.nextBlock =
      some { parameters :=
               (List.range' c.current_function.dfg.nextValue returns.length),
             instructions := [],
             terminator := some (match prev with
               | none => Terminator.Return
                   (List.range' c.current_function.dfg.nextValue
                     returns.length)
               | some tb => Terminator.Jmp tb
                   (List.range' c.current_function.dfg.nextValue
                     returns.length)) } ∧
    (∀ k, k ≠ c.current_block → k ≠ c.current_function.dfg.nextBlock →
      lookupA (callSeg returns params_ids fid prev
          c).1.current_function.dfg.blocks k =
        lookupA c.current_function.dfg.blocks k) ∧
    lookupA (callSeg returns params_ids fid prev
        c).1.current_function.dfg.instructions
        c.current_function.dfg.nextInst =
      some (Instruction.Call
        (c.current_function.dfg.nextValue + returns.length) params_ids) ∧
    (∀ i, i ≠ c.current_function.dfg.nextInst →
      lookupA (callSeg returns params_ids fid prev
          c).1.current_function.dfg.instructions i =
        lookupA c.current_function.dfg.instructions i) ∧
    lookupA (callSeg returns params_ids fid prev
        c).1.current_function.dfg.results c.current_function.dfg.nextInst =
      some (List.range'
        (c.current_function.dfg.nextValue + returns.length + 1)
        returns.length) ∧
    (∀ i, i ≠ c.current_function.dfg.nextInst →
      lookupA (callSeg returns params_ids fid prev
          c).1.current_function.dfg.results i =
        lookupA c.current_function.dfg.results i) ∧
    (∀ v, v < c.current_function.dfg.nextValue →
      lookupA (callSeg returns params_ids fid prev
          c).1.current_function.dfg.values v =
        lookupA c.current_function.dfg.values v) ∧
    (∀ j, j < returns.length →
      lookupA (callSeg returns params_ids fid prev
          c).1.current_function.dfg.values
          (c.current_function.dfg.nextValue + j) =
        some (Value.Param c.current_function.dfg.nextBlock j
          (returns.getD j Ty.Unit))) ∧
    lookupA (callSeg returns params_ids fid prev
        c).1.current_function.dfg.values
        (c.current_function.dfg.nextValue + returns.length) =
      some (Value.Function fid) ∧
    (∀ j, j < returns.length →
      lookupA (callSeg returns params_ids fid prev
          c).1.current_function.dfg.values
          (c.current_function.dfg.nextValue + returns.length + 1 + j) =
        some (Value.Instruction c.current_function.dfg.nextInst j
          (returns.getD j Ty.Unit))) ∧
    (callSeg returns params_ids fid prev c).1.current_function.name =
      c.current_function.name ∧
    (callSeg returns params_ids fid prev c).1.current_function.id =
      c.current_function.id ∧
    (callSeg returns params_ids fid prev c).1.current_function.runtime =
      c.current_function.runtime ∧
    (callSeg returns params_ids fid prev c).1.current_function.entryBlock =
      c.current_function.entryBlock ∧
    ((∀ p ∈ c.current_function.dfg.values,
        p.1 < c.current_function.dfg.nextValue) →
      ∀ p ∈ (callSeg returns params_ids fid prev
          c).1.current_function.dfg.values,
        p.1 < c.current_function.dfg.nextValue + returns.length + 1 +
          returns.length) ∧
    ((∀ p ∈ c.current_function.dfg.blocks,
        p.1 < c.current_function.dfg.nextBlock) →
      ∀ p ∈ (callSeg returns params_ids fid prev
          c).1.current_function.dfg.blocks,
        p.1 < c.current_function.dfg.nextBlock + 1) ∧
    ((∀ p ∈ c.current_function.dfg.instructions,
        p.1 < c.current_function.dfg.nextInst) →
      ∀ p ∈ (callSeg returns params_ids fid prev
          c).1.current_function.dfg.instructions,
        p.1 < c.current_function.dfg.nextInst + 1) ∧
    ((∀ p ∈ c.current_function.dfg.results,
        p.1 < c.current_function.dfg.nextInst) →
      ∀ p ∈ (callSeg returns params_ids fid prev
          c).1.current_function.dfg.results,
        p.1 < c.current_function.dfg.nextInst + 1) := by
  obtain ⟨t1, t2, t3, t4, t5, t6, t7, t8, t9, t10, t11, t12, t13, t14, t15,
    t16, t17⟩ := build_return_block_spec c c.current_block returns prev
  set BR := build_return_block c c.current_block returns prev with hBR
  set P5 := BR.1.import_function fid with hP5
  have hfnv : P5.2 = c.current_function.dfg.nextValue + returns.length := by
    have h : P5.2 = BR.1.current_function.dfg.nextValue := rfl
    rw [t4] at h
    exact h
  have hnv5 : P5.1.current_function.dfg.nextValue =
      c.current_function.dfg.nextValue + returns.length + 1 := by
    have h : P5.1.current_function.dfg.nextValue =
        BR.1.current_function.dfg.nextValue + 1 := rfl
    rw [t4] at h
    exact h
  have hnI5 : P5.1.current_function.dfg.nextInst =
      c.current_function.dfg.nextInst := by
    have h : P5.1.current_function.dfg.nextInst =
        BR.1.current_function.dfg.nextInst := rfl
    rw [t7] at h
    exact h
  have hnb5 : P5.1.current_function.dfg.nextBlock =
      c.current_function.dfg.nextBlock + 1 := by
    have h : P5.1.current_function.dfg.nextBlock =
        BR.1.current_function.dfg.nextBlock := rfl
    rw [t3] at h
    exact h
  have hcb5 : P5.1.current_block = c.current_block := by
    have h : P5.1.current_block = BR.1.current_block := rfl
    rw [t2] at h
    exact h
  have hblk5 : P5.1.current_function.dfg.blocks =
      BR.1.current_function.dfg.blocks := rfl
  have hins5 : P5.1.current_function.dfg.instructions =
      BR.1.current_function.dfg.instructions := rfl
  have hres5 : P5.1.current_function.dfg.results =
      BR.1.current_function.dfg.results := rfl
  have hval5 : P5.1.current_function.dfg.values =
      (BR.1.current_function.dfg.nextValue, Value.Function fid) ::
        BR.1.current_function.dfg.values := rfl
  have hb5 : lookupA P5.1.current_function.dfg.blocks P5.1.current_block =
      some { parameters := blkc.parameters,
             instructions := blkc.instructions, terminator :=
               blkc.terminator } := by
    rw [hblk5, hcb5, t13 c.current_block (Nat.ne_of_lt hlt)]
    exact hcb
  obtain ⟨u1, u2, u3, u4, u5, u6, u7, u8, u9, u10, u11, u12, u13, u14, u15,
    u16, u17⟩ := insertInstruction_spec P5.1.current_function.dfg
      P5.1.current_block (Instruction.Call P5.2 params_ids) returns _ hb5
  set E6 := P5.1.current_function.dfg.insertInstruction P5.1.current_block
    (Instruction.Call P5.2 params_ids) returns with hE6
  rw [hnI5] at u1 u3 u6 u8 u13
  rw [hnv5] at u2 u4 u8 u13
  rw [hcb5] at u10 u11
  rw [hfnv] at u6
  have hunf : callSeg returns params_ids fid prev c =
      (({ P5.1 with current_function :=
          { P5.1.current_function with dfg := E6.1 } }).terminate_with_jmp
        BR.2 E6.2.2, BR.2) := rfl
  have hb6 : lookupA ({ P5.1 with current_function :=
      { P5.1.current_function with dfg := E6.1 } } :
        FunctionBuilder).current_function.dfg.blocks
      ({ P5.1 with current_function :=
        { P5.1.current_function with dfg := E6.1 } } :
          FunctionBuilder).current_block =
      some { parameters := blkc.parameters,
             instructions := blkc.instructions ++
               [c.current_function.dfg.nextInst],
             terminator := blkc.terminator } := by
    show lookupA E6.1.blocks P5.1.current_block = some _
    rw [hcb5]
    have h := u10
    rw [hnI5] at h
    exact h
  rw [hunf]
  simp only [FunctionBuilder.terminate_with_jmp]
  rw [terminate_eq _ _ _ hb6]
  have hcrs : E6.2.2 = List.range'
      (c.current_function.dfg.nextValue + returns.length + 1)
      returns.length := u2
  have hret : BR.2 = c.current_function.dfg.nextBlock := t1
  refine ⟨hret, ?_, u4, u3, ?_, ?_, ?_, ?_, ?_, ?_, ?_, ?_, ?_, ?_, ?_, ?_,
    ?_, ?_, ?_, ?_, ?_, ?_, ?_, ?_⟩
  · show P5.1.current_block = c.current_block
    exact hcb5
  · show E6.1.nextBlock = c.current_function.dfg.nextBlock + 1
    rw [u5]
    exact hnb5
  · show lookupA ((P5.1.current_block, _) :: E6.1.blocks) c.current_block =
      _
    rw [hcb5, lookupA_cons, if_pos rfl, hcrs, hret]
  · show lookupA ((P5.1.current_block, _) :: E6.1.blocks)
      c.current_function.dfg.nextBlock = _
    rw [hcb5, lookupA_cons, if_neg (Nat.ne_of_lt hlt)]
    rw [u11 c.current_function.dfg.nextBlock (Ne.symm (Nat.ne_of_lt hlt))]
    rw [hblk5]
    exact t12
  · intro k hk1 hk2
    show lookupA ((P5.1.current_block, _) :: E6.1.blocks) k = _
    rw [hcb5, lookupA_cons, if_neg (Ne.symm hk1)]
    rw [u11 k hk1, hblk5, t13 k hk2]
  · show lookupA E6.1.instructions c.current_function.dfg.nextInst = _
    exact u6
  · intro i hi
    show lookupA E6.1.instructions i = _
    rw [u7 i (by rw [hnI5]; exact hi), hins5, t5]
  · show lookupA E6.1.results c.current_function.dfg.nextInst = _
    exact u8
  · intro i hi
    show lookupA E6.1.results i = _
    rw [u9 i (by rw [hnI5]; exact hi), hres5, t6]
  · intro v hv
    show lookupA E6.1.values v = _
    have hvlt : v < P5.1.current_function.dfg.nextValue := by
      rw [hnv5]
      omega
    have hne : BR.1.current_function.dfg.nextValue ≠ v := by
      rw [t4]
      omega
    rw [u12 v hvlt]
    rw [hval5, lookupA_cons, if_neg hne]
    exact t14 v hv
  · intro j hj
    show lookupA E6.1.values (c.current_function.dfg.nextValue + j) = _
    have hvlt : c.current_function.dfg.nextValue + j <
        P5.1.current_function.dfg.nextValue := by
      rw [hnv5]
      omega
    have hne : BR.1.current_function.dfg.nextValue ≠
        c.current_function.dfg.nextValue + j := by
      rw [t4]
      omega
    rw [u12 _ hvlt]
    rw [hval5, lookupA_cons, if_neg hne]
    exact t15 j hj
  · show lookupA E6.1.values
      (c.current_function.dfg.nextValue + returns.length) = _
    have hvlt : c.current_function.dfg.nextValue + returns.length <
        P5.1.current_function.dfg.nextValue := by
      rw [hnv5]
      omega
    have heq : BR.1.current_function.dfg.nextValue =
        c.current_function.dfg.nextValue + returns.length := t4
    rw [u12 _ hvlt]
    rw [hval5, lookupA_cons, if_pos heq]
  · intro j hj
    show lookupA E6.1.values
      (c.current_function.dfg.nextValue + returns.length + 1 + j) = _
    exact u13 j hj
  · show P5.1.current_function.name = _
    have h : P5.1.current_function.name = BR.1.current_function.name := rfl
    rw [t8] at h
    exact h
  · show P5.1.current_function.id = _
    have h : P5.1.current_function.id = BR.1.current_function.id := rfl
    rw [t9] at h
    exact h
  · show P5.1.current_function.runtime = _
    have h : P5.1.current_function.runtime = BR.1.current_function.runtime
      := rfl
    rw [t10] at h
    exact h
  · show P5.1.current_function.entryBlock = _
    have h : P5.1.current_function.entryBlock =
        BR.1.current_function.entryBlock := rfl
    rw [t11] at h
    exact h
  · intro h p hp
    have hp2 : p ∈ E6.1.values := hp
    have hkb5 : ∀ q ∈ P5.1.current_function.dfg.values,
        q.1 < P5.1.current_function.dfg.nextValue := by
      intro q hq
      have hq2 : q ∈ (BR.1.current_function.dfg.nextValue,
          Value.Function fid) :: BR.1.current_function.dfg.values := by
        rw [← hval5]
        exact hq
      rw [hnv5]
      rcases List.mem_cons.mp hq2 with hq3 | hq3
      · rw [hq3]
        show BR.1.current_function.dfg.nextValue <
          c.current_function.dfg.nextValue + returns.length + 1
        rw [t4]
        exact Nat.lt_succ_self _
      · exact Nat.lt_succ_of_lt (t16 h q hq3)
    have := u14 hkb5 p hp2
    rw [hnv5] at this
    exact this
  · intro h p hp
    rcases List.mem_cons.mp hp with hq | hq
    · rw [hq]
      show P5.1.current_block < c.current_function.dfg.nextBlock + 1
      rw [hcb5]
      exact Nat.lt_succ_of_lt hlt
    · have hkb5 : ∀ q ∈ P5.1.current_function.dfg.blocks,
          q.1 < P5.1.current_function.dfg.nextBlock := by
        intro q hq2
        have hq3 : q ∈ BR.1.current_function.dfg.blocks := by
          rw [← hblk5]
          exact hq2
        rw [hnb5]
        exact t17 h q hq3
      have := u15 hkb5 p hq
      rw [hnb5] at this
      exact this
  · intro h p hp
    have hp2 : p ∈ E6.1.instructions := hp
    have hkb5 : ∀ q ∈ P5.1.current_function.dfg.instructions,
        q.1 < P5.1.current_function.dfg.nextInst := by
      intro q hq
      have hq2 : q ∈ BR.1.current_function.dfg.instructions := by
        rw [← hins5]
        exact hq
      rw [hnI5]
      rw [t5] at hq2
      exact h q hq2
    have := u16 hkb5 p hp2
    rw [hnI5] at this
    exact this
  · intro h p hp
    have hp2 : p ∈ E6.1.results := hp
    have hkb5 : ∀ q ∈ P5.1.current_function.dfg.results,
        q.1 < P5.1.current_function.dfg.nextInst := by
      intro q hq
      have hq2 : q ∈ BR.1.current_function.dfg.results := by
        rw [← hres5]
        exact hq
      rw [hnI5]
      rw [t6] at hq2
      exact h q hq2
    have := u17 hkb5 p hp2
    rw [hnI5] at this
    exact this

theorem applyLoop_last_spec (returns : List Ty) (target : ValueId)
    (params_ids : List ValueId) (fid : FunctionId) (b : FunctionBuilder)
    (prev : Option BasicBlockId) (v0 : ValueId) (ps0 : List ValueId)
    (hcur : lookupA b.current_function.dfg.blocks b.current_block =
      some { parameters := ps0, instructions := [], terminator := none })
    (hwf : BWF b) (hv0 : v0 ≤ b.current_function.dfg.nextValue) :
    ∃ segs : List Seg,
      SegsSpec
        (applyLoop returns target params_ids [fid] b prev).current_function
        v0 target params_ids returns [fid] segs b.current_block prev ∧
      LoopPres b
        (applyLoop returns target params_ids [fid] b prev).current_function ∧
      FWF
        (applyLoop returns target params_ids [fid] b prev).current_function ∧
      ∃ blkc, lookupA (applyLoop returns target params_ids [fid] b
          prev).current_function.dfg.blocks b.current_block = some blkc ∧
        blkc.parameters = ps0 := by
  obtain ⟨hwf1, hwf2, hwf3, hwf4, hwf5⟩ := hwf
  set P1 := b.numeric_constant (function_id_to_field fid)
    (Ty.Numeric NumericType.NativeField) with hP1
  have hP1nv : P1.1.current_function.dfg.nextValue =
      b.current_function.dfg.nextValue + 1 := rfl
  have hP1nI : P1.1.current_function.dfg.nextInst =
      b.current_function.dfg.nextInst := rfl
  have hP1nB : P1.1.current_function.dfg.nextBlock =
      b.current_function.dfg.nextBlock := rfl
  have hP1cb : P1.1.current_block = b.current_block := rfl
  have hP1v : P1.2 = b.current_function.dfg.nextValue := rfl
  have hP1vals : P1.1.current_function.dfg.values =
      (b.current_function.dfg.nextValue,
        Value.NumericConstant (function_id_to_field fid)
          (Ty.Numeric NumericType.NativeField)) ::
        b.current_function.dfg.values := rfl
  have hP1blocks : P1.1.current_function.dfg.blocks =
      b.current_function.dfg.blocks := rfl
  have hP1ins : P1.1.current_function.dfg.instructions =
      b.current_function.dfg.instructions := rfl
  have hP1res : P1.1.current_function.dfg.results =
      b.current_function.dfg.results := rfl
  have hbP1 : lookupA P1.1.current_function.dfg.blocks P1.1.current_block =
      some { parameters := ps0, instructions := [], terminator := none } :=
    hcur
  obtain ⟨v1, v2, v3, v4, v5, v6, v7, v8, v9, v10, v11, v12, v13, v14, v15,
    v16, v17⟩ := insertInstruction_spec P1.1.current_function.dfg
      P1.1.current_block (Instruction.Binary BinaryOp.Eq target P1.2)
      [Ty.bool] _ hbP1
  set E2 := P1.1.current_function.dfg.insertInstruction P1.1.current_block
    (Instruction.Binary BinaryOp.Eq target P1.2) [Ty.bool] with hE2
  set P2 := P1.1.insert_binary target BinaryOp.Eq P1.2 with hP2
  rw [hP1nv] at v2 v4 v8 v12 v13 v14
  rw [hP1nI] at v1 v3 v6 v7 v8 v9 v13 v16 v17
  rw [hP1nB] at v5 v15
  rw [hP1cb] at v10 v11
  rw [hP1v] at v6
  have hP2v : P2.2 = (E2.2.2).getD 0 0 := rfl
  have hP2cb : P2.1.current_block = b.current_block := rfl
  have hcond : P2.2 = b.current_function.dfg.nextValue + 1 := by
    rw [hP2v, v2]
    simp [List.range']
  have hP2nv : P2.1.current_function.dfg.nextValue =
      b.current_function.dfg.nextValue + 2 := by
    show E2.1.nextValue = _
    rw [v4]
    rfl
  have hP2nI : P2.1.current_function.dfg.nextInst =
      b.current_function.dfg.nextInst + 1 := by
    show E2.1.nextInst = _
    rw [v3]
  have hP2nB : P2.1.current_function.dfg.nextBlock =
      b.current_function.dfg.nextBlock := by
    show E2.1.nextBlock = _
    rw [v5]
  have hbP2 : lookupA P2.1.current_function.dfg.blocks P2.1.current_block =
      some { parameters := ps0,
             instructions := [b.current_function.dfg.nextInst],
             terminator := none } := by
    show lookupA E2.1.blocks P2.1.current_block = some _
    rw [hP2cb]
    exact v10
  obtain ⟨w1, w2, w3, w4, w5, w6, w7, w8, w9, w10, w11, w12, w13, w14, w15,
    w16, w17⟩ := insertInstruction_spec P2.1.current_function.dfg
      P2.1.current_block (Instruction.Constrain P2.2) [] _ hbP2
  set E3 := P2.1.current_function.dfg.insertInstruction P2.1.current_block
    (Instruction.Constrain P2.2) [] with hE3
  set C3 := P2.1.insert_constrain P2.2 with hC3
  rw [hP2cb] at w10 w11
  rw [hP2nv] at w2 w4 w12 w13 w14
  rw [hP2nI] at w1 w3 w6 w7 w8 w9 w10 w13 w16 w17
  rw [hP2nB] at w5 w15
  rw [hcond] at w6
  have hC3cb : C3.current_block = b.current_block := rfl
  have hC3nv : C3.current_function.dfg.nextValue =
      b.current_function.dfg.nextValue + 2 := by
    show E3.1.nextValue = _
    rw [w4]
    rfl
  have hC3nI : C3.current_function.dfg.nextInst =
      b.current_function.dfg.nextInst + 2 := by
    show E3.1.nextInst = _
    rw [w3]
  have hC3nB : C3.current_function.dfg.nextBlock =
      b.current_function.dfg.nextBlock := by
    show E3.1.nextBlock = _
    rw [w5]
  have hcb3 : lookupA C3.current_function.dfg.blocks C3.current_block =
      some { parameters := ps0,
             instructions := [b.current_function.dfg.nextInst,
               b.current_function.dfg.nextInst + 1],
             terminator := none } := by
    show lookupA E3.1.blocks C3.current_block = some _
    rw [hC3cb]
    simpa using w10
  have hlt3 : C3.current_block < C3.current_function.dfg.nextBlock := by
    rw [hC3cb, hC3nB]
    exact hwf1
  obtain ⟨c1, c2, c3, c4, c5, c6, c7, c8, c9, c10, c11, c12, c13, c14, c15,
    c16, c17, c18, c19, c20, c21, c22, c23, c24⟩ :=
    callSeg_spec returns params_ids fid prev C3 _ hcb3 hlt3
  rw [hC3nB] at c1 c5 c6 c7 c8 c14 c22
  rw [hC3cb] at c2 c6 c8
  rw [hC3nv] at c3 c6 c7 c9 c11 c13 c14 c15 c16 c21
  rw [hC3nI] at c4 c6 c9 c10 c11 c12 c16 c23 c24
  have hC3name : C3.current_function.name = b.current_function.name := rfl
  have hC3id : C3.current_function.id = b.current_function.id := rfl
  have hC3rt : C3.current_function.runtime = b.current_function.runtime :=
    rfl
  have hC3eb : C3.current_function.entryBlock =
      b.current_function.entryBlock := rfl
  rw [hC3name] at c17
  rw [hC3id] at c18
  rw [hC3rt] at c19
  rw [hC3eb] at c20
  have hunf : applyLoop returns target params_ids [fid] b prev =
      (callSeg returns params_ids fid prev C3).1 := rfl
  rw [hunf]
  refine ⟨[Seg.mk b.current_block b.current_block
    b.current_function.dfg.nextBlock
    b.current_function.dfg.nextInst
    (b.current_function.dfg.nextInst + 1)
    (b.current_function.dfg.nextInst + 2)
    b.current_function.dfg.nextValue
    (b.current_function.dfg.nextValue + 1)
    (b.current_function.dfg.nextValue + 2 + returns.length)
    (List.range' (b.current_function.dfg.nextValue + 2 + returns.length + 1)
      returns.length)
    (List.range' (b.current_function.dfg.nextValue + 2) returns.length)],
    ?_, ?_, ?_, ?_⟩
  · refine ⟨rfl, rfl, ⟨ps0, c6⟩, ?_, ?_, ?_, ?_, ?_, ?_, ?_, ?_, ?_, ?_, ?_,
      ?_, ?_, ?_, ?_, ?_⟩
    · rw [c10 (b.current_function.dfg.nextInst + 1) (by omega)]
      show lookupA E3.1.instructions (b.current_function.dfg.nextInst + 1) =
        _
      exact w6
    · rw [c10 b.current_function.dfg.nextInst (by omega)]
      show lookupA E3.1.instructions b.current_function.dfg.nextInst = _
      rw [w7 b.current_function.dfg.nextInst (by omega)]
      show lookupA E2.1.instructions b.current_function.dfg.nextInst = _
      exact v6
    · simp only [resultsOf]
      rw [c12 b.current_function.dfg.nextInst (by omega)]
      show (lookupA E3.1.results b.current_function.dfg.nextInst).getD [] = _
      rw [w9 b.current_function.dfg.nextInst (by omega)]
      show (lookupA E2.1.results b.current_function.dfg.nextInst).getD [] = _
      rw [v8]
      simp [List.range']
    · rw [c13 b.current_function.dfg.nextValue (by omega)]
      show lookupA E3.1.values b.current_function.dfg.nextValue = _
      rw [w12 b.current_function.dfg.nextValue (by omega)]
      show lookupA E2.1.values b.current_function.dfg.nextValue = _
      rw [v12 b.current_function.dfg.nextValue (by omega)]
      rw [hP1vals, lookupA_cons, if_pos rfl]
    · refine ⟨Ty.bool, ?_⟩
      rw [c13 (b.current_function.dfg.nextValue + 1) (by omega)]
      show lookupA E3.1.values (b.current_function.dfg.nextValue + 1) = _
      rw [w12 (b.current_function.dfg.nextValue + 1) (by omega)]
      show lookupA E2.1.values (b.current_function.dfg.nextValue + 1) = _
      have h := v13 0 (by simp)
      simpa using h
    · exact Nat.le_succ_of_le hv0
    · exact c9
    · exact c15
    · simp only [resultsOf, c11, Option.getD_some]
    · simp [List.length_range']
    · exact List.nodup_range' _ _
    · intro r hr
      have hr2 : r ∈ List.range'
          (b.current_function.dfg.nextValue + 2 + returns.length + 1)
          returns.length := hr
      rw [List.mem_range'] at hr2
      obtain ⟨i, hi, hri⟩ := hr2
      rw [Nat.one_mul] at hri
      refine ⟨i, returns.getD i Ty.Unit, ?_⟩
      rw [hri]
      exact c16 i hi
    · rcases prev with _ | pb
      · exact c7
      · exact c7
    · simp [List.length_range']
    · exact List.nodup_range' _ _
    · intro p hp
      have hp2 : p ∈ List.range' (b.current_function.dfg.nextValue + 2)
          returns.length := hp
      rw [List.mem_range'] at hp2
      obtain ⟨i, hi, hpi⟩ := hp2
      rw [Nat.one_mul] at hpi
      refine ⟨i, returns.getD i Ty.Unit, ?_⟩
      rw [hpi]
      exact c14 i hi
  · refine ⟨?_, ?_, ?_, ?_, ?_, ?_, ?_, c17, c18, c19, c20⟩
    · intro k hk hklt
      rw [c8 k hk (Nat.ne_of_lt hklt)]
      show lookupA E3.1.blocks k = _
      rw [w11 k hk]
      show lookupA E2.1.blocks k = _
      rw [v11 k hk]
      rw [hP1blocks]
    · intro v hv
      have hne : b.current_function.dfg.nextValue ≠ v := Nat.ne_of_gt hv
      rw [c13 v (by omega)]
      show lookupA E3.1.values v = _
      rw [w12 v (by omega)]
      show lookupA E2.1.values v = _
      rw [v12 v (by omega)]
      rw [hP1vals, lookupA_cons, if_neg hne]
    · intro i hi
      rw [c10 i (by omega)]
      show lookupA E3.1.instructions i = _
      rw [w7 i (by omega)]
      show lookupA E2.1.instructions i = _
      rw [v7 i (by omega)]
      rw [hP1ins]
    · intro i hi
      rw [c12 i (by omega)]
      show lookupA E3.1.results i = _
      rw [w9 i (by omega)]
      show lookupA E2.1.results i = _
      rw [v9 i (by omega)]
      rw [hP1res]
    · rw [c3]
      omega
    · rw [c4]
      omega
    · rw [c5]
      omega
  · refine ⟨?_, ?_, ?_, ?_⟩
    · intro p hp
      rw [c5]
      refine c22 ?_ p hp
      intro q hq
      have hq2 : q ∈ E3.1.blocks := hq
      refine w15 ?_ q hq2
      intro r hr
      have hr2 : r ∈ E2.1.blocks := hr
      refine v15 ?_ r hr2
      intro x hx
      exact hwf2 x hx
    · intro p hp
      rw [c3]
      refine c21 ?_ p hp
      intro q hq
      have hq2 : q ∈ E3.1.values := hq
      have h := w14 ?_ q hq2
      · exact h
      intro r hr
      have hr2 : r ∈ E2.1.values := hr
      have h2 := v14 ?_ r hr2
      · exact h2
      intro x hx
      have hx2 : x ∈ (b.current_function.dfg.nextValue,
          Value.NumericConstant (function_id_to_field fid)
            (Ty.Numeric NumericType.NativeField)) ::
          b.current_function.dfg.values := by
        rw [← hP1vals]
        exact hx
      rcases List.mem_cons.mp hx2 with hx3 | hx3
      · rw [hx3]
        exact Nat.lt_succ_self _
      · exact Nat.lt_succ_of_lt (hwf3 x hx3)
    · intro p hp
      rw [c4]
      refine c23 ?_ p hp
      intro q hq
      have hq2 : q ∈ E3.1.instructions := hq
      have h := w16 ?_ q hq2
      · exact h
      intro r hr
      have hr2 : r ∈ E2.1.instructions := hr
      have h2 := v16 ?_ r hr2
      · exact h2
      intro x hx
      exact hwf4 x hx
    · intro p hp
      rw [c4]
      refine c24 ?_ p hp
      intro q hq
      have hq2 : q ∈ E3.1.results := hq
      have h := w17 ?_ q hq2
      · exact h
      intro r hr
      have hr2 : r ∈ E2.1.results := hr
      have h2 := v17 ?_ r hr2
      · exact h2
      intro x hx
      exact hwf5 x hx
  · exact ⟨_, c6, rfl⟩

theorem applyLoop_mid_unfold (returns : List Ty) (target : ValueId)
    (params_ids : List ValueId) (fid fid2 : FunctionId)
    (rest : List FunctionId) (b : FunctionBuilder)
    (prev : Option BasicBlockId) :
    applyLoop returns target params_ids (fid :: fid2 :: rest) b prev =
      applyLoop returns target params_ids (fid2 :: rest)
        (midStep returns target params_ids fid prev b).1
        (some (midStep returns target params_ids fid prev b).2) := rfl

theorem midStep_spec (returns : List Ty) (target : ValueId)
    (params_ids : List ValueId) (fid : FunctionId) (b : FunctionBuilder)
    (prev : Option BasicBlockId) (ps0 : List ValueId)
    (hcur : lookupA b.current_function.dfg.blocks b.current_block =
      some { parameters := ps0, instructions := [], terminator := none })
    (hwf : BWF b) :
    (midStep returns target params_ids fid prev b).2 =
      b.current_function.dfg.nextBlock + 2 ∧
    (midStep returns target params_ids fid prev b).1.current_block =
      b.current_function.dfg.nextBlock ∧
    (midStep returns target params_ids fid prev
        b).1.current_function.dfg.nextValue =
      b.current_function.dfg.nextValue + 2 + returns.length + 1 +
        returns.length ∧
    (midStep returns target params_ids fid prev
        b).1.current_function.dfg.nextInst =
      b.current_function.dfg.nextInst + 2 ∧
    (midStep returns target params_ids fid prev
        b).1.current_function.dfg.nextBlock =
      b.current_function.dfg.nextBlock + 3 ∧
    (midStep returns target params_ids fid prev b).1.current_function.name =
      b.current_function.name ∧
    (midStep returns target params_ids fid prev b).1.current_function.id =
      b.current_function.id ∧
    (midStep returns target params_ids fid prev
        b).1.current_function.runtime = b.current_function.runtime ∧
    (midStep returns target params_ids fid prev
        b).1.current_function.entryBlock = b.current_function.entryBlock ∧
    lookupA (midStep returns target params_ids fid prev
        b).1.current_function.dfg.blocks b.current_function.dfg.nextBlock =
      some { parameters := [], instructions := [], terminator := none } ∧
    lookupA (midStep returns target params_ids fid prev
        b).1.current_function.dfg.blocks b.current_block =
      some { parameters := ps0,
             instructions := [b.current_function.dfg.nextInst],
             terminator := some (Terminator.JmpIf
               (b.current_function.dfg.nextValue + 1)
               (b.current_function.dfg.nextBlock + 1)
               b.current_function.dfg.nextBlock) } ∧
    lookupA (midStep returns target params_ids fid prev
        b).1.current_function.dfg.blocks
        (b.current_function.dfg.nextBlock + 1) =
      some { parameters := [],
             instructions := [b.current_function.dfg.nextInst + 1],
             terminator := some (Terminator.Jmp
               (b.current_function.dfg.nextBlock + 2)
               (List.range'
                 (b.current_function.dfg.nextValue + 2 + returns.length + 1)
                 returns.length)) } ∧
    lookupA (midStep returns target params_ids fid prev
        b).1.current_function.dfg.blocks
        (b.current_function.dfg.nextBlock + 2) =
      some { parameters :=
               (List.range' (b.current_function.dfg.nextValue + 2)
                 returns.length),
             instructions := [],
             terminator := some (match prev with
               | none => Terminator.Return
                   (List.range' (b.current_function.dfg.nextValue + 2)
                     returns.length)
               | some tb => Terminator.Jmp tb
                   (List.range' (b.current_function.dfg.nextValue + 2)
                     returns.length)) } ∧
    (∀ k, k ≠ b.current_block → k < b.current_function.dfg.nextBlock →
      lookupA (midStep returns target params_ids fid prev
          b).1.current_function.dfg.blocks k =
        lookupA b.current_function.dfg.blocks k) ∧
    lookupA (midStep returns target params_ids fid prev
        b).1.current_function.dfg.instructions
        b.current_function.dfg.nextInst =
      some (Instruction.Binary BinaryOp.Eq target
        b.current_function.dfg.nextValue) ∧
    lookupA (midStep returns target params_ids fid prev
        b).1.current_function.dfg.instructions
        (b.current_function.dfg.nextInst + 1) =
      some (Instruction.Call
        (b.current_function.dfg.nextValue + 2 + returns.length) params_ids) ∧
    (∀ i, i < b.current_function.dfg.nextInst →
      lookupA (midStep returns target params_ids fid prev
          b).1.current_function.dfg.instructions i =
        lookupA b.current_function.dfg.instructions i) ∧
    lookupA (midStep returns target params_ids fid prev
        b).1.current_function.dfg.results b.current_function.dfg.nextInst =
      some [b.current_function.dfg.nextValue + 1] ∧
    lookupA (midStep returns target params_ids fid prev
        b).1.current_function.dfg.results
        (b.current_function.dfg.nextInst + 1) =
      some (List.range'
        (b.current_function.dfg.nextValue + 2 + returns.length + 1)
        returns.length) ∧
    (∀ i, i < b.current_function.dfg.nextInst →
      lookupA (midStep returns target params_ids fid prev
          b).1.current_function.dfg.results i =
        lookupA b.current_function.dfg.results i) ∧
    (∀ v, v < b.current_function.dfg.nextValue →
      lookupA (midStep returns target params_ids fid prev
          b).1.current_function.dfg.values v =
        lookupA b.current_function.dfg.values v) ∧
    lookupA (midStep returns target params_ids fid prev
        b).1.current_function.dfg.values b.current_function.dfg.nextValue =
      some (Value.NumericConstant (function_id_to_field fid)
        (Ty.Numeric NumericType.NativeField)) ∧
    lookupA (midStep returns target params_ids fid prev
        b).1.current_function.dfg.values
        (b.current_function.dfg.nextValue + 1) =
      some (Value.Instruction b.current_function.dfg.nextInst 0 Ty.bool) ∧
    (∀ j, j < returns.length →
      lookupA (midStep returns target params_ids fid prev
          b).1.current_function.dfg.values
          (b.current_function.dfg.nextValue + 2 + j) =
        some (Value.Param (b.current_function.dfg.nextBlock + 2) j
          (returns.getD j Ty.Unit))) ∧
    lookupA (midStep returns target params_ids fid prev
        b).1.current_function.dfg.values
        (b.current_function.dfg.nextValue + 2 + returns.length) =
      some (Value.Function fid) ∧
    (∀ j, j < returns.length →
      lookupA (midStep returns target params_ids fid prev
          b).1.current_function.dfg.values
          (b.current_function.dfg.nextValue + 2 + returns.length + 1 + j) =
        some (Value.Instruction (b.current_function.dfg.nextInst + 1) j
          (returns.getD j Ty.Unit))) ∧
    BWF (midStep returns target params_ids fid prev b).1 := by
  obtain ⟨hwf1, hwf2, hwf3, hwf4, hwf5⟩ := hwf
  set P1 := b.numeric_constant (function_id_to_field fid)
    (Ty.Numeric NumericType.NativeField) with hP1
  have hP1nv : P1.1.current_function.dfg.nextValue =
      b.current_function.dfg.nextValue + 1 := rfl
  have hP1nI : P1.1.current_function.dfg.nextInst =
      b.current_function.dfg.nextInst := rfl
  have hP1nB : P1.1.current_function.dfg.nextBlock =
      b.current_function.dfg.nextBlock := rfl
  have hP1cb : P1.1.current_block = b.current_block := rfl
  have hP1v : P1.2 = b.current_function.dfg.nextValue := rfl
  have hP1vals : P1.1.current_function.dfg.values =
      (b.current_function.dfg.nextValue,
        Value.NumericConstant (function_id_to_field fid)
          (Ty.Numeric NumericType.NativeField)) ::
        b.current_function.dfg.values := rfl
  have hP1blocks : P1.1.current_function.dfg.blocks =
      b.current_function.dfg.blocks := rfl
  have hP1ins : P1.1.current_function.dfg.instructions =
      b.current_function.dfg.instructions := rfl
  have hP1res : P1.1.current_function.dfg.results =
      b.current_function.dfg.results := rfl
  have hbP1 : lookupA P1.1.current_function.dfg.blocks P1.1.current_block =
      some { parameters := ps0, instructions := [], terminator := none } :=
    hcur
  obtain ⟨v1, v2, v3, v4, v5, v6, v7, v8, v9, v10, v11, v12, v13, v14, v15,
    v16, v17⟩ := insertInstruction_spec P1.1.current_function.dfg
      P1.1.current_block (Instruction.Binary BinaryOp.Eq target P1.2)
      [Ty.bool] _ hbP1
  set E2 := P1.1.current_function.dfg.insertInstruction P1.1.current_block
    (Instruction.Binary BinaryOp.Eq target P1.2) [Ty.bool] with hE2
  set P2 := P1.1.insert_binary target BinaryOp.Eq P1.2 with hP2
  rw [hP1nv] at v2 v4 v8 v12 v13 v14
  rw [hP1nI] at v1 v3 v6 v7 v8 v9 v13 v16 v17
  rw [hP1nB] at v5 v15
  rw [hP1cb] at v10 v11
  rw [hP1v] at v6
  have hP2v : P2.2 = (E2.2.2).getD 0 0 := rfl
  have hP2cb : P2.1.current_block = b.current_block := rfl
  have hcond : P2.2 = b.current_function.dfg.nextValue + 1 := by
    rw [hP2v, v2]
    simp [List.range']
  have hP2nv : P2.1.current_function.dfg.nextValue =
      b.current_function.dfg.nextValue + 2 := by
    show E2.1.nextValue = _
    rw [v4]
    rfl
  have hP2nI : P2.1.current_function.dfg.nextInst =
      b.current_function.dfg.nextInst + 1 := by
    show E2.1.nextInst = _
    rw [v3]
  have hP2nB : P2.1.current_function.dfg.nextBlock =
      b.current_function.dfg.nextBlock := by
    show E2.1.nextBlock = _
    rw [v5]
  set Q1 := P2.1.insert_block with hQ1
  set Q2 := Q1.1.insert_block with hQ2
  have hQ12 : Q1.2 = b.current_function.dfg.nextBlock := by
    show P2.1.current_function.dfg.nextBlock = _
    exact hP2nB
  have hQ1nb : Q1.1.current_function.dfg.nextBlock =
      b.current_function.dfg.nextBlock + 1 := by
    show P2.1.current_function.dfg.nextBlock + 1 = _
    rw [hP2nB]
  have hQ22 : Q2.2 = b.current_function.dfg.nextBlock + 1 := by
    show Q1.1.current_function.dfg.nextBlock = _
    exact hQ1nb
  have hQ2nb : Q2.1.current_function.dfg.nextBlock =
      b.current_function.dfg.nextBlock + 2 := by
    show Q1.1.current_function.dfg.nextBlock + 1 = _
    rw [hQ1nb]
  have hQ2cb : Q2.1.current_block = b.current_block := rfl
  have hne1 : Q2.1.current_block ≠ b.current_function.dfg.nextBlock + 1 := by
    rw [hQ2cb]
    exact Nat.ne_of_lt (Nat.lt_succ_of_lt hwf1)
  have hbQ2 : lookupA Q2.1.current_function.dfg.blocks Q2.1.current_block =
      some { parameters := ps0,
             instructions := [b.current_function.dfg.nextInst],
             terminator := none } := by
    show lookupA ((Q1.1.current_function.dfg.nextBlock,
        { parameters := [], instructions := [], terminator := none }) ::
        (P2.1.current_function.dfg.nextBlock,
        { parameters := [], instructions := [], terminator := none }) ::
        E2.1.blocks) Q2.1.current_block = _
    rw [hQ1nb, hP2nB, hQ2cb]
    rw [lookupA_cons, if_neg (Nat.ne_of_gt (Nat.lt_succ_of_lt hwf1))]
    rw [lookupA_cons, if_neg (Nat.ne_of_gt hwf1)]
    exact v10
  have hC4eq : (Q2.1.terminate_with_jmpif P2.2 Q2.2
      Q1.2).switch_to_block Q2.2 =
      ({ Q2.1 with current_function := { Q2.1.current_function with dfg :=
          { Q2.1.current_function.dfg with
            blocks := (Q2.1.current_block,
              { parameters := ps0,
                instructions := [b.current_function.dfg.nextInst],
                terminator := some (Terminator.JmpIf P2.2 Q2.2 Q1.2) }) ::
              Q2.1.current_function.dfg.blocks } } }).switch_to_block Q2.2
    := by
    show (Q2.1.terminate (Terminator.JmpIf P2.2 Q2.2
      Q1.2)).switch_to_block Q2.2 = _
    rw [terminate_eq _ _ _ hbQ2]
  set C4 := (Q2.1.terminate_with_jmpif P2.2 Q2.2 Q1.2).switch_to_block Q2.2
    with hC4
  have hC4cb : C4.current_block = b.current_function.dfg.nextBlock + 1 := by
    rw [hC4eq]
    exact hQ22
  have hC4nv : C4.current_function.dfg.nextValue =
      b.current_function.dfg.nextValue + 2 := by
    rw [hC4eq]
    exact hP2nv
  have hC4nI : C4.current_function.dfg.nextInst =
      b.current_function.dfg.nextInst + 1 := by
    rw [hC4eq]
    exact hP2nI
  have hC4nB : C4.current_function.dfg.nextBlock =
      b.current_function.dfg.nextBlock + 2 := by
    rw [hC4eq]
    exact hQ2nb
  have hC4blocks : C4.current_function.dfg.blocks =
      (b.current_block,
        { parameters := ps0,
          instructions := [b.current_function.dfg.nextInst],
          terminator := some (Terminator.JmpIf
            (b.current_function.dfg.nextValue + 1)
            (b.current_function.dfg.nextBlock + 1)
            b.current_function.dfg.nextBlock) }) ::
      (b.current_function.dfg.nextBlock + 1,
        { parameters := [], instructions := [], terminator := none }) ::
      (b.current_function.dfg.nextBlock,
        { parameters := [], instructions := [], terminator := none }) ::
      E2.1.blocks := by
    rw [hC4eq]
    show (Q2.1.current_block,
        { parameters := ps0,
          instructions := [b.current_function.dfg.nextInst],
          terminator := some (Terminator.JmpIf P2.2 Q2.2 Q1.2) }) ::
      (Q1.1.current_function.dfg.nextBlock,
        { parameters := [], instructions := [], terminator := none }) ::
      (P2.1.current_function.dfg.nextBlock,
        { parameters := [], instructions := [], terminator := none }) ::
      E2.1.blocks = _
    rw [hQ2cb, hQ1nb, hP2nB, hcond, hQ22, hQ12]
  have hC4vals : C4.current_function.dfg.values = E2.1.values := by
    rw [hC4eq]
    rfl
  have hC4ins : C4.current_function.dfg.instructions = E2.1.instructions :=
    by
    rw [hC4eq]
    rfl
  have hC4res : C4.current_function.dfg.results = E2.1.results := by
    rw [hC4eq]
    rfl
  have hC4name : C4.current_function.name = b.current_function.name := by
    rw [hC4eq]
    rfl
  have hC4id : C4.current_function.id = b.current_function.id := by
    rw [hC4eq]
    rfl
  have hC4rt : C4.current_function.runtime = b.current_function.runtime := by
    rw [hC4eq]
    rfl
  have hC4eb : C4.current_function.entryBlock =
      b.current_function.entryBlock := by
    rw [hC4eq]
    rfl
  have hcbC4 : lookupA C4.current_function.dfg.blocks C4.current_block =
      some { parameters := [], instructions := [], terminator := none } := by
    rw [hC4blocks, hC4cb]
    rw [lookupA_cons, if_neg (Nat.ne_of_lt (Nat.lt_succ_of_lt hwf1))]
    rw [lookupA_cons, if_pos rfl]
  have hltC4 : C4.current_block < C4.current_function.dfg.nextBlock := by
    rw [hC4cb, hC4nB]
    exact Nat.lt_succ_self _
  obtain ⟨c1, c2, c3, c4, c5, c6, c7, c8, c9, c10, c11, c12, c13, c14, c15,
    c16, c17, c18, c19, c20, c21, c22, c23, c24⟩ :=
    callSeg_spec returns params_ids fid prev C4 _ hcbC4 hltC4
  rw [hC4nB] at c1 c5 c6 c7 c8 c14 c22
  rw [hC4cb] at c2 c6 c8
  rw [hC4nv] at c3 c6 c7 c9 c11 c13 c14 c15 c16 c21
  rw [hC4nI] at c4 c6 c9 c10 c11 c12 c16 c23 c24
  rw [hC4name] at c17
  rw [hC4id] at c18
  rw [hC4rt] at c19
  rw [hC4eb] at c20
  have hM : midStep returns target params_ids fid prev b =
      ((callSeg returns params_ids fid prev C4).1.switch_to_block Q1.2,
       (callSeg returns params_ids fid prev C4).2) := rfl
  rw [hM]
  have hMdfg : ((callSeg returns params_ids fid prev
      C4).1.switch_to_block Q1.2).current_function =
      (callSeg returns params_ids fid prev C4).1.current_function := rfl
  refine ⟨c1, ?_, ?_, ?_, ?_, ?_, ?_, ?_, ?_, ?_, ?_, ?_, ?_, ?_, ?_, ?_,
    ?_, ?_, ?_, ?_, ?_, ?_, ?_, ?_, ?_, ?_, ?_⟩
  · show Q1.2 = _
    exact hQ12
  · rw [hMdfg, c3]
  · rw [hMdfg, c4]
  · rw [hMdfg, c5]
  · rw [hMdfg, c17]
  · rw [hMdfg, c18]
  · rw [hMdfg, c19]
  · rw [hMdfg, c20]
  · rw [hMdfg]
    rw [c8 b.current_function.dfg.nextBlock
      (Nat.ne_of_lt (Nat.lt_succ_self _))
      (Nat.ne_of_lt (Nat.lt_succ_of_lt (Nat.lt_succ_self _)))]
    rw [hC4blocks]
    rw [lookupA_cons, if_neg (Nat.ne_of_lt hwf1)]
    rw [lookupA_cons, if_neg (Nat.ne_of_gt (Nat.lt_succ_self _))]
    rw [lookupA_cons, if_pos rfl]
  · rw [hMdfg]
    rw [c8 b.current_block
      (Nat.ne_of_lt (Nat.lt_succ_of_lt hwf1))
      (Nat.ne_of_lt (Nat.lt_succ_of_lt (Nat.lt_succ_of_lt hwf1)))]
    rw [hC4blocks]
    rw [lookupA_cons, if_pos rfl]
  · rw [hMdfg]
    exact c6
  · rw [hMdfg]
    exact c7
  · intro k hk hklt
    rw [hMdfg]
    rw [c8 k (Nat.ne_of_lt (Nat.lt_succ_of_lt hklt))
      (Nat.ne_of_lt (Nat.lt_succ_of_lt (Nat.lt_succ_of_lt hklt)))]
    rw [hC4blocks]
    rw [lookupA_cons, if_neg (Ne.symm hk)]
    rw [lookupA_cons, if_neg (Nat.ne_of_gt (Nat.lt_succ_of_lt hklt))]
    rw [lookupA_cons, if_neg (Nat.ne_of_gt hklt)]
    rw [v11 k hk]
    rw [hP1blocks]
  · rw [hMdfg]
    rw [c10 b.current_function.dfg.nextInst
      (Nat.ne_of_lt (Nat.lt_succ_self _))]
    rw [hC4ins]
    exact v6
  · rw [hMdfg]
    exact c9
  · intro i hi
    rw [hMdfg]
    rw [c10 i (Nat.ne_of_lt (Nat.lt_succ_of_lt hi))]
    rw [hC4ins]
    rw [v7 i (Nat.ne_of_lt hi)]
    rw [hP1ins]
  · rw [hMdfg]
    rw [c12 b.current_function.dfg.nextInst
      (Nat.ne_of_lt (Nat.lt_succ_self _))]
    rw [hC4res]
    rw [v8]
    simp [List.range']
  · rw [hMdfg]
    exact c11
  · intro i hi
    rw [hMdfg]
    rw [c12 i (Nat.ne_of_lt (Nat.lt_succ_of_lt hi))]
    rw [hC4res]
    rw [v9 i (Nat.ne_of_lt hi)]
    rw [hP1res]
  · intro v hv
    rw [hMdfg]
    rw [c13 v (Nat.lt_succ_of_lt (Nat.lt_succ_of_lt hv))]
    rw [hC4vals]
    rw [v12 v (Nat.lt_succ_of_lt hv)]
    rw [hP1vals, lookupA_cons, if_neg (Nat.ne_of_gt hv)]
  · rw [hMdfg]
    rw [c13 b.current_function.dfg.nextValue
      (Nat.lt_succ_of_lt (Nat.lt_succ_self _))]
    rw [hC4vals]
    rw [v12 b.current_function.dfg.nextValue (Nat.lt_succ_self _)]
    rw [hP1vals, lookupA_cons, if_pos rfl]
  · rw [hMdfg]
    rw [c13 (b.current_function.dfg.nextValue + 1) (Nat.lt_succ_self _)]
    rw [hC4vals]
    have h := v13 0 (by simp)
    simpa using h
  · intro j hj
    rw [hMdfg]
    exact c14 j hj
  · rw [hMdfg]
    exact c15
  · intro j hj
    rw [hMdfg]
    exact c16 j hj
  · refine ⟨?_, ?_, ?_, ?_, ?_⟩
    · show Q1.2 < _
      rw [hMdfg, c5, hQ12]
      exact Nat.lt_succ_of_lt (Nat.lt_succ_of_lt (Nat.lt_succ_self _))
    · intro p hp
      rw [hMdfg, c5]
      refine c22 ?_ p hp
      intro q hq
      have hq2 : q ∈ C4.current_function.dfg.blocks := hq
      rw [hC4blocks] at hq2
      rcases List.mem_cons.mp hq2 with hq3 | hq3
      · rw [hq3]
        show b.current_block < b.current_function.dfg.nextBlock + 2
        exact Nat.lt_succ_of_lt (Nat.lt_succ_of_lt hwf1)
      rcases List.mem_cons.mp hq3 with hq4 | hq4
      · rw [hq4]
        show b.current_function.dfg.nextBlock + 1 <
          b.current_function.dfg.nextBlock + 2
        exact Nat.lt_succ_self _
      rcases List.mem_cons.mp hq4 with hq5 | hq5
      · rw [hq5]
        show b.current_function.dfg.nextBlock <
          b.current_function.dfg.nextBlock + 2
        exact Nat.lt_succ_of_lt (Nat.lt_succ_self _)
      · exact Nat.lt_succ_of_lt (Nat.lt_succ_of_lt
          (v15 (fun r hr => hwf2 r hr) q hq5))
    · intro p hp
      rw [hMdfg, c3]
      refine c21 ?_ p hp
      intro q hq
      have hq2 : q ∈ E2.1.values := by
        rw [← hC4vals]
        exact hq
      have h2 := v14 ?_ q hq2
      · exact h2
      intro x hx
      have hx2 : x ∈ (b.current_function.dfg.nextValue,
          Value.NumericConstant (function_id_to_field fid)
            (Ty.Numeric NumericType.NativeField)) ::
          b.current_function.dfg.values := by
        rw [← hP1vals]
        exact hx
      rcases List.mem_cons.mp hx2 with hx3 | hx3
      · rw [hx3]
        exact Nat.lt_succ_self _
      · exact Nat.lt_succ_of_lt (hwf3 x hx3)
    · intro p hp
      rw [hMdfg, c4]
      refine c23 ?_ p hp
      intro q hq
      have hq2 : q ∈ E2.1.instructions := by
        rw [← hC4ins]
        exact hq
      have h2 := v16 ?_ q hq2
      · exact h2
      intro x hx
      exact hwf4 x hx
    · intro p hp
      rw [hMdfg, c4]
      refine c24 ?_ p hp
      intro q hq
      have hq2 : q ∈ E2.1.results := by
        rw [← hC4res]
        exact hq
      have h2 := v17 ?_ q hq2
      · exact h2
      intro x hx
      exact hwf5 x hx

theorem segsSpec_head (f : Function) (v0 target : ValueId)
    (params_ids : List ValueId) (returns : List Ty) (x : FunctionId)
    (xs : List FunctionId) (segs : List Seg) (cur : BasicBlockId)
    (prev : Option BasicBlockId)
    (h : SegsSpec f v0 target params_ids returns (x :: xs) segs cur prev) :
    ∃ s ss, segs = s :: ss ∧ s.testBlock = cur := by
  rcases segs with _ | ⟨s, ss⟩
  · rcases xs with _ | ⟨y, ys⟩
    · exact h.elim
    · exact h.elim
  · rcases xs with _ | ⟨y, ys⟩
    · rcases ss with _ | ⟨s2, ss2⟩
      · exact ⟨s, [], rfl, h.1⟩
      · exact h.elim
    · rcases ss with _ | ⟨s2, ss2⟩
      · exact h.elim
      · exact ⟨s, s2 :: ss2, rfl, h.1⟩

theorem applyLoop_spec (returns : List Ty) (target : ValueId)
    (params_ids : List ValueId) :
    ∀ (fids : List FunctionId), fids ≠ [] →
    ∀ (b : FunctionBuilder) (prev : Option BasicBlockId) (v0 : ValueId)
      (ps0 : List ValueId),
      lookupA b.current_function.dfg.blocks b.current_block =
        some { parameters := ps0, instructions := [], terminator := none } →
      BWF b →
      v0 ≤ b.current_function.dfg.nextValue →
      ∃ segs : List Seg,
        SegsSpec
          (applyLoop returns target params_ids fids b prev).current_function
          v0 target params_ids returns fids segs b.current_block prev ∧
        LoopPres b
          (applyLoop returns target params_ids fids b
            prev).current_function ∧
        FWF
          (applyLoop returns target params_ids fids b
            prev).current_function ∧
        ∃ blkc, lookupA (applyLoop returns target params_ids fids b
            prev).current_function.dfg.blocks b.current_block = some blkc ∧
          blkc.parameters = ps0 := by
  intro fids
  induction fids with
  | nil =>
      intro h
      exact absurd rfl h
  | cons fid rest ih =>
      intro _ b prev v0 ps0 hcur hwf hv0
      rcases rest with _ | ⟨fid2, rest2⟩
      · exact applyLoop_last_spec returns target params_ids fid b prev v0
          ps0 hcur hwf hv0
      · obtain ⟨hwf1, hwf2, hwf3, hwf4, hwf5⟩ := hwf
        obtain ⟨m1, m2, m3, m4, m5, m6, m7, m8, m9, m10, m11, m12, m13, m14,
          m15, m16, m17, m18, m19, m20, m21, m22, m23, m24, m25, m26, m27⟩ :=
          midStep_spec returns target params_ids fid b prev ps0 hcur
            ⟨hwf1, hwf2, hwf3, hwf4, hwf5⟩
        set M := midStep returns target params_ids fid prev b with hMs
        have hcur2 : lookupA M.1.current_function.dfg.blocks
            M.1.current_block =
            some { parameters := [], instructions := [],
                   terminator := none } := by
          rw [m2]
          exact m10
        have hv02 : v0 ≤ M.1.current_function.dfg.nextValue := by
          rw [m3]
          exact Nat.le_trans hv0 (Nat.le_trans (Nat.le_add_right _ 2)
            (Nat.le_trans (Nat.le_add_right _ returns.length)
              (Nat.le_trans (Nat.le_add_right _ 1)
                (Nat.le_add_right _ returns.length))))
        obtain ⟨segs2, hS2, hLP2, hFWF2, blkc2, hblkc2, hps2⟩ :=
          ih (List.cons_ne_nil fid2 rest2) M.1 (some M.2) v0 [] hcur2 m27
            hv02
        obtain ⟨l1, l2, l3, l4, l5, l6, l7, l8, l9, l10, l11⟩ := hLP2
        rw [m2, m5] at l1
        rw [m3] at l2 l5
        rw [m4] at l3 l4 l6
        rw [m5] at l7
        rw [m6] at l8
        rw [m7] at l9
        rw [m8] at l10
        rw [m9] at l11
        obtain ⟨s2, ss2, hsegs2eq, hs2tb⟩ := segsSpec_head _ _ _ _ _ _ _ _ _
          _ hS2
        rw [hsegs2eq] at hS2
        rw [m2] at hS2
        nth_rewrite 2 [m1] at hS2
        have hs2tb2 : s2.testBlock = b.current_function.dfg.nextBlock := by
          rw [hs2tb]
          exact m2
        rw [applyLoop_mid_unfold, ← hMs]
        have hcurF : lookupA (applyLoop returns target params_ids
            (fid2 :: rest2) M.1 (some M.2)).current_function.dfg.blocks
            b.current_block =
            some { parameters := ps0,
                   instructions := [b.current_function.dfg.nextInst],
                   terminator := some (Terminator.JmpIf
                     (b.current_function.dfg.nextValue + 1)
                     (b.current_function.dfg.nextBlock + 1)
                     b.current_function.dfg.nextBlock) } := by
          rw [l1 b.current_block (Nat.ne_of_lt hwf1)
            (Nat.lt_succ_of_lt (Nat.lt_succ_of_lt
              (Nat.lt_succ_of_lt hwf1)))]
          exact m11
        refine ⟨Seg.mk b.current_block (b.current_function.dfg.nextBlock + 1)
          (b.current_function.dfg.nextBlock + 2)
          b.current_function.dfg.nextInst 0
          (b.current_function.dfg.nextInst + 1)
          b.current_function.dfg.nextValue
          (b.current_function.dfg.nextValue + 1)
          (b.current_function.dfg.nextValue + 2 + returns.length)
          (List.range'
            (b.current_function.dfg.nextValue + 2 + returns.length + 1)
            returns.length)
          (List.range' (b.current_function.dfg.nextValue + 2)
            returns.length) :: s2 :: ss2, ?_, ?_, hFWF2, ?_⟩
        · refine ⟨rfl, ⟨ps0, ?_⟩, ?_, ?_, ?_⟩
          · rw [hs2tb2]
            exact hcurF
          · rw [l1 (b.current_function.dfg.nextBlock + 1)
              (Nat.ne_of_gt (Nat.lt_succ_self _))
              (Nat.lt_succ_of_lt (Nat.lt_succ_self _))]
            exact m12
          · refine ⟨?_, ?_, ?_, ?_, ?_, ?_, ?_, ?_, ?_, ?_, ?_, ?_, ?_, ?_,
              ?_⟩
            · rw [l3 b.current_function.dfg.nextInst
                (Nat.lt_succ_of_lt (Nat.lt_succ_self _))]
              exact m15
            · simp only [resultsOf]
              rw [l4 b.current_function.dfg.nextInst
                (Nat.lt_succ_of_lt (Nat.lt_succ_self _))]
              rw [m18]
              rfl
            · rw [l2 b.current_function.dfg.nextValue
                (Nat.lt_of_lt_of_le (Nat.lt_succ_of_lt (Nat.lt_succ_self _))
                  (Nat.le_trans (Nat.le_add_right _ returns.length)
                    (Nat.le_trans (Nat.le_add_right _ 1)
                      (Nat.le_add_right _ returns.length))))]
              exact m22
            · refine ⟨Ty.bool, ?_⟩
              rw [l2 (b.current_function.dfg.nextValue + 1)
                (Nat.lt_of_lt_of_le (Nat.lt_succ_self _)
                  (Nat.le_trans (Nat.le_add_right _ returns.length)
                    (Nat.le_trans (Nat.le_add_right _ 1)
                      (Nat.le_add_right _ returns.length))))]
              exact m23
            · exact Nat.le_succ_of_le hv0
            · rw [l3 (b.current_function.dfg.nextInst + 1)
                (Nat.lt_succ_self _)]
              exact m16
            · rw [l2 (b.current_function.dfg.nextValue + 2 + returns.length)
                (Nat.lt_of_lt_of_le (Nat.lt_succ_self _)
                  (Nat.le_add_right _ returns.length))]
              exact m25
            · simp only [resultsOf]
              rw [l4 (b.current_function.dfg.nextInst + 1)
                (Nat.lt_succ_self _)]
              rw [m19]
              rfl
            · simp [List.length_range']
            · exact List.nodup_range' _ _
            · intro r hr
              have hr2 : r ∈ List.range'
                  (b.current_function.dfg.nextValue + 2 + returns.length +
                    1) returns.length := hr
              rw [List.mem_range'] at hr2
              obtain ⟨i, hi, hri⟩ := hr2
              rw [Nat.one_mul] at hri
              refine ⟨i, returns.getD i Ty.Unit, ?_⟩
              rw [hri]
              rw [l2 (b.current_function.dfg.nextValue + 2 + returns.length
                  + 1 + i) (Nat.add_lt_add_left hi _)]
              exact m26 i hi
            · rw [l1 (b.current_function.dfg.nextBlock + 2)
                (Nat.ne_of_gt (Nat.lt_succ_of_lt (Nat.lt_succ_self _)))
                (Nat.lt_succ_self _)]
              exact m13
            · simp [List.length_range']
            · exact List.nodup_range' _ _
            · intro p hp
              have hp2 : p ∈ List.range'
                  (b.current_function.dfg.nextValue + 2) returns.length :=
                hp
              rw [List.mem_range'] at hp2
              obtain ⟨i, hi, hpi⟩ := hp2
              rw [Nat.one_mul] at hpi
              refine ⟨i, returns.getD i Ty.Unit, ?_⟩
              rw [hpi]
              rw [l2 (b.current_function.dfg.nextValue + 2 + i)
                (Nat.lt_of_lt_of_le (Nat.add_lt_add_left hi _)
                  (Nat.le_trans (Nat.le_add_right _ 1)
                    (Nat.le_add_right _ returns.length)))]
              exact m24 i hi
          · show SegsSpec (applyLoop returns target params_ids
                (fid2 :: rest2) M.1 (some M.2)).current_function v0 target
                params_ids returns (fid2 :: rest2) (s2 :: ss2) s2.testBlock
                (some (b.current_function.dfg.nextBlock + 2))
            rw [hs2tb2]
            exact hS2
        · refine ⟨?_, ?_, ?_, ?_, ?_, ?_, ?_, ?_, ?_, ?_, ?_⟩
          · intro k hk hklt
            rw [l1 k (Nat.ne_of_lt hklt)
              (Nat.lt_succ_of_lt (Nat.lt_succ_of_lt
                (Nat.lt_succ_of_lt hklt)))]
            exact m14 k hk hklt
          · intro v hv
            rw [l2 v (Nat.lt_of_lt_of_le (Nat.lt_succ_of_lt
                (Nat.lt_succ_of_lt hv))
              (Nat.le_trans (Nat.le_add_right _ returns.length)
                (Nat.le_trans (Nat.le_add_right _ 1)
                  (Nat.le_add_right _ returns.length))))]
            exact m21 v hv
          · intro i hi
            rw [l3 i (Nat.lt_succ_of_lt (Nat.lt_succ_of_lt hi))]
            exact m17 i hi
          · intro i hi
            rw [l4 i (Nat.lt_succ_of_lt (Nat.lt_succ_of_lt hi))]
            exact m20 i hi
          · refine Nat.le_trans ?_ l5
            exact Nat.le_trans (Nat.le_add_right _ 2)
              (Nat.le_trans (Nat.le_add_right _ returns.length)
                (Nat.le_trans (Nat.le_add_right _ 1)
                  (Nat.le_add_right _ returns.length)))
          · refine Nat.le_trans ?_ l6
            exact Nat.le_add_right _ 2
          · refine Nat.le_trans ?_ l7
            exact Nat.le_add_right _ 3
          · exact l8
          · exact l9
          · exact l10
          · exact l11
        · exact ⟨_, hcurF, rfl⟩

theorem create_apply_function_spec (ssa : Ssa) (signature : Signature)
    (f0 : FunctionId) (frest : List FunctionId) :
    ∃ F : Function,
      create_apply_function ssa signature (f0 :: frest) =
        Except.ok
          ({ functions := ssa.functions ++ [(ssa.nextFunctionId, F)],
             nextFunctionId := ssa.nextFunctionId + 1 },
           ssa.nextFunctionId) ∧
      F.name = "apply" ∧
      F.id = ssa.nextFunctionId ∧
      F.runtime = RuntimeType.Acir ∧
      F.entryBlock = 0 ∧
      (∃ blkc, lookupA F.dfg.blocks 0 = some blkc ∧
        blkc.parameters = 0 :: (List.range' 1 signature.params.length)) ∧
      lookupA F.dfg.values 0 = some (Value.Param 0 0 Ty.field) ∧
      (∀ j, j < signature.params.length →
        lookupA F.dfg.values (1 + j) =
          some (Value.Param 0 (1 + j) (signature.params.getD j Ty.Unit))) ∧
      FWF F ∧
      ∃ segs, SegsSpec F (signature.params.length + 1) 0
        (List.range' 1 signature.params.length) signature.returns
        (f0 :: frest) segs 0 none := by
  have hB1 : ((FunctionBuilder.new "apply" ssa.nextFunctionId
      RuntimeType.Acir).add_parameter Ty.field) =
      ({ current_function :=
          { name := "apply", id := ssa.nextFunctionId,
            runtime := RuntimeType.Acir, entryBlock := 0,
            dfg := { values := [(0, Value.Param 0 0 Ty.field)],
                     instructions := [], results := [],
                     blocks := [(0, { parameters := [0], instructions := [],
                                      terminator := none }),
                                (0, { parameters := [], instructions := [],
                                      terminator := none })],
                     nextValue := 1, nextInst := 0, nextBlock := 1 } },
         current_block := 0 }, 0) := rfl
  set B1 : FunctionBuilder :=
    { current_function :=
        { name := "apply", id := ssa.nextFunctionId,
          runtime := RuntimeType.Acir, entryBlock := 0,
          dfg := { values := [(0, Value.Param 0 0 Ty.field)],
                   instructions := [], results := [],
                   blocks := [(0, { parameters := [0], instructions := [],
                                    terminator := none }),
                              (0, { parameters := [], instructions := [],
                                    terminator := none })],
                   nextValue := 1, nextInst := 0, nextBlock := 1 } },
      current_block := 0 } with hB1def
  have hfold := entryParams_eq signature.params B1 [] 0 rfl
  have hlookB1 : lookupA B1.current_function.dfg.blocks 0 =
      some { parameters := [0], instructions := [], terminator := none } :=
    rfl
  obtain ⟨a1, a2, a3, a4, a5, a6, a7, a8, a9, a10, a11, a12, a13, a14, a15,
    a16, a17⟩ := addParams_spec 0 signature.params B1 []
      { parameters := [0], instructions := [], terminator := none } hlookB1
  have hunf0 : create_apply_function ssa signature (f0 :: frest) =
      Except.ok
        (Ssa.mk (ssa.functions ++ [(ssa.nextFunctionId,
            (applyLoop signature.returns 0
              (signature.params.foldl (fun acc t =>
                let (b, p) := acc.1.add_parameter t
                (b, acc.2 ++ [p])) (B1, [])).2 (f0 :: frest)
              (signature.params.foldl (fun acc t =>
                let (b, p) := acc.1.add_parameter t
                (b, acc.2 ++ [p])) (B1, [])).1
              none).current_function)])
          (ssa.nextFunctionId + 1),
         ssa.nextFunctionId) := rfl
  rw [hfold] at hunf0
  have hPS : (addParamsFold 0 signature.params (B1, [])).2 =
      List.range' 1 signature.params.length := by
    simpa using a1
  have hcb2 : (addParamsFold 0 signature.params (B1, [])).1.current_block =
      0 := a7
  have hnv2 : (addParamsFold 0 signature.params
      (B1, [])).1.current_function.dfg.nextValue =
      1 + signature.params.length := a2
  have hcur : lookupA (addParamsFold 0 signature.params
      (B1, [])).1.current_function.dfg.blocks
      (addParamsFold 0 signature.params (B1, [])).1.current_block =
      some { parameters := 0 :: (List.range' 1 signature.params.length),
             instructions := [], terminator := none } := by
    rw [hcb2]
    have h := a12
    simpa using h
  have hBWF : BWF (addParamsFold 0 signature.params (B1, [])).1 := by
    refine ⟨?_, ?_, ?_, ?_, ?_⟩
    · rw [hcb2, a6]
      exact Nat.lt_succ_self 0
    · intro p hp
      rw [a6]
      refine a17 ?_ p hp
      intro q hq
      rcases List.mem_cons.mp hq with hq2 | hq2
      · rw [hq2]
        exact Nat.lt_succ_self 0
      rcases List.mem_cons.mp hq2 with hq3 | hq3
      · rw [hq3]
        exact Nat.lt_succ_self 0
      · simp at hq3
    · intro p hp
      rw [hnv2]
      refine a16 ?_ p hp
      intro q hq
      rcases List.mem_cons.mp hq with hq2 | hq2
      · rw [hq2]
        exact Nat.lt_succ_self 0
      · simp at hq2
    · intro p hp
      rw [a3] at hp
      simp at hp
    · intro p hp
      rw [a4] at hp
      simp at hp
  have hv0 : signature.params.length + 1 ≤
      (addParamsFold 0 signature.params
        (B1, [])).1.current_function.dfg.nextValue := by
    rw [hnv2]
    exact Nat.le_of_eq (Nat.add_comm signature.params.length 1)
  obtain ⟨segs, hseg, hlp, hfwf, blkc, hblkc, hpsc⟩ :=
    applyLoop_spec signature.returns 0
      (List.range' 1 signature.params.length) (f0 :: frest)
      (List.cons_ne_nil f0 frest)
      (addParamsFold 0 signature.params (B1, [])).1 none
      (signature.params.length + 1)
      (0 :: (List.range' 1 signature.params.length)) hcur hBWF hv0
  obtain ⟨l1, l2, l3, l4, l5, l6, l7, l8, l9, l10, l11⟩ := hlp
  rw [hPS] at hunf0
  refine ⟨_, hunf0, ?_, ?_, ?_, ?_, ?_, ?_, ?_, hfwf, ?_⟩
  · rw [l8, a8]
  · rw [l9, a9]
  · rw [l10, a10]
  · rw [l11, a11]
  · rw [hcb2] at hblkc
    exact ⟨blkc, hblkc, hpsc⟩
  · rw [l2 0 (by
      rw [hnv2]
      exact Nat.lt_of_lt_of_le Nat.zero_lt_one
        (Nat.le_add_right 1 signature.params.length))]
    rw [a14 0 (Nat.lt_succ_self 0)]
    rfl
  · intro j hj
    rw [l2 (1 + j) (by
      rw [hnv2]
      exact Nat.add_lt_add_left hj 1)]
    have h := a15 j hj
    simpa using h
  · rw [hcb2] at hseg
    exact ⟨segs, hseg⟩

/-- C4: a synthesized apply function over two or more callees has the
dispatch-cascade shape `SegsSpec`: every branch but the last ends in a
conditional jump on the equality of the dispatch parameter with the
field-encoded callee id, the last branch constrains that equality
instead of jumping conditionally, and of the return blocks only the
first created one (for the first callee) terminates with a return while
every later return block jumps to the previously created return block. -/
theorem C4_apply_function_shape (ssa : Ssa) (signature : Signature)
    (fids : List FunctionId) (h2 : 2 ≤ fids.length) :
    ∃ (F : Function) (segs : List Seg),
      create_apply_function ssa signature fids =
        Except.ok
          ({ functions := ssa.functions ++ [(ssa.nextFunctionId, F)],
             nextFunctionId := ssa.nextFunctionId + 1 },
           ssa.nextFunctionId) ∧
      SegsSpec F (signature.params.length + 1) 0
        (List.range' 1 signature.params.length) signature.returns fids segs
        0 none := by
  rcases fids with _ | ⟨f0, frest⟩
  · simp at h2
  · obtain ⟨F, hok, _, _, _, _, _, _, _, _, hsegs⟩ :=
      create_apply_function_spec ssa signature f0 frest
    obtain ⟨segs, hseg⟩ := hsegs
    exact ⟨F, segs, hok, hseg⟩

theorem C4_apply_function_shape_witness :
    2 ≤ ([3, 4] : List FunctionId).length ∧
    ∃ (F : Function) (segs : List Seg),
      create_apply_function { functions := [], nextFunctionId := 7 }
          { params := [Ty.field], returns := [Ty.field] } [3, 4] =
        Except.ok
          ({ functions := [] ++ [(7, F)], nextFunctionId := 7 + 1 }, 7) ∧
      SegsSpec F ([Ty.field].length + 1) 0 (List.range' 1 [Ty.field].length)
        [Ty.field] [3, 4] segs 0 none :=
  ⟨by decide,
   C4_apply_function_shape { functions := [], nextFunctionId := 7 }
     { params := [Ty.field], returns := [Ty.field] } [3, 4] (by decide)⟩

theorem segsSpec_constants (f : Function) (v0 target : ValueId)
    (params_ids : List ValueId) (returns : List Ty) :
    ∀ (fids : List FunctionId) (segs : List Seg) (cur : BasicBlockId)
      (prev : Option BasicBlockId),
      SegsSpec f v0 target params_ids returns fids segs cur prev →
      ∀ i, i < fids.length → ∃ seg, seg ∈ segs ∧
        lookupA f.dfg.instructions seg.eqInst =
          some (Instruction.Binary BinaryOp.Eq target seg.cstVal) ∧
        lookupA f.dfg.values seg.cstVal =
          some (Value.NumericConstant (function_id_to_field (fids.getD i 0))
            (Ty.Numeric NumericType.NativeField)) := by
  intro fids
  induction fids with
  | nil =>
      intro segs cur prev h i hi
      simp at hi
  | cons fid rest ih =>
      intro segs cur prev h i hi
      rcases segs with _ | ⟨s, ss⟩
      · rcases rest with _ | ⟨y, ys⟩
        · exact h.elim
        · exact h.elim
      · rcases rest with _ | ⟨y, ys⟩
        · rcases ss with _ | ⟨s2, ss2⟩
          · obtain ⟨_, _, _, _, hsc⟩ := h
            cases i with
            | zero =>
                exact ⟨s, List.mem_cons_self s [], hsc.1, hsc.2.2.1⟩
            | succ i =>
                simp at hi
          · exact h.elim
        · rcases ss with _ | ⟨s2, ss2⟩
          · exact h.elim
          · obtain ⟨_, _, _, hsc, hrec⟩ := h
            cases i with
            | zero =>
                exact ⟨s, List.mem_cons_self s (s2 :: ss2), hsc.1,
                  hsc.2.2.1⟩
            | succ i =>
                have hi2 : i < (y :: ys).length := by simpa using hi
                obtain ⟨seg, hmem, h1, h2⟩ := ih (s2 :: ss2) s2.testBlock
                  (some s.retBlock) hrec i hi2
                exact ⟨seg, List.mem_cons_of_mem s hmem, h1, h2⟩

/-- C7: the function-id encoding `function_id_to_field` is
`FieldElement::from(id as u128)`, i.e. reduction modulo the field width
of 128-bit values; the equality-test constants of a synthesized apply
function's dispatch cascade carry exactly this encoding of the paired
callee id, and the numeric constant substituted for a non-call-target
`Value::Function` during the rewrite carries the same encoding of the
referenced function id. -/
theorem C7_function_id_encoding :
    (∀ fid : FunctionId, function_id_to_field fid = fieldOfU128 fid) ∧
    (∀ (f : Function) (v0 target : ValueId) (params_ids : List ValueId)
       (returns : List Ty) (fids : List FunctionId) (segs : List Seg)
       (cur : BasicBlockId) (prev : Option BasicBlockId),
      SegsSpec f v0 target params_ids returns fids segs cur prev →
      ∀ i, i < fids.length → ∃ seg, seg ∈ segs ∧
        lookupA f.dfg.instructions seg.eqInst =
          some (Instruction.Binary BinaryOp.Eq target seg.cstVal) ∧
        lookupA f.dfg.values seg.cstVal =
          some (Value.NumericConstant (function_id_to_field (fids.getD i 0))
            (Ty.Numeric NumericType.NativeField))) ∧
    (∀ (ctv : List ValueId) (f : Function) (vid : ValueId)
       (fid : FunctionId),
      lookupA f.dfg.values vid = some (Value.Function fid) →
      vid ∉ ctv →
      lookupA (retypeValue ctv f vid).dfg.values vid =
        some (Value.NumericConstant (function_id_to_field fid) Ty.field)) :=
  ⟨fun _ => rfl,
   fun f v0 target params_ids returns fids segs cur prev h i hi =>
     segsSpec_constants f v0 target params_ids returns fids segs cur prev h
       i hi,
   fun ctv f vid fid hv hnm => by
     rw [retypeValue_slot_function_subst ctv f vid fid hv hnm]
     show lookupA ((vid, Value.NumericConstant (function_id_to_field fid)
         Ty.field) :: _) vid = _
     rw [lookupA_cons, if_pos rfl]⟩

theorem C7_function_id_encoding_witness :
    (lookupA c7WitnessFn.dfg.values 5 = some (Value.Function 9) ∧
      (5 : ValueId) ∉ ([] : List ValueId)) ∧
    lookupA (retypeValue [] c7WitnessFn 5).dfg.values 5 =
      some (Value.NumericConstant (function_id_to_field 9) Ty.field) :=
  ⟨⟨by decide, by decide⟩,
   C7_function_id_encoding.2.2 [] c7WitnessFn 5 9 (by decide) (by decide)⟩

theorem mapM_eq_mapMO {α β : Type} (g : α → Option β) (l : List α) :
    l.mapM g = mapMO g l := by
  induction l with
  | nil => rfl
  | cons a l ih =>
      rw [List.mapM_cons, ih]
      rfl

theorem evalOperand_nonconst (f : Function) (E : Env) (p : ValueId)
    (h : ∀ c t, lookupA f.dfg.values p ≠
      some (Value.NumericConstant c t)) :
    evalOperand f E p = lookupA E p := by
  unfold evalOperand
  cases hv : lookupA f.dfg.values p with
  | none => rfl
  | some v =>
      cases v with
      | NumericConstant c t => exact absurd hv (h c t)
      | Param b i t => rfl
      | Instruction ii ix t => rfl
      | Function fid => rfl

theorem bindAll_cons (env : Env) (i : ValueId) (v : Nat) (ids : List ValueId)
    (vs : List Nat) :
    bindAll env (i :: ids) (v :: vs) = bindAll ((i, v) :: env) ids vs := rfl

theorem bindAll_lookup_notmem (k : ValueId) :
    ∀ (ids : List ValueId) (vs : List Nat) (env : Env), k ∉ ids →
      lookupA (bindAll env ids vs) k = lookupA env k := by
  intro ids
  induction ids with
  | nil =>
      intro vs env _
      rfl
  | cons i ids ih =>
      intro vs env hk
      cases vs with
      | nil => rfl
      | cons v vs =>
          rw [bindAll_cons]
          rw [ih vs ((i, v) :: env) (fun h => hk (List.mem_cons_of_mem i h))]
          have hik : i ≠ k := by
            intro h
            apply hk
            rw [← h]
            exact List.mem_cons_self i ids
          rw [lookupA_cons, if_neg hik]

theorem bindAll_mapMO (f : Function) :
    ∀ (ids : List ValueId) (vs : List Nat) (env : Env),
      ids.Nodup → ids.length = vs.length →
      (∀ p ∈ ids, ∀ c t, lookupA f.dfg.values p ≠
        some (Value.NumericConstant c t)) →
      mapMO (evalOperand f (bindAll env ids vs)) ids = some vs := by
  intro ids
  induction ids with
  | nil =>
      intro vs env _ hlen _
      cases vs with
      | nil => rfl
      | cons v vs => simp at hlen
  | cons i ids ih =>
      intro vs env hnd hlen hnc
      cases vs with
      | nil => simp at hlen
      | cons v vs =>
          rw [bindAll_cons]
          have hg : evalOperand f (bindAll ((i, v) :: env) ids vs) i =
              some v := by
            rw [evalOperand_nonconst f _ i
              (hnc i (List.mem_cons_self i ids))]
            rw [bindAll_lookup_notmem i ids vs ((i, v) :: env)
              (List.Nodup.not_mem hnd)]
            rw [lookupA_cons, if_pos rfl]
          have hrest : mapMO (evalOperand f (bindAll ((i, v) :: env) ids vs))
              ids = some vs :=
            ih vs ((i, v) :: env) (List.Nodup.of_cons hnd)
              (by simpa using hlen)
              (fun p hp => hnc p (List.mem_cons_of_mem i hp))
          show (do
            let b ← evalOperand f (bindAll ((i, v) :: env) ids vs) i
            let bs ← mapMO (evalOperand f (bindAll ((i, v) :: env) ids vs))
              ids
            some (b :: bs)) = some (v :: vs)
          rw [hg, hrest]
          rfl

theorem evalOperand_prepend (f : Function) (env : Env) (c : ValueId)
    (x : Nat) (p : ValueId) (hcp : c ≠ p) :
    evalOperand f ((c, x) :: env) p = evalOperand f env p := by
  unfold evalOperand
  cases lookupA f.dfg.values p with
  | none => simp [lookupA_cons, if_neg hcp]
  | some v =>
      cases v with
      | NumericConstant cc tt => rfl
      | Param b i t => simp [lookupA_cons, if_neg hcp]
      | Instruction ii ix t => simp [lookupA_cons, if_neg hcp]
      | Function fid => simp [lookupA_cons, if_neg hcp]

theorem mapMO_prepend (f : Function) (env : Env) (c : ValueId) (x : Nat) :
    ∀ (ids : List ValueId), (∀ p ∈ ids, c ≠ p) →
      mapMO (evalOperand f ((c, x) :: env)) ids =
        mapMO (evalOperand f env) ids := by
  intro ids
  induction ids with
  | nil => intro _; rfl
  | cons i ids ih =>
      intro h
      show (do
        let b ← evalOperand f ((c, x) :: env) i
        let bs ← mapMO (evalOperand f ((c, x) :: env)) ids
        some (b :: bs)) = (do
        let b ← evalOperand f env i
        let bs ← mapMO (evalOperand f env) ids
        some (b :: bs))
      rw [evalOperand_prepend f env c x i (h i (List.mem_cons_self i ids))]
      rw [ih (fun p hp => h p (List.mem_cons_of_mem i hp))]

theorem retChain_exec (oracle : CallOracle) (f : Function)
    (returns : List Ty) :
    ∀ (d : Nat) (tb : BasicBlockId) (rs : List Nat),
      RetChain f returns (some tb) (d + 1) →
      rs.length = returns.length →
      ∃ blk, lookupA f.dfg.blocks tb = some blk ∧
        blk.parameters.length = rs.length ∧
        ∀ (env : Env) (fuel : Nat), d + 1 ≤ fuel →
          execBlock oracle f fuel tb (bindAll env blk.parameters rs) =
            some rs := by
  intro d
  induction d with
  | zero =>
      intro tb rs hchain hlen
      obtain ⟨ps, prev2, hblk, hpslen, hnd, hslots, hrest⟩ := hchain
      refine ⟨_, hblk, by rw [hpslen, hlen], ?_⟩
      intro env fuel hfuel
      cases fuel with
      | zero => exact absurd hfuel (Nat.not_succ_le_zero 0)
      | succ fuel =>
          rcases prev2 with _ | tb2
          · show execBlock oracle f (fuel + 1) tb (bindAll env ps rs) =
              some rs
            simp only [execBlock, hblk, Option.bind_eq_bind,
              Option.some_bind, List.foldlM_nil, Option.pure_def]
            rw [mapM_eq_mapMO]
            exact bindAll_mapMO f ps rs env hnd (by rw [hpslen, hlen])
              (fun p hp c t => by
                obtain ⟨b, i, tt, hb⟩ := hslots p hp
                rw [hb]
                simp)
          · exact hrest.elim
  | succ d ih =>
      intro tb rs hchain hlen
      obtain ⟨ps, prev2, hblk, hpslen, hnd, hslots, hrest⟩ := hchain
      refine ⟨_, hblk, by rw [hpslen, hlen], ?_⟩
      intro env fuel hfuel
      cases fuel with
      | zero => exact absurd hfuel (Nat.not_succ_le_zero _)
      | succ fuel =>
          rcases prev2 with _ | tb2
          · exact hrest.elim
          · obtain ⟨blk2, hblk2, hlen2, hexec2⟩ := ih tb2 rs hrest hlen
            show execBlock oracle f (fuel + 1) tb (bindAll env ps rs) =
              some rs
            simp only [execBlock, hblk, Option.bind_eq_bind,
              Option.some_bind, List.foldlM_nil, Option.pure_def]
            rw [mapM_eq_mapMO]
            rw [bindAll_mapMO f ps rs env hnd (by rw [hpslen, hlen])
              (fun p hp c t => by
                obtain ⟨b, i, tt, hb⟩ := hslots p hp
                rw [hb]
                simp)]
            simp only [Option.some_bind, hblk2]
            rw [if_pos hlen2]
            exact hexec2 (bindAll env ps rs) fuel
              (Nat.le_of_succ_le_succ hfuel)

theorem execInstr_eq_binary (oracle : CallOracle) (f : Function) (env : Env)
    (iid : InstructionId) (lhs rhs rid : ValueId) (lv rv : Nat)
    (hins : lookupA f.dfg.instructions iid =
      some (Instruction.Binary BinaryOp.Eq lhs rhs))
    (hres : resultsOf f iid = [rid])
    (hl : evalOperand f env lhs = some lv)
    (hr : evalOperand f env rhs = some rv) :
    execInstr oracle f env iid =
      some ((rid, if lv = rv then 1 else 0) :: env) := by
  simp only [execInstr, hins, hl, hr, hres, Option.bind_eq_bind,
    Option.some_bind]

theorem execInstr_constrain_ok (oracle : CallOracle) (f : Function)
    (env : Env) (iid : InstructionId) (c : ValueId)
    (hins : lookupA f.dfg.instructions iid =
      some (Instruction.Constrain c))
    (hc : evalOperand f env c = some 1) :
    execInstr oracle f env iid = some env := by
  simp only [execInstr, hins, hc, Option.bind_eq_bind, Option.some_bind]
  simp

theorem execInstr_call_ok (oracle : CallOracle) (f : Function) (env : Env)
    (iid : InstructionId) (fv : ValueId) (args : List ValueId)
    (rids : List ValueId) (fid : FunctionId) (argvs rs : List Nat)
    (hins : lookupA f.dfg.instructions iid =
      some (Instruction.Call fv args))
    (hfv : lookupA f.dfg.values fv = some (Value.Function fid))
    (hargs : mapMO (evalOperand f env) args = some argvs)
    (horacle : oracle fid argvs = some rs)
    (hrids : resultsOf f iid = rids)
    (hlen : rids.length = rs.length) :
    execInstr oracle f env iid = some (bindAll env rids rs) := by
  simp only [execInstr, hins, hfv, Option.bind_eq_bind]
  rw [mapM_eq_mapMO, hargs]
  simp only [Option.some_bind]
  rw [horacle]
  simp only [Option.some_bind, hrids]
  rw [if_pos hlen]

theorem segsSpec_run (oracle : CallOracle) (f : Function)
    (v0 target : ValueId) (params_ids : List ValueId) (returns : List Ty) :
    ∀ (fids : List FunctionId) (segs : List Seg) (cur : BasicBlockId)
      (prev : Option BasicBlockId) (d : Nat) (env : Env) (i : Nat)
      (tv : Nat) (argvs rs : List Nat),
      SegsSpec f v0 target params_ids returns fids segs cur prev →
      RetChain f returns prev d →
      target < v0 →
      (∀ p ∈ params_ids, p < v0) →
      evalOperand f env target = some tv →
      mapMO (evalOperand f env) params_ids = some argvs →
      i < fids.length →
      tv = function_id_to_field (fids.getD i 0) →
      (∀ j, j < i → function_id_to_field (fids.getD j 0) ≠ tv) →
      oracle (fids.getD i 0) argvs = some rs →
      rs.length = returns.length →
      ∀ fuel, 2 * fids.length + d + 2 ≤ fuel →
        execBlock oracle f fuel cur env = some rs := by
  intro fids
  induction fids with
  | nil =>
      intro segs cur prev d env i tv argvs rs h hchain htlt hplt htv hargs
        hi htveq hne horacle hlenrs fuel hfuel
      exact absurd hi (Nat.not_lt_zero i)
  | cons fid rest ih =>
      intro segs cur prev d env i tv argvs rs h hchain htlt hplt htv hargs
        hi htveq hne horacle hlenrs fuel hfuel
      rcases rest with _ | ⟨fid2, rest2⟩
      · -- singleton cascade: constrain + call in the current block
        rcases segs with _ | ⟨s, segs'⟩
        · exact h.elim
        rcases segs' with _ | ⟨s2, segs''⟩
        · obtain ⟨htb, heb, ⟨ps, hcurblk⟩, hconI, sc1, sc2, sc3, ⟨tc, sc4⟩,
            sc5, sc6, sc7, sc8, sc9, sc10, sc11, sc12, sc13, sc14, sc15⟩ := h
          have hi0 : i = 0 := Nat.lt_one_iff.mp (by simpa using hi)
          subst hi0
          have htv2 : tv = function_id_to_field fid := htveq
          have hor : oracle fid argvs = some rs := horacle
          have hcst : evalOperand f env s.cstVal =
              some (function_id_to_field fid) := by
            unfold evalOperand
            rw [sc3]
          have hstep1 : execInstr oracle f env s.eqInst =
              some ((s.condVal, 1) :: env) := by
            rw [execInstr_eq_binary oracle f env s.eqInst target s.cstVal
              s.condVal tv (function_id_to_field fid) sc1 sc2 htv hcst]
            rw [if_pos htv2]
          have hcondv : evalOperand f ((s.condVal, 1) :: env) s.condVal =
              some 1 := by
            rw [evalOperand_nonconst f ((s.condVal, 1) :: env) s.condVal
              (fun c t => by rw [sc4]; simp)]
            rw [lookupA_cons, if_pos rfl]
          have hstep2 : execInstr oracle f ((s.condVal, 1) :: env)
              s.conInst = some ((s.condVal, 1) :: env) :=
            execInstr_constrain_ok oracle f ((s.condVal, 1) :: env)
              s.conInst s.condVal hconI hcondv
          have hargs1 : mapMO (evalOperand f ((s.condVal, 1) :: env))
              params_ids = some argvs := by
            rw [mapMO_prepend f env s.condVal 1 params_ids (fun p hp =>
              Nat.ne_of_gt (Nat.lt_of_lt_of_le (hplt p hp) sc5))]
            exact hargs
          have hcrlen : s.callResults.length = rs.length := by
            rw [sc9, hlenrs]
          have hstep3 : execInstr oracle f ((s.condVal, 1) :: env)
              s.callInst =
              some (bindAll ((s.condVal, 1) :: env) s.callResults rs) :=
            execInstr_call_ok oracle f ((s.condVal, 1) :: env) s.callInst
              s.fnVal params_ids s.callResults fid argvs rs sc6 sc7 hargs1
              hor sc8 hcrlen
          have hchain2 : RetChain f returns (some s.retBlock) (d + 1) := by
            refine ⟨s.retParams, prev, sc12, sc13, sc14, ?_, hchain⟩
            intro p hp
            obtain ⟨ii, tt, hpp⟩ := sc15 p hp
            exact ⟨s.retBlock, ii, tt, hpp⟩
          obtain ⟨blkR, hblkR, hlenR, hexecR⟩ :=
            retChain_exec oracle f returns d s.retBlock rs hchain2 hlenrs
          have hargs2 : mapMO (evalOperand f
              (bindAll ((s.condVal, 1) :: env) s.callResults rs))
              s.callResults = some rs :=
            bindAll_mapMO f s.callResults rs ((s.condVal, 1) :: env) sc10
              hcrlen (fun p hp c t => by
                obtain ⟨k, tt, hpv⟩ := sc11 p hp
                rw [hpv]
                simp)
          cases fuel with
          | zero => exact absurd hfuel (Nat.not_succ_le_zero _)
          | succ fuel =>
              simp only [execBlock, hcurblk, Option.bind_eq_bind,
                Option.some_bind, List.foldlM_cons, List.foldlM_nil]
              rw [hstep1]
              simp only [Option.some_bind]
              rw [hstep2]
              simp only [Option.some_bind]
              rw [hstep3]
              simp only [Option.some_bind, Option.pure_def]
              rw [mapM_eq_mapMO, hargs2]
              simp only [Option.some_bind]
              rw [hblkR]
              simp only [Option.some_bind]
              rw [if_pos hlenR]
              exact hexecR (bindAll ((s.condVal, 1) :: env) s.callResults
                rs) fuel (by omega)
        · exact h.elim
      · -- at least two branches: test block with a conditional jump
        rcases segs with _ | ⟨s, segs'⟩
        · exact h.elim
        rcases segs' with _ | ⟨s2, segs''⟩
        · exact h.elim
        obtain ⟨htb, ⟨ps, hcurblk⟩, hexecblk, ⟨sc1, sc2, sc3, ⟨tc, sc4⟩,
          sc5, sc6, sc7, sc8, sc9, sc10, sc11, sc12, sc13, sc14, sc15⟩,
          hrec⟩ := h
        have hcst : evalOperand f env s.cstVal =
            some (function_id_to_field fid) := by
          unfold evalOperand
          rw [sc3]
        have hchain2 : RetChain f returns (some s.retBlock) (d + 1) := by
          refine ⟨s.retParams, prev, sc12, sc13, sc14, ?_, hchain⟩
          intro p hp
          obtain ⟨ii, tt, hpp⟩ := sc15 p hp
          exact ⟨s.retBlock, ii, tt, hpp⟩
        have hcne : ∀ p ∈ params_ids, s.condVal ≠ p := fun p hp =>
          Nat.ne_of_gt (Nat.lt_of_lt_of_le (hplt p hp) sc5)
        cases fuel with
        | zero => exact absurd hfuel (Nat.not_succ_le_zero _)
        | succ fuel =>
            cases i with
            | zero =>
                have htv2 : tv = function_id_to_field fid := htveq
                have hor : oracle fid argvs = some rs := horacle
                have hstep1 : execInstr oracle f env s.eqInst =
                    some ((s.condVal, 1) :: env) := by
                  rw [execInstr_eq_binary oracle f env s.eqInst target
                    s.cstVal s.condVal tv (function_id_to_field fid) sc1
                    sc2 htv hcst]
                  rw [if_pos htv2]
                have hcondv : evalOperand f ((s.condVal, 1) :: env)
                    s.condVal = some 1 := by
                  rw [evalOperand_nonconst f ((s.condVal, 1) :: env)
                    s.condVal (fun c t => by rw [sc4]; simp)]
                  rw [lookupA_cons, if_pos rfl]
                have hargs1 : mapMO (evalOperand f ((s.condVal, 1) :: env))
                    params_ids = some argvs := by
                  rw [mapMO_prepend f env s.condVal 1 params_ids hcne]
                  exact hargs
                have hcrlen : s.callResults.length = rs.length := by
                  rw [sc9, hlenrs]
                have hstep3 : execInstr oracle f ((s.condVal, 1) :: env)
                    s.callInst = some
                      (bindAll ((s.condVal, 1) :: env) s.callResults rs) :=
                  execInstr_call_ok oracle f ((s.condVal, 1) :: env)
                    s.callInst s.fnVal params_ids s.callResults fid argvs
                    rs sc6 sc7 hargs1 hor sc8 hcrlen
                obtain ⟨blkR, hblkR, hlenR, hexecR⟩ :=
                  retChain_exec oracle f returns d s.retBlock rs hchain2
                    hlenrs
                have hargs2 : mapMO (evalOperand f
                    (bindAll ((s.condVal, 1) :: env) s.callResults rs))
                    s.callResults = some rs :=
                  bindAll_mapMO f s.callResults rs ((s.condVal, 1) :: env)
                    sc10 hcrlen (fun p hp c t => by
                      obtain ⟨k, tt, hpv⟩ := sc11 p hp
                      rw [hpv]
                      simp)
                simp only [execBlock, hcurblk, Option.bind_eq_bind,
                  Option.some_bind, List.foldlM_cons, List.foldlM_nil]
                rw [hstep1]
                simp only [Option.some_bind, Option.pure_def]
                rw [hcondv]
                simp only [Option.some_bind]
                show execBlock oracle f fuel s.execBlock
                  ((s.condVal, 1) :: env) = some rs
                cases fuel with
                | zero => exact absurd hfuel (by simp)
                | succ fuel =>
                    simp only [execBlock, hexecblk, Option.bind_eq_bind,
                      Option.some_bind, List.foldlM_cons, List.foldlM_nil]
                    rw [hstep3]
                    simp only [Option.some_bind, Option.pure_def]
                    rw [mapM_eq_mapMO, hargs2]
                    simp only [Option.some_bind]
                    rw [hblkR]
                    simp only [Option.some_bind]
                    rw [if_pos hlenR]
                    exact hexecR (bindAll ((s.condVal, 1) :: env)
                      s.callResults rs) fuel (by omega)
            | succ j =>
                have htvne : tv ≠ function_id_to_field fid := by
                  intro hcontra
                  exact hne 0 (Nat.succ_pos j) hcontra.symm
                have hstep1 : execInstr oracle f env s.eqInst =
                    some ((s.condVal, 0) :: env) := by
                  rw [execInstr_eq_binary oracle f env s.eqInst target
                    s.cstVal s.condVal tv (function_id_to_field fid) sc1
                    sc2 htv hcst]
                  rw [if_neg htvne]
                have hcondv : evalOperand f ((s.condVal, 0) :: env)
                    s.condVal = some 0 := by
                  rw [evalOperand_nonconst f ((s.condVal, 0) :: env)
                    s.condVal (fun c t => by rw [sc4]; simp)]
                  rw [lookupA_cons, if_pos rfl]
                have htv1 : evalOperand f ((s.condVal, 0) :: env) target =
                    some tv := by
                  rw [evalOperand_prepend f env s.condVal 0 target
                    (Nat.ne_of_gt (Nat.lt_of_lt_of_le htlt sc5))]
                  exact htv
                have hargs1 : mapMO (evalOperand f ((s.condVal, 0) :: env))
                    params_ids = some argvs := by
                  rw [mapMO_prepend f env s.condVal 0 params_ids hcne]
                  exact hargs
                simp only [execBlock, hcurblk, Option.bind_eq_bind,
                  Option.some_bind, List.foldlM_cons, List.foldlM_nil]
                rw [hstep1]
                simp only [Option.some_bind, Option.pure_def]
                rw [hcondv]
                simp only [Option.some_bind]
                show execBlock oracle f fuel s2.testBlock
                  ((s.condVal, 0) :: env) = some rs
                have hfuel2 : 2 * (fid2 :: rest2).length + (d + 1) + 2 ≤
                    fuel := by
                  simp only [List.length_cons] at hfuel ⊢
                  omega
                exact ih (s2 :: segs'') s2.testBlock (some s.retBlock)
                  (d + 1) ((s.condVal, 0) :: env) j tv argvs rs hrec
                  hchain2 htlt hplt htv1 hargs1
                  (Nat.lt_of_succ_lt_succ hi) htveq
                  (fun k hk => hne (k + 1) (Nat.succ_lt_succ hk)) horacle
                  hlenrs fuel hfuel2

/-- C1: semantic equivalence of the rewrite.  For any callee list, when
the synthesized apply function is run with a dynamic target equal to the
field encoding of the `i`-th callee (and no earlier callee's encoding
collides with it), followed by the call arguments, its observable result
is exactly the result of calling that callee directly with the same
arguments, as given by the call oracle. -/
theorem C1_apply_semantics (ssa : Ssa) (signature : Signature)
    (oracle : CallOracle) (f0 : FunctionId) (frest : List FunctionId)
    (i : Nat) (argvs rs : List Nat)
    (hi : i < (f0 :: frest).length)
    (hfirst : ∀ j, j < i →
      function_id_to_field ((f0 :: frest).getD j 0) ≠
        function_id_to_field ((f0 :: frest).getD i 0))
    (hargvs : argvs.length = signature.params.length)
    (horacle : oracle ((f0 :: frest).getD i 0) argvs = some rs)
    (hrs : rs.length = signature.returns.length) :
    ∃ F : Function,
      create_apply_function ssa signature (f0 :: frest) =
        Except.ok
          ({ functions := ssa.functions ++ [(ssa.nextFunctionId, F)],
             nextFunctionId := ssa.nextFunctionId + 1 },
           ssa.nextFunctionId) ∧
      runFunction oracle F
        (function_id_to_field ((f0 :: frest).getD i 0) :: argvs)
        (2 * (f0 :: frest).length + 2) = some rs := by
  obtain ⟨F, hok, hname, hid, hrt, hentry, ⟨blkc, hblkc, hbparams⟩, hv0,
    hvj, hfwf, segs, hsegs⟩ :=
    create_apply_function_spec ssa signature f0 frest
  refine ⟨F, hok, ?_⟩
  have hplen : blkc.parameters.length =
      (function_id_to_field ((f0 :: frest).getD i 0) :: argvs).length := by
    rw [hbparams]
    simp [List.length_range', hargvs]
  simp only [runFunction, hentry, hblkc]
  rw [if_pos hplen]
  rw [hbparams, bindAll_cons]
  have h0notin : (0 : ValueId) ∉ List.range' 1 signature.params.length := by
    intro hmem
    rw [List.mem_range'_1] at hmem
    omega
  have htveval : evalOperand F
      (bindAll [(0, function_id_to_field ((f0 :: frest).getD i 0))]
        (List.range' 1 signature.params.length) argvs) 0 =
      some (function_id_to_field ((f0 :: frest).getD i 0)) := by
    rw [evalOperand_nonconst F _ 0 (fun c t => by rw [hv0]; simp)]
    rw [bindAll_lookup_notmem 0 (List.range' 1 signature.params.length)
      argvs _ h0notin]
    rw [lookupA_cons, if_pos rfl]
  have hslots : ∀ p ∈ List.range' 1 signature.params.length, ∀ c t,
      lookupA F.dfg.values p ≠ some (Value.NumericConstant c t) := by
    intro p hp c t
    rw [List.mem_range'] at hp
    obtain ⟨k, hk, hpk⟩ := hp
    rw [Nat.one_mul] at hpk
    subst hpk
    rw [hvj k hk]
    simp
  have hargseval : mapMO (evalOperand F
      (bindAll [(0, function_id_to_field ((f0 :: frest).getD i 0))]
        (List.range' 1 signature.params.length) argvs))
      (List.range' 1 signature.params.length) = some argvs :=
    bindAll_mapMO F (List.range' 1 signature.params.length) argvs _
      (List.nodup_range' _ _) (by rw [List.length_range', hargvs]) hslots
  have hplt : ∀ p ∈ List.range' 1 signature.params.length,
      p < signature.params.length + 1 := by
    intro p hp
    rw [List.mem_range'_1] at hp
    omega
  exact segsSpec_run oracle F (signature.params.length + 1) 0
    (List.range' 1 signature.params.length) signature.returns
    (f0 :: frest) segs 0 none 0 _ i
    (function_id_to_field ((f0 :: frest).getD i 0)) argvs rs hsegs
    trivial (Nat.succ_pos signature.params.length) hplt htveval hargseval
    hi rfl hfirst horacle hrs (2 * (f0 :: frest).length + 2) (by omega)

/-- Witness for C1 at a concrete program: two callees `3` and `4` with a
one-field signature; dispatching on the encoding of callee `3` returns
the oracle's answer for calling `3` on the given argument. -/
theorem C1_apply_semantics_witness :
    ∃ F : Function,
      create_apply_function ⟨[], 7⟩ ⟨[Ty.field], [Ty.field]⟩ [3, 4] =
        Except.ok
          ({ functions := [] ++ [(7, F)], nextFunctionId := 8 }, 7) ∧
      runFunction
        (fun fid args => if fid = 3
          then some (args.map (fun a => a + 1)) else none) F
        (function_id_to_field 3 :: [5]) 6 = some [6] :=
  C1_apply_semantics ⟨[], 7⟩ ⟨[Ty.field], [Ty.field]⟩
    (fun fid args => if fid = 3
      then some (args.map (fun a => a + 1)) else none) 3 [4] 0 [5] [6]
    (by decide) (fun j hj => absurd hj (Nat.not_lt_zero j)) (by decide)
    (by decide) (by decide)

theorem lookupA_append {α : Type} (l1 l2 : List (Nat × α)) (k : Nat) :
    lookupA (l1 ++ l2) k =
      match lookupA l1 k with
      | some v => some v
      | none => lookupA l2 k := by
  induction l1 with
  | nil => rfl
  | cons p rest ih =>
      obtain ⟨pk, pv⟩ := p
      by_cases hk : pk = k
      · subst hk
        simp [lookupA_cons]
      · simp only [List.cons_append, lookupA_cons, if_neg hk]
        exact ih

theorem reachAux_congr (blocks1 blocks2 : List (BasicBlockId × BasicBlock))
    (hlk : ∀ b, lookupA blocks1 b = lookupA blocks2 b) :
    ∀ fuel work visited,
      reachAux blocks1 fuel work visited = reachAux blocks2 fuel work visited := by
  intro fuel
  induction fuel with
  | zero => intro work visited; rfl
  | succ fuel ih =>
      intro work visited
      cases work with
      | nil => rfl
      | cons bid rest =>
          show (if bid ∈ visited then reachAux blocks1 fuel rest visited
            else reachAux blocks1 fuel
              (rest ++ (match lookupA blocks1 bid with
                | some blk => successors blk.terminator
                | none => [])) (visited ++ [bid])) =
            (if bid ∈ visited then reachAux blocks2 fuel rest visited
            else reachAux blocks2 fuel
              (rest ++ (match lookupA blocks2 bid with
                | some blk => successors blk.terminator
                | none => [])) (visited ++ [bid]))
          rw [hlk bid]
          by_cases hv : bid ∈ visited
          · rw [if_pos hv, if_pos hv, ih]
          · rw [if_neg hv, if_neg hv, ih]

theorem reachableBlocks_congr (f g : Function)
    (hb : f.dfg.blocks = g.dfg.blocks) (he : f.entryBlock = g.entryBlock) :
    reachableBlocks f = reachableBlocks g := by
  unfold reachableBlocks
  rw [hb, he]

theorem retypeFold_meta (ctv : List ValueId) :
    ∀ (ids : List ValueId) (f : Function),
      (ids.foldl (retypeValue ctv) f).dfg.instructions =
        f.dfg.instructions ∧
      (ids.foldl (retypeValue ctv) f).dfg.blocks = f.dfg.blocks ∧
      (ids.foldl (retypeValue ctv) f).dfg.results = f.dfg.results ∧
      (ids.foldl (retypeValue ctv) f).name = f.name ∧
      (ids.foldl (retypeValue ctv) f).id = f.id ∧
      (ids.foldl (retypeValue ctv) f).runtime = f.runtime ∧
      (ids.foldl (retypeValue ctv) f).entryBlock = f.entryBlock := by
  intro ids
  induction ids with
  | nil => intro f; exact ⟨rfl, rfl, rfl, rfl, rfl, rfl, rfl⟩
  | cons vid rest ih =>
      intro f
      rw [List.foldl_cons]
      obtain ⟨m1, m2, m3, m4, m5, m6, m7, _, _, _, _, _⟩ :=
        retypeValue_pres ctv f vid
      obtain ⟨n1, n2, n3, n4, n5, n6, n7⟩ := ih (retypeValue ctv f vid)
      exact ⟨n1.trans m1, n2.trans m3, n3.trans m2, n4.trans m4,
        n5.trans m5, n6.trans m6, n7.trans m7⟩

theorem retypeFold_origin (ctv : List ValueId) (f1 : Function)
    (hkb : ValueKeysBelow f1) :
    (∀ vid fid, lookupA (((f1.dfg.values.map Prod.fst).dedup).foldl
        (retypeValue ctv) f1).dfg.values vid = some (Value.Function fid) →
      lookupA f1.dfg.values vid = some (Value.Function fid) ∧ vid ∈ ctv) ∧
    (∀ vid b i ty, lookupA (((f1.dfg.values.map Prod.fst).dedup).foldl
        (retypeValue ctv) f1).dfg.values vid = some (Value.Param b i ty) →
      ty ≠ Ty.Function ∧
        ∃ ty0, lookupA f1.dfg.values vid = some (Value.Param b i ty0)) ∧
    (∀ vid ii ix ty, lookupA (((f1.dfg.values.map Prod.fst).dedup).foldl
        (retypeValue ctv) f1).dfg.values vid =
          some (Value.Instruction ii ix ty) →
      ty ≠ Ty.Function ∧
        ∃ ty0, lookupA f1.dfg.values vid =
          some (Value.Instruction ii ix ty0)) ∧
    ValueKeysBelow (((f1.dfg.values.map Prod.fst).dedup).foldl
      (retypeValue ctv) f1) := by
  have hidslt : ∀ w ∈ (f1.dfg.values.map Prod.fst).dedup,
      w < f1.dfg.nextValue := by
    intro w hw
    obtain ⟨v, hv⟩ := lookup_isSome_of_mem_dedup_keys hw
    exact lookupA_lt_of_keysBelow hkb hv
  obtain ⟨hper, hG1, hG2, hkbF, hleF⟩ := retypeFold_slots ctv
    ((f1.dfg.values.map Prod.fst).dedup) f1 (List.nodup_dedup _) hkb hidslt
  refine ⟨?_, ?_, ?_, hkbF⟩
  · intro vid fid hv
    by_cases hvlt : vid < f1.dfg.nextValue
    · by_cases hin : vid ∈ (f1.dfg.values.map Prod.fst).dedup
      · obtain ⟨v1, hv1⟩ := lookup_isSome_of_mem_dedup_keys hin
        obtain ⟨F1, F2, F3, F4, F5, F6⟩ := hper vid hin
        cases v1 with
        | Function g0 =>
            by_cases hm : vid ∈ ctv
            · have := F2 g0 hv1 hm
              rw [hv] at this
              have hg := (Option.some.injEq _ _).mp this
              cases hg
              exact ⟨hv1, hm⟩
            · have := F1 g0 hv1 hm
              rw [hv] at this
              simp at this
        | Param b i t =>
            by_cases ht : t = Ty.Function
            · subst ht
              have := F4 b i hv1
              rw [hv] at this
              simp at this
            · have := F5 _ hv1 (by simpa [Value.get_type] using ht)
              rw [hv] at this
              simp at this
        | Instruction ii ix t =>
            by_cases ht : t = Ty.Function
            · subst ht
              have := F3 ii ix hv1
              rw [hv] at this
              simp at this
            · have := F5 _ hv1 (by simpa [Value.get_type] using ht)
              rw [hv] at this
              simp at this
        | NumericConstant c t =>
            by_cases ht : t = Ty.Function
            · subst ht
              have := F6 c hv1
              rw [hv] at this
              simp at this
            · have := F5 _ hv1 (by simpa [Value.get_type] using ht)
              rw [hv] at this
              simp at this
      · rw [hG1 vid hvlt hin] at hv
        exact absurd (mem_dedup_keys_of_lookup hv) hin
    · rcases hG2 vid (Nat.le_of_not_lt hvlt) with hn | ⟨c, hc⟩
      · rw [hv] at hn
        simp at hn
      · rw [hv] at hc
        simp at hc
  · intro vid b i ty hv
    by_cases hvlt : vid < f1.dfg.nextValue
    · by_cases hin : vid ∈ (f1.dfg.values.map Prod.fst).dedup
      · obtain ⟨v1, hv1⟩ := lookup_isSome_of_mem_dedup_keys hin
        obtain ⟨F1, F2, F3, F4, F5, F6⟩ := hper vid hin
        cases v1 with
        | Function g0 =>
            by_cases hm : vid ∈ ctv
            · have := F2 g0 hv1 hm
              rw [hv] at this
              simp at this
            · have := F1 g0 hv1 hm
              rw [hv] at this
              simp at this
        | Param b0 i0 t =>
            by_cases ht : t = Ty.Function
            · subst ht
              have := F4 b0 i0 hv1
              rw [hv] at this
              have hg := (Option.some.injEq _ _).mp this
              cases hg
              exact ⟨by simp [Ty.field], ⟨Ty.Function, hv1⟩⟩
            · have := F5 _ hv1 (by simpa [Value.get_type] using ht)
              rw [hv] at this
              have hg := (Option.some.injEq _ _).mp this
              cases hg
              exact ⟨ht, ⟨ty, hv1⟩⟩
        | Instruction ii0 ix0 t =>
            by_cases ht : t = Ty.Function
            · subst ht
              have := F3 ii0 ix0 hv1
              rw [hv] at this
              simp at this
            · have := F5 _ hv1 (by simpa [Value.get_type] using ht)
              rw [hv] at this
              simp at this
        | NumericConstant c t =>
            by_cases ht : t = Ty.Function
            · subst ht
              have := F6 c hv1
              rw [hv] at this
              simp at this
            · have := F5 _ hv1 (by simpa [Value.get_type] using ht)
              rw [hv] at this
              simp at this
      · rw [hG1 vid hvlt hin] at hv
        exact absurd (mem_dedup_keys_of_lookup hv) hin
    · rcases hG2 vid (Nat.le_of_not_lt hvlt) with hn | ⟨c, hc⟩
      · rw [hv] at hn
        simp at hn
      · rw [hv] at hc
        simp at hc
  · intro vid ii ix ty hv
    by_cases hvlt : vid < f1.dfg.nextValue
    · by_cases hin : vid ∈ (f1.dfg.values.map Prod.fst).dedup
      · obtain ⟨v1, hv1⟩ := lookup_isSome_of_mem_dedup_keys hin
        obtain ⟨F1, F2, F3, F4, F5, F6⟩ := hper vid hin
        cases v1 with
        | Function g0 =>
            by_cases hm : vid ∈ ctv
            · have := F2 g0 hv1 hm
              rw [hv] at this
              simp at this
            · have := F1 g0 hv1 hm
              rw [hv] at this
              simp at this
        | Param b0 i0 t =>
            by_cases ht : t = Ty.Function
            · subst ht
              have := F4 b0 i0 hv1
              rw [hv] at this
              simp at this
            · have := F5 _ hv1 (by simpa [Value.get_type] using ht)
              rw [hv] at this
              simp at this
        | Instruction ii0 ix0 t =>
            by_cases ht : t = Ty.Function
            · subst ht
              have := F3 ii0 ix0 hv1
              rw [hv] at this
              have hg := (Option.some.injEq _ _).mp this
              cases hg
              exact ⟨by simp [Ty.field], ⟨Ty.Function, hv1⟩⟩
            · have := F5 _ hv1 (by simpa [Value.get_type] using ht)
              rw [hv] at this
              have hg := (Option.some.injEq _ _).mp this
              cases hg
              exact ⟨ht, ⟨ty, hv1⟩⟩
        | NumericConstant c t =>
            by_cases ht : t = Ty.Function
            · subst ht
              have := F6 c hv1
              rw [hv] at this
              simp at this
            · have := F5 _ hv1 (by simpa [Value.get_type] using ht)
              rw [hv] at this
              simp at this
      · rw [hG1 vid hvlt hin] at hv
        exact absurd (mem_dedup_keys_of_lookup hv) hin
    · rcases hG2 vid (Nat.le_of_not_lt hvlt) with hn | ⟨c, hc⟩
      · rw [hv] at hn
        simp at hn
      · rw [hv] at hc
        simp at hc

theorem retypeFold_nondyn (ctv : List ValueId) (f1 : Function)
    (hkb : ValueKeysBelow f1) (t : ValueId)
    (hnd : isDynamicTarget f1 t = false) :
    isDynamicTarget (((f1.dfg.values.map Prod.fst).dedup).foldl
      (retypeValue ctv) f1) t = false := by
  obtain ⟨hfun, hparam, hinstr, _⟩ := retypeFold_origin ctv f1 hkb
  unfold isDynamicTarget
  cases hv : lookupA (((f1.dfg.values.map Prod.fst).dedup).foldl
      (retypeValue ctv) f1).dfg.values t with
  | none => rfl
  | some v =>
      cases v with
      | Function g => rfl
      | NumericConstant c ty => rfl
      | Param b i ty =>
          obtain ⟨_, ty0, hv0⟩ := hparam t b i ty hv
          unfold isDynamicTarget at hnd
          rw [hv0] at hnd
          simp at hnd
      | Instruction ii ix ty =>
          obtain ⟨_, ty0, hv0⟩ := hinstr t ii ix ty hv
          unfold isDynamicTarget at hnd
          rw [hv0] at hnd
          simp at hnd

theorem isDynamicTarget_false_of_function {f : Function} {t : ValueId}
    {g : FunctionId}
    (hv : lookupA f.dfg.values t = some (Value.Function g)) :
    isDynamicTarget f t = false := by
  unfold isDynamicTarget
  rw [hv]

theorem rewriteStep_cleanAt (ctx : DefunctionalizationContext)
    (s s' : RewriteState) (j : InstructionId)
    (h : rewriteInstruction ctx s j = Except.ok s') : CleanAt s' j := by
  obtain ⟨func, ctv⟩ := s
  rcases rewriteInstruction_cases ctx (func, ctv) s' j h with rfl |
    ⟨t0, as0, g, hi, hv, rfl⟩ | ⟨t0, as0, af, hi, hd, haf, rfl⟩
  · -- the state is unchanged: the call target, if any, cannot be dynamic
    intro t as hc
    dsimp only at hc
    unfold rewriteInstruction at h
    dsimp only at h
    cases hinst : lookupA func.dfg.instructions j with
    | none =>
        rw [hinst] at hc
        exact absurd hc (by simp)
    | some inst =>
    rw [hinst] at h
    rw [hinst] at hc
    have hie := (Option.some.injEq _ _).mp hc
    subst hie
    simp only at h
    cases hval : lookupA func.dfg.values t with
    | none => unfold isDynamicTarget; rw [hval]
    | some v =>
        rw [hval] at h
        cases v with
        | Function g => exact isDynamicTarget_false_of_function hval
        | NumericConstant c ty =>
            unfold isDynamicTarget
            rw [hval]
        | Param b i ty =>
            simp only [DefunctionalizationContext.get_apply_function,
              Bind.bind, Except.bind] at h
            cases haf : lookupA ctx.apply_functions
                (CallSignature.from_call_params func as
                  (resultsOf func j)) with
            | none =>
                rw [haf] at h
                simp at h
            | some af =>
                rw [haf] at h
                simp only [Except.ok.injEq] at h
                have hvals := congrArg (fun q : RewriteState =>
                  q.2.length) h
                simp [DataFlowGraph.import_function,
                  DataFlowGraph.makeValue] at hvals
        | Instruction ii ix ty =>
            simp only [DefunctionalizationContext.get_apply_function,
              Bind.bind, Except.bind] at h
            cases haf : lookupA ctx.apply_functions
                (CallSignature.from_call_params func as
                  (resultsOf func j)) with
            | none =>
                rw [haf] at h
                simp at h
            | some af =>
                rw [haf] at h
                simp only [Except.ok.injEq] at h
                have hvals := congrArg (fun q : RewriteState =>
                  q.2.length) h
                simp [DataFlowGraph.import_function,
                  DataFlowGraph.makeValue] at hvals
  · -- a direct call: its target is a literal function value
    intro t as hc
    rw [hi] at hc
    have hg := (Option.some.injEq _ _).mp hc
    cases hg
    exact isDynamicTarget_false_of_function hv
  · -- the rewritten call targets the freshly imported function value
    intro t as hc
    rw [lookupA_cons, if_pos rfl] at hc
    obtain ⟨h1, h2⟩ := Instruction.Call.inj ((Option.some.injEq _ _).mp hc)
    subst h1
    have hfn : lookupA ((func.dfg.nextValue, Value.Function af.id) ::
        func.dfg.values) func.dfg.nextValue =
        some (Value.Function af.id) := by
      rw [lookupA_cons, if_pos rfl]
    exact isDynamicTarget_false_of_function hfn

theorem rewriteStep_cleanAt_pres (ctx : DefunctionalizationContext)
    (s s' : RewriteState) (j iid : InstructionId)
    (h : rewriteInstruction ctx s j = Except.ok s')
    (hc : CleanAt s iid) : CleanAt s' iid := by
  rcases rewriteInstruction_cases ctx s s' j h with rfl |
    ⟨t0, as0, g, hi, hv, rfl⟩ | ⟨t0, as0, af, hi, hd, haf, rfl⟩
  · exact hc
  · exact hc
  · intro t as hlk
    by_cases hij : j = iid
    · subst hij
      rw [lookupA_cons, if_pos rfl] at hlk
      obtain ⟨h1, h2⟩ := Instruction.Call.inj ((Option.some.injEq _ _).mp hlk)
      subst h1
      have hfn : lookupA ((s.1.dfg.nextValue, Value.Function af.id) ::
          s.1.dfg.values) s.1.dfg.nextValue =
          some (Value.Function af.id) := by
        rw [lookupA_cons, if_pos rfl]
      exact isDynamicTarget_false_of_function hfn
    · rw [lookupA_cons, if_neg hij] at hlk
      have hnd := hc t as hlk
      unfold isDynamicTarget at hnd ⊢
      by_cases htn : s.1.dfg.nextValue = t
      · rw [lookupA_cons, if_pos htn]
      · rw [lookupA_cons, if_neg htn]
        exact hnd

theorem rewriteInstrs_clean (ctx : DefunctionalizationContext) :
    ∀ (l : List InstructionId) (s s' : RewriteState),
      l.foldlM (rewriteInstruction ctx) s = Except.ok s' →
      (∀ iid, CleanAt s iid → CleanAt s' iid) ∧
      (∀ iid ∈ l, CleanAt s' iid) := by
  intro l
  induction l with
  | nil =>
      intro s s' h
      simp only [List.foldlM, pure, Except.pure, Except.ok.injEq] at h
      subst h
      exact ⟨fun _ hh => hh, by simp⟩
  | cons x rest ih =>
      intro s s' h
      rw [List.foldlM] at h
      cases hx : rewriteInstruction ctx s x with
      | error e =>
          rw [hx] at h
          simp [Bind.bind, Except.bind] at h
      | ok s1 =>
          rw [hx] at h
          simp only [Bind.bind, Except.bind] at h
          obtain ⟨ihp, ihm⟩ := ih s1 s' h
          refine ⟨fun iid hh =>
            ihp iid (rewriteStep_cleanAt_pres ctx s s1 x iid hx hh), ?_⟩
          intro iid hm
          rcases List.mem_cons.mp hm with rfl | hm
          · exact ihp iid (rewriteStep_cleanAt ctx s s1 iid hx)
          · exact ihm iid hm

theorem rewriteBlocks_clean (ctx : DefunctionalizationContext)
    (func : Function) :
    ∀ (bids : List BasicBlockId) (s s' : RewriteState),
      bids.foldlM (rewriteBlock ctx) s = Except.ok s' →
      RewritePres func s.1 →
      (∀ iid, CleanAt s iid → CleanAt s' iid) ∧
      (∀ bid ∈ bids, ∀ blk, lookupA func.dfg.blocks bid = some blk →
        ∀ iid ∈ blk.instructions, CleanAt s' iid) := by
  intro bids
  induction bids with
  | nil =>
      intro s s' h _
      simp only [List.foldlM, pure, Except.pure, Except.ok.injEq] at h
      subst h
      exact ⟨fun _ hh => hh, by simp⟩
  | cons bid rest ih =>
      intro s s' h hP
      rw [List.foldlM] at h
      cases hx : rewriteBlock ctx s bid with
      | error e =>
          rw [hx] at h
          simp [Bind.bind, Except.bind] at h
      | ok s1 =>
          rw [hx] at h
          simp only [Bind.bind, Except.bind] at h
          have hP1 : RewritePres func s1.1 :=
            rewriteBlock_inv ctx (fun q => RewritePres func q.1)
              (fun q x q' hq hstep =>
                (rewriteStep_pres ctx func q q' x hq hstep).1)
              s s1 bid hx hP
          obtain ⟨ihp, ihm⟩ := ih s1 s' h hP1
          have hblocks : s.1.dfg.blocks = func.dfg.blocks := hP.2.2.2.2.1
          unfold rewriteBlock at hx
          refine ⟨?_, ?_⟩
          · intro iid hh
            refine ihp iid ?_
            cases hblk : lookupA s.1.dfg.blocks bid with
            | none =>
                rw [hblk] at hx
                simp only [Except.ok.injEq] at hx
                subst hx
                exact hh
            | some blk0 =>
                rw [hblk] at hx
                exact (rewriteInstrs_clean ctx blk0.instructions s s1
                  hx).1 iid hh
          · intro b hb blk hbk iid hiid
            rcases List.mem_cons.mp hb with rfl | hb
            · cases hblk : lookupA s.1.dfg.blocks b with
              | none =>
                  rw [hblocks, hbk] at hblk
                  simp at hblk
              | some blk0 =>
                  have hbe : blk0 = blk := by
                    rw [hblocks, hbk] at hblk
                    exact ((Option.some.injEq _ _).mp hblk).symm
                  rw [hblk] at hx
                  subst hbe
                  exact ihp iid ((rewriteInstrs_clean ctx blk0.instructions
                    s s1 hx).2 iid hiid)
            · exact ihm b hb blk hbk iid hiid

theorem isDynamicTarget_transport (func f : Function)
    (hlow : ∀ v, v < func.dfg.nextValue →
      lookupA f.dfg.values v = lookupA func.dfg.values v)
    (hhigh : ∀ v, func.dfg.nextValue ≤ v →
      lookupA f.dfg.values v = none ∨
      ∃ g, lookupA f.dfg.values v = some (Value.Function g))
    (t : ValueId) (hd : isDynamicTarget f t = true) :
    isDynamicTarget func t = true := by
  unfold isDynamicTarget at hd ⊢
  cases hvt : lookupA f.dfg.values t with
  | none =>
      rw [hvt] at hd
      simp at hd
  | some v =>
      rw [hvt] at hd
      by_cases hlt : t < func.dfg.nextValue
      · rw [← hlow t hlt, hvt]
        cases v with
        | Param b i ty => rfl
        | Instruction ii ix ty => rfl
        | Function g => simp at hd
        | NumericConstant c ty => simp at hd
      · rcases hhigh t (Nat.le_of_not_lt hlt) with hn | ⟨g, hg⟩
        · rw [hvt] at hn
          simp at hn
        · rw [hvt] at hg
          have := (Option.some.injEq _ _).mp hg
          subst this
          simp at hd

theorem rewriteStep_inv (ctx : DefunctionalizationContext) (func : Function)
    (T : List (FunctionId × Function))
    (hCTX : ∀ sig af, lookupA ctx.apply_functions sig = some af →
      lookupA T af.id ≠ none)
    (bid : BasicBlockId) (blk : BasicBlock) (s s' : RewriteState)
    (j : InstructionId)
    (hbid : bid ∈ reachableBlocks func)
    (hblk : lookupA func.dfg.blocks bid = some blk)
    (hj : j ∈ blk.instructions)
    (hP : RewritePres func s.1)
    (hI : RewriteInv func T s)
    (h : rewriteInstruction ctx s j = Except.ok s') :
    RewriteInv func T s' := by
  obtain ⟨I1, I2, I3, I4⟩ := hI
  obtain ⟨_, _, _, _, _, _, _, _, hle, hkb, hlow, hhigh⟩ := hP
  rcases rewriteInstruction_cases ctx s s' j h with rfl |
    ⟨t0, as0, g, hi, hv, rfl⟩ | ⟨t0, as0, af, hi, hd, haf, rfl⟩
  · exact ⟨I1, I2, I3, I4⟩
  · refine ⟨?_, ?_, I3, I4⟩
    · intro v hv2
      rcases List.mem_cons.mp hv2 with rfl | hv2
      · exact ⟨g, hv⟩
      · exact I1 v hv2
    · intro v hv2
      rcases List.mem_cons.mp hv2 with rfl | hv2
      · exact ⟨as0, bid, blk, j, hbid, hblk, hj, hi⟩
      · exact I2 v hv2
  · have hvpres : ∀ w x, lookupA s.1.dfg.values w = some x →
        lookupA ((s.1.dfg.nextValue, Value.Function af.id) ::
          s.1.dfg.values) w = some x := by
      intro w x hw
      have hwlt := lookupA_lt_of_keysBelow hkb hw
      rw [lookupA_cons, if_neg (Nat.ne_of_gt hwlt)]
      exact hw
    have hfdyn : isDynamicTarget func t0 = true :=
      isDynamicTarget_transport func s.1 hlow hhigh t0 hd
    refine ⟨?_, ?_, ?_, ?_⟩
    · intro v hv2
      rcases List.mem_cons.mp hv2 with rfl | hv2
      · refine ⟨af.id, ?_⟩
        show lookupA ((s.1.dfg.nextValue, Value.Function af.id) ::
          s.1.dfg.values) s.1.dfg.nextValue =
            some (Value.Function af.id)
        rw [lookupA_cons, if_pos rfl]
      · obtain ⟨fid, hf⟩ := I1 v hv2
        exact ⟨fid, hvpres v _ hf⟩
    · intro v hv2
      rcases List.mem_cons.mp hv2 with rfl | hv2
      · refine ⟨(if af.dispatches_to_multiple_functions then t0 :: as0
          else as0), bid, blk, j, hbid, hblk, hj, ?_⟩
        show lookupA ((j, Instruction.Call s.1.dfg.nextValue
            (if af.dispatches_to_multiple_functions then t0 :: as0
              else as0)) :: s.1.dfg.instructions) j =
          some (Instruction.Call s.1.dfg.nextValue
            (if af.dispatches_to_multiple_functions then t0 :: as0
              else as0))
        rw [lookupA_cons, if_pos rfl]
      · obtain ⟨args, bid0, blk0, iid0, hb0, hk0, hi0, hc0⟩ := I2 v hv2
        refine ⟨args, bid0, blk0, iid0, hb0, hk0, hi0, ?_⟩
        by_cases hij : j = iid0
        · subst hij
          have he := hc0.symm.trans hi
          obtain ⟨h1, h2⟩ := Instruction.Call.inj
            ((Option.some.injEq _ _).mp he)
          obtain ⟨fid, hf⟩ := I1 v hv2
          subst h1
          have hfalse := isDynamicTarget_false_of_function hf
          rw [hfalse] at hd
          simp at hd
        · show lookupA ((j, Instruction.Call s.1.dfg.nextValue
              (if af.dispatches_to_multiple_functions then t0 :: as0
                else as0)) :: s.1.dfg.instructions) iid0 =
            some (Instruction.Call v args)
          rw [lookupA_cons, if_neg hij]
          exact hc0
    · intro iid inst hlk
      by_cases hij : j = iid
      · subst hij
        have hlk2 : lookupA ((j, Instruction.Call s.1.dfg.nextValue
            (if af.dispatches_to_multiple_functions then t0 :: as0
              else as0)) :: s.1.dfg.instructions) j = some inst := hlk
        rw [lookupA_cons, if_pos rfl] at hlk2
        have hinst := (Option.some.injEq _ _).mp hlk2
        rcases I3 j _ hi with horig | ⟨av, t1, as1, _, hsh, _, _⟩
        · refine Or.inr ⟨s.1.dfg.nextValue, t0, as0, horig, ?_, ?_, hfdyn⟩
          · by_cases hm : af.dispatches_to_multiple_functions
            · rw [if_pos hm] at hinst
              exact Or.inr hinst.symm
            · rw [if_neg hm] at hinst
              exact Or.inl hinst.symm
          · refine ⟨af.id, ?_, hCTX _ _ haf⟩
            show lookupA ((s.1.dfg.nextValue, Value.Function af.id) ::
              s.1.dfg.values) s.1.dfg.nextValue =
                some (Value.Function af.id)
            rw [lookupA_cons, if_pos rfl]
        · rcases hsh with hsh | hsh
          all_goals {
            obtain ⟨h1, h2⟩ := Instruction.Call.inj hsh
            obtain ⟨g2, hg2, _⟩ := ‹∃ g, lookupA s.1.dfg.values av =
              some (Value.Function g) ∧ lookupA T g ≠ none›
            subst h1
            have hfalse := isDynamicTarget_false_of_function hg2
            rw [hfalse] at hd
            simp at hd }
      · have hlk2 : lookupA ((j, Instruction.Call s.1.dfg.nextValue
            (if af.dispatches_to_multiple_functions then t0 :: as0
              else as0)) :: s.1.dfg.instructions) iid = some inst := hlk
        rw [lookupA_cons, if_neg hij] at hlk2
        rcases I3 iid inst hlk2 with horig |
          ⟨av, t1, as1, ho, hsh, ⟨g2, hg2, hT2⟩, hdy⟩
        · exact Or.inl horig
        · exact Or.inr ⟨av, t1, as1, ho, hsh,
            ⟨g2, hvpres av _ hg2, hT2⟩, hdy⟩
    · intro v hvge g2 hlkv
      have hlkv2 : lookupA ((s.1.dfg.nextValue, Value.Function af.id) ::
          s.1.dfg.values) v = some (Value.Function g2) := hlkv
      by_cases hvn : s.1.dfg.nextValue = v
      · rw [lookupA_cons, if_pos hvn] at hlkv2
        have := (Option.some.injEq _ _).mp hlkv2
        have hg : g2 = af.id := (Value.Function.inj this).symm
        subst hg
        exact hCTX _ _ haf
      · rw [lookupA_cons, if_neg hvn] at hlkv2
        exact I4 v hvge g2 hlkv2

theorem rewriteInstrs_inv (ctx : DefunctionalizationContext)
    (func : Function) (T : List (FunctionId × Function))
    (hCTX : ∀ sig af, lookupA ctx.apply_functions sig = some af →
      lookupA T af.id ≠ none)
    (bid : BasicBlockId) (blk : BasicBlock)
    (hbid : bid ∈ reachableBlocks func)
    (hblk : lookupA func.dfg.blocks bid = some blk) :
    ∀ (l : List InstructionId) (s s' : RewriteState),
      (∀ j ∈ l, j ∈ blk.instructions) →
      l.foldlM (rewriteInstruction ctx) s = Except.ok s' →
      RewritePres func s.1 → RewriteInv func T s →
      RewriteInv func T s' := by
  intro l
  induction l with
  | nil =>
      intro s s' _ h _ hI
      simp only [List.foldlM, pure, Except.pure, Except.ok.injEq] at h
      subst h
      exact hI
  | cons x rest ih =>
      intro s s' hmem h hP hI
      rw [List.foldlM] at h
      cases hx : rewriteInstruction ctx s x with
      | error e =>
          rw [hx] at h
          simp [Bind.bind, Except.bind] at h
      | ok s1 =>
          rw [hx] at h
          simp only [Bind.bind, Except.bind] at h
          have hP1 := (rewriteStep_pres ctx func s s1 x hP hx).1
          have hI1 := rewriteStep_inv ctx func T hCTX bid blk s s1 x hbid
            hblk (hmem x (List.mem_cons_self _ _)) hP hI hx
          exact ih s1 s' (fun j hj => hmem j (List.mem_cons_of_mem _ hj))
            h hP1 hI1

theorem rewriteBlocks_inv2 (ctx : DefunctionalizationContext)
    (func : Function) (T : List (FunctionId × Function))
    (hCTX : ∀ sig af, lookupA ctx.apply_functions sig = some af →
      lookupA T af.id ≠ none) :
    ∀ (bids : List BasicBlockId) (s s' : RewriteState),
      (∀ b ∈ bids, b ∈ reachableBlocks func) →
      bids.foldlM (rewriteBlock ctx) s = Except.ok s' →
      RewritePres func s.1 → RewriteInv func T s →
      RewriteInv func T s' := by
  intro bids
  induction bids with
  | nil =>
      intro s s' _ h _ hI
      simp only [List.foldlM, pure, Except.pure, Except.ok.injEq] at h
      subst h
      exact hI
  | cons bid rest ih =>
      intro s s' hmem h hP hI
      rw [List.foldlM] at h
      cases hx : rewriteBlock ctx s bid with
      | error e =>
          rw [hx] at h
          simp [Bind.bind, Except.bind] at h
      | ok s1 =>
          rw [hx] at h
          simp only [Bind.bind, Except.bind] at h
          have hP1 : RewritePres func s1.1 :=
            rewriteBlock_inv ctx (fun q => RewritePres func q.1)
              (fun q x q' hq hstep =>
                (rewriteStep_pres ctx func q q' x hq hstep).1)
              s s1 bid hx hP
          have hI1 : RewriteInv func T s1 := by
            unfold rewriteBlock at hx
            cases hblk : lookupA s.1.dfg.blocks bid with
            | none =>
                rw [hblk] at hx
                simp only [Except.ok.injEq] at hx
                subst hx
                exact hI
            | some blk0 =>
                rw [hblk] at hx
                have hblkf : lookupA func.dfg.blocks bid = some blk0 := by
                  rw [← hP.2.2.2.2.1]
                  exact hblk
                exact rewriteInstrs_inv ctx func T hCTX bid blk0
                  (hmem bid (List.mem_cons_self _ _)) hblkf
                  blk0.instructions s s1 (fun j hj => hj) hx hP hI
          exact ih s1 s' (fun b hb => hmem b (List.mem_cons_of_mem _ hb))
            h hP1 hI1

theorem rewriteInv_init (func : Function)
    (T : List (FunctionId × Function)) (hwf : ValueKeysBelow func) :
    RewriteInv func T (func, []) := by
  refine ⟨by simp, by simp, fun iid inst h => Or.inl h, ?_⟩
  intro v hvge g hlk
  rw [lookupA_none_of_ge hwf hvge] at hlk
  simp at hlk

theorem phase1_summary (ctx : DefunctionalizationContext)
    (T : List (FunctionId × Function)) (func func' : Function)
    (ctv : List ValueId)
    (hwf : ValueKeysBelow func)
    (hCTX : ∀ sig af, lookupA ctx.apply_functions sig = some af →
      lookupA T af.id ≠ none)
    (hok : defunctionalizeFunction ctx func = Except.ok (func', ctv)) :
    func'.dfg.blocks = func.dfg.blocks ∧
    func'.entryBlock = func.entryBlock ∧
    ValueKeysBelow func' ∧
    (∀ bid ∈ reachableBlocks func, ∀ blk,
      lookupA func.dfg.blocks bid = some blk →
      ∀ iid ∈ blk.instructions, ∀ t as,
        lookupA func'.dfg.instructions iid =
          some (Instruction.Call t as) →
        isDynamicTarget func' t = false) ∧
    (∀ vid fid, lookupA func'.dfg.values vid =
      some (Value.Function fid) → vid ∈ ctv) ∧
    (∀ v ∈ ctv, ∃ args bid blk iid, bid ∈ reachableBlocks func ∧
      lookupA func.dfg.blocks bid = some blk ∧ iid ∈ blk.instructions ∧
      lookupA func'.dfg.instructions iid =
        some (Instruction.Call v args)) ∧
    (∀ vid b i ty, lookupA func'.dfg.values vid =
      some (Value.Param b i ty) → ty ≠ Ty.Function) ∧
    (∀ vid ii ix ty, lookupA func'.dfg.values vid =
      some (Value.Instruction ii ix ty) → ty ≠ Ty.Function) ∧
    (∀ iid inst, lookupA func'.dfg.instructions iid = some inst →
      lookupA func.dfg.instructions iid = some inst ∨
      ∃ av t0 as0, lookupA func.dfg.instructions iid =
          some (Instruction.Call t0 as0) ∧
        (inst = Instruction.Call av as0 ∨
          inst = Instruction.Call av (t0 :: as0)) ∧
        isDynamicTarget func t0 = true) ∧
    (∀ v, func.dfg.nextValue ≤ v → ∀ g,
      lookupA func'.dfg.values v = some (Value.Function g) →
      lookupA T g ≠ none) ∧
    (∀ v, v < func.dfg.nextValue → ∀ g,
      lookupA func'.dfg.values v = some (Value.Function g) →
      lookupA func.dfg.values v = some (Value.Function g)) := by
  unfold defunctionalizeFunction at hok
  cases hfold : (reachableBlocks func).foldlM (rewriteBlock ctx)
      (func, ([] : List ValueId)) with
  | error e =>
      rw [hfold] at hok
      simp [Bind.bind, Except.bind] at hok
  | ok s1 =>
      rw [hfold] at hok
      simp only [Bind.bind, Except.bind, Except.ok.injEq] at hok
      obtain ⟨f1, ctv1⟩ := s1
      simp only at hok
      have hfe : func' = ((f1.dfg.values.map Prod.fst).dedup).foldl
          (retypeValue ctv1) f1 := (congrArg Prod.fst hok).symm
      have hce : ctv = ctv1 := (congrArg Prod.snd hok).symm
      subst hce
      have hpres := phase1_pres ctx func f1 ctv hwf hfold
      obtain ⟨_, _, _, hentry1, hblocks1, _, _, _, hle1, hkb1, hlow1,
        hhigh1⟩ := hpres
      obtain ⟨J1, J2, J3, J4⟩ := rewriteBlocks_inv2 ctx func T hCTX
        (reachableBlocks func) (func, []) (f1, ctv) (fun b hb => hb)
        hfold (rewritePres_refl func hwf) (rewriteInv_init func T hwf)
      have hclean := (rewriteBlocks_clean ctx func (reachableBlocks func)
        (func, []) (f1, ctv) hfold (rewritePres_refl func hwf)).2
      obtain ⟨hOfun, hOparam, hOinstr, hkbF⟩ :=
        retypeFold_origin ctv f1 hkb1
      obtain ⟨hMinstr, hMblocks, hMres, _, _, _, hMentry⟩ :=
        retypeFold_meta ctv ((f1.dfg.values.map Prod.fst).dedup) f1
      rw [← hfe] at hOfun hOparam hOinstr hkbF hMinstr hMblocks hMres hMentry
      refine ⟨?_, ?_, hkbF, ?_, ?_, ?_, ?_, ?_, ?_, ?_, ?_⟩
      · rw [hMblocks]
        exact hblocks1
      · rw [hMentry]
        exact hentry1
      · intro bid hbid blk hblk iid hiid t as hcall
        rw [hMinstr] at hcall
        have hnd : isDynamicTarget f1 t = false :=
          hclean bid hbid blk hblk iid hiid t as hcall
        have := retypeFold_nondyn ctv f1 hkb1 t hnd
        rw [← hfe] at this
        exact this
      · intro vid fid hv
        exact (hOfun vid fid hv).2
      · intro v hv
        obtain ⟨args, bid, blk, iid, hb, hk, hi, hc⟩ := J2 v hv
        exact ⟨args, bid, blk, iid, hb, hk, hi, by rw [hMinstr]; exact hc⟩
      · intro vid b i ty hv
        exact (hOparam vid b i ty hv).1
      · intro vid ii ix ty hv
        exact (hOinstr vid ii ix ty hv).1
      · intro iid inst hlk
        rw [hMinstr] at hlk
        rcases J3 iid inst hlk with horig |
          ⟨av, t0, as0, ho, hsh, _, hdy⟩
        · exact Or.inl horig
        · exact Or.inr ⟨av, t0, as0, ho, hsh, hdy⟩
      · intro v hvge g hlkv
        have hf1 := (hOfun v g hlkv).1
        exact J4 v hvge g hf1
      · intro v hvlt g hlkv
        have hf1 := (hOfun v g hlkv).1
        rw [hlow1 v hvlt] at hf1
        exact hf1

theorem rewrite2_step (ctx : DefunctionalizationContext) (f : Function)
    (ctv : List ValueId) (iid : InstructionId)
    (hclean : ∀ t as, lookupA f.dfg.instructions iid =
      some (Instruction.Call t as) → isDynamicTarget f t = false) :
    ∃ ctv2, rewriteInstruction ctx (f, ctv) iid = Except.ok (f, ctv2) ∧
      (∀ x ∈ ctv, x ∈ ctv2) ∧
      (∀ t as g, lookupA f.dfg.instructions iid =
          some (Instruction.Call t as) →
        lookupA f.dfg.values t = some (Value.Function g) → t ∈ ctv2) := by
  unfold rewriteInstruction
  dsimp only
  cases hinst : lookupA f.dfg.instructions iid with
  | none =>
      refine ⟨ctv, rfl, fun x hx => hx, ?_⟩
      intro t as g hc
      exact absurd hc (by simp)
  | some inst =>
      cases inst with
      | Call t0 as0 =>
          dsimp only
          cases hval : lookupA f.dfg.values t0 with
          | none =>
              refine ⟨ctv, rfl, fun x hx => hx, ?_⟩
              intro t as g hc hg
              have he := (Option.some.injEq _ _).mp hc
              obtain ⟨h1, h2⟩ := Instruction.Call.inj he
              subst h1
              rw [hval] at hg
              simp at hg
          | some v =>
              cases v with
              | Function g0 =>
                  refine ⟨t0 :: ctv, rfl,
                    fun x hx => List.mem_cons_of_mem _ hx, ?_⟩
                  intro t as g hc hg
                  have he := (Option.some.injEq _ _).mp hc
                  obtain ⟨h1, h2⟩ := Instruction.Call.inj he
                  subst h1
                  exact List.mem_cons_self _ _
              | NumericConstant c ty =>
                  refine ⟨ctv, rfl, fun x hx => hx, ?_⟩
                  intro t as g hc hg
                  have he := (Option.some.injEq _ _).mp hc
                  obtain ⟨h1, h2⟩ := Instruction.Call.inj he
                  subst h1
                  rw [hval] at hg
                  simp at hg
              | Param b i ty =>
                  have hdt : isDynamicTarget f t0 = true := by
                    unfold isDynamicTarget
                    rw [hval]
                  have := hclean t0 as0 hinst
                  rw [hdt] at this
                  simp at this
              | Instruction ii ix ty =>
                  have hdt : isDynamicTarget f t0 = true := by
                    unfold isDynamicTarget
                    rw [hval]
                  have := hclean t0 as0 hinst
                  rw [hdt] at this
                  simp at this
      | Store a w =>
          refine ⟨ctv, rfl, fun x hx => hx, ?_⟩
          intro t as g hc
          exact absurd hc (by simp)
      | Binary op l r =>
          refine ⟨ctv, rfl, fun x hx => hx, ?_⟩
          intro t as g hc
          exact absurd hc (by simp)
      | Constrain c =>
          refine ⟨ctv, rfl, fun x hx => hx, ?_⟩
          intro t as g hc
          exact absurd hc (by simp)

theorem rewrite2_instrs (ctx : DefunctionalizationContext) (f : Function) :
    ∀ (l : List InstructionId) (ctv : List ValueId),
      (∀ iid ∈ l, ∀ t as, lookupA f.dfg.instructions iid =
        some (Instruction.Call t as) → isDynamicTarget f t = false) →
      ∃ ctv2, l.foldlM (rewriteInstruction ctx) (f, ctv) =
          Except.ok (f, ctv2) ∧
        (∀ x ∈ ctv, x ∈ ctv2) ∧
        (∀ iid ∈ l, ∀ t as g, lookupA f.dfg.instructions iid =
            some (Instruction.Call t as) →
          lookupA f.dfg.values t = some (Value.Function g) →
          t ∈ ctv2) := by
  intro l
  induction l with
  | nil =>
      intro ctv _
      exact ⟨ctv, rfl, fun x hx => hx, by simp⟩
  | cons x rest ih =>
      intro ctv hclean
      obtain ⟨ctv1, hstep, hsub1, hrec1⟩ := rewrite2_step ctx f ctv x
        (hclean x (List.mem_cons_self _ _))
      obtain ⟨ctv2, hfold, hsub2, hrec2⟩ := ih ctv1
        (fun iid hiid => hclean iid (List.mem_cons_of_mem _ hiid))
      refine ⟨ctv2, ?_, fun y hy => hsub2 y (hsub1 y hy), ?_⟩
      · rw [List.foldlM, hstep]
        simp only [Bind.bind, Except.bind]
        exact hfold
      · intro iid hiid t as g hc hg
        rcases List.mem_cons.mp hiid with rfl | hiid
        · exact hsub2 t (hrec1 t as g hc hg)
        · exact hrec2 iid hiid t as g hc hg

theorem rewrite2_blocks (ctx : DefunctionalizationContext) (f : Function) :
    ∀ (bids : List BasicBlockId) (ctv : List ValueId),
      (∀ bid ∈ bids, ∀ blk, lookupA f.dfg.blocks bid = some blk →
        ∀ iid ∈ blk.instructions, ∀ t as,
          lookupA f.dfg.instructions iid =
            some (Instruction.Call t as) →
          isDynamicTarget f t = false) →
      ∃ ctv2, bids.foldlM (rewriteBlock ctx) (f, ctv) =
          Except.ok (f, ctv2) ∧
        (∀ x ∈ ctv, x ∈ ctv2) ∧
        (∀ bid ∈ bids, ∀ blk, lookupA f.dfg.blocks bid = some blk →
          ∀ iid ∈ blk.instructions, ∀ t as g,
            lookupA f.dfg.instructions iid =
              some (Instruction.Call t as) →
            lookupA f.dfg.values t = some (Value.Function g) →
            t ∈ ctv2) := by
  intro bids
  induction bids with
  | nil =>
      intro ctv _
      exact ⟨ctv, rfl, fun x hx => hx, by simp⟩
  | cons bid rest ih =>
      intro ctv hclean
      have hstep : ∃ ctv1, rewriteBlock ctx (f, ctv) bid =
          Except.ok (f, ctv1) ∧ (∀ x ∈ ctv, x ∈ ctv1) ∧
          (∀ blk, lookupA f.dfg.blocks bid = some blk →
            ∀ iid ∈ blk.instructions, ∀ t as g,
              lookupA f.dfg.instructions iid =
                some (Instruction.Call t as) →
              lookupA f.dfg.values t = some (Value.Function g) →
              t ∈ ctv1) := by
        unfold rewriteBlock
        cases hblk : lookupA f.dfg.blocks bid with
        | none =>
            refine ⟨ctv, rfl, fun x hx => hx, ?_⟩
            intro blk hb
            exact absurd hb (by simp)
        | some blk =>
            obtain ⟨ctv1, hfold, hsub, hrec⟩ := rewrite2_instrs ctx f
              blk.instructions ctv
              (hclean bid (List.mem_cons_self _ _) blk hblk)
            refine ⟨ctv1, hfold, hsub, ?_⟩
            intro blk2 hb2
            have hbe := (Option.some.injEq _ _).mp hb2
            subst hbe
            exact hrec
      obtain ⟨ctv1, hstep1, hsub1, hrec1⟩ := hstep
      obtain ⟨ctv2, hfold, hsub2, hrec2⟩ := ih ctv1
        (fun b hb => hclean b (List.mem_cons_of_mem _ hb))
      refine ⟨ctv2, ?_, fun y hy => hsub2 y (hsub1 y hy), ?_⟩
      · rw [List.foldlM, hstep1]
        simp only [Bind.bind, Except.bind]
        exact hfold
      · intro b hb blk hblk iid hiid t as g hc hg
        rcases List.mem_cons.mp hb with rfl | hb
        · exact hsub2 t (hrec1 blk hblk iid hiid t as g hc hg)
        · exact hrec2 b hb blk hblk iid hiid t as g hc hg

theorem retypeValue2_noop (ctv : List ValueId) (f : Function)
    (hparam : ∀ vid b i ty, lookupA f.dfg.values vid =
      some (Value.Param b i ty) → ty ≠ Ty.Function)
    (hinstr : ∀ vid ii ix ty, lookupA f.dfg.values vid =
      some (Value.Instruction ii ix ty) → ty ≠ Ty.Function)
    (hfun : ∀ vid fid, lookupA f.dfg.values vid =
      some (Value.Function fid) → vid ∈ ctv)
    (vid : ValueId) : retypeValue ctv f vid = f := by
  unfold retypeValue
  cases hval : lookupA f.dfg.values vid with
  | none => rfl
  | some v =>
      cases v with
      | Function fid =>
          simp only [Value.get_type, reduceIte]
          rw [if_pos (hfun vid fid hval)]
      | Param b i ty =>
          simp only [Value.get_type]
          rw [if_neg (hparam vid b i ty hval)]
      | Instruction ii ix ty =>
          simp only [Value.get_type]
          rw [if_neg (hinstr vid ii ix ty hval)]
      | NumericConstant c ty =>
          simp only [Value.get_type]
          by_cases ht : ty = Ty.Function
          · subst ht
            simp only [reduceIte]
          · rw [if_neg ht]

theorem retypeFold2_noop (ctv : List ValueId) (f : Function)
    (hstep : ∀ vid, retypeValue ctv f vid = f) :
    ∀ ids : List ValueId, ids.foldl (retypeValue ctv) f = f := by
  intro ids
  induction ids with
  | nil => rfl
  | cons vid rest ih =>
      rw [List.foldl_cons, hstep vid]
      exact ih

theorem ddInstr_noop (f : Function) (acc : List CallSignature)
    (iid : InstructionId)
    (hclean : ∀ t as, lookupA f.dfg.instructions iid =
      some (Instruction.Call t as) → isDynamicTarget f t = false) :
    ddInstr f acc iid = acc := by
  unfold ddInstr
  cases hinst : lookupA f.dfg.instructions iid with
  | none => rfl
  | some inst =>
      cases inst with
      | Call t0 as0 =>
          dsimp only
          cases hval : lookupA f.dfg.values t0 with
          | none => rfl
          | some v =>
              cases v with
              | Function g => rfl
              | NumericConstant c ty => rfl
              | Param b i ty =>
                  have hdt : isDynamicTarget f t0 = true := by
                    unfold isDynamicTarget
                    rw [hval]
                  have := hclean t0 as0 hinst
                  rw [hdt] at this
                  simp at this
              | Instruction ii ix ty =>
                  have hdt : isDynamicTarget f t0 = true := by
                    unfold isDynamicTarget
                    rw [hval]
                  have := hclean t0 as0 hinst
                  rw [hdt] at this
                  simp at this
      | Store a w => rfl
      | Binary op l r => rfl
      | Constrain c => rfl

theorem ddInstrs_noop (f : Function) :
    ∀ (l : List InstructionId) (acc : List CallSignature),
      (∀ iid ∈ l, ∀ t as, lookupA f.dfg.instructions iid =
        some (Instruction.Call t as) → isDynamicTarget f t = false) →
      l.foldl (ddInstr f) acc = acc := by
  intro l
  induction l with
  | nil => intro acc _; rfl
  | cons x rest ih =>
      intro acc hclean
      rw [List.foldl_cons,
        ddInstr_noop f acc x (hclean x (List.mem_cons_self _ _))]
      exact ih acc (fun iid hiid => hclean iid (List.mem_cons_of_mem _ hiid))

theorem ddBlocks_noop (f : Function) :
    ∀ (bids : List BasicBlockId) (acc : List CallSignature),
      (∀ bid ∈ bids, ∀ blk, lookupA f.dfg.blocks bid = some blk →
        ∀ iid ∈ blk.instructions, ∀ t as,
          lookupA f.dfg.instructions iid =
            some (Instruction.Call t as) →
          isDynamicTarget f t = false) →
      bids.foldl (ddBlock f) acc = acc := by
  intro bids
  induction bids with
  | nil => intro acc _; rfl
  | cons bid rest ih =>
      intro acc hclean
      have hstep : ddBlock f acc bid = acc := by
        unfold ddBlock
        cases hblk : lookupA f.dfg.blocks bid with
        | none => rfl
        | some blk =>
            exact ddInstrs_noop f blk.instructions acc
              (hclean bid (List.mem_cons_self _ _) blk hblk)
      rw [List.foldl_cons, hstep]
      exact ih acc (fun b hb => hclean b (List.mem_cons_of_mem _ hb))

theorem find_dd_empty (f : Function)
    (hclean : ∀ bid ∈ reachableBlocks f, ∀ blk,
      lookupA f.dfg.blocks bid = some blk →
      ∀ iid ∈ blk.instructions, ∀ t as,
        lookupA f.dfg.instructions iid = some (Instruction.Call t as) →
        isDynamicTarget f t = false) :
    find_dynamic_dispatches f = [] := by
  unfold find_dynamic_dispatches
  exact ddBlocks_noop f (reachableBlocks f) [] hclean

theorem defun2_noop (ctx : DefunctionalizationContext) (f : Function)
    (hclean : ∀ bid ∈ reachableBlocks f, ∀ blk,
      lookupA f.dfg.blocks bid = some blk →
      ∀ iid ∈ blk.instructions, ∀ t as,
        lookupA f.dfg.instructions iid = some (Instruction.Call t as) →
        isDynamicTarget f t = false)
    (hparam : ∀ vid b i ty, lookupA f.dfg.values vid =
      some (Value.Param b i ty) → ty ≠ Ty.Function)
    (hinstr : ∀ vid ii ix ty, lookupA f.dfg.values vid =
      some (Value.Instruction ii ix ty) → ty ≠ Ty.Function)
    (hfun : ∀ vid fid, lookupA f.dfg.values vid =
      some (Value.Function fid) →
      ∃ args bid blk iid, bid ∈ reachableBlocks f ∧
        lookupA f.dfg.blocks bid = some blk ∧ iid ∈ blk.instructions ∧
        lookupA f.dfg.instructions iid =
          some (Instruction.Call vid args)) :
    ∃ ctv2, defunctionalizeFunction ctx f = Except.ok (f, ctv2) := by
  obtain ⟨ctv2, hfold, hsub, hrec⟩ :=
    rewrite2_blocks ctx f (reachableBlocks f) [] hclean
  have hfun2 : ∀ vid fid, lookupA f.dfg.values vid =
      some (Value.Function fid) → vid ∈ ctv2 := by
    intro vid fid hv
    obtain ⟨args, bid, blk, iid, hb, hk, hi, hc⟩ := hfun vid fid hv
    exact hrec bid hb blk hk iid hi vid args fid hc hv
  refine ⟨ctv2, ?_⟩
  unfold defunctionalizeFunction
  rw [hfold]
  simp only [Bind.bind, Except.bind]
  rw [retypeFold2_noop ctv2 f
    (fun vid => retypeValue2_noop ctv2 f hparam hinstr hfun2 vid)]

theorem favStep_mono (func : Function) :
    ∀ (args : List ValueId) (acc : List FunctionId) (x : FunctionId),
      x ∈ acc → x ∈ args.foldl (fun acc a =>
        match lookupA func.dfg.values a with
        | some (Value.Function id) => acc ++ [id]
        | _ => acc) acc := by
  intro args
  induction args with
  | nil => exact fun acc x h => h
  | cons a rest ih =>
      intro acc x hx
      rw [List.foldl_cons]
      apply ih
      cases hv : lookupA func.dfg.values a with
      | none => exact hx
      | some v =>
          cases v with
          | Function id => exact List.mem_append_left _ hx
          | Param b i t => exact hx
          | Instruction ii ix t => exact hx
          | NumericConstant c t => exact hx

theorem favStep_hit (func : Function) :
    ∀ (args : List ValueId) (acc : List FunctionId) (vid : ValueId)
      (fid : FunctionId),
      vid ∈ args →
      lookupA func.dfg.values vid = some (Value.Function fid) →
      fid ∈ args.foldl (fun acc a =>
        match lookupA func.dfg.values a with
        | some (Value.Function id) => acc ++ [id]
        | _ => acc) acc := by
  intro args
  induction args with
  | nil =>
      intro acc vid fid hv _
      simp at hv
  | cons a rest ih =>
      intro acc vid fid hmem hv
      rw [List.foldl_cons]
      rcases List.mem_cons.mp hmem with rfl | hmem
      · apply favStep_mono
        rw [hv]
        exact List.mem_append_right _ (List.mem_singleton_self _)
      · exact ih _ vid fid hmem hv

theorem favStep_src (func : Function) :
    ∀ (args : List ValueId) (acc : List FunctionId) (fid : FunctionId),
      fid ∈ args.foldl (fun acc a =>
        match lookupA func.dfg.values a with
        | some (Value.Function id) => acc ++ [id]
        | _ => acc) acc →
      fid ∈ acc ∨ ∃ vid ∈ args,
        lookupA func.dfg.values vid = some (Value.Function fid) := by
  intro args
  induction args with
  | nil => exact fun acc fid h => Or.inl h
  | cons a rest ih =>
      intro acc fid h
      rw [List.foldl_cons] at h
      rcases ih _ fid h with hacc | ⟨vid, hvm, hvv⟩
      · cases hv : lookupA func.dfg.values a with
        | none =>
            rw [hv] at hacc
            exact Or.inl hacc
        | some v =>
            cases v with
            | Function id =>
                rw [hv] at hacc
                rcases List.mem_append.mp hacc with hacc | hid
                · exact Or.inl hacc
                · have : fid = id := List.mem_singleton.mp hid
                  subst this
                  exact Or.inr ⟨a, List.mem_cons_self _ _, hv⟩
            | Param b i t =>
                rw [hv] at hacc
                exact Or.inl hacc
            | Instruction ii ix t =>
                rw [hv] at hacc
                exact Or.inl hacc
            | NumericConstant c t =>
                rw [hv] at hacc
                exact Or.inl hacc
      · exact Or.inr ⟨vid, List.mem_cons_of_mem _ hvm, hvv⟩

theorem favInstr_mono (func : Function) (acc : List FunctionId)
    (iid : InstructionId) (x : FunctionId) (hx : x ∈ acc) :
    x ∈ favInstr func acc iid := by
  unfold favInstr
  cases hinst : lookupA func.dfg.instructions iid with
  | none => exact hx
  | some inst =>
      cases inst with
      | Call t args => exact favStep_mono func args acc x hx
      | Store a w =>
          dsimp only
          cases hv : lookupA func.dfg.values w with
          | none => exact hx
          | some v =>
              cases v with
              | Function id => exact List.mem_append_left _ hx
              | Param b i t => exact hx
              | Instruction ii ix t => exact hx
              | NumericConstant c t => exact hx
      | Binary op l r => exact hx
      | Constrain c => exact hx

theorem favInstr_hit_call (func : Function) (acc : List FunctionId)
    (iid : InstructionId) (t : ValueId) (args : List ValueId)
    (vid : ValueId) (fid : FunctionId)
    (hinst : lookupA func.dfg.instructions iid =
      some (Instruction.Call t args))
    (hmem : vid ∈ args)
    (hv : lookupA func.dfg.values vid = some (Value.Function fid)) :
    fid ∈ favInstr func acc iid := by
  unfold favInstr
  rw [hinst]
  exact favStep_hit func args acc vid fid hmem hv

theorem favInstr_hit_store (func : Function) (acc : List FunctionId)
    (iid : InstructionId) (a w : ValueId) (fid : FunctionId)
    (hinst : lookupA func.dfg.instructions iid =
      some (Instruction.Store a w))
    (hv : lookupA func.dfg.values w = some (Value.Function fid)) :
    fid ∈ favInstr func acc iid := by
  unfold favInstr
  rw [hinst]
  dsimp only
  rw [hv]
  exact List.mem_append_right _ (List.mem_singleton_self _)

theorem favInstr_src (func : Function) (acc : List FunctionId)
    (iid : InstructionId) (fid : FunctionId)
    (h : fid ∈ favInstr func acc iid) :
    fid ∈ acc ∨
    (∃ t args vid, lookupA func.dfg.instructions iid =
        some (Instruction.Call t args) ∧ vid ∈ args ∧
      lookupA func.dfg.values vid = some (Value.Function fid)) ∨
    (∃ a w, lookupA func.dfg.instructions iid =
        some (Instruction.Store a w) ∧
      lookupA func.dfg.values w = some (Value.Function fid)) := by
  unfold favInstr at h
  cases hinst : lookupA func.dfg.instructions iid with
  | none =>
      rw [hinst] at h
      exact Or.inl h
  | some inst =>
      rw [hinst] at h
      cases inst with
      | Call t args =>
          rcases favStep_src func args acc fid h with hacc | ⟨vid, hvm, hvv⟩
          · exact Or.inl hacc
          · exact Or.inr (Or.inl ⟨t, args, vid, rfl, hvm, hvv⟩)
      | Store a w =>
          dsimp only at h
          cases hv : lookupA func.dfg.values w with
          | none =>
              rw [hv] at h
              exact Or.inl h
          | some v =>
              cases v with
              | Function id =>
                  rw [hv] at h
                  rcases List.mem_append.mp h with hacc | hid
                  · exact Or.inl hacc
                  · have : fid = id := List.mem_singleton.mp hid
                    subst this
                    exact Or.inr (Or.inr ⟨a, w, rfl, hv⟩)
              | Param b i ty =>
                  rw [hv] at h
                  exact Or.inl h
              | Instruction ii ix ty =>
                  rw [hv] at h
                  exact Or.inl h
              | NumericConstant c ty =>
                  rw [hv] at h
                  exact Or.inl h
      | Binary op l r => exact Or.inl h
      | Constrain c => exact Or.inl h

theorem favInstrs_mono (func : Function) :
    ∀ (l : List InstructionId) (acc : List FunctionId) (x : FunctionId),
      x ∈ acc → x ∈ l.foldl (favInstr func) acc := by
  intro l
  induction l with
  | nil => exact fun acc x h => h
  | cons i rest ih =>
      intro acc x hx
      rw [List.foldl_cons]
      exact ih _ x (favInstr_mono func acc i x hx)

theorem favInstrs_hit (func : Function) :
    ∀ (l : List InstructionId) (acc : List FunctionId)
      (iid : InstructionId) (fid : FunctionId),
      iid ∈ l →
      (∃ q, fid ∈ favInstr func q iid ∧
        ∀ q2, fid ∈ favInstr func q2 iid) →
      fid ∈ l.foldl (favInstr func) acc := by
  intro l
  induction l with
  | nil =>
      intro acc iid fid h _
      simp at h
  | cons i rest ih =>
      intro acc iid fid hmem hhit
      rw [List.foldl_cons]
      rcases List.mem_cons.mp hmem with rfl | hmem
      · obtain ⟨q, _, hall⟩ := hhit
        exact favInstrs_mono func rest _ fid (hall acc)
      · exact ih _ iid fid hmem hhit

theorem favInstrs_src (func : Function) :
    ∀ (l : List InstructionId) (acc : List FunctionId) (fid : FunctionId),
      fid ∈ l.foldl (favInstr func) acc →
      fid ∈ acc ∨ ∃ iid ∈ l,
        (∃ t args vid, lookupA func.dfg.instructions iid =
            some (Instruction.Call t args) ∧ vid ∈ args ∧
          lookupA func.dfg.values vid = some (Value.Function fid)) ∨
        (∃ a w, lookupA func.dfg.instructions iid =
            some (Instruction.Store a w) ∧
          lookupA func.dfg.values w = some (Value.Function fid)) := by
  intro l
  induction l with
  | nil => exact fun acc fid h => Or.inl h
  | cons i rest ih =>
      intro acc fid h
      rw [List.foldl_cons] at h
      rcases ih _ fid h with hacc | ⟨iid, hm, hsrc⟩
      · rcases favInstr_src func acc i fid hacc with hacc2 | hsrc2 | hsrc2
        · exact Or.inl hacc2
        · exact Or.inr ⟨i, List.mem_cons_self _ _, Or.inl hsrc2⟩
        · exact Or.inr ⟨i, List.mem_cons_self _ _, Or.inr hsrc2⟩
      · exact Or.inr ⟨iid, List.mem_cons_of_mem _ hm, hsrc⟩

theorem favBlock_mono (func : Function) (acc : List FunctionId)
    (bid : BasicBlockId) (x : FunctionId) (hx : x ∈ acc) :
    x ∈ favBlock func acc bid := by
  unfold favBlock
  cases hblk : lookupA func.dfg.blocks bid with
  | none => exact hx
  | some blk => exact favInstrs_mono func blk.instructions acc x hx

theorem favBlock_src (func : Function) (acc : List FunctionId)
    (bid : BasicBlockId) (fid : FunctionId)
    (h : fid ∈ favBlock func acc bid) :
    fid ∈ acc ∨ ∃ blk, lookupA func.dfg.blocks bid = some blk ∧
      ∃ iid ∈ blk.instructions,
        (∃ t args vid, lookupA func.dfg.instructions iid =
            some (Instruction.Call t args) ∧ vid ∈ args ∧
          lookupA func.dfg.values vid = some (Value.Function fid)) ∨
        (∃ a w, lookupA func.dfg.instructions iid =
            some (Instruction.Store a w) ∧
          lookupA func.dfg.values w = some (Value.Function fid)) := by
  unfold favBlock at h
  cases hblk : lookupA func.dfg.blocks bid with
  | none =>
      rw [hblk] at h
      exact Or.inl h
  | some blk =>
      rw [hblk] at h
      rcases favInstrs_src func blk.instructions acc fid h with hacc |
        ⟨iid, hm, hsrc⟩
      · exact Or.inl hacc
      · exact Or.inr ⟨blk, rfl, iid, hm, hsrc⟩

theorem favBlocks_mono (func : Function) :
    ∀ (bids : List BasicBlockId) (acc : List FunctionId) (x : FunctionId),
      x ∈ acc → x ∈ bids.foldl (favBlock func) acc := by
  intro bids
  induction bids with
  | nil => exact fun acc x h => h
  | cons b rest ih =>
      intro acc x hx
      rw [List.foldl_cons]
      exact ih _ x (favBlock_mono func acc b x hx)

theorem favBlocks_src (func : Function) :
    ∀ (bids : List BasicBlockId) (acc : List FunctionId)
      (fid : FunctionId),
      fid ∈ bids.foldl (favBlock func) acc →
      fid ∈ acc ∨ ∃ bid ∈ bids, ∃ blk,
        lookupA func.dfg.blocks bid = some blk ∧
        ∃ iid ∈ blk.instructions,
          (∃ t args vid, lookupA func.dfg.instructions iid =
              some (Instruction.Call t args) ∧ vid ∈ args ∧
            lookupA func.dfg.values vid = some (Value.Function fid)) ∨
          (∃ a w, lookupA func.dfg.instructions iid =
              some (Instruction.Store a w) ∧
            lookupA func.dfg.values w = some (Value.Function fid)) := by
  intro bids
  induction bids with
  | nil => exact fun acc fid h => Or.inl h
  | cons b rest ih =>
      intro acc fid h
      rw [List.foldl_cons] at h
      rcases ih _ fid h with hacc | ⟨bid, hm, blk, hblk, hsrc⟩
      · rcases favBlock_src func acc b fid hacc with hacc2 |
          ⟨blk, hblk, hsrc⟩
        · exact Or.inl hacc2
        · exact Or.inr ⟨b, List.mem_cons_self _ _, blk, hblk, hsrc⟩
      · exact Or.inr ⟨bid, List.mem_cons_of_mem _ hm, blk, hblk, hsrc⟩

theorem fav_src (func : Function) (fid : FunctionId)
    (h : fid ∈ find_functions_as_values func) :
    ∃ bid ∈ reachableBlocks func, ∃ blk,
      lookupA func.dfg.blocks bid = some blk ∧
      ∃ iid ∈ blk.instructions,
        (∃ t args vid, lookupA func.dfg.instructions iid =
            some (Instruction.Call t args) ∧ vid ∈ args ∧
          lookupA func.dfg.values vid = some (Value.Function fid)) ∨
        (∃ a w, lookupA func.dfg.instructions iid =
            some (Instruction.Store a w) ∧
          lookupA func.dfg.values w = some (Value.Function fid)) := by
  unfold find_functions_as_values at h
  rcases favBlocks_src func (reachableBlocks func) [] fid h with hacc | hsrc
  · simp at hacc
  · exact hsrc

theorem fav_hit_call (func : Function) (bid : BasicBlockId)
    (blk : BasicBlock) (iid : InstructionId) (t : ValueId)
    (args : List ValueId) (vid : ValueId) (fid : FunctionId)
    (hbid : bid ∈ reachableBlocks func)
    (hblk : lookupA func.dfg.blocks bid = some blk)
    (hiid : iid ∈ blk.instructions)
    (hinst : lookupA func.dfg.instructions iid =
      some (Instruction.Call t args))
    (hmem : vid ∈ args)
    (hv : lookupA func.dfg.values vid = some (Value.Function fid)) :
    fid ∈ find_functions_as_values func := by
  unfold find_functions_as_values
  have hhit : ∀ q2 : List FunctionId, fid ∈ favInstr func q2 iid :=
    fun q2 => favInstr_hit_call func q2 iid t args vid fid hinst hmem hv
  have hbfold : ∀ (bids : List BasicBlockId) (acc : List FunctionId),
      bid ∈ bids → fid ∈ bids.foldl (favBlock func) acc := by
    intro bids
    induction bids with
    | nil =>
        intro acc hb
        simp at hb
    | cons b rest ih =>
        intro acc hb
        rw [List.foldl_cons]
        rcases List.mem_cons.mp hb with rfl | hb
        · apply favBlocks_mono
          unfold favBlock
          rw [hblk]
          exact favInstrs_hit func blk.instructions acc iid fid hiid
            ⟨acc, hhit acc, hhit⟩
        · exact ih _ hb
  exact hbfold (reachableBlocks func) [] hbid

theorem fav_hit_store (func : Function) (bid : BasicBlockId)
    (blk : BasicBlock) (iid : InstructionId) (a w : ValueId)
    (fid : FunctionId)
    (hbid : bid ∈ reachableBlocks func)
    (hblk : lookupA func.dfg.blocks bid = some blk)
    (hiid : iid ∈ blk.instructions)
    (hinst : lookupA func.dfg.instructions iid =
      some (Instruction.Store a w))
    (hv : lookupA func.dfg.values w = some (Value.Function fid)) :
    fid ∈ find_functions_as_values func := by
  unfold find_functions_as_values
  have hhit : ∀ q2 : List FunctionId, fid ∈ favInstr func q2 iid :=
    fun q2 => favInstr_hit_store func q2 iid a w fid hinst hv
  have hbfold : ∀ (bids : List BasicBlockId) (acc : List FunctionId),
      bid ∈ bids → fid ∈ bids.foldl (favBlock func) acc := by
    intro bids
    induction bids with
    | nil =>
        intro acc hb
        simp at hb
    | cons b rest ih =>
        intro acc hb
        rw [List.foldl_cons]
        rcases List.mem_cons.mp hb with rfl | hb
        · apply favBlocks_mono
          unfold favBlock
          rw [hblk]
          exact favInstrs_hit func blk.instructions acc iid fid hiid
            ⟨acc, hhit acc, hhit⟩
        · exact ih _ hb
  exact hbfold (reachableBlocks func) [] hbid

theorem fav2_table (ctx : DefunctionalizationContext)
    (T : List (FunctionId × Function)) (func func' : Function)
    (ctv : List ValueId)
    (hwf : ValueKeysBelow func)
    (hCTX : ∀ sig af, lookupA ctx.apply_functions sig = some af →
      lookupA T af.id ≠ none)
    (hok : defunctionalizeFunction ctx func = Except.ok (func', ctv)) :
    ∀ fid ∈ find_functions_as_values func',
      fid ∈ find_functions_as_values func ∨ lookupA T fid ≠ none := by
  obtain ⟨hblocks, hentry, hkb2, hclean, hctv, htgt, hparam, hinstr2,
    horigin, himp, hlowv⟩ := phase1_summary ctx T func func' ctv hwf hCTX hok
  have hreach : reachableBlocks func' = reachableBlocks func :=
    reachableBlocks_congr func' func hblocks hentry
  intro fid hf
  obtain ⟨bid, hbid, blk, hblk, iid, hiid, hsrc⟩ := fav_src func' fid hf
  have hbidf : bid ∈ reachableBlocks func := by
    rw [← hreach]
    exact hbid
  have hblkf : lookupA func.dfg.blocks bid = some blk := by
    rw [← hblocks]
    exact hblk
  rcases hsrc with ⟨t, args, vid, hinst, hvm, hvv⟩ | ⟨a, w, hinst, hvv⟩
  · by_cases hvlt : vid < func.dfg.nextValue
    · have hvf := hlowv vid hvlt fid hvv
      rcases horigin iid _ hinst with horig | ⟨av, t0, as0, ho, hsh, hdy⟩
      · exact Or.inl (fav_hit_call func bid blk iid t args vid fid hbidf
          hblkf hiid horig hvm hvf)
      · rcases hsh with hsh | hsh
        · obtain ⟨h1, h2⟩ := Instruction.Call.inj hsh
          rw [h2] at hvm
          exact Or.inl (fav_hit_call func bid blk iid t0 as0 vid fid
            hbidf hblkf hiid ho hvm hvf)
        · obtain ⟨h1, h2⟩ := Instruction.Call.inj hsh
          rw [h2] at hvm
          rcases List.mem_cons.mp hvm with rfl | hvm2
          · have hfalse : isDynamicTarget func vid = false := by
              unfold isDynamicTarget
              rw [hvf]
            rw [hfalse] at hdy
            simp at hdy
          · exact Or.inl (fav_hit_call func bid blk iid t0 as0 vid fid
              hbidf hblkf hiid ho hvm2 hvf)
    · exact Or.inr (himp vid (Nat.le_of_not_lt hvlt) fid hvv)
  · rcases horigin iid _ hinst with horig | ⟨av, t0, as0, ho, hsh, hdy⟩
    · by_cases hvlt : w < func.dfg.nextValue
      · exact Or.inl (fav_hit_store func bid blk iid a w fid hbidf hblkf
          hiid horig (hlowv w hvlt fid hvv))
      · exact Or.inr (himp w (Nat.le_of_not_lt hvlt) fid hvv)
    · rcases hsh with hsh | hsh
      · simp at hsh
      · simp at hsh

theorem groupFold_success_forall (ssa : Ssa) :
    ∀ (l : List FunctionId) (m0 m : List (Signature × List FunctionId)),
      l.foldlM (groupStep ssa) m0 = Except.ok m →
      ∀ fid ∈ l, ∃ f, lookupA ssa.functions fid = some f := by
  intro l
  induction l with
  | nil =>
      intro m0 m _ fid hf
      simp at hf
  | cons x rest ih =>
      intro m0 m h fid hf
      rw [List.foldlM] at h
      cases hx : groupStep ssa m0 x with
      | error e =>
          rw [hx] at h
          simp [Bind.bind, Except.bind] at h
      | ok m1 =>
          rw [hx] at h
          simp only [Bind.bind, Except.bind] at h
          rcases List.mem_cons.mp hf with rfl | hf
          · unfold groupStep at hx
            cases hlk : lookupA ssa.functions fid with
            | none =>
                rw [hlk] at hx
                simp at hx
            | some f => exact ⟨f, rfl⟩
          · exact ih m1 m h fid hf

theorem groupFold_success_exists (ssa : Ssa) :
    ∀ (l : List FunctionId) (m0 : List (Signature × List FunctionId)),
      (∀ fid ∈ l, ∃ f, lookupA ssa.functions fid = some f) →
      ∃ m, l.foldlM (groupStep ssa) m0 = Except.ok m := by
  intro l
  induction l with
  | nil =>
      intro m0 _
      exact ⟨m0, rfl⟩
  | cons x rest ih =>
      intro m0 hall
      obtain ⟨f, hf⟩ := hall x (List.mem_cons_self _ _)
      have hx : groupStep ssa m0 x =
          Except.ok (insertGroup m0 (signatureFromFunction f) x) := by
        unfold groupStep
        rw [hf]
      obtain ⟨m, hm⟩ := ih (insertGroup m0 (signatureFromFunction f) x)
        (fun fid hfid => hall fid (List.mem_cons_of_mem _ hfid))
      refine ⟨m, ?_⟩
      rw [List.foldlM, hx]
      simp only [Bind.bind, Except.bind]
      exact hm

theorem favGlobal_src (fns : List (FunctionId × Function)) :
    ∀ (acc : List FunctionId) (fid : FunctionId),
      fid ∈ fns.foldl (fun acc p =>
        acc ++ find_functions_as_values p.2) acc →
      fid ∈ acc ∨ ∃ p ∈ fns, fid ∈ find_functions_as_values p.2 := by
  induction fns with
  | nil => exact fun acc fid h => Or.inl h
  | cons p rest ih =>
      intro acc fid h
      rw [List.foldl_cons] at h
      rcases ih _ fid h with hacc | ⟨q, hq, hsrc⟩
      · rcases List.mem_append.mp hacc with hacc | hsrc
        · exact Or.inl hacc
        · exact Or.inr ⟨p, List.mem_cons_self _ _, hsrc⟩
      · exact Or.inr ⟨q, List.mem_cons_of_mem _ hq, hsrc⟩

theorem favGlobal_hit (fns : List (FunctionId × Function)) :
    ∀ (acc : List FunctionId) (p : FunctionId × Function)
      (fid : FunctionId),
      p ∈ fns → fid ∈ find_functions_as_values p.2 →
      fid ∈ fns.foldl (fun acc p =>
        acc ++ find_functions_as_values p.2) acc := by
  induction fns with
  | nil =>
      intro acc p fid hp _
      simp at hp
  | cons q rest ih =>
      intro acc p fid hp hf
      rw [List.foldl_cons]
      have hmono : ∀ (l : List (FunctionId × Function))
          (a : List FunctionId) (x : FunctionId), x ∈ a →
          x ∈ l.foldl (fun acc p =>
            acc ++ find_functions_as_values p.2) a := by
        intro l
        induction l with
        | nil => exact fun a x h => h
        | cons r rl ihl =>
            intro a x hx
            rw [List.foldl_cons]
            exact ihl _ x (List.mem_append_left _ hx)
      rcases List.mem_cons.mp hp with rfl | hp
      · exact hmono rest _ fid (List.mem_append_right _ hf)
      · exact ih _ p fid hp hf

theorem functionsAsValues_src (ssa : Ssa) (fid : FunctionId)
    (h : fid ∈ functionsAsValues ssa) :
    ∃ p ∈ ssa.functions, fid ∈ find_functions_as_values p.2 := by
  unfold functionsAsValues at h
  rcases favGlobal_src ssa.functions [] fid (List.mem_dedup.mp h) with
    hacc | hsrc
  · simp at hacc
  · exact hsrc

theorem functionsAsValues_hit (ssa : Ssa) (p : FunctionId × Function)
    (fid : FunctionId) (hp : p ∈ ssa.functions)
    (hf : fid ∈ find_functions_as_values p.2) :
    fid ∈ functionsAsValues ssa := by
  unfold functionsAsValues
  exact List.mem_dedup.mpr (favGlobal_hit ssa.functions [] p fid hp hf)

theorem dynamicDispatches_empty (ssa : Ssa)
    (hall : ∀ p ∈ ssa.functions, find_dynamic_dispatches p.2 = []) :
    dynamicDispatches ssa = [] := by
  unfold dynamicDispatches
  have hfold : ∀ (fns : List (FunctionId × Function)),
      (∀ p ∈ fns, find_dynamic_dispatches p.2 = []) →
      ∀ acc : List CallSignature,
        fns.foldl (fun acc p => acc ++ find_dynamic_dispatches p.2) acc =
          acc := by
    intro fns
    induction fns with
    | nil => intro _ acc; rfl
    | cons p rest ih =>
        intro hall2 acc
        rw [List.foldl_cons, hall2 p (List.mem_cons_self _ _),
          List.append_nil]
        exact ih (fun q hq => hall2 q (List.mem_cons_of_mem _ hq)) acc
  rw [hfold ssa.functions hall []]
  rfl

theorem mapM_defunPair_entries (ctx : DefunctionalizationContext) :
    ∀ (l l' : List (FunctionId × Function)),
      l.mapM (defunPair ctx) = Except.ok l' →
      (∀ k, (∃ v, lookupA l' k = some v) ↔ (∃ v, lookupA l k = some v)) ∧
      (∀ q ∈ l', ∃ p ∈ l, p.1 = q.1 ∧ defunPair ctx p = Except.ok q) := by
  intro l
  induction l with
  | nil =>
      intro l' h
      simp only [List.mapM_nil, pure, Except.pure, Except.ok.injEq] at h
      subst h
      exact ⟨fun k => Iff.rfl, by simp⟩
  | cons p rest ih =>
      intro l' h
      rw [List.mapM_cons] at h
      cases hp : defunPair ctx p with
      | error e =>
          rw [hp] at h
          simp [Bind.bind, Except.bind] at h
      | ok q =>
          rw [hp] at h
          simp only [Bind.bind, Except.bind] at h
          cases hrest : rest.mapM (defunPair ctx) with
          | error e =>
              rw [hrest] at h
              simp [Except.bind] at h
          | ok rest' =>
              rw [hrest] at h
              simp only [Except.bind, pure, Except.pure,
                Except.ok.injEq] at h
              subst h
              obtain ⟨ihk, ihm⟩ := ih rest' hrest
              have hq1 : q.1 = p.1 := by
                unfold defunPair at hp
                cases hs : defunctionalizeFunction ctx p.2 with
                | error e =>
                    rw [hs] at hp
                    simp [Bind.bind, Except.bind] at hp
                | ok s =>
                    rw [hs] at hp
                    simp only [Bind.bind, Except.bind, pure, Except.pure,
                      Except.ok.injEq] at hp
                    rw [← hp]
              constructor
              · intro k
                obtain ⟨qk, qv⟩ := q
                obtain ⟨pk, pv⟩ := p
                simp only at hq1
                subst hq1
                by_cases hk : qk = k
                · subst hk
                  simp [lookupA_cons]
                · simp only [lookupA_cons, if_neg hk]
                  exact ihk k
              · intro r hr
                rcases List.mem_cons.mp hr with rfl | hr
                · exact ⟨p, List.mem_cons_self _ _, hq1.symm, hp⟩
                · obtain ⟨p2, hp2, hk2, hd2⟩ := ihm r hr
                  exact ⟨p2, List.mem_cons_of_mem _ hp2, hk2, hd2⟩

theorem mapM_id_of_forall {α : Type} (g : α → Except String α) :
    ∀ l : List α, (∀ x ∈ l, g x = Except.ok x) →
      l.mapM g = Except.ok l := by
  intro l
  induction l with
  | nil => intro _; rfl
  | cons x rest ih =>
      intro hall
      rw [List.mapM_cons, hall x (List.mem_cons_self _ _)]
      simp only [Bind.bind, Except.bind]
      rw [ih (fun y hy => hall y (List.mem_cons_of_mem _ hy))]
      rfl

theorem slotCases3 (nv R v : Nat) (hge : nv + 2 ≤ v)
    (hub : v < nv + 2 + R + 1 + R) :
    (v - (nv + 2) < R ∧ v = nv + 2 + (v - (nv + 2))) ∨
    v = nv + 2 + R ∨
    (v - (nv + 2 + R + 1) < R ∧
      v = nv + 2 + R + 1 + (v - (nv + 2 + R + 1))) := by
  omega

theorem slotCases5 (nv R v : Nat) (hge : nv ≤ v)
    (hub : v < nv + 2 + R + 1 + R) :
    v = nv ∨ v = nv + 1 ∨
    (v - (nv + 2) < R ∧ v = nv + 2 + (v - (nv + 2))) ∨
    v = nv + 2 + R ∨
    (v - (nv + 2 + R + 1) < R ∧
      v = nv + 2 + R + 1 + (v - (nv + 2 + R + 1))) := by
  omega

theorem applyLoop_function_values (returns : List Ty) (target : ValueId)
    (params_ids : List ValueId) :
    ∀ (fids : List FunctionId) (b : FunctionBuilder)
      (prev : Option BasicBlockId) (ps0 : List ValueId),
      lookupA b.current_function.dfg.blocks b.current_block =
        some { parameters := ps0, instructions := [],
               terminator := none } →
      BWF b →
      ∀ v g, lookupA (applyLoop returns target params_ids fids b
          prev).current_function.dfg.values v =
            some (Value.Function g) →
        lookupA b.current_function.dfg.values v =
          some (Value.Function g) ∨ g ∈ fids := by
  intro fids
  induction fids with
  | nil =>
      intro b prev ps0 _ _ v g h
      exact Or.inl h
  | cons fid rest ih =>
      intro b prev ps0 hcur hwf v g h
      cases rest with
      | nil =>
        obtain ⟨hwf1, hwf2, hwf3, hwf4, hwf5⟩ := hwf
        set P1 := b.numeric_constant (function_id_to_field fid)
          (Ty.Numeric NumericType.NativeField) with hP1
        have hP1nv : P1.1.current_function.dfg.nextValue =
            b.current_function.dfg.nextValue + 1 := rfl
        have hP1nI : P1.1.current_function.dfg.nextInst =
            b.current_function.dfg.nextInst := rfl
        have hP1nB : P1.1.current_function.dfg.nextBlock =
            b.current_function.dfg.nextBlock := rfl
        have hP1cb : P1.1.current_block = b.current_block := rfl
        have hP1v : P1.2 = b.current_function.dfg.nextValue := rfl
        have hP1vals : P1.1.current_function.dfg.values =
            (b.current_function.dfg.nextValue,
              Value.NumericConstant (function_id_to_field fid)
                (Ty.Numeric NumericType.NativeField)) ::
              b.current_function.dfg.values := rfl
        have hP1blocks : P1.1.current_function.dfg.blocks =
            b.current_function.dfg.blocks := rfl
        have hP1ins : P1.1.current_function.dfg.instructions =
            b.current_function.dfg.instructions := rfl
        have hP1res : P1.1.current_function.dfg.results =
            b.current_function.dfg.results := rfl
        have hbP1 : lookupA P1.1.current_function.dfg.blocks P1.1.current_block =
            some { parameters := ps0, instructions := [], terminator := none } :=
          hcur
        obtain ⟨v1, v2, v3, v4, v5, v6, v7, v8, v9, v10, v11, v12, v13, v14, v15,
          v16, v17⟩ := insertInstruction_spec P1.1.current_function.dfg
            P1.1.current_block (Instruction.Binary BinaryOp.Eq target P1.2)
            [Ty.bool] _ hbP1
        set E2 := P1.1.current_function.dfg.insertInstruction P1.1.current_block
          (Instruction.Binary BinaryOp.Eq target P1.2) [Ty.bool] with hE2
        set P2 := P1.1.insert_binary target BinaryOp.Eq P1.2 with hP2
        rw [hP1nv] at v2 v4 v8 v12 v13 v14
        rw [hP1nI] at v1 v3 v6 v7 v8 v9 v13 v16 v17
        rw [hP1nB] at v5 v15
        rw [hP1cb] at v10 v11
        rw [hP1v] at v6
        have hP2v : P2.2 = (E2.2.2).getD 0 0 := rfl
        have hP2cb : P2.1.current_block = b.current_block := rfl
        have hcond : P2.2 = b.current_function.dfg.nextValue + 1 := by
          rw [hP2v, v2]
          simp [List.range']
        have hP2nv : P2.1.current_function.dfg.nextValue =
            b.current_function.dfg.nextValue + 2 := by
          show E2.1.nextValue = _
          rw [v4]
          rfl
        have hP2nI : P2.1.current_function.dfg.nextInst =
            b.current_function.dfg.nextInst + 1 := by
          show E2.1.nextInst = _
          rw [v3]
        have hP2nB : P2.1.current_function.dfg.nextBlock =
            b.current_function.dfg.nextBlock := by
          show E2.1.nextBlock = _
          rw [v5]
        have hbP2 : lookupA P2.1.current_function.dfg.blocks P2.1.current_block =
            some { parameters := ps0,
                   instructions := [b.current_function.dfg.nextInst],
                   terminator := none } := by
          show lookupA E2.1.blocks P2.1.current_block = some _
          rw [hP2cb]
          exact v10
        obtain ⟨w1, w2, w3, w4, w5, w6, w7, w8, w9, w10, w11, w12, w13, w14, w15,
          w16, w17⟩ := insertInstruction_spec P2.1.current_function.dfg
            P2.1.current_block (Instruction.Constrain P2.2) [] _ hbP2
        set E3 := P2.1.current_function.dfg.insertInstruction P2.1.current_block
          (Instruction.Constrain P2.2) [] with hE3
        set C3 := P2.1.insert_constrain P2.2 with hC3
        rw [hP2cb] at w10 w11
        rw [hP2nv] at w2 w4 w12 w13 w14
        rw [hP2nI] at w1 w3 w6 w7 w8 w9 w10 w13 w16 w17
        rw [hP2nB] at w5 w15
        rw [hcond] at w6
        have hC3cb : C3.current_block = b.current_block := rfl
        have hC3nv : C3.current_function.dfg.nextValue =
            b.current_function.dfg.nextValue + 2 := by
          show E3.1.nextValue = _
          rw [w4]
          rfl
        have hC3nI : C3.current_function.dfg.nextInst =
            b.current_function.dfg.nextInst + 2 := by
          show E3.1.nextInst = _
          rw [w3]
        have hC3nB : C3.current_function.dfg.nextBlock =
            b.current_function.dfg.nextBlock := by
          show E3.1.nextBlock = _
          rw [w5]
        have hcb3 : lookupA C3.current_function.dfg.blocks C3.current_block =
            some { parameters := ps0,
                   instructions := [b.current_function.dfg.nextInst,
                     b.current_function.dfg.nextInst + 1],
                   terminator := none } := by
          show lookupA E3.1.blocks C3.current_block = some _
          rw [hC3cb]
          simpa using w10
        have hlt3 : C3.current_block < C3.current_function.dfg.nextBlock := by
          rw [hC3cb, hC3nB]
          exact hwf1
        obtain ⟨c1, c2, c3, c4, c5, c6, c7, c8, c9, c10, c11, c12, c13, c14, c15,
          c16, c17, c18, c19, c20, c21, c22, c23, c24⟩ :=
          callSeg_spec returns params_ids fid prev C3 _ hcb3 hlt3
        rw [hC3nB] at c1 c5 c6 c7 c8 c14 c22
        rw [hC3cb] at c2 c6 c8
        rw [hC3nv] at c3 c6 c7 c9 c11 c13 c14 c15 c16 c21
        rw [hC3nI] at c4 c6 c9 c10 c11 c12 c16 c23 c24
        have hunf : applyLoop returns target params_ids [fid] b prev =
            (callSeg returns params_ids fid prev C3).1 := rfl
        rw [hunf] at h
        have hbkb : ∀ p ∈ b.current_function.dfg.values,
            p.1 < b.current_function.dfg.nextValue := hwf3
        have hP1kb : ∀ p ∈ P1.1.current_function.dfg.values,
            p.1 < b.current_function.dfg.nextValue + 1 := by
          rw [hP1vals]
          intro p hp
          rcases List.mem_cons.mp hp with rfl | hp
          · exact Nat.lt_succ_self _
          · exact Nat.lt_succ_of_lt (hbkb p hp)
        have hE2kb : ∀ p ∈ E2.1.values,
            p.1 < b.current_function.dfg.nextValue + 1 + 1 := v14 hP1kb
        have hC3kb : ∀ p ∈ C3.current_function.dfg.values,
            p.1 < b.current_function.dfg.nextValue + 2 := by
          intro p hp
          have := w14 hE2kb p hp
          simpa using this
        have hC3inv : ∀ w2 g2, lookupA C3.current_function.dfg.values w2 =
            some (Value.Function g2) →
            lookupA b.current_function.dfg.values w2 =
              some (Value.Function g2) := by
          intro w2 g2 hv
          have hv2 : lookupA E3.1.values w2 = some (Value.Function g2) := hv
          by_cases hvlt : w2 < b.current_function.dfg.nextValue + 2
          · rw [w12 w2 hvlt] at hv2
            have hv3 : lookupA E2.1.values w2 = some (Value.Function g2) :=
              hv2
            by_cases hvlt1 : w2 < b.current_function.dfg.nextValue + 1
            · rw [v12 w2 hvlt1] at hv3
              rw [hP1vals] at hv3
              by_cases hw : b.current_function.dfg.nextValue = w2
              · rw [lookupA_cons, if_pos hw] at hv3
                simp at hv3
              · rw [lookupA_cons, if_neg hw] at hv3
                exact hv3
            · have hveq : w2 = b.current_function.dfg.nextValue + 1 :=
                Nat.le_antisymm (Nat.lt_succ_iff.mp hvlt)
                  (Nat.le_of_not_lt hvlt1)
              have v130 := v13 0 (by simp)
              simp only [Nat.add_zero] at v130
              rw [hveq, v130] at hv3
              simp at hv3
          · rw [lookupA_none_of_ge hC3kb (Nat.le_of_not_lt hvlt)] at hv
            simp at hv
        by_cases hvC : v < b.current_function.dfg.nextValue + 2
        · rw [c13 v hvC] at h
          exact Or.inl (hC3inv v g h)
        · have hvub : v < b.current_function.dfg.nextValue + 2 +
              returns.length + 1 + returns.length := by
            have hmem := lookupA_mem h
            have := c21 hC3kb (v, Value.Function g) hmem
            exact this
          rcases slotCases3 b.current_function.dfg.nextValue returns.length
              v (Nat.le_of_not_lt hvC) hvub with ⟨hj, hveq⟩ | hveq |
              ⟨hj, hveq⟩
          · rw [hveq, c14 _ hj] at h
            simp at h
          · rw [hveq, c15] at h
            have := (Option.some.injEq _ _).mp h
            have hg : fid = g := Value.Function.inj this
            subst hg
            exact Or.inr (List.mem_singleton_self _)
          · rw [hveq, c16 _ hj] at h
            simp at h
      | cons fid2 rest2 =>
          obtain ⟨m1, m2, m3, m4, m5, m6, m7, m8, m9, m10, m11, m12, m13,
            m14, m15, m16, m17, m18, m19, m20, m21, m22, m23, m24, m25,
            m26, m27⟩ := midStep_spec returns target params_ids fid b prev
              ps0 hcur hwf
          rw [applyLoop_mid_unfold returns target params_ids fid fid2
            rest2 b prev] at h
          have hcur2 : lookupA (midStep returns target params_ids fid prev
              b).1.current_function.dfg.blocks
              (midStep returns target params_ids fid prev
                b).1.current_block =
              some { parameters := ([] : List ValueId), instructions := [],
                     terminator := none } := by
            rw [m2]
            exact m10
          rcases ih (midStep returns target params_ids fid prev b).1
            (some (midStep returns target params_ids fid prev b).2) []
            hcur2 m27 v g h with hlkM | hgrest
          · by_cases hvlt : v < b.current_function.dfg.nextValue
            · rw [m21 v hvlt] at hlkM
              exact Or.inl hlkM
            · have hvub : v < b.current_function.dfg.nextValue + 2 +
                  returns.length + 1 + returns.length := by
                have hmem := lookupA_mem hlkM
                have hkb := m27.2.2.1 (v, Value.Function g) hmem
                rw [m3] at hkb
                exact hkb
              rcases slotCases5 b.current_function.dfg.nextValue
                  returns.length v (Nat.le_of_not_lt hvlt) hvub with
                  hveq | hveq | ⟨hj, hveq⟩ | hveq | ⟨hj, hveq⟩
              · rw [hveq, m22] at hlkM
                simp at hlkM
              · rw [hveq, m23] at hlkM
                simp at hlkM
              · rw [hveq, m24 _ hj] at hlkM
                simp at hlkM
              · rw [hveq, m25] at hlkM
                have := (Option.some.injEq _ _).mp hlkM
                have hg : fid = g := Value.Function.inj this
                subst hg
                exact Or.inr (List.mem_cons_self _ _)
              · rw [hveq, m26 _ hj] at hlkM
                simp at hlkM
          · exact Or.inr (List.mem_cons_of_mem _ hgrest)

theorem create_apply_function_inventory (ssa : Ssa) (signature : Signature)
    (f0 : FunctionId) (frest : List FunctionId) :
    ∃ F : Function,
      create_apply_function ssa signature (f0 :: frest) =
        Except.ok
          ({ functions := ssa.functions ++ [(ssa.nextFunctionId, F)],
             nextFunctionId := ssa.nextFunctionId + 1 },
           ssa.nextFunctionId) ∧
      ValueKeysBelow F ∧
      (∀ v g, lookupA F.dfg.values v = some (Value.Function g) →
        g ∈ f0 :: frest) := by
  have hB1 : ((FunctionBuilder.new "apply" ssa.nextFunctionId
      RuntimeType.Acir).add_parameter Ty.field) =
      ({ current_function :=
          { name := "apply", id := ssa.nextFunctionId,
            runtime := RuntimeType.Acir, entryBlock := 0,
            dfg := { values := [(0, Value.Param 0 0 Ty.field)],
                     instructions := [], results := [],
                     blocks := [(0, { parameters := [0], instructions := [],
                                      terminator := none }),
                                (0, { parameters := [], instructions := [],
                                      terminator := none })],
                     nextValue := 1, nextInst := 0, nextBlock := 1 } },
         current_block := 0 }, 0) := rfl
  set B1 : FunctionBuilder :=
    { current_function :=
        { name := "apply", id := ssa.nextFunctionId,
          runtime := RuntimeType.Acir, entryBlock := 0,
          dfg := { values := [(0, Value.Param 0 0 Ty.field)],
                   instructions := [], results := [],
                   blocks := [(0, { parameters := [0], instructions := [],
                                    terminator := none }),
                              (0, { parameters := [], instructions := [],
                                    terminator := none })],
                   nextValue := 1, nextInst := 0, nextBlock := 1 } },
      current_block := 0 } with hB1def
  have hfold := entryParams_eq signature.params B1 [] 0 rfl
  have hlookB1 : lookupA B1.current_function.dfg.blocks 0 =
      some { parameters := [0], instructions := [], terminator := none } :=
    rfl
  obtain ⟨a1, a2, a3, a4, a5, a6, a7, a8, a9, a10, a11, a12, a13, a14, a15,
    a16, a17⟩ := addParams_spec 0 signature.params B1 []
      { parameters := [0], instructions := [], terminator := none } hlookB1
  have hunf0 : create_apply_function ssa signature (f0 :: frest) =
      Except.ok
        (Ssa.mk (ssa.functions ++ [(ssa.nextFunctionId,
            (applyLoop signature.returns 0
              (signature.params.foldl (fun acc t =>
                let (b, p) := acc.1.add_parameter t
                (b, acc.2 ++ [p])) (B1, [])).2 (f0 :: frest)
              (signature.params.foldl (fun acc t =>
                let (b, p) := acc.1.add_parameter t
                (b, acc.2 ++ [p])) (B1, [])).1
              none).current_function)])
          (ssa.nextFunctionId + 1),
         ssa.nextFunctionId) := rfl
  rw [hfold] at hunf0
  have hPS : (addParamsFold 0 signature.params (B1, [])).2 =
      List.range' 1 signature.params.length := by
    simpa using a1
  have hcb2 : (addParamsFold 0 signature.params (B1, [])).1.current_block =
      0 := a7
  have hnv2 : (addParamsFold 0 signature.params
      (B1, [])).1.current_function.dfg.nextValue =
      1 + signature.params.length := a2
  have hcur : lookupA (addParamsFold 0 signature.params
      (B1, [])).1.current_function.dfg.blocks
      (addParamsFold 0 signature.params (B1, [])).1.current_block =
      some { parameters := 0 :: (List.range' 1 signature.params.length),
             instructions := [], terminator := none } := by
    rw [hcb2]
    have h := a12
    simpa using h
  have hBWF : BWF (addParamsFold 0 signature.params (B1, [])).1 := by
    refine ⟨?_, ?_, ?_, ?_, ?_⟩
    · rw [hcb2, a6]
      exact Nat.lt_succ_self 0
    · intro p hp
      rw [a6]
      refine a17 ?_ p hp
      intro q hq
      rcases List.mem_cons.mp hq with hq2 | hq2
      · rw [hq2]
        exact Nat.lt_succ_self 0
      rcases List.mem_cons.mp hq2 with hq3 | hq3
      · rw [hq3]
        exact Nat.lt_succ_self 0
      · simp at hq3
    · intro p hp
      rw [hnv2]
      refine a16 ?_ p hp
      intro q hq
      rcases List.mem_cons.mp hq with hq2 | hq2
      · rw [hq2]
        exact Nat.lt_succ_self 0
      · simp at hq2
    · intro p hp
      rw [a3] at hp
      simp at hp
    · intro p hp
      rw [a4] at hp
      simp at hp
  have hv0 : signature.params.length + 1 ≤
      (addParamsFold 0 signature.params
        (B1, [])).1.current_function.dfg.nextValue := by
    rw [hnv2]
    exact Nat.le_of_eq (Nat.add_comm signature.params.length 1)
  obtain ⟨segs, hseg, hlp, hfwf, blkc, hblkc, hpsc⟩ :=
    applyLoop_spec signature.returns 0
      (List.range' 1 signature.params.length) (f0 :: frest)
      (List.cons_ne_nil f0 frest)
      (addParamsFold 0 signature.params (B1, [])).1 none
      (signature.params.length + 1)
      (0 :: (List.range' 1 signature.params.length)) hcur hBWF hv0
  rw [hPS] at hunf0
  refine ⟨_, hunf0, hfwf.2.1, ?_⟩
  intro v g hlk
  have hinv := applyLoop_function_values signature.returns 0
    (List.range' 1 signature.params.length) (f0 :: frest)
    (addParamsFold 0 signature.params (B1, [])).1 none
    (0 :: (List.range' 1 signature.params.length)) hcur hBWF v g ?hlk2
  case hlk2 =>
    exact hlk
  rcases hinv with hB2 | hmem
  · exfalso
    rcases Nat.lt_or_ge v 1 with h1 | h1
    · have hv0e : v = 0 := Nat.lt_one_iff.mp h1
      subst hv0e
      rw [a14 0 (Nat.lt_succ_self 0)] at hB2
      rw [hB1def] at hB2
      simp [lookupA_cons] at hB2
    · rcases Nat.lt_or_ge v (1 + signature.params.length) with h2 | h2
      · have hj : v - 1 < signature.params.length := by
          have h3 := Nat.sub_lt_sub_right h1 h2
          simpa using h3
        have hveq : v = 1 + (v - 1) := (Nat.add_sub_cancel' h1).symm
        rw [hveq] at hB2
        have h4 := a15 (v - 1) hj
        rw [h4] at hB2
        simp at hB2
      · have hge : (addParamsFold 0 signature.params
            (B1, [])).1.current_function.dfg.nextValue ≤ v := by
          rw [hnv2]
          exact h2
        rw [lookupA_none_of_ge hBWF.2.2.1 hge] at hB2
        simp at hB2
  · exact hmem

theorem targetSigs_success (s : Ssa) :
    ∀ (l : List FunctionId) (ts : List Signature),
      l.mapM (targetSignatureOf s) = Except.ok ts →
      ∀ fid ∈ l, lookupA s.functions fid ≠ none := by
  intro l
  induction l with
  | nil =>
      intro ts _ fid hf
      simp at hf
  | cons x rest ih =>
      intro ts h fid hf
      rw [List.mapM_cons] at h
      cases hx : targetSignatureOf s x with
      | error e =>
          rw [hx] at h
          simp [Bind.bind, Except.bind] at h
      | ok sig =>
          rw [hx] at h
          simp only [Bind.bind, Except.bind] at h
          cases hrest : rest.mapM (targetSignatureOf s) with
          | error e =>
              rw [hrest] at h
              simp [Except.bind] at h
          | ok ts2 =>
              rcases List.mem_cons.mp hf with rfl | hf
              · unfold targetSignatureOf at hx
                cases hlk : lookupA s.functions fid with
                | none =>
                    rw [hlk] at hx
                    simp at hx
                | some f => simp [hlk]
              · exact ih ts2 hrest fid hf

theorem applyEntryStep_table
    (acc : Ssa × List (CallSignature × ApplyFunction))
    (p : CallSignature × List FunctionId)
    (r : Ssa × List (CallSignature × ApplyFunction))
    (h : applyEntryStep acc p = Except.ok r) :
    (∀ k, lookupA acc.1.functions k ≠ none →
      lookupA r.1.functions k ≠ none) ∧
    (∀ q ∈ r.1.functions, q ∈ acc.1.functions ∨
      (ValueKeysBelow q.2 ∧ ∀ vid g, lookupA q.2.dfg.values vid =
        some (Value.Function g) → lookupA r.1.functions g ≠ none)) ∧
    (∀ q ∈ r.2, q ∈ acc.2 ∨ lookupA r.1.functions q.2.id ≠ none) := by
  obtain ⟨ssa0, am0⟩ := acc
  obtain ⟨sig, variants⟩ := p
  unfold applyEntryStep at h
  dsimp only at h
  cases variants with
  | nil => simp at h
  | cons v0 vr =>
      simp only [Bind.bind, Except.bind] at h
      cases hts : (v0 :: vr).mapM (targetSignatureOf ssa0) with
      | error e =>
          rw [hts] at h
          simp at h
      | ok tsigs =>
          rw [hts] at h
          dsimp only at h
          have htab := targetSigs_success ssa0 (v0 :: vr) tsigs hts
          cases hcs : common_signature tyCastTo tsigs with
          | error e =>
              rw [hcs] at h
              simp at h
          | ok fsig =>
              rw [hcs] at h
              dsimp only at h
              cases vr with
              | nil =>
                  have hd : decide (1 < ([v0] :
                      List FunctionId).length) = false := rfl
                  rw [hd] at h
                  simp only [Bool.false_eq_true, if_false,
                    Except.ok.injEq] at h
                  subst h
                  refine ⟨fun k hk => hk, fun q hq => Or.inl hq, ?_⟩
                  intro q hq
                  rcases List.mem_cons.mp hq with rfl | hq
                  · exact Or.inr (htab v0 (List.mem_cons_self _ _))
                  · exact Or.inl hq
              | cons v1 vr2 =>
                  have hd : decide (1 < (v0 :: v1 :: vr2 :
                      List FunctionId).length) = true := by
                    simp
                  rw [hd] at h
                  simp only [if_true] at h
                  obtain ⟨F, hok, hkbF, hinvF⟩ :=
                    create_apply_function_inventory ssa0 fsig v0
                      (v1 :: vr2)
                  rw [hok] at h
                  simp only [Except.ok.injEq] at h
                  subst h
                  have hmono : ∀ k, lookupA ssa0.functions k ≠ none →
                      lookupA (ssa0.functions ++
                        [(ssa0.nextFunctionId, F)]) k ≠ none := by
                    intro k hk
                    rw [lookupA_append]
                    cases hlk : lookupA ssa0.functions k with
                    | none => exact absurd hlk hk
                    | some f => simp
                  have hnew : lookupA (ssa0.functions ++
                      [(ssa0.nextFunctionId, F)])
                      ssa0.nextFunctionId ≠ none := by
                    rw [lookupA_append]
                    cases hlk : lookupA ssa0.functions
                        ssa0.nextFunctionId with
                    | none => simp [lookupA_cons]
                    | some f => simp
                  refine ⟨hmono, ?_, ?_⟩
                  · intro q hq
                    rcases List.mem_append.mp hq with hq | hq
                    · exact Or.inl hq
                    · have hqe : q = (ssa0.nextFunctionId, F) :=
                        List.mem_singleton.mp hq
                      subst hqe
                      refine Or.inr ⟨hkbF, ?_⟩
                      intro vid g hg
                      exact hmono g (htab g (hinvF vid g hg))
                  · intro q hq
                    rcases List.mem_cons.mp hq with rfl | hq
                    · exact Or.inr hnew
                    · exact Or.inl hq

theorem applyFold_table :
    ∀ (vm : List (CallSignature × List FunctionId))
      (acc r : Ssa × List (CallSignature × ApplyFunction)),
      vm.foldlM applyEntryStep acc = Except.ok r →
      (∀ k, lookupA acc.1.functions k ≠ none →
        lookupA r.1.functions k ≠ none) ∧
      (∀ q ∈ r.1.functions, q ∈ acc.1.functions ∨
        (ValueKeysBelow q.2 ∧ ∀ vid g, lookupA q.2.dfg.values vid =
          some (Value.Function g) → lookupA r.1.functions g ≠ none)) ∧
      (∀ q ∈ r.2, q ∈ acc.2 ∨ lookupA r.1.functions q.2.id ≠ none) := by
  intro vm
  induction vm with
  | nil =>
      intro acc r h
      simp only [List.foldlM, pure, Except.pure, Except.ok.injEq] at h
      subst h
      exact ⟨fun k hk => hk, fun q hq => Or.inl hq, fun q hq => Or.inl hq⟩
  | cons p rest ih =>
      intro acc r h
      rw [List.foldlM] at h
      cases hx : applyEntryStep acc p with
      | error e =>
          rw [hx] at h
          simp [Bind.bind, Except.bind] at h
      | ok acc1 =>
          rw [hx] at h
          simp only [Bind.bind, Except.bind] at h
          obtain ⟨s1, s2, s3⟩ := applyEntryStep_table acc p acc1 hx
          obtain ⟨i1, i2, i3⟩ := ih acc1 r h
          refine ⟨fun k hk => i1 k (s1 k hk), ?_, ?_⟩
          · intro q hq
            rcases i2 q hq with hq1 | hq1
            · rcases s2 q hq1 with hq2 | ⟨hkb, hg⟩
              · exact Or.inl hq2
              · exact Or.inr ⟨hkb, fun vid g hgl => i1 g (hg vid g hgl)⟩
            · exact Or.inr hq1
          · intro q hq
            rcases i3 q hq with hq1 | hq1
            · rcases s3 q hq1 with hq2 | hq2
              · exact Or.inl hq2
              · exact Or.inr (i1 _ hq2)
            · exact Or.inr hq1

theorem find_variants_empty (ssa1 : Ssa)
    (hdd : dynamicDispatches ssa1 = [])
    (hfv : ∀ fid ∈ functionsAsValues ssa1,
      ∃ f, lookupA ssa1.functions fid = some f) :
    find_variants ssa1 = Except.ok [] := by
  unfold find_variants
  obtain ⟨m, hm⟩ :=
    groupFold_success_exists ssa1 (functionsAsValues ssa1) [] hfv
  rw [hm]
  simp only [Bind.bind, Except.bind]
  rw [hdd]
  rfl

theorem defunPair_phase2 (ctx1 : DefunctionalizationContext)
    (T : List (FunctionId × Function)) (p q : FunctionId × Function)
    (hwf : ValueKeysBelow p.2)
    (hCTX : ∀ sig af, lookupA ctx1.apply_functions sig = some af →
      lookupA T af.id ≠ none)
    (h : defunPair ctx1 p = Except.ok q) :
    q.1 = p.1 ∧
    (∀ ctx2, defunPair ctx2 q = Except.ok q) ∧
    find_dynamic_dispatches q.2 = [] ∧
    (∀ fid ∈ find_functions_as_values q.2,
      fid ∈ find_functions_as_values p.2 ∨ lookupA T fid ≠ none) := by
  unfold defunPair at h
  cases hs : defunctionalizeFunction ctx1 p.2 with
  | error e =>
      rw [hs] at h
      simp [Bind.bind, Except.bind] at h
  | ok s =>
      rw [hs] at h
      simp only [Bind.bind, Except.bind, pure, Except.pure,
        Except.ok.injEq] at h
      subst h
      have hs2 : defunctionalizeFunction ctx1 p.2 =
          Except.ok (s.1, s.2) := hs
      obtain ⟨hblocks, hentry, hkb2, hclean, hctv, htgt, hparam, hinstr2,
        horigin, himp, hlowv⟩ :=
        phase1_summary ctx1 T p.2 s.1 s.2 hwf hCTX hs2
      have hreach : reachableBlocks s.1 = reachableBlocks p.2 :=
        reachableBlocks_congr s.1 p.2 hblocks hentry
      have hclean2 : ∀ bid ∈ reachableBlocks s.1, ∀ blk,
          lookupA s.1.dfg.blocks bid = some blk →
          ∀ iid ∈ blk.instructions, ∀ t as,
            lookupA s.1.dfg.instructions iid =
              some (Instruction.Call t as) →
            isDynamicTarget s.1 t = false := by
        intro bid hbid blk hblk iid hiid t as hc
        rw [hreach] at hbid
        rw [hblocks] at hblk
        exact hclean bid hbid blk hblk iid hiid t as hc
      have hfun2 : ∀ vid fid, lookupA s.1.dfg.values vid =
          some (Value.Function fid) →
          ∃ args bid blk iid, bid ∈ reachableBlocks s.1 ∧
            lookupA s.1.dfg.blocks bid = some blk ∧
            iid ∈ blk.instructions ∧
            lookupA s.1.dfg.instructions iid =
              some (Instruction.Call vid args) := by
        intro vid fid hv
        obtain ⟨args, bid, blk, iid, hb, hk, hi, hc⟩ :=
          htgt vid (hctv vid fid hv)
        refine ⟨args, bid, blk, iid, ?_, ?_, hi, hc⟩
        · rw [hreach]
          exact hb
        · rw [hblocks]
          exact hk
      refine ⟨rfl, ?_, ?_, ?_⟩
      · intro ctx2
        obtain ⟨ctv2, hok2⟩ :=
          defun2_noop ctx2 s.1 hclean2 hparam hinstr2 hfun2
        unfold defunPair
        rw [hok2]
        rfl
      · exact find_dd_empty s.1 hclean2
      · exact fav2_table ctx1 T p.2 s.1 s.2 hwf hCTX hs2

theorem find_variants_group_success (ssa : Ssa)
    (variants : List (CallSignature × List FunctionId))
    (h : find_variants ssa = Except.ok variants) :
    ∀ fid ∈ functionsAsValues ssa,
      ∃ f, lookupA ssa.functions fid = some f := by
  unfold find_variants at h
  cases hg : (functionsAsValues ssa).foldlM (groupStep ssa)
      ([] : List (Signature × List FunctionId)) with
  | error e =>
      rw [hg] at h
      simp [Bind.bind, Except.bind] at h
  | ok m => exact groupFold_success_forall ssa _ [] m hg

/-- C9: idempotence of the pass.  For every program whose value arenas
are wellformed (all value keys below the fresh counter, as produced by
the sequential id allocation of the real arena), a successful run of
`defunctionalize` is a fixed point: running the pass again succeeds and
returns the same program unchanged — the second run rewrites no calls,
synthesizes no apply functions, and retypes no values. -/
theorem C9_idempotent (ssa ssa1 : Ssa)
    (hwf : ∀ p ∈ ssa.functions, ValueKeysBelow p.2)
    (h1 : ssa.defunctionalize = Except.ok ssa1) :
    ssa1.defunctionalize = Except.ok ssa1 := by
  unfold Ssa.defunctionalize at h1
  cases hv : find_variants ssa with
  | error e =>
      rw [hv] at h1
      simp [Bind.bind, Except.bind] at h1
  | ok variants =>
  rw [hv] at h1
  simp only [Bind.bind, Except.bind] at h1
  cases hca : create_apply_functions ssa variants with
  | error e =>
      rw [hca] at h1
      simp [Except.bind] at h1
  | ok pr =>
  rw [hca] at h1
  simp only [Except.bind] at h1
  obtain ⟨ssaA, am⟩ := pr
  simp only at h1
  cases hmm : ssaA.functions.mapM (defunPair
      { fn_to_runtime := ssaA.functions.map (fun p => (p.1, p.2.runtime)),
        apply_functions := am }) with
  | error e =>
      rw [hmm] at h1
      simp [Except.bind] at h1
  | ok fns1 =>
  rw [hmm] at h1
  simp only [Except.bind, pure, Except.pure, Except.ok.injEq] at h1
  subst h1
  -- facts about the apply-creation phase
  have hca2 : variants.foldlM applyEntryStep
      (ssa, ([] : List (CallSignature × ApplyFunction))) =
      Except.ok (ssaA, am) := hca
  obtain ⟨tmono, tmem, tam⟩ :=
    applyFold_table variants (ssa, []) (ssaA, am) hca2
  have hCTX : ∀ sig af, lookupA am sig = some af →
      lookupA ssaA.functions af.id ≠ none := by
    intro sig af haf
    rcases tam (sig, af) (lookupA_mem haf) with hin | hne
    · simp at hin
    · exact hne
  have hwfA : ∀ p ∈ ssaA.functions, ValueKeysBelow p.2 := by
    intro p hp
    rcases tmem p hp with hin | ⟨hkb, _⟩
    · exact hwf p hin
    · exact hkb
  obtain ⟨hkeys, hmem1⟩ := mapM_defunPair_entries
    { fn_to_runtime := ssaA.functions.map (fun p => (p.1, p.2.runtime)),
      apply_functions := am } ssaA.functions fns1 hmm
  have hrun1 := find_variants_group_success ssa variants hv
  -- per-function second-run facts
  have hQ : ∀ q ∈ fns1,
      (∀ ctx2, defunPair ctx2 q = Except.ok q) ∧
      find_dynamic_dispatches q.2 = [] ∧
      (∃ f2, lookupA ssaA.functions q.1 = some f2) ∧
      (∀ fid ∈ find_functions_as_values q.2,
        lookupA ssaA.functions fid ≠ none) := by
    intro q hq
    obtain ⟨p, hp, hk, hd⟩ := hmem1 q hq
    obtain ⟨hk2, hnoop, hdd, hfav⟩ := defunPair_phase2
      { fn_to_runtime := ssaA.functions.map (fun r => (r.1, r.2.runtime)),
        apply_functions := am } ssaA.functions p q (hwfA p hp) hCTX hd
    refine ⟨hnoop, hdd, ?_, ?_⟩
    · rw [hk2]
      cases hlk : lookupA ssaA.functions p.1 with
      | none =>
          have := lookupA_isSome_of_mem hp
          rw [hlk] at this
          simp at this
      | some f2 => exact ⟨f2, rfl⟩
    · intro fid hfid
      rcases hfav fid hfid with hfavp | htab
      · rcases tmem p hp with hporig | ⟨_, hpg⟩
        · have hfid1 : fid ∈ functionsAsValues ssa :=
            functionsAsValues_hit ssa p fid hporig hfavp
          obtain ⟨f, hf⟩ := hrun1 fid hfid1
          exact tmono fid (by rw [hf]; simp)
        · obtain ⟨bid, hbid, blk, hblk, iid, hiid, hsrc⟩ :=
            fav_src p.2 fid hfavp
          rcases hsrc with ⟨t, args, vid, hinst, hvm, hvv⟩ |
            ⟨a, w, hinst, hvv⟩
          · exact hpg vid fid hvv
          · exact hpg w fid hvv
      · exact htab
  -- the second run's discovery finds nothing
  have hdd2 : dynamicDispatches
      { ssaA with functions := fns1 } = [] := by
    refine dynamicDispatches_empty _ ?_
    intro p hp
    exact (hQ p hp).2.1
  have hfv2 : ∀ fid ∈ functionsAsValues { ssaA with functions := fns1 },
      ∃ f, lookupA ({ ssaA with functions := fns1 } : Ssa).functions fid =
        some f := by
    intro fid hf
    obtain ⟨q, hq, hfav⟩ :=
      functionsAsValues_src { ssaA with functions := fns1 } fid hf
    have hne := (hQ q hq).2.2.2 fid hfav
    cases hlk : lookupA ssaA.functions fid with
    | none => exact absurd hlk hne
    | some f =>
        have := (hkeys fid).mpr ⟨f, hlk⟩
        exact this
  have hfive : find_variants { ssaA with functions := fns1 } =
      Except.ok [] :=
    find_variants_empty _ hdd2 hfv2
  -- assemble the second run
  unfold Ssa.defunctionalize
  rw [hfive]
  simp only [Bind.bind, Except.bind]
  have hcaf2 : create_apply_functions { ssaA with functions := fns1 }
      ([] : List (CallSignature × List FunctionId)) =
      Except.ok ({ ssaA with functions := fns1 }, []) := rfl
  rw [hcaf2]
  simp only [Except.bind]
  have hmap2 : fns1.mapM (defunPair
      { fn_to_runtime := fns1.map (fun p => (p.1, p.2.runtime)),
        apply_functions := [] }) = Except.ok fns1 :=
    mapM_id_of_forall _ fns1 (fun q hq => (hQ q hq).1 _)
  rw [hmap2]

/-- Witness for C9: the demonstration program's defunctionalized form is
a fixed point of the pass. -/
theorem C9_idempotent_witness :
    demoDefun.defunctionalize = Except.ok demoDefun :=
  C9_idempotent demoSsa demoDefun (by decide) rfl
